import Mathlib

/-!
# BuildPatchInstaller: a shallow embedding of `FBuildPatchInstaller`

Source: `Engine/Source/Runtime/Online/BuildPatchServices/Private/BuildPatchInstaller.cpp`.

The installer is sequential code that talks to the file system, to the downloader, chunk cache
and file constructor, to the manifest classes and to the process-wide error record
`FBuildPatchInstallError`.  The embedding passes an explicit `World` (the installer's mutable
members, the error record, the files on disk and the trace of external calls made so far) and
takes everything the source does not define from an `Env`: the outcome of each file operation,
what the collaborators report, and which error, if any, another thread raises while an external
call is in progress.  Every external call goes through `ext`, which appends the call to the trace
and lets the environment raise an error; that is how a user cancel (`CancelInstall`, called from
another thread) or a download error reaches the places where the source re-reads the error state.

Conventions: progress values, weights and clock readings (`float` and `double`) are rationals,
and the counters of files and chunks are unbounded integers; the calculation of the average
download speed in `RunInstallation` (source lines 465 to 505) is modelled in the arithmetic of
its variables, `int64` with wrap-around and `double` with rounding to the nearest value
(`Int64.wrap`, `Double.round`).  Format arguments of log lines are dropped, the fixed text is
kept, and the statistics dump at the end of `Run` is one log line.  Not modelled: the locks
(`FScopeLock`, `ThreadLock`), which do not change what a single run computes; the error codes
of `GetLastError`, which are only logged; the text variant `FailureReasonText` of the failure
reason; the static sampling window of `UpdateDownloadProgressInfo`.

Each pass of the retry loop of `Run` appends an `AttemptRecord` to a history that is kept next to
the loop variables; the statements about single attempts are statements about these records
and about the trace.  Statements about the external calls that a piece of code makes filter
the trace with a classifier of events (`Event.isHandOver`, `Event.isRunCall`,
`Event.isPhaseMark`, `Event.isAttributeWrite`, `Event.isFileChange`, ...); `Run_runCalls` and
`Run_phaseMarks` tie the records of the attempts to the trace of the whole run, so that what a
record says of an attempt is what the trace shows of it.  Statements about
files on disk use `DiskStep`, which bounds the paths that a sequence of file operations may
write or clear; where a statement needs paths of different directories to be different files,
that is a hypothesis.  The statement that compares two runs of `RunBackupAndMove` relates the
worlds of the two runs by `SameRelocation` and the two environments by `SameOutsideBackup`.
-/

namespace BuildPatch

/-! ## Data model -/

/-- Modelled from the spec: the error categories of `EBuildPatchInstallError` (section 7 of the
spec); the enumeration is declared in a header that is not among the sources. -/
inductive EBuildPatchInstallError
  | NoError
  | DownloadError
  | FileConstructionFail
  | MoveFileToInstall
  | BuildVerifyFail
  | UserCanceled
  | PrerequisiteError
  deriving DecidableEq, Repr

/-- Modelled from the spec: the stages of `EBuildPatchProgress` listed for the progress tracker
(section 2 of the spec); the enumeration is declared in a header that is not among the sources. -/
inductive EBuildPatchProgress
  | Initializing
  | Resuming
  | Downloading
  | Installing
  | MovingToInstall
  | BuildVerification
  | PrerequisitesInstall
  | CleanUp
  deriving DecidableEq, Repr

/-- The SHA hash record `FSHAHashData`, abstracted to a number; the default constructed value
(`HashZero` in the source) is `0`. -/
abbrev FSHAHashData := Nat

/-- The fields of `FFileManifestData` that the installer reads. -/
structure FFileManifestData where
  Filename : String
  FileSize : Int
  FileHash : FSHAHashData
  bIsReadOnly : Bool
  bIsCompressed : Bool
  bIsUnixExecutable : Bool
  deriving DecidableEq, Repr

/-- The parts of `FBuildPatchAppManifest` that the installer reads. -/
structure FBuildPatchAppManifest where
  FileManifestList : List FFileManifestData
  PrereqPath : String
  PrereqArgs : String
  bIsFileDataManifest : Bool
  AppName : String
  VersionString : String
  deriving DecidableEq, Repr

/-- The lookup `GetFileManifest` / `FileManifestLookup.Find`: the entry with the given file name. -/
def FBuildPatchAppManifest.GetFileManifest (m : FBuildPatchAppManifest) (Filename : String) :
    Option FFileManifestData :=
  m.FileManifestList.find? (fun f => f.Filename == Filename)

/-- The list `GetFileList`: the file names of the manifest, in manifest order. -/
def FBuildPatchAppManifest.GetFileList (m : FBuildPatchAppManifest) : List String :=
  m.FileManifestList.map (fun f => f.Filename)

/-- One completed chunk download, as returned by `GetDownloadRecordings`: the two times are
`double` values, given as the rationals they denote, and the size is an `int64` value. -/
structure FBuildPatchDownloadRecord where
  StartTime : ℚ
  EndTime : ℚ
  DownloadSize : Int
  deriving DecidableEq

/-- What the program can observe of a file on disk. -/
structure FileState where
  size : Int
  data : Nat
  deriving DecidableEq, Repr

/-- External calls, in the order in which the installer makes them. -/
inductive Event
  | Log (text : String)
  | MakeDirectory (path : String)
  | FileExists (path : String)
  | FileSize (path : String)
  | Move (dest src : String)
  | Copy (dest src : String)
  | Delete (path : String)
  | DeleteDirectory (path : String)
  | CreateFileWriter (path : String)
  | SetReadOnly (path : String) (value : Bool)
  | SetFileCompressionFlag (path : String) (value : Bool)
  | SetExecutableFlag (path : String)
  | Sleep
  | RegisterAppInstallation
  | ResetCounters
  | RecordConstructionError (file : String)
  | RecordPrereqInstallnError
  | PurgeFileDataInventory
  | GetOutdatedFiles
  | VerifyFile (path : String)
  | VerifyAgainstDirectory (dir : String)
  | DownloaderCreate
  | ChunkCacheInit (files : List String)
  | FileConstructorCreate (files : List String)
  | FileConstructorIsComplete
  | FileConstructorWait
  | AddChunksToDownload
  | NotifyNoMoreChunksToAdd
  | DownloaderIsComplete
  | GetDownloadRecordings
  | ChunkCacheShutdown
  | DownloaderShutdown
  | CreateProc (path args : String)
  | WaitForProc
  | CancelAllHttpRequests
  deriving DecidableEq, Repr

/-- Modelled from the spec: the progress tracker `FBuildPatchProgress` (section 2: per-stage
progress and weight, and a pause flag); the class is not among the sources. -/
structure FBuildPatchProgress where
  StateProgressValues : EBuildPatchProgress → ℚ
  StateProgressWeights : EBuildPatchProgress → ℚ
  bIsPaused : Bool

/-- The statistics record `FBuildInstallStats` (the fields the installer writes). -/
structure FBuildInstallStats where
  AppName : String
  AppInstalledVersion : String
  AppPatchVersion : String
  CloudDirectory : String
  NumFilesInBuild : Int
  NumFilesOutdated : Int
  NumFilesToRemove : Int
  NumChunksRequired : Int
  ChunksQueuedForDownload : Int
  ChunksLocallyAvailable : Int
  NumChunksDownloaded : Int
  NumChunksRecycled : Int
  NumChunksCacheBooted : Int
  NumDriveCacheChunkLoads : Int
  NumRecycleFailures : Int
  NumDriveCacheLoadFailures : Int
  TotalDownloadedData : Int
  AverageDownloadSpeed : ℚ
  TheoreticalDownloadTime : ℚ
  VerifyTime : ℚ
  CleanUpTime : ℚ
  ProcessExecuteTime : ℚ
  ProcessPausedTime : ℚ
  ProcessSuccess : Bool
  FailureReason : String

/-- The mutable state the installer works on: its own members, the process-wide error record,
the files on disk and the trace of external calls. -/
structure World where
  disk : String → Option FileState
  trace : List Event
  ErrorState : EBuildPatchInstallError
  ErrorLog : String
  BuildProgress : FBuildPatchProgress
  BuildStats : FBuildInstallStats
  FilesInstalled : List String
  DataStagingDir : String
  InstallStagingDir : String
  bSuccess : Bool
  bIsRunning : Bool
  bIsInited : Bool
  DownloadSpeedValue : ℚ
  DownloadBytesLeft : Int
  InitialNumChunkDownloads : ℚ
  InitialNumChunkConstructions : ℚ
  TotalInitialDownloadSize : Int
  TimePausedAt : ℚ

/-- The counters read from `FBuildPatchChunkCache`. -/
structure ChunkCacheStats where
  StatNumFilesToConstruct : Int
  StatNumRequiredChunks : Int
  StatNumChunksToDownload : Int
  StatNumChunksToRecycle : Int
  StatTotalChunkDownloadSize : Int
  CounterChunksRecycled : Int
  CounterChunksCacheBooted : Int
  CounterDriveCacheChunkLoads : Int
  CounterRecycleFailures : Int
  CounterDriveCacheLoadFailures : Int

/-- Everything the source leaves to code outside the file: results of external calls as functions
of the world in which they are made (the world holds the trace, so a result may depend on the
whole history). -/
structure Env where
  /-- The error another thread raises while the external call just appended to the trace runs. -/
  Raise : World → Option EBuildPatchInstallError
  /-- The classification `FBuildPatchInstallError::IsNoRetryError` of an error state. -/
  IsNoRetryError : EBuildPatchInstallError → Bool
  GetErrorString : World → String
  Seconds : World → ℚ
  GetBackupDirectory : String
  NormalizeDirectoryName : String → String
  ConvertRelativePathToFull : String → String
  MoveOk : World → String → String → Bool
  CopyOk : World → String → String → Bool
  DeleteOk : World → String → Bool
  DeleteDirectoryOk : World → String → Bool
  CreateFileWriterOk : World → String → Bool
  SetReadOnlyOk : World → String → Bool → Bool
  SetFileCompressionFlagOk : World → String → Bool → Bool
  SetExecutableFlagOk : World → String → Bool
  IsSameAs : FBuildPatchAppManifest → FBuildPatchAppManifest → Bool
  GetOutdatedFiles : World → Option FBuildPatchAppManifest → FBuildPatchAppManifest → String →
    List String
  GetRemovableFiles : FBuildPatchAppManifest → FBuildPatchAppManifest → List String
  IsFileOutdated : FBuildPatchAppManifest → FBuildPatchAppManifest → String → Bool
  VerifyFile : World → String → FSHAHashData → FSHAHashData → Nat
  /-- The result of `VerifyAgainstDirectory`: success flag, corrupt files, time spent paused. -/
  VerifyAgainstDirectory : World → FBuildPatchAppManifest → String → Bool × List String × ℚ
  ProgressReset : FBuildPatchProgress → FBuildPatchProgress
  GetCloudDirectory : String
  ChunkCache : World → ChunkCacheStats
  HaveDownloadsStarted : World → Bool
  GetNumBytesLeft : World → Int
  SampledDownloadSpeed : World → ℚ
  GetDataSize : World → List String → Int
  /-- How often `FileConstructor->IsComplete()` answers false before it answers true. -/
  FileConstructorPolls : World → Nat
  /-- How often the downloader's `IsComplete()` answers false before it answers true. -/
  DownloaderPolls : World → Nat
  GetDownloadRecordings : World → List FBuildPatchDownloadRecord
  CreateProcValid : World → String → String → Bool
  GetProcReturnCode : World → Int

/-- The installation job: the constructor arguments of `FBuildPatchInstaller` and the members
derived from them once (`PreviousMoveMarker`, `bIsFileData`, `bIsChunkData`, `bIsRepairing`). -/
structure Job where
  CurrentBuildManifest : Option FBuildPatchAppManifest
  NewBuildManifest : FBuildPatchAppManifest
  InstallDirectory : String
  StagingDirectory : String

/-- The path operator `FString / FString` (engine code outside the sources; section 6 of the
spec writes the marker as `<InstallDirectory>/$movedMarker`). -/
def pathCombine (a b : String) : String := a ++ "/" ++ b

/-- The member `PreviousMoveMarker( InstallDirectory / TEXT( "$movedMarker" ) )`. -/
def Job.PreviousMoveMarker (job : Job) : String := pathCombine job.InstallDirectory "$movedMarker"

/-- The member `bIsFileData( InstallManifest->IsFileDataManifest() )`. -/
def Job.bIsFileData (job : Job) : Bool := job.NewBuildManifest.bIsFileDataManifest

/-- The member `bIsChunkData( !bIsFileData )`. -/
def Job.bIsChunkData (job : Job) : Bool := !job.bIsFileData

/-- The constructor's `bIsRepairing = CurrentManifest.IsValid() &&
CurrentManifest->IsSameAs(InstallManifest)`. -/
def Job.bIsRepairing (env : Env) (job : Job) : Bool :=
  match job.CurrentBuildManifest with
  | some cur => env.IsSameAs cur job.NewBuildManifest
  | none => false

/-! ## The error record -/

/-- Modelled from the spec: `FBuildPatchInstallError::HasFatalError`, true once an error is
recorded (section 7); the class is not among the sources. -/
def HasFatalError (w : World) : Bool := w.ErrorState != EBuildPatchInstallError.NoError

/-- Modelled from the spec: `FBuildPatchInstallError::IsInstallationCancelled`, the error state is
"user cancelled" (section 7; `IsCanceled` in the source compares the state the same way). -/
def IsInstallationCancelled (w : World) : Bool :=
  w.ErrorState == EBuildPatchInstallError.UserCanceled

/-- Modelled from the spec: `FBuildPatchInstallError::Reset`, "the error state is fully reset
between retry attempts" (section 7). -/
def ErrorReset (w : World) : World :=
  { w with ErrorState := EBuildPatchInstallError.NoError, ErrorLog := "" }

/-- Modelled from the spec: `FBuildPatchInstallError::SetFatalError`, "only one fatal error is
retained per attempt cycle (first write wins)" (section 7). -/
def SetFatalError (err : EBuildPatchInstallError) (log : String) (w : World) : World :=
  if HasFatalError w then w else { w with ErrorState := err, ErrorLog := log }

/-! ## External calls -/

/-- An external call: it is appended to the trace, and the environment may raise an error while
it runs. -/
def ext (env : Env) (e : Event) (w : World) : World :=
  let w1 := { w with trace := w.trace ++ [e] }
  match env.Raise w1 with
  | some err => SetFatalError err "" w1
  | none => w1

/-- The call `GLog->Logf` with the fixed part of its text. -/
def Logf (env : Env) (text : String) (w : World) : World := ext env (Event.Log text) w

/-- The query `FPaths::FileExists`. -/
def FileExists (env : Env) (path : String) (w : World) : Bool × World :=
  ((w.disk path).isSome, ext env (Event.FileExists path) w)

/-- The query `IFileManager::FileSize`, `-1` for a missing file. -/
def FileSize (env : Env) (path : String) (w : World) : Int × World :=
  ((match w.disk path with | some f => f.size | none => -1), ext env (Event.FileSize path) w)

/-- The call `IFileManager::Move(Dest, Src)`: when it succeeds the file is at `Dest` and no longer
at `Src`. -/
def Move (env : Env) (dest src : String) (w : World) : Bool × World :=
  let ok := env.MoveOk w dest src && (w.disk src).isSome
  let w1 := ext env (Event.Move dest src) w
  if ok then
    (true, { w1 with disk := fun p =>
      if p = dest then w.disk src else if p = src then none else w.disk p })
  else (false, w1)

/-- The call `IFileManager::Copy(Dest, Src)`: when it succeeds (`COPY_OK`) the file is at `Dest`
as well. -/
def Copy (env : Env) (dest src : String) (w : World) : Bool × World :=
  let ok := env.CopyOk w dest src && (w.disk src).isSome
  let w1 := ext env (Event.Copy dest src) w
  if ok then
    (true, { w1 with disk := fun p => if p = dest then w.disk src else w.disk p })
  else (false, w1)

/-- The call `IFileManager::Delete(path)`: when it succeeds no file is at `path`. -/
def Delete (env : Env) (path : String) (w : World) : Bool × World :=
  let ok := env.DeleteOk w path
  let w1 := ext env (Event.Delete path) w
  if ok then (true, { w1 with disk := fun p => if p = path then none else w.disk p })
  else (false, w1)

/-- The call `IFileManager::DeleteDirectory(path, false, true)`: when it succeeds no file is left
below `path`. -/
def DeleteDirectory (env : Env) (path : String) (w : World) : Bool × World :=
  let ok := env.DeleteDirectoryOk w path
  let w1 := ext env (Event.DeleteDirectory path) w
  if ok then
    (true, { w1 with disk := fun p =>
      if (path ++ "/").data.isPrefixOf p.data then none else w.disk p })
  else (false, w1)

/-- The calls `CreateFileWriter(path)`, `Close` and `delete` that leave an empty file at `path`
when the writer could be created. -/
def CreateFileWriter (env : Env) (path : String) (w : World) : Bool × World :=
  let ok := env.CreateFileWriterOk w path
  let w1 := ext env (Event.CreateFileWriter path) w
  if ok then
    (true, { w1 with disk := fun p => if p = path then some ⟨0, 0⟩ else w.disk p })
  else (false, w1)

/-- The call `IPlatformFile::SetReadOnly`. -/
def SetReadOnly (env : Env) (path : String) (value : Bool) (w : World) : Bool × World :=
  (env.SetReadOnlyOk w path value, ext env (Event.SetReadOnly path value) w)

/-- The platform function `SetFileCompressionFlag` defined at the top of the source; its result
depends on the platform and the file system. -/
def SetFileCompressionFlag (env : Env) (path : String) (value : Bool) (w : World) : Bool × World :=
  (env.SetFileCompressionFlagOk w path value, ext env (Event.SetFileCompressionFlag path value) w)

/-- The platform function `SetExecutableFlag` defined at the top of the source. -/
def SetExecutableFlag (env : Env) (path : String) (w : World) : Bool × World :=
  (env.SetExecutableFlagOk w path, ext env (Event.SetExecutableFlag path) w)

/-! ## The progress tracker -/

/-- Modelled from the spec: `FBuildPatchProgress::SetStateProgress`, which stores the progress of
one stage (section 2); the class is not among the sources. -/
def SetStateProgress (s : EBuildPatchProgress) (v : ℚ) (w : World) : World :=
  { w with BuildProgress :=
      { w.BuildProgress with
        StateProgressValues := fun t => if t = s then v else w.BuildProgress.StateProgressValues t } }

/-- Modelled from the spec: `FBuildPatchProgress::SetStateWeight`, which stores the weight of one
stage (section 2); the class is not among the sources. -/
def SetStateWeight (s : EBuildPatchProgress) (v : ℚ) (w : World) : World :=
  { w with BuildProgress :=
      { w.BuildProgress with
        StateProgressWeights := fun t =>
          if t = s then v else w.BuildProgress.StateProgressWeights t } }

/-- Modelled from the spec: `FBuildPatchProgress::GetStateWeight` (section 2). -/
def GetStateWeight (s : EBuildPatchProgress) (w : World) : ℚ :=
  w.BuildProgress.StateProgressWeights s

/-- The method `IsPaused`: `return BuildProgress.GetPauseState();`. -/
def IsPaused (w : World) : Bool := w.BuildProgress.bIsPaused

/-- Modelled from the spec: `FBuildPatchProgress::TogglePauseState`, which flips the pause flag
and returns the new value (section 2); the class is not among the sources. -/
def TogglePauseState (w : World) : Bool × World :=
  (!w.BuildProgress.bIsPaused,
    { w with BuildProgress := { w.BuildProgress with bIsPaused := !w.BuildProgress.bIsPaused } })

/-! ## BackupFileIfNecessary -/

/-- The pointer `CurrentBuildManifest.IsValid() ? CurrentBuildManifest->GetFileManifest(Filename)
: nullptr` (source line 767). -/
def Job.OldFileManifest (job : Job) (Filename : String) : Option FFileManifestData :=
  match job.CurrentBuildManifest with
  | some cur => cur.GetFileManifest Filename
  | none => none

/-- The size `Manifest ? Manifest->GetFileSize() : INDEX_NONE` (source lines 770 and 771), with
`INDEX_NONE = -1`. -/
def ManifestFileSize (m : Option FFileManifestData) : Int :=
  match m with
  | some f => f.FileSize
  | none => -1

/-- The hash `Manifest ? Manifest->FileHash : HashZero` (source lines 772 to 774). -/
def ManifestFileHash (m : Option FFileManifestData) : FSHAHashData :=
  match m with
  | some f => f.FileHash
  | none => 0

/-- The last part of `BackupFileIfNecessary` (source lines 757 to 787), reached when backups are
enabled, the installed file exists, no backup exists and the file is not in `FilesInstalled`. -/
def BackupFileIfNecessary.backupIfEdited (env : Env) (job : Job) (Filename : String)
    (bDiscoveredByVerification : Bool) (w : World) : Bool × World :=
  let InstalledFilename := pathCombine job.InstallDirectory Filename
  let BackupFilename := pathCombine env.GetBackupDirectory Filename
  -- If discovered by verification, but the patching system did not touch the file, we know it
  -- must be backed up (`&&` short-circuits: the manifest is consulted last)
  let bUntouched :=
    bDiscoveredByVerification &&
      (match job.CurrentBuildManifest with
        | some cur => !env.IsFileOutdated cur job.NewBuildManifest Filename
        | none => false)
  if bUntouched then Move env BackupFilename InstalledFilename w else
  let bUserEditedFile := bDiscoveredByVerification
  let bCheckFileChanges := !bDiscoveredByVerification
  let r : Bool × World :=
    if bCheckFileChanges then
      let OldFileManifest := job.OldFileManifest Filename
      let NewFileManifest := job.NewBuildManifest.GetFileManifest Filename
      let s := FileSize env InstalledFilename w
      let InstalledFilesize := s.1
      let OriginalFileSize := ManifestFileSize OldFileManifest
      let NewFileSize := ManifestFileSize NewFileManifest
      let HashOld := ManifestFileHash OldFileManifest
      let HashNew := ManifestFileHash NewFileManifest
      let bFileSizeDiffers :=
        OriginalFileSize != InstalledFilesize && NewFileSize != InstalledFilesize
      -- `||` short-circuits: VerifyFile runs only when the size matches one of the two
      if bFileSizeDiffers then (true, s.2)
      else
        (env.VerifyFile s.2 InstalledFilename HashOld HashNew == 0,
          ext env (Event.VerifyFile InstalledFilename) s.2)
    else (bUserEditedFile, w)
  -- Finally, use the above logic to determine if we must do the backup
  let bNeedBackup := r.1
  if bNeedBackup then
    Move env BackupFilename InstalledFilename (Logf env "BuildPatchServices: Backing up" r.2)
  else (true, r.2)

/-- The method `FBuildPatchInstaller::BackupFileIfNecessary` (source lines 728 to 787). -/
def BackupFileIfNecessary (env : Env) (job : Job) (Filename : String)
    (bDiscoveredByVerification : Bool) (w : World) : Bool × World :=
  let BackupDirectory := env.GetBackupDirectory
  let InstalledFilename := pathCombine job.InstallDirectory Filename
  let BackupFilename := pathCombine BackupDirectory Filename
  let bBackupOriginals := !BackupDirectory.isEmpty
  -- Skip if not doing backups
  if !bBackupOriginals then (true, w) else
  -- Skip if no file to backup
  let i := FileExists env InstalledFilename w
  let bInstalledFileExists := i.1
  if !bInstalledFileExists then (true, i.2) else
  -- Skip if already backed up
  let b := FileExists env BackupFilename i.2
  let bAlreadyBackedUp := b.1
  if bAlreadyBackedUp then (true, b.2) else
  -- Skip if the target file was already copied to the installation
  let bAlreadyInstalled := b.2.FilesInstalled.contains Filename
  if bAlreadyInstalled then (true, b.2) else
  BackupFileIfNecessary.backupIfEdited env job Filename bDiscoveredByVerification b.2

/-! ## File attributes -/

/-- The method `FBuildPatchInstaller::SetupFileAttributes` (source lines 1098 to 1112). -/
def SetupFileAttributes (env : Env) (FilePath : String) (FileManifest : FFileManifestData)
    (w : World) : World :=
  -- File must not be readonly to be able to set attributes
  let w := (SetReadOnly env FilePath false w).2
  -- Set correct attributes
  let w := (SetFileCompressionFlag env FilePath FileManifest.bIsCompressed w).2
  let r := SetReadOnly env FilePath FileManifest.bIsReadOnly w
  let w := if !r.1 then Logf env "BuildPatchServices: WARNING: Could not set readonly flag" r.2
    else r.2
  if FileManifest.bIsUnixExecutable then
    let r := SetExecutableFlag env FilePath w
    if !r.1 then Logf env "BuildPatchServices: WARNING: Could not set executable flag" r.2
    else r.2
  else w

/-- The first loop of `RunFileAttributes` (source lines 638 to 652), over the file list of the
new manifest. -/
def RunFileAttributes.applyLoop (env : Env) (job : Job) (bForce : Bool) :
    List FFileManifestData → World → World
  | [], w => w
  | FileManifest :: rest, w =>
    -- Break if quitting
    if HasFatalError w then w
    else
      -- Apply
      let bHasAttrib :=
        FileManifest.bIsReadOnly || FileManifest.bIsCompressed || FileManifest.bIsUnixExecutable
      let w :=
        if bHasAttrib || bForce then
          SetupFileAttributes env (pathCombine job.InstallDirectory FileManifest.Filename)
            FileManifest w
        else w
      RunFileAttributes.applyLoop env job bForce rest w

/-- The second loop of `RunFileAttributes` (source lines 657 to 675), over the file list of the
current manifest. -/
def RunFileAttributes.removedLoop (env : Env) (job : Job) :
    List FFileManifestData → World → World
  | [], w => w
  | OldFileManifest :: rest, w =>
    -- Break if quitting
    if HasFatalError w then w
    else
      let w :=
        match job.NewBuildManifest.GetFileManifest OldFileManifest.Filename with
        | some NewFileManifest =>
          let bAttribChanged :=
            (OldFileManifest.bIsReadOnly && !NewFileManifest.bIsReadOnly) ||
              (OldFileManifest.bIsCompressed && !NewFileManifest.bIsCompressed)
          if bAttribChanged then
            SetupFileAttributes env (pathCombine job.InstallDirectory OldFileManifest.Filename)
              NewFileManifest w
          else w
        | none => w
      RunFileAttributes.removedLoop env job rest w

/-- The method `FBuildPatchInstaller::RunFileAttributes` (source lines 635 to 680). -/
def RunFileAttributes (env : Env) (job : Job) (bForce : Bool) (w : World) : Bool × World :=
  -- We need to set attributes for all files in the new build that require it
  let w := RunFileAttributes.applyLoop env job bForce job.NewBuildManifest.FileManifestList w
  -- We also need to check if any attributes have been removed, unless we forced anyway
  let w :=
    match (if !bForce then job.CurrentBuildManifest else none) with
    | some cur => RunFileAttributes.removedLoop env job cur.FileManifestList w
    | none => w
  -- We don't fail on this step currently
  (true, w)

/-! ## Verification -/

/-- The loop of `RunVerification` over the corrupt files (source lines 715 to 720). -/
def RunVerification.cleanLoop (env : Env) (job : Job) : List String → World → World
  | [], w => w
  | CorruptFile :: rest, w =>
    let w := (BackupFileIfNecessary env job CorruptFile true w).2
    let w := (Delete env (pathCombine job.InstallDirectory CorruptFile) w).2
    let w := (Delete env (pathCombine w.InstallStagingDir CorruptFile) w).2
    RunVerification.cleanLoop env job rest w

/-- The first part of `RunVerification` (source lines 688 to 710): the call of
`VerifyAgainstDirectory`, the error it may set and the statistics.  The progress and pause
delegates handed to `VerifyAgainstDirectory` are not modelled (the progress they report is
overwritten at line 710). -/
def RunVerification.verify (env : Env) (job : Job) (CorruptFiles : List String) (w : World) :
    Bool × List String × World :=
  let w := SetStateProgress EBuildPatchProgress.BuildVerification 0 w
  -- Verify the installation
  let w := Logf env "BuildPatchServices: Verifying install" w
  -- CorruptFiles.Empty()
  let CorruptFiles : List String := CorruptFiles.take 0
  let VerifyTime := env.Seconds w
  let r := env.VerifyAgainstDirectory w job.NewBuildManifest job.InstallDirectory
  let bVerifySuccess := r.1
  let CorruptFiles := CorruptFiles ++ r.2.1
  let VerifyPauseTime := r.2.2
  let w := ext env (Event.VerifyAgainstDirectory job.InstallDirectory) w
  let VerifyTime := env.Seconds w - VerifyTime - VerifyPauseTime
  let w :=
    if !bVerifySuccess then
      let ErrorString := "Build verification failed on "
      let ErrorString := ErrorString ++ toString CorruptFiles.length
      let ErrorString := ErrorString ++ " file(s)"
      SetFatalError EBuildPatchInstallError.BuildVerifyFail ErrorString w
    else w
  let w := { w with BuildStats := { w.BuildStats with VerifyTime := VerifyTime } }
  let w := SetStateProgress EBuildPatchProgress.BuildVerification 1 w
  (bVerifySuccess, CorruptFiles, w)

/-- The method `FBuildPatchInstaller::RunVerification` (source lines 682 to 726); the second
component of the result is the list left in the reference parameter `CorruptFiles`. -/
def RunVerification (env : Env) (job : Job) (CorruptFiles : List String) (w : World) :
    Bool × List String × World :=
  let r := RunVerification.verify env job CorruptFiles w
  -- Delete/Backup any incorrect files if failure was not cancellation
  let w :=
    if !IsInstallationCancelled r.2.2 then RunVerification.cleanLoop env job r.2.1 r.2.2
    else r.2.2
  let w := Logf env "BuildPatchServices: Verify stage complete" w
  (r.1, r.2.1, w)

/-! ## Backup and relocation -/

/-- The value of `NUM_FILE_MOVE_RETRIES` (source line 119). -/
def NUM_FILE_MOVE_RETRIES : Nat := 5

/-- One pass through the body of the loop `while (!bMoveSuccess && MoveRetries > 0)` (source
lines 595 to 611); the result is the new `bMoveSuccess`. -/
def RunBackupAndMove.retryBody (env : Env) (ConstructionFile DestFilename SrcFilename : String)
    (w : World) : Bool × World :=
  let w := ext env (Event.RecordConstructionError ConstructionFile) w
  let w := Logf env "BuildPatchServices: ERROR: Failed to move file, trying copy" w
  let r := Copy env DestFilename SrcFilename w
  if !r.1 then
    let w := Logf env "BuildPatchServices: ERROR: Failed to copy file, retying after 0.5 sec" r.2
    let w := ext env Event.Sleep w
    Move env DestFilename SrcFilename w
  else
    (true, (Delete env SrcFilename r.2).2)

/-- The loop `while (!bMoveSuccess && MoveRetries > 0)` (source lines 593 to 612), entered with
`bMoveSuccess` false and the given `MoveRetries`.  A pass decrements `MoveRetries` once before
the copy and once more when the copy failed, so a pass that leaves `bMoveSuccess` false has
decremented it twice; the counter is not read after the loop. -/
def RunBackupAndMove.retryLoop (env : Env) (ConstructionFile DestFilename SrcFilename : String) :
    Nat → World → Bool × World
  | 0, w => (false, w)
  | 1, w => RunBackupAndMove.retryBody env ConstructionFile DestFilename SrcFilename w
  | MoveRetries + 2, w =>
    let r := RunBackupAndMove.retryBody env ConstructionFile DestFilename SrcFilename w
    if r.1 then r
    else RunBackupAndMove.retryLoop env ConstructionFile DestFilename SrcFilename MoveRetries r.2

/-- The insertion `FilesInstalled.Add` into the set of installed files. -/
def FilesInstalledAdd (f : String) (w : World) : World :=
  { w with FilesInstalled := if w.FilesInstalled.contains f then w.FilesInstalled
      else w.FilesInstalled ++ [f] }

/-- The loop of `RunBackupAndMove` over the removable files (source lines 544 to 550). -/
def RunBackupAndMove.removeLoop (env : Env) (job : Job) : List String → World → World
  | [], w => w
  | OldFilename :: rest, w =>
    let w := (BackupFileIfNecessary env job OldFilename false w).2
    let w := (Delete env (pathCombine job.InstallDirectory OldFilename) w).2
    let w := Logf env "BuildPatchServices: Removed" w
    RunBackupAndMove.removeLoop env job rest w

/-- The loop of `RunBackupAndMove` over the constructed files (source lines 558 to 623), entered
with `bMoveSuccess` true; the arguments are the files not yet visited, the iterator index, the
flag `bSavedMoveMarkerFile`, and the result is the final `bMoveSuccess`. -/
def RunBackupAndMove.moveLoop (env : Env) (job : Job) (NumConstructionFilesFloat : ℚ) :
    List String → Nat → Bool → World → Bool × World
  | [], _, _, w => (true, w)
  | ConstructionFile :: rest, Index, bSavedMoveMarkerFile, w =>
    if HasFatalError w then (true, w)
    else
      let SrcFilename := pathCombine w.InstallStagingDir ConstructionFile
      let DestFilename := pathCombine job.InstallDirectory ConstructionFile
      let FileIndexFloat : ℚ := Index
      -- Skip files not constructed
      let r := FileExists env SrcFilename w
      if !r.1 then
        let w := SetStateProgress EBuildPatchProgress.MovingToInstall
          (FileIndexFloat / NumConstructionFilesFloat) r.2
        RunBackupAndMove.moveLoop env job NumConstructionFilesFloat rest (Index + 1)
          bSavedMoveMarkerFile w
      else
        -- Create the move marker file
        let w :=
          if !bSavedMoveMarkerFile then
            let w := Logf env "BuildPatchServices: Create MM" r.2
            let w := (CreateFileWriter env job.PreviousMoveMarker w).2
            -- Make sure we have some progress if we do some work
            if GetStateWeight EBuildPatchProgress.MovingToInstall w ≤ 0 then
              SetStateWeight EBuildPatchProgress.MovingToInstall (1 / 10) w
            else w
          else r.2
        -- Backup file if need be
        let w := (BackupFileIfNecessary env job ConstructionFile false w).2
        -- Move the file to the installation directory
        let m := Move env DestFilename SrcFilename w
        let m := if !m.1 then
            RunBackupAndMove.retryLoop env ConstructionFile DestFilename SrcFilename
              NUM_FILE_MOVE_RETRIES m.2
          else m
        if !m.1 then
          let w := Logf env "BuildPatchServices: ERROR: Failed to move file" m.2
          (false, SetFatalError EBuildPatchInstallError.MoveFileToInstall "" w)
        else
          let w := FilesInstalledAdd ConstructionFile m.2
          let w := SetStateProgress EBuildPatchProgress.MovingToInstall
            (FileIndexFloat / NumConstructionFilesFloat) w
          RunBackupAndMove.moveLoop env job NumConstructionFilesFloat rest (Index + 1) true w

/-- The part of `RunBackupAndMove` that is executed when no fatal error is recorded on entry
(source lines 534 to 629); the first component of the result is the final `bMoveSuccess`. -/
def RunBackupAndMove.relocate (env : Env) (job : Job) (w : World) : Bool × World :=
  -- First handle files that should be removed for patching
  let FilesToRemove := match job.CurrentBuildManifest with
    | some cur => env.GetRemovableFiles cur job.NewBuildManifest
    | none => []
  -- Add to build stats
  let w := { w with BuildStats := { w.BuildStats with NumFilesToRemove := FilesToRemove.length } }
  let w := RunBackupAndMove.removeLoop env job FilesToRemove w
  -- Now handle files that have been constructed
  let ConstructionFiles := job.NewBuildManifest.GetFileList
  let w := SetStateProgress EBuildPatchProgress.MovingToInstall 0 w
  let r := RunBackupAndMove.moveLoop env job ConstructionFiles.length ConstructionFiles 0
    false w
  let bMoveSuccess := r.1 && (HasFatalError r.2 == false)
  if bMoveSuccess then
    (true, SetStateProgress EBuildPatchProgress.MovingToInstall 1 r.2)
  else (false, r.2)

/-- The method `FBuildPatchInstaller::RunBackupAndMove` (source lines 527 to 633). -/
def RunBackupAndMove (env : Env) (job : Job) (w : World) : Bool × World :=
  let w := Logf env "BuildPatchServices: Running backup and stage relocation" w
  -- If there's no error, move all complete files
  let bMoveSuccess := HasFatalError w == false
  let r := if bMoveSuccess then RunBackupAndMove.relocate env job w else (false, w)
  (r.1, Logf env "BuildPatchServices: Relocation complete" r.2)

/-! ## Prerequisites -/

/-- The method `FBuildPatchInstaller::RunPrereqInstaller` (source lines 789 to 846). -/
def RunPrereqInstaller (env : Env) (job : Job) (w : World) : Bool × World :=
  let PrereqPath := pathCombine job.InstallDirectory job.NewBuildManifest.PrereqPath
  let PrereqPath := env.ConvertRelativePathToFull PrereqPath
  let PrereqCommandline := job.NewBuildManifest.PrereqArgs
  let w := Logf env "BuildPatchServices: Running prerequisites installer" w
  let w := SetStateProgress EBuildPatchProgress.PrerequisitesInstall 0 w
  let bValid := env.CreateProcValid w PrereqPath PrereqCommandline
  let w := ext env (Event.CreateProc PrereqPath PrereqCommandline) w
  let r : Bool × World :=
    if !bValid then
      let w := Logf env
        "BuildPatchServices: ERROR: Failed to start the prerequisites install process." w
      (false, ext env Event.RecordPrereqInstallnError w)
    else (true, w)
  let r : Bool × World :=
    if r.1 then
      let ReturnCode := env.GetProcReturnCode r.2
      let w := ext env Event.WaitForProc r.2
      if ReturnCode != 0 then
        if ReturnCode == 3010 then
          (true, Logf env
            "BuildPatchServices: Prerequisites executable returned restart required code" w)
        else
          let w := Logf env "BuildPatchServices: ERROR: Prerequisites executable failed" w
          (false, ext env Event.RecordPrereqInstallnError w)
      else (true, w)
    else r
  if r.1 then (true, SetStateProgress EBuildPatchProgress.PrerequisitesInstall 1 r.2)
  else (false, SetFatalError EBuildPatchInstallError.PrerequisiteError "" r.2)

/-! ## Installation -/

/-- The setter `SetDownloadSpeed`. -/
def SetDownloadSpeed (ByteSpeed : ℚ) (w : World) : World := { w with DownloadSpeedValue := ByteSpeed }

/-- The setter `SetDownloadBytesLeft`. -/
def SetDownloadBytesLeft (BytesLeft : Int) (w : World) : World :=
  { w with DownloadBytesLeft := BytesLeft }

/-- The setter `SetRunning`. -/
def SetRunning (bRunning : Bool) (w : World) : World := { w with bIsRunning := bRunning }

/-- The setter `SetInited`. -/
def SetInited (bInited : Bool) (w : World) : World := { w with bIsInited := bInited }

/-- The method `UpdateDownloadProgressInfo` (source lines 872 to 944).  Its static sampling
window is outside the world: a reset touches only that window, and the speed computed from it is
the environment's `SampledDownloadSpeed`. -/
def UpdateDownloadProgressInfo (env : Env) (job : Job) (bReset : Bool) (w : World) : World :=
  if bReset then w
  -- Return if not downloading yet
  else if !job.NewBuildManifest.bIsFileDataManifest && !env.HaveDownloadsStarted w then w
  else
    -- Calculate percentage complete based on number of chunks
    let DownloadNumBytesLeft := env.GetNumBytesLeft w
    let DownloadSizeFloat : ℚ := w.TotalInitialDownloadSize
    let DownloadBytesLeftFloat : ℚ := DownloadNumBytesLeft
    let DownloadProgress : ℚ :=
      1 - (if w.TotalInitialDownloadSize > 0 then DownloadBytesLeftFloat / DownloadSizeFloat else 0)
    let w := SetStateProgress EBuildPatchProgress.Downloading DownloadProgress w
    let AverageDownloadSpeed := env.SampledDownloadSpeed w
    -- Set download values
    let w := SetDownloadSpeed (if DownloadProgress < 1 then AverageDownloadSpeed else -1) w
    SetDownloadBytesLeft DownloadNumBytesLeft w

/-! ### The arithmetic of the download statistics -/

/-- The value that an `int64` variable holds after an operation whose exact result is `n`: the
result modulo `2 ^ 64`, in the range from `-2 ^ 63` to `2 ^ 63 - 1`. -/
def Int64.wrap (n : Int) : Int := (n + 2 ^ 63) % 2 ^ 64 - 2 ^ 63

/-- The integer nearest to a rational; of two integers equally near, the even one. -/
def Double.roundHalfEven (x : ℚ) : Int :=
  if Int.fract x < 1 / 2 then ⌊x⌋
  else if 1 / 2 < Int.fract x then ⌊x⌋ + 1
  else if ⌊x⌋ % 2 = 0 then ⌊x⌋ else ⌊x⌋ + 1

/-- The `double` nearest to a rational, as the rational it denotes (IEEE 754 binary64, round to
nearest, ties to even): the spacing of the values around `q` is `2 ^ (e - 52)` when
`2 ^ e ≤ |q| < 2 ^ (e + 1)`, and `2 ^ (-1074)` below `2 ^ (-1022)`.  Infinities are not
modelled: a magnitude of `2 ^ 1024` or more is rounded with the spacing of its own binade. -/
def Double.round (q : ℚ) : ℚ :=
  let p : Int := max (Int.log 2 |q| - 52) (-1074)
  (Double.roundHalfEven (q / 2 ^ p) : ℚ) * 2 ^ p

/-- The sum of two `double` values. -/
def Double.add (a b : ℚ) : ℚ := Double.round (a + b)

/-- The difference of two `double` values. -/
def Double.sub (a b : ℚ) : ℚ := Double.round (a - b)

/-- The quotient of two `double` values, for a divisor that is not zero. -/
def Double.div (a b : ℚ) : ℚ := Double.round (a / b)

/-- The conversion of an `int64` value to `double`. -/
def Double.ofInt64 (n : Int) : ℚ := Double.round n

/-- The three accumulators of the average download speed calculation: `int64
TotalDownloadedBytes`, `double TotalTimeDownloading` and `double RecoredEndTime` (source lines
465 to 467). -/
structure DownloadTotals where
  TotalDownloadedBytes : Int
  TotalTimeDownloading : ℚ
  RecoredEndTime : ℚ
  deriving DecidableEq

/-- Modelled from the spec: `AllChunkDownloads.Sort()`, "sort records by start time" (section
4.2); the comparison operator of `FBuildPatchDownloadRecord` is not among the sources. -/
def SortDownloadRecords (l : List FBuildPatchDownloadRecord) : List FBuildPatchDownloadRecord :=
  l.insertionSort (fun a b => a.StartTime ≤ b.StartTime)

/-- The body of the loop over the records after the first (source lines 479 to 495). -/
def AccumulateDownloadRecord (acc : DownloadTotals) (r : FBuildPatchDownloadRecord) :
    DownloadTotals :=
  let acc :=
    -- Do we have some time to count
    if acc.RecoredEndTime < r.EndTime then
      { acc with
        TotalTimeDownloading :=
          -- Was there a break in downloading
          if r.StartTime > acc.RecoredEndTime then
            Double.add acc.TotalTimeDownloading (Double.sub r.EndTime r.StartTime)
          -- Otherwise don't count time overlap
          else Double.add acc.TotalTimeDownloading (Double.sub r.EndTime acc.RecoredEndTime)
        RecoredEndTime := r.EndTime }
    else acc
  -- Count all bytes
  { acc with TotalDownloadedBytes := Int64.wrap (acc.TotalDownloadedBytes + r.DownloadSize) }

/-- The accumulation over records that are already sorted (source lines 465 to 497). -/
def AccumulateDownloadRecords : List FBuildPatchDownloadRecord → DownloadTotals
  | [] => ⟨0, 0, 0⟩
  | first :: rest =>
    -- Start with first record
    rest.foldl AccumulateDownloadRecord
      ⟨first.DownloadSize, Double.sub first.EndTime first.StartTime, first.EndTime⟩

/-- The calculation of the download totals in `RunInstallation` (source lines 465 to 497). -/
def CalculateDownloadTotals (AllChunkDownloads : List FBuildPatchDownloadRecord) :
    DownloadTotals :=
  AccumulateDownloadRecords (SortDownloadRecords AllChunkDownloads)

/-- The value stored in `BuildStats.AverageDownloadSpeed` (source lines 504 and 505). -/
def AverageDownloadSpeed (t : DownloadTotals) : ℚ :=
  let TotalDownloadedBytesDouble := Double.ofInt64 t.TotalDownloadedBytes
  if t.TotalTimeDownloading > 0 then Double.div TotalDownloadedBytesDouble t.TotalTimeDownloading
  else 0

/-- A wait loop `while (X.IsComplete() == false) UpdateDownloadProgressInfo(); Sleep(..);`
(source lines 442 to 446 and 454 to 458) in which `IsComplete` answers false the given number of
times. -/
def RunInstallation.waitLoop (env : Env) (job : Job) (query : Event) : Nat → World → World
  | 0, w => ext env query w
  | n + 1, w =>
    let w := ext env query w
    let w := UpdateDownloadProgressInfo env job false w
    let w := ext env Event.Sleep w
    RunInstallation.waitLoop env job query n w

/-- The part of `RunInstallation` taken when the marker file exists (source lines 338 to 350). -/
def RunInstallation.skip (env : Env) (w : World) : Bool × World :=
  let w := Logf env "BuildPatchServices: Detected previous staging completed" w
  -- Set weights for verify only
  let w := SetStateWeight EBuildPatchProgress.Downloading 0 w
  let w := SetStateWeight EBuildPatchProgress.Installing 0 w
  let w := SetStateWeight EBuildPatchProgress.MovingToInstall 0 w
  let w := SetStateWeight EBuildPatchProgress.BuildVerification 1 w
  -- Mark all installation steps complete
  let w := SetStateProgress EBuildPatchProgress.Initializing 1 w
  let w := SetStateProgress EBuildPatchProgress.Resuming 1 w
  let w := SetStateProgress EBuildPatchProgress.Downloading 1 w
  let w := SetStateProgress EBuildPatchProgress.Installing 1 w
  let w := SetStateProgress EBuildPatchProgress.MovingToInstall 1 w
  (true, w)

/-- The end of `RunInstallation` (source lines 460 to 524), from the recordings of the
downloader on: the average download speed, the final statistics, the clean-up and the result. -/
def RunInstallation.recordStats (env : Env) (job : Job)
    (AllChunkDownloads : List FBuildPatchDownloadRecord) (w : World) : Bool × World :=
  let w := SetDownloadSpeed (-1) w
  -- Calculate the average download speed from the recordings
  let totals := CalculateDownloadTotals AllChunkDownloads
  -- Set final stats
  let cache := env.ChunkCache w
  let w := { w with BuildStats := { w.BuildStats with
    TotalDownloadedData := totals.TotalDownloadedBytes
    NumChunksDownloaded := AllChunkDownloads.length
    AverageDownloadSpeed := AverageDownloadSpeed totals
    TheoreticalDownloadTime := totals.TotalTimeDownloading
    NumChunksRecycled := if job.bIsFileData then 0 else cache.CounterChunksRecycled
    NumChunksCacheBooted := if job.bIsFileData then 0 else cache.CounterChunksCacheBooted
    NumDriveCacheChunkLoads := if job.bIsFileData then 0 else cache.CounterDriveCacheChunkLoads
    NumRecycleFailures := if job.bIsFileData then 0 else cache.CounterRecycleFailures
    NumDriveCacheLoadFailures :=
      if job.bIsFileData then 0 else cache.CounterDriveCacheLoadFailures } }
  -- Perform static cleanup
  let w := if job.bIsChunkData then ext env Event.ChunkCacheShutdown w else w
  let w := ext env Event.DownloaderShutdown w
  let w := ext env Event.PurgeFileDataInventory w
  let w := Logf env "BuildPatchServices: Staged install complete" w
  (!HasFatalError w, w)

/-- The part of `RunInstallation` after the marker test (source lines 353 to 459), up to the
recordings of the downloader. -/
def RunInstallation.construct (env : Env) (job : Job) (CorruptFiles : List String) (w : World) :
    Bool × World :=
  -- Get the list of files needing construction
  let r : List String × World :=
    if CorruptFiles.length > 0 then (CorruptFiles, w)
    else
      (env.GetOutdatedFiles w job.CurrentBuildManifest job.NewBuildManifest job.InstallDirectory,
        ext env Event.GetOutdatedFiles w)
  let FilesToConstruct := r.1
  let w := Logf env "BuildPatchServices: Requiring files" r.2
  -- Create the downloader
  let w := ext env Event.DownloaderCreate w
  -- Create chunk cache
  let w := if job.bIsChunkData then ext env (Event.ChunkCacheInit FilesToConstruct) w else w
  -- Store some totals
  let NumFilesInBuild : Int := job.NewBuildManifest.FileManifestList.length
  -- Stats for build
  let cache := env.ChunkCache w
  let NumFilesToConstruct :=
    if job.bIsFileData then NumFilesInBuild else cache.StatNumFilesToConstruct
  let NumRequiredChunks := if job.bIsFileData then NumFilesInBuild else cache.StatNumRequiredChunks
  let NumChunksToDownload :=
    if job.bIsFileData then NumFilesInBuild else cache.StatNumChunksToDownload
  let NumChunksToConstruct := if job.bIsFileData then 0 else cache.StatNumChunksToRecycle
  -- Save stats
  let w := { w with BuildStats := { w.BuildStats with
    AppName := job.NewBuildManifest.AppName
    AppPatchVersion := job.NewBuildManifest.VersionString
    AppInstalledVersion := match job.CurrentBuildManifest with
      | some cur => cur.VersionString
      | none => "NONE"
    CloudDirectory := env.GetCloudDirectory
    NumFilesInBuild := NumFilesInBuild
    NumFilesOutdated := NumFilesToConstruct
    NumChunksRequired := NumRequiredChunks
    ChunksQueuedForDownload := NumChunksToDownload
    ChunksLocallyAvailable := NumChunksToConstruct } }
  -- Save initial counts as float for use with progress updates
  let w := { w with InitialNumChunkDownloads := NumChunksToDownload
                    InitialNumChunkConstructions := NumChunksToConstruct }
  -- Setup some weightings for the progress tracking
  let NumRequiredChunksFloat : ℚ := NumRequiredChunks
  let w := SetStateWeight EBuildPatchProgress.Downloading
    (if NumRequiredChunksFloat > 0 then w.InitialNumChunkDownloads / NumRequiredChunksFloat
      else 0) w
  let w := SetStateWeight EBuildPatchProgress.Installing
    (if NumRequiredChunksFloat > 0 then
      1 / 10 + (w.InitialNumChunkConstructions / NumRequiredChunksFloat) else 0) w
  let w := SetStateWeight EBuildPatchProgress.MovingToInstall
    (if NumFilesToConstruct > 0 then 5 / 100 else 0) w
  -- A verify weight of 1 / 9 will make it 10% of the total progress
  let w := SetStateWeight EBuildPatchProgress.BuildVerification ((11 / 10) / 9) w
  -- If this is a repair operation, start off with install and download complete
  let w :=
    if job.bIsRepairing env then
      let w := Logf env "BuildPatchServices: Performing a repair operation" w
      let w := SetStateProgress EBuildPatchProgress.Downloading 1 w
      let w := SetStateProgress EBuildPatchProgress.Installing 1 w
      SetStateProgress EBuildPatchProgress.MovingToInstall 1 w
    else w
  -- Start the file constructor
  let w := Logf env "BuildPatchServices: Starting file contruction worker" w
  let w := ext env (Event.FileConstructorCreate FilesToConstruct) w
  -- Initializing is now complete if we are constructing files
  let w := SetStateProgress EBuildPatchProgress.Initializing
    (if NumFilesToConstruct > 0 then 1 else 0) w
  -- If this is file data, queue the download list
  let w :=
    if job.bIsFileData then
      let size := env.GetDataSize w FilesToConstruct
      let w := ext env Event.AddChunksToDownload w
      { w with TotalInitialDownloadSize := size }
    else { w with TotalInitialDownloadSize := cache.StatTotalChunkDownloadSize }
  -- Wait for the file constructor to complete
  let w := RunInstallation.waitLoop env job Event.FileConstructorIsComplete
    (env.FileConstructorPolls w) w
  let w := ext env Event.FileConstructorWait w
  let w := Logf env "BuildPatchServices: File construction complete" w
  -- Wait for downloader to complete
  let w := ext env Event.NotifyNoMoreChunksToAdd w
  let w := RunInstallation.waitLoop env job Event.DownloaderIsComplete (env.DownloaderPolls w) w
  let AllChunkDownloads := env.GetDownloadRecordings w
  let w := ext env Event.GetDownloadRecordings w
  RunInstallation.recordStats env job AllChunkDownloads w

/-- The method `FBuildPatchInstaller::RunInstallation` (source lines 313 to 525). -/
def RunInstallation (env : Env) (job : Job) (CorruptFiles : List String) (w : World) :
    Bool × World :=
  let w := Logf env "BuildPatchServices: Starting Installation" w
  -- Save the staging directories
  let w := { w with DataStagingDir := env.NormalizeDirectoryName w.DataStagingDir }
  let w := { w with InstallStagingDir := env.NormalizeDirectoryName w.InstallStagingDir }
  -- Make sure staging directories exist
  let w := ext env (Event.MakeDirectory w.DataStagingDir) w
  let w := ext env (Event.MakeDirectory w.InstallStagingDir) w
  -- Reset any error from a previous install
  let w := ErrorReset w
  let w := ext env Event.ResetCounters w
  let w := { w with BuildProgress := env.ProgressReset w.BuildProgress }
  let w := SetStateProgress EBuildPatchProgress.Initializing (1 / 100) w
  let w := SetStateProgress EBuildPatchProgress.CleanUp 0 w
  -- Remove any inventory
  let w := ext env Event.PurgeFileDataInventory w
  -- Check if we should skip out of this process
  let r := FileExists env job.PreviousMoveMarker w
  let bPreviousStagingCompleted := r.1
  if bPreviousStagingCompleted then RunInstallation.skip env r.2
  else RunInstallation.construct env job CorruptFiles r.2

/-! ## The retry loop of `Run` -/

/-- What one pass through the retry loop of `Run` did: a history record kept next to the loop
variables, so that properties of single attempts can be stated.  `none` means "not called". -/
structure AttemptRecord where
  CorruptFilesIn : List String
  bMarkerAtStart : Bool
  bRunInstallation : Bool
  ErrorAfterInstallation : EBuildPatchInstallError
  bRunBackupAndMove : Option Bool
  bForceFileAttributes : Option Bool
  bRunVerification : Option Bool
  CorruptFilesOut : List String
  bInstallSuccess : Bool
  bProcessSuccess : Bool
  bStagingDeleted : Bool
  ErrorAtRetryDecision : EBuildPatchInstallError
  bCanRetry : Bool
  bMarkerDeleted : Bool

/-- The variables of `Run` that live across passes of the retry loop, with the history. -/
structure RunState where
  bProcessSuccess : Bool
  bCanRetry : Bool
  CorruptFiles : List String
  CleanUpTime : ℚ
  Attempts : List AttemptRecord
  world : World

/-- One pass through the body of the retry loop (source lines 216 to 255); `InstallRetries` is
the value of the counter after the decrement of line 247. -/
def Run.attempt (env : Env) (job : Job) (bInstallPrereqs : Bool) (InstallRetries : Int)
    (s : RunState) : RunState :=
  -- Run the install
  let i := RunInstallation env job s.CorruptFiles s.world
  let w := SetStateProgress EBuildPatchProgress.PrerequisitesInstall
    (if bInstallPrereqs then 0 else 1) i.2
  let w :=
    if i.1 then
      SetStateProgress EBuildPatchProgress.Installing 1
        (SetStateProgress EBuildPatchProgress.Downloading 1 w)
    else w
  -- Backup local changes then move generated files
  let m : Bool × World := if i.1 then RunBackupAndMove env job w else (false, w)
  -- Setup file attributes
  let a : Bool × World :=
    if m.1 then RunFileAttributes env job (job.bIsRepairing env) m.2 else (false, m.2)
  let bInstallSuccess := a.1
  -- Run Verification
  let CorruptFiles : List String := s.CorruptFiles.take 0
  let w := SetStateProgress EBuildPatchProgress.Initializing 1 a.2
  let v : Bool × List String × World :=
    if bInstallSuccess then RunVerification env job CorruptFiles w else (false, CorruptFiles, w)
  let bProcessSuccess := v.1
  -- Clean staging if INSTALL success
  let c : ℚ × World :=
    if bInstallSuccess then
      let w := Logf env "BuildPatchServices: Deleting staging area" v.2.2
      let CleanUpTime := env.Seconds w
      let w := (DeleteDirectory env job.StagingDirectory w).2
      (env.Seconds w - CleanUpTime, w)
    else (s.CleanUpTime, v.2.2)
  let w := SetStateProgress EBuildPatchProgress.CleanUp 1 c.2
  -- Set if we can retry
  let bCanRetry :=
    decide (InstallRetries > 0) && !IsInstallationCancelled w &&
      !env.IsNoRetryError w.ErrorState
  -- If successful or we will retry, remove the moved files marker
  let w' :=
    if bProcessSuccess || bCanRetry then
      let w := Logf env "BuildPatchServices: Reset MM" w
      (Delete env job.PreviousMoveMarker w).2
    else w
  { bProcessSuccess := bProcessSuccess
    bCanRetry := bCanRetry
    CorruptFiles := v.2.1
    CleanUpTime := c.1
    Attempts := s.Attempts ++ [
      { CorruptFilesIn := s.CorruptFiles
        bMarkerAtStart := (s.world.disk job.PreviousMoveMarker).isSome
        bRunInstallation := i.1
        ErrorAfterInstallation := i.2.ErrorState
        bRunBackupAndMove := if i.1 then some m.1 else none
        bForceFileAttributes := if m.1 then some (job.bIsRepairing env) else none
        bRunVerification := if bInstallSuccess then some v.1 else none
        CorruptFilesOut := v.2.1
        bInstallSuccess := bInstallSuccess
        bProcessSuccess := bProcessSuccess
        bStagingDeleted := bInstallSuccess
        ErrorAtRetryDecision := w.ErrorState
        bCanRetry := bCanRetry
        bMarkerDeleted := bProcessSuccess || bCanRetry }]
    world := w' }

/-- The loop `while (!bProcessSuccess && bCanRetry)` of `Run` (source lines 214 to 256), entered
with the loop test true; the first argument is the value of `InstallRetries` on entry.  The test
at the end of a pass is the test the source makes at the head of the next pass. -/
def Run.loop (env : Env) (job : Job) (bInstallPrereqs : Bool) : Nat → RunState → RunState
  | 0, s => Run.attempt env job bInstallPrereqs (-1) s
  | InstallRetries + 1, s =>
    let s := Run.attempt env job bInstallPrereqs InstallRetries s
    if !s.bProcessSuccess && s.bCanRetry then Run.loop env job bInstallPrereqs InstallRetries s
    else s

/-- The result of `Run`: its return value, the history of the retry loop, what
`RunPrereqInstaller` returned if it was called, and the final world. -/
structure RunResult where
  ReturnCode : Nat
  Attempts : List AttemptRecord
  bRunPrereqInstaller : Option Bool
  world : World

/-- The start of `Run`, before the retry loop (source lines 187 to 198). -/
def Run.prepare (env : Env) (job : Job) (w : World) : World :=
  let w := ErrorReset w
  let w := SetRunning true w
  let w := SetInited true w
  let w := SetDownloadSpeed (-1) w
  let w := UpdateDownloadProgressInfo env job true w
  -- Register the current manifest with the installation info, to make sure we pull from it
  if job.CurrentBuildManifest.isSome then ext env Event.RegisterAppInstallation w else w

/-- The constant `bInstallPrereqs` of `Run` (source line 204). -/
def Run.bInstallPrereqs (job : Job) : Bool :=
  !job.CurrentBuildManifest.isSome && !job.NewBuildManifest.PrereqPath.isEmpty

/-- The end of `Run`, after the retry loop (source lines 258 to 310). -/
def Run.finish (env : Env) (job : Job) (StartTime : ℚ) (s : RunState) : RunResult :=
  -- Run the prerequisites installer if this is our first install and the manifest has
  -- prerequisites info
  let p : Option (Bool × World) :=
    if s.bProcessSuccess && Run.bInstallPrereqs job then
      some (RunPrereqInstaller env job s.world)
    else none
  let bProcessSuccess := match p with
    | some r => s.bProcessSuccess && r.1
    | none => s.bProcessSuccess
  let w := match p with
    | some r => r.2
    | none => s.world
  -- Set final stat values and log out results
  let w := { w with bSuccess := bProcessSuccess }
  let w := { w with BuildStats := { w.BuildStats with
    ProcessSuccess := bProcessSuccess
    ProcessExecuteTime := (env.Seconds w - StartTime) - w.BuildStats.ProcessPausedTime
    FailureReason := env.GetErrorString w
    CleanUpTime := s.CleanUpTime } }
  let w := Logf env "BuildPatchServices: Build Stat" w
  -- Mark that we are done
  let w := SetRunning false w
  { ReturnCode := if w.bSuccess then 0 else 1
    Attempts := s.Attempts
    bRunPrereqInstaller := p.map (fun r => r.1)
    world := w }

/-- The method `FBuildPatchInstaller::Run` (source lines 182 to 311). -/
def Run (env : Env) (job : Job) (w : World) : RunResult :=
  let w := Run.prepare env job w
  -- Keep track of files that failed verify
  let CorruptFiles : List String := []
  -- Get the start time
  let StartTime := env.Seconds w
  let CleanUpTime : ℚ := 0
  -- Keep retrying the install while it is not canceled, or caused by download error
  let s := Run.loop env job (Run.bInstallPrereqs job) 5
    { bProcessSuccess := false, bCanRetry := true, CorruptFiles := CorruptFiles,
      CleanUpTime := CleanUpTime, Attempts := [], world := w }
  Run.finish env job StartTime s

/-! ## Status queries, cancel and pause -/

/-- The method `FBuildPatchInstaller::IsCanceled` (source lines 997 to 1001). -/
def IsCanceled (w : World) : Bool := w.ErrorState == EBuildPatchInstallError.UserCanceled

/-- The method `FBuildPatchInstaller::HasError` (source lines 1008 to 1016). -/
def HasError (w : World) : Bool :=
  if w.ErrorState == EBuildPatchInstallError.UserCanceled then false
  else !w.BuildStats.ProcessSuccess

/-- The method `FBuildPatchInstaller::TogglePauseInstall` (source lines 1071 to 1091). -/
def TogglePauseInstall (env : Env) (w : World) : Bool × World :=
  if IsPaused w then
    -- We are now resuming, so record time paused for
    let PausedForSec := env.Seconds w - w.TimePausedAt
    let w := { w with BuildStats := { w.BuildStats with
      ProcessPausedTime := w.BuildStats.ProcessPausedTime + PausedForSec } }
    TogglePauseState w
  else
    -- If there is an error, we don't allow the pause
    if HasFatalError w then (false, w)
    else
      -- Set the time we pause at
      let w := { w with TimePausedAt := env.Seconds w }
      TogglePauseState w

/-- The method `FBuildPatchInstaller::CancelInstall` (source lines 1060 to 1069). -/
def CancelInstall (env : Env) (w : World) : World :=
  let w := SetFatalError EBuildPatchInstallError.UserCanceled "" w
  let w := ext env Event.CancelAllHttpRequests w
  -- Make sure we are not paused
  if IsPaused w then (TogglePauseInstall env w).2 else w

/-! ## Sample jobs -/

/-- A progress tracker with every progress at 0, every weight at 1 and no pause. -/
def sampleProgress : FBuildPatchProgress :=
  { StateProgressValues := fun _ => 0, StateProgressWeights := fun _ => 1, bIsPaused := false }

/-- Statistics with every counter at zero. -/
def sampleStats : FBuildInstallStats :=
  { AppName := "", AppInstalledVersion := "", AppPatchVersion := "", CloudDirectory := "",
    NumFilesInBuild := 0,
    NumFilesOutdated := 0, NumFilesToRemove := 0, NumChunksRequired := 0,
    ChunksQueuedForDownload := 0, ChunksLocallyAvailable := 0, NumChunksDownloaded := 0,
    NumChunksRecycled := 0, NumChunksCacheBooted := 0, NumDriveCacheChunkLoads := 0,
    NumRecycleFailures := 0, NumDriveCacheLoadFailures := 0, TotalDownloadedData := 0,
    AverageDownloadSpeed := 0, TheoreticalDownloadTime := 0, VerifyTime := 0, CleanUpTime := 0,
    ProcessExecuteTime := 0, ProcessPausedTime := 0, ProcessSuccess := false,
    FailureReason := "" }

/-- A freshly constructed installer over the given disk. -/
def sampleWorld (disk : String → Option FileState) : World :=
  { disk := disk, trace := [], ErrorState := EBuildPatchInstallError.NoError, ErrorLog := "",
    BuildProgress := sampleProgress, BuildStats := sampleStats, FilesInstalled := [],
    DataStagingDir := "S/PatchData", InstallStagingDir := "S/Install", bSuccess := true,
    bIsRunning := false, bIsInited := false, DownloadSpeedValue := 0, DownloadBytesLeft := 0,
    InitialNumChunkDownloads := 0, InitialNumChunkConstructions := 0,
    TotalInitialDownloadSize := 0, TimePausedAt := 0 }

/-- An environment in which every external call succeeds, nothing is raised, nothing is outdated
and verification finds the given corrupt files. -/
def sampleEnv (corrupt : List String) : Env :=
  { Raise := fun _ => none
    IsNoRetryError := fun _ => false
    GetErrorString := fun _ => ""
    Seconds := fun w => w.trace.length
    GetBackupDirectory := ""
    NormalizeDirectoryName := fun d => d
    ConvertRelativePathToFull := fun p => p
    MoveOk := fun _ _ _ => true
    CopyOk := fun _ _ _ => true
    DeleteOk := fun _ _ => true
    DeleteDirectoryOk := fun _ _ => true
    CreateFileWriterOk := fun _ _ => true
    SetReadOnlyOk := fun _ _ _ => true
    SetFileCompressionFlagOk := fun _ _ _ => true
    SetExecutableFlagOk := fun _ _ => true
    IsSameAs := fun a b => a == b
    GetOutdatedFiles := fun _ _ _ _ => []
    GetRemovableFiles := fun _ _ => []
    IsFileOutdated := fun _ _ _ => false
    VerifyFile := fun _ _ _ _ => 1
    VerifyAgainstDirectory := fun _ _ _ => (corrupt.isEmpty, corrupt, 0)
    ProgressReset := fun _ => sampleProgress
    GetCloudDirectory := ""
    ChunkCache := fun _ => ⟨0, 0, 0, 0, 0, 0, 0, 0, 0, 0⟩
    HaveDownloadsStarted := fun _ => false
    GetNumBytesLeft := fun _ => 0
    SampledDownloadSpeed := fun _ => 0
    GetDataSize := fun _ _ => 0
    FileConstructorPolls := fun _ => 0
    DownloaderPolls := fun _ => 0
    GetDownloadRecordings := fun _ => []
    CreateProcValid := fun _ _ _ => true
    GetProcReturnCode := fun _ => 0 }

/-- A target manifest with the two files `fileA` and `fileB`. -/
def sampleManifest : FBuildPatchAppManifest :=
  { FileManifestList := [⟨"fileA", 1, 7, false, false, false⟩, ⟨"fileB", 2, 8, true, false, false⟩]
    PrereqPath := "", PrereqArgs := "", bIsFileDataManifest := false, AppName := "App"
    VersionString := "2" }

/-- A first installation of `sampleManifest` into directory `I`, staged below `S`. -/
def sampleJob : Job :=
  { CurrentBuildManifest := none, NewBuildManifest := sampleManifest, InstallDirectory := "I"
    StagingDirectory := "S" }

/-- A disk on which `fileA` is staged. -/
def stagedDisk : String → Option FileState :=
  fun p => if p = "S/Install/fileA" then some ⟨1, 7⟩ else none

/-! ## Auxiliary definitions for the statements -/

/-- The world in which `BackupFileIfNecessary` takes its decision when rules 1 to 3 let the path
through: the two existence queries have been made. -/
def BackupFileIfNecessary.queried (env : Env) (job : Job) (Filename : String) (w : World) :
    World :=
  ext env (Event.FileExists (pathCombine env.GetBackupDirectory Filename))
    (ext env (Event.FileExists (pathCombine job.InstallDirectory Filename)) w)

/-- Whether an external call is a file move. -/
def Event.isMove : Event → Bool
  | Event.Move _ _ => true
  | _ => false

/-- A disk on which `fileA` (size 1, content 7) is installed. -/
def installedDisk : String → Option FileState :=
  fun p => if p = "I/fileA" then some ⟨1, 7⟩ else none

/-- The manifest of the build installed before `sampleManifest`: `fileA` with another content. -/
def oldManifest : FBuildPatchAppManifest :=
  { FileManifestList := [⟨"fileA", 1, 5, true, false, false⟩]
    PrereqPath := "", PrereqArgs := "", bIsFileDataManifest := false, AppName := "App"
    VersionString := "1" }

/-- The update from `oldManifest` to `sampleManifest`. -/
def updateJob : Job :=
  { CurrentBuildManifest := some oldManifest, NewBuildManifest := sampleManifest
    InstallDirectory := "I", StagingDirectory := "S" }

/-- An environment with backups into directory `B` in which `IsFileOutdated` answers as given. -/
def backupEnv (outdated : Bool) : Env :=
  { sampleEnv [] with GetBackupDirectory := "B", IsFileOutdated := fun _ _ _ => outdated }

/-- The union of the intervals `[StartTime, EndTime]` of a list of download records. -/
def intervalUnion : List FBuildPatchDownloadRecord → Set ℝ
  | [] => ∅
  | r :: rs => Set.Icc (r.StartTime : ℝ) (r.EndTime : ℝ) ∪ intervalUnion rs

/-- The body of the accumulation loop (source lines 479 to 495) carried out without rounding
and without wrap-around: the reference with which the `double` and `int64` calculation of
`AccumulateDownloadRecord` is compared. -/
def ExactTotals.step (acc : DownloadTotals) (r : FBuildPatchDownloadRecord) : DownloadTotals :=
  let acc :=
    if acc.RecoredEndTime < r.EndTime then
      { acc with
        TotalTimeDownloading :=
          if r.StartTime > acc.RecoredEndTime then
            acc.TotalTimeDownloading + (r.EndTime - r.StartTime)
          else acc.TotalTimeDownloading + (r.EndTime - acc.RecoredEndTime)
        RecoredEndTime := r.EndTime }
    else acc
  { acc with TotalDownloadedBytes := acc.TotalDownloadedBytes + r.DownloadSize }

/-- The accumulation over sorted records without rounding and without wrap-around. -/
def ExactTotals.ofSorted : List FBuildPatchDownloadRecord → DownloadTotals
  | [] => ⟨0, 0, 0⟩
  | first :: rest =>
    rest.foldl ExactTotals.step ⟨first.DownloadSize, first.EndTime - first.StartTime, first.EndTime⟩

/-- The download totals without rounding and without wrap-around. -/
def ExactTotals.calculate (l : List FBuildPatchDownloadRecord) : DownloadTotals :=
  ExactTotals.ofSorted (SortDownloadRecords l)

/-- The invariant of the sweep over the sorted records: `U` is the union of the intervals seen so
far, its length is the accumulated time, it lies below the recorded end time, and it covers the
stretch from `S` (a start time seen so far) to the recorded end time. -/
structure SweepInv (U : Set ℝ) (acc : DownloadTotals) (S : ℚ) : Prop where
  vol : MeasureTheory.volume U = ENNReal.ofReal (acc.TotalTimeDownloading : ℝ)
  nonneg : 0 ≤ acc.TotalTimeDownloading
  below : U ⊆ Set.Iic (acc.RecoredEndTime : ℝ)
  cover : Set.Icc (S : ℝ) (acc.RecoredEndTime : ℝ) ⊆ U

/-- An environment in which no move and no copy of a file ever succeeds. -/
def failingMoveEnv : Env :=
  { sampleEnv [] with MoveOk := fun _ _ _ => false, CopyOk := fun _ _ _ => false }

/-- An environment in which the download fails: `DownloadError` is raised while the downloader is
created, and the environment classifies that error as 'no-retry'. -/
def downloadErrorEnv : Env :=
  { sampleEnv [] with
    Raise := fun w =>
      if w.trace.getLast? = some Event.DownloaderCreate then
        some EBuildPatchInstallError.DownloadError
      else none
    IsNoRetryError := fun e => e == EBuildPatchInstallError.DownloadError }

/-- An environment in which verification fails in the first attempt and succeeds afterwards, and
the user cancels while the staging directory is deleted at the end of the second attempt. -/
def lateCancelEnv : Env :=
  { sampleEnv [] with
    VerifyAgainstDirectory := fun w _ _ =>
      if w.trace.count (Event.Log "BuildPatchServices: Starting Installation") ≤ 1 then
        (false, ["fileB"], 0)
      else (true, [], 0)
    Raise := fun w =>
      if w.trace.getLast? = some (Event.DeleteDirectory "S") ∧
          w.trace.count (Event.Log "BuildPatchServices: Starting Installation") = 2 then
        some EBuildPatchInstallError.UserCanceled
      else none }

/-- An environment in which verification always finds `fileB` corrupt, and the user cancels at
the start of the second `RunInstallation`, while the data staging directory is created. -/
def earlyCancelEnv : Env :=
  { sampleEnv ["fileB"] with
    Raise := fun w =>
      if w.trace.getLast? = some (Event.MakeDirectory "S/PatchData") ∧
          w.trace.count (Event.Log "BuildPatchServices: Starting Installation") = 2 then
        some EBuildPatchInstallError.UserCanceled
      else none }

/-- An environment in which verification always finds `fileB` corrupt, and the user cancels in
the second attempt while the downloader is created. -/
def cancelEnv : Env :=
  { sampleEnv ["fileB"] with
    Raise := fun w =>
      if w.trace.getLast? = some Event.DownloaderCreate ∧
          w.trace.count (Event.Log "BuildPatchServices: Starting Installation") = 2 then
        some EBuildPatchInstallError.UserCanceled
      else none }

/-- A repair run: the current manifest is the target manifest `sampleManifest`. -/
def repairJob : Job :=
  { CurrentBuildManifest := some sampleManifest, NewBuildManifest := sampleManifest
    InstallDirectory := "I", StagingDirectory := "S" }

/-- An environment in which the user cancels while the read-only flag of `fileA` is cleared at
the start of the attribute pass. -/
def cancelDuringAttributesEnv : Env :=
  { sampleEnv [] with
    Raise := fun w =>
      if w.trace.getLast? = some (Event.SetReadOnly "I/fileA" false) then
        some EBuildPatchInstallError.UserCanceled
      else none }

/-- The forced attribute pass as the amended claim C10 describes it: `SetupFileAttributes` for
the files of the list in order, whatever their attribute flags, up to the first file at which a
fatal error is present. -/
def ForcedAttributePass (env : Env) (job : Job) : List FFileManifestData → World → World
  | [], w => w
  | f :: rest, w =>
    if HasFatalError w then w
    else
      ForcedAttributePass env job rest
        (SetupFileAttributes env (pathCombine job.InstallDirectory f.Filename) f w)


/-- The world in which `RunInstallation` tests the marker file (source lines 315 to 335): the
staging directories are normalised and created, the error record and the progress are reset, the
inventory is purged and the existence of the marker has been queried. -/
def RunInstallation.entry (env : Env) (job : Job) (w : World) : World :=
  let w := Logf env "BuildPatchServices: Starting Installation" w
  let w := { w with DataStagingDir := env.NormalizeDirectoryName w.DataStagingDir }
  let w := { w with InstallStagingDir := env.NormalizeDirectoryName w.InstallStagingDir }
  let w := ext env (Event.MakeDirectory w.DataStagingDir) w
  let w := ext env (Event.MakeDirectory w.InstallStagingDir) w
  let w := ErrorReset w
  let w := ext env Event.ResetCounters w
  let w := { w with BuildProgress := env.ProgressReset w.BuildProgress }
  let w := SetStateProgress EBuildPatchProgress.Initializing (1 / 100) w
  let w := SetStateProgress EBuildPatchProgress.CleanUp 0 w
  let w := ext env Event.PurgeFileDataInventory w
  (FileExists env job.PreviousMoveMarker w).2

/-- Whether an external call computes the outdated files or hands a list of files to the chunk
cache or to the file constructor. -/
def Event.isHandOver : Event → Bool
  | Event.GetOutdatedFiles => true
  | Event.ChunkCacheInit _ => true
  | Event.FileConstructorCreate _ => true
  | _ => false

/-- Whether an external call is one that only `Run` itself makes, outside its four phases: the
deletion of the staging directory, the log line that precedes the deletion of the marker file,
and the start of the prerequisites installer. -/
def Event.isRunCall : Event → Bool
  | Event.DeleteDirectory _ => true
  | Event.CreateProc _ _ => true
  | Event.Log text => text == "BuildPatchServices: Reset MM"
  | _ => false

/-- The calls of `Event.isRunCall` that the retry loop makes in an attempt with the given
record: the deletion of the staging directory and the log line before the deletion of the
marker file. -/
def AttemptRecord.runCalls (job : Job) (a : AttemptRecord) : List Event :=
  (if a.bStagingDeleted then [Event.DeleteDirectory job.StagingDirectory] else []) ++
    (if a.bMarkerDeleted then [Event.Log "BuildPatchServices: Reset MM"] else [])

/-- Whether an external call starts a process. -/
def Event.isCreateProc : Event → Bool
  | Event.CreateProc _ _ => true
  | _ => false

/-- Whether an external call deletes a directory. -/
def Event.isDeleteDirectory : Event → Bool
  | Event.DeleteDirectory _ => true
  | _ => false

/-- The command that `RunPrereqInstaller` starts (source lines 791 to 801). -/
def Job.PrereqCall (env : Env) (job : Job) : Event :=
  Event.CreateProc
    (env.ConvertRelativePathToFull
      (pathCombine job.InstallDirectory job.NewBuildManifest.PrereqPath))
    job.NewBuildManifest.PrereqArgs

/-- Whether an external call is the log line that `Run` writes before it deletes the marker
file (source line 253). -/
def Event.isResetMarker : Event → Bool
  | Event.Log text => text == "BuildPatchServices: Reset MM"
  | _ => false

/-- A target manifest that names a prerequisites installer. -/
def prereqManifest : FBuildPatchAppManifest :=
  { sampleManifest with PrereqPath := "setup.exe", PrereqArgs := "/q" }

/-- A first installation of `prereqManifest`. -/
def prereqJob : Job :=
  { CurrentBuildManifest := none, NewBuildManifest := prereqManifest, InstallDirectory := "I"
    StagingDirectory := "S" }

/-- Whether the process of the prerequisites installer could be started: the answer of
`ProcessHandle.IsValid()` at source line 804. -/
def RunPrereqInstaller.launched (env : Env) (job : Job) (w : World) : Bool :=
  env.CreateProcValid
    (SetStateProgress EBuildPatchProgress.PrerequisitesInstall 0
      (Logf env "BuildPatchServices: Running prerequisites installer" w))
    (env.ConvertRelativePathToFull
      (pathCombine job.InstallDirectory job.NewBuildManifest.PrereqPath))
    job.NewBuildManifest.PrereqArgs

/-- The exit code that `GetProcReturnCode` reports at source line 816 for the process that was
started. -/
def RunPrereqInstaller.exitCode (env : Env) (job : Job) (w : World) : Int :=
  env.GetProcReturnCode
    (ext env (job.PrereqCall env)
      (SetStateProgress EBuildPatchProgress.PrerequisitesInstall 0
        (Logf env "BuildPatchServices: Running prerequisites installer" w)))

/-- How a sequence of file operations may change the disk: every path keeps its file, or is one
of the paths `C` that may be cleared and holds no file, or is one of the paths `W` that may be
written and holds a file. -/
def DiskStep (W C : String → Prop) (d d' : String → Option FileState) : Prop :=
  ∀ p, d' p = d p ∨ (C p ∧ d' p = none) ∨ (W p ∧ (d' p).isSome = true)

/-- The clean-up of the corrupt files in the words of the claim C12: for every path of the
list, in order, the call `BackupFileIfNecessary(path, true)`, then the deletion of the file from
the install directory, then its deletion from the install-staging directory `S`. -/
def CorruptFilesCleanUp (env : Env) (job : Job) (S : String) (CorruptFiles : List String)
    (w : World) : World :=
  CorruptFiles.foldl
    (fun x f =>
      (Delete env (pathCombine S f)
        (Delete env (pathCombine job.InstallDirectory f)
          (BackupFileIfNecessary env job f true x).2).2).2)
    w

/-- An environment with backups into directory `B` in which nothing is outdated and verification
finds `fileC` corrupt. -/
def corruptEnv : Env :=
  { sampleEnv ["fileC"] with GetBackupDirectory := "B" }

/-- A disk on which `fileC` is installed and also left in the install-staging directory. -/
def corruptDisk : String → Option FileState :=
  fun p => if p = "I/fileC" then some ⟨3, 9⟩ else if p = "S/Install/fileC" then some ⟨3, 8⟩
    else none

/-- Modelled from the spec: the corrupt files that `VerifyAgainstDirectory` reports, "walks every
file entry in the target manifest, compares size and content hash against what is actually on
disk ... on any mismatch, the path is appended to corruptFiles" (section 4.5); the function is
not among the sources.  A file that is missing mismatches. -/
def CorruptFilesOnDisk (disk : String → Option FileState) (m : FBuildPatchAppManifest)
    (dir : String) : List String :=
  (m.FileManifestList.filter
    (fun f => disk (pathCombine dir f.Filename) != some ⟨f.FileSize, f.FileHash⟩)).map
    (fun f => f.Filename)

/-- A disk on which `fileA` is installed as the target manifest describes it and `fileB` is
installed with another content. -/
def halfInstalledDisk : String → Option FileState :=
  fun p => if p = "I/fileA" then some ⟨1, 7⟩ else if p = "I/fileB" then some ⟨2, 6⟩
    else none

/-- An environment with backups into directory `B` whose `VerifyAgainstDirectory` is the one
modelled from the spec. -/
def verifyingEnv : Env :=
  { sampleEnv [] with
    GetBackupDirectory := "B"
    VerifyAgainstDirectory := fun w m d =>
      ((CorruptFilesOnDisk w.disk m d).isEmpty, CorruptFilesOnDisk w.disk m d, 0) }

/-- The removable files that `RunBackupAndMove` computes (source lines 535 to 539). -/
def Job.FilesToRemove (env : Env) (job : Job) : List String :=
  match job.CurrentBuildManifest with
  | some cur => env.GetRemovableFiles cur job.NewBuildManifest
  | none => []

/-- The part of the body of the loop over the constructed files between the existence test and
the move (source lines 570 to 588): the creation of the marker file before the first move, and
the backup of the installed file. -/
def RunBackupAndMove.prepare (env : Env) (job : Job) (ConstructionFile : String)
    (bSavedMoveMarkerFile : Bool) (w : World) : World :=
  let w :=
    if !bSavedMoveMarkerFile then
      let w := Logf env "BuildPatchServices: Create MM" w
      let w := (CreateFileWriter env job.PreviousMoveMarker w).2
      if GetStateWeight EBuildPatchProgress.MovingToInstall w ≤ 0 then
        SetStateWeight EBuildPatchProgress.MovingToInstall (1 / 10) w
      else w
    else w
  (BackupFileIfNecessary env job ConstructionFile false w).2

/-- The move of one constructed file with its retries (source lines 590 to 612); the first
component of the result is the final `bMoveSuccess`. -/
def RunBackupAndMove.moveFile (env : Env) (ConstructionFile DestFilename SrcFilename : String)
    (w : World) : Bool × World :=
  let m := Move env DestFilename SrcFilename w
  if !m.1 then
    RunBackupAndMove.retryLoop env ConstructionFile DestFilename SrcFilename
      NUM_FILE_MOVE_RETRIES m.2
  else m

/-- The invariant of the loop of `RunBackupAndMove` over the constructed files `T`, relative to
the disk `d0` and the set `F0` on entry: a staged file is still as on entry or gone; a path in
`FilesInstalled` was there on entry, or its staged file is now in the install directory; and a
staged file that is gone has been installed. -/
structure InstallInv (job : Job) (S : String) (d0 : String → Option FileState)
    (F0 T : List String) (w : World) : Prop where
  staging : w.InstallStagingDir = S
  staged : ∀ f ∈ T, w.disk (pathCombine S f) = d0 (pathCombine S f) ∨
    w.disk (pathCombine S f) = none
  installed : ∀ f ∈ w.FilesInstalled, f ∈ F0 ∨
    (f ∈ T ∧ (d0 (pathCombine S f)).isSome = true ∧
      w.disk (pathCombine job.InstallDirectory f) = d0 (pathCombine S f))
  moved : ∀ f ∈ T, w.disk (pathCombine S f) = none → (d0 (pathCombine S f)).isSome = true →
    f ∈ w.FilesInstalled

/-- A disk on which the old `fileA` is installed and the new `fileA` and `fileB` are staged. -/
def fullyStagedDisk : String → Option FileState :=
  fun p => if p = "I/fileA" then some ⟨1, 5⟩ else if p = "S/Install/fileA" then some ⟨1, 7⟩
    else if p = "S/Install/fileB" then some ⟨2, 8⟩ else none

/-- Whether an external call changes a file: a move, a copy, a deletion or the creation of a
file. -/
def Event.isFileChange : Event → Bool
  | Event.Move _ _ => true
  | Event.Copy _ _ => true
  | Event.Delete _ => true
  | Event.CreateFileWriter _ => true
  | _ => false

/-- A disk on which the marker file exists, the file `old` of the previous build is installed
and `fileA` is still in the install-staging directory. -/
def markerDisk : String → Option FileState :=
  fun p => if p = "I/$movedMarker" then some ⟨0, 0⟩ else if p = "I/old" then some ⟨4, 4⟩
    else if p = "S/Install/fileA" then some ⟨1, 7⟩ else none

/-- An environment with backups into directory `B` in which the file `old` is removable. -/
def removableEnv : Env :=
  { backupEnv true with GetRemovableFiles := fun _ _ => ["old"] }

/-- The state in which the retry loop of `Run` is entered, over the given world. -/
def sampleState (w : World) : RunState :=
  { bProcessSuccess := false, bCanRetry := true, CorruptFiles := [], CleanUpTime := 0,
    Attempts := [], world := w }


/-- Whether an external call is an attempt to bring a file to the path `dest`: a move or a copy
with that destination. -/
def Event.isAttemptOn (dest : String) : Event → Bool
  | Event.Move d _ => d == dest
  | Event.Copy d _ => d == dest
  | _ => false

/-- The world in which `RunBackupAndMove` enters its loop over the constructed files (source
lines 534 to 556), given the world after its first log line: the removable files are handled
and the progress of the stage is set to 0. -/
def RunBackupAndMove.loopEntry (env : Env) (job : Job) (w : World) : World :=
  SetStateProgress EBuildPatchProgress.MovingToInstall 0
    (RunBackupAndMove.removeLoop env job (job.FilesToRemove env)
      { w with BuildStats :=
          { w.BuildStats with NumFilesToRemove := (job.FilesToRemove env).length } })

/-- The state in which the loop over the constructed files (source lines 558 to 623) makes its
loop test for the file at position `k` of the list: the iterator index, the flag
`bSavedMoveMarkerFile` and the world; `none` when the loop has ended before that file, on a
fatal error or on a move that failed. -/
def RunBackupAndMove.loopHead (env : Env) (job : Job) (NumConstructionFilesFloat : ℚ) :
    List String → Nat → Nat → Bool → World → Option (Nat × Bool × World)
  | _, 0, Index, bSavedMoveMarkerFile, w => some (Index, bSavedMoveMarkerFile, w)
  | [], _ + 1, _, _, _ => none
  | ConstructionFile :: rest, k + 1, Index, bSavedMoveMarkerFile, w =>
    if HasFatalError w then none
    else
      let SrcFilename := pathCombine w.InstallStagingDir ConstructionFile
      let DestFilename := pathCombine job.InstallDirectory ConstructionFile
      let FileIndexFloat : ℚ := Index
      let r := FileExists env SrcFilename w
      if !r.1 then
        RunBackupAndMove.loopHead env job NumConstructionFilesFloat rest k (Index + 1)
          bSavedMoveMarkerFile
          (SetStateProgress EBuildPatchProgress.MovingToInstall
            (FileIndexFloat / NumConstructionFilesFloat) r.2)
      else
        let m := RunBackupAndMove.moveFile env ConstructionFile DestFilename SrcFilename
          (RunBackupAndMove.prepare env job ConstructionFile bSavedMoveMarkerFile r.2)
        if !m.1 then none
        else
          RunBackupAndMove.loopHead env job NumConstructionFilesFloat rest k (Index + 1) true
            (SetStateProgress EBuildPatchProgress.MovingToInstall
              (FileIndexFloat / NumConstructionFilesFloat)
              (FilesInstalledAdd ConstructionFile m.2))

/-- An environment in which no move and no copy of `fileB` into the install directory
succeeds. -/
def failingSecondMoveEnv : Env :=
  { sampleEnv [] with
    MoveOk := fun _ d _ => d != "I/fileB"
    CopyOk := fun _ d _ => d != "I/fileB" }

/-- Whether an external call writes an attribute of a file: the read-only flag, the compression
flag or the executable flag. -/
def Event.isAttributeWrite : Event → Bool
  | Event.SetReadOnly _ _ => true
  | Event.SetFileCompressionFlag _ _ => true
  | Event.SetExecutableFlag _ => true
  | _ => false

/-- A manifest entry for the file `tool`, read-only and executable. -/
def toolEntry : FFileManifestData := ⟨"tool", 3, 9, true, false, true⟩

/-- The update of a build whose file `tool` is flagged executable to a build in which `tool` has
no attribute. -/
def execJob : Job :=
  { CurrentBuildManifest := some
      { FileManifestList := [⟨"tool", 3, 9, false, false, true⟩]
        PrereqPath := "", PrereqArgs := "", bIsFileDataManifest := false, AppName := "App"
        VersionString := "1" }
    NewBuildManifest :=
      { FileManifestList := [⟨"tool", 3, 10, false, false, false⟩]
        PrereqPath := "", PrereqArgs := "", bIsFileDataManifest := false, AppName := "App"
        VersionString := "2" }
    InstallDirectory := "I", StagingDirectory := "S" }

/-- Modelled from the spec: the success flag that `VerifyAgainstDirectory` returns for the
corrupt files it has found, "Overall success iff corruptFiles is empty" (section 4.5); the
function is not among the sources. -/
def VerifySuccess (CorruptFiles : List String) : Bool := CorruptFiles.isEmpty

/-- The world in which `RunVerification` tests the result of `VerifyAgainstDirectory` (source
line 699). -/
def RunVerification.verified (env : Env) (job : Job) (w : World) : World :=
  ext env (Event.VerifyAgainstDirectory job.InstallDirectory)
    (Logf env "BuildPatchServices: Verifying install"
      (SetStateProgress EBuildPatchProgress.BuildVerification 0 w))

/-- An installer that was paused at time 4, with 1 second of paused time counted so far. -/
def pausedWorld : World :=
  { sampleWorld stagedDisk with
    BuildProgress := { sampleProgress with bIsPaused := true }
    BuildStats := { sampleStats with ProcessPausedTime := 1 }
    TimePausedAt := 4 }

/-- An environment whose clock stands at 10 seconds. -/
def clockEnv : Env := { sampleEnv [] with Seconds := fun _ => 10 }

/-- Whether an external call relocates or removes a file outside the backup directory `B`: a
copy, a deletion, the creation of a file, or a move whose destination is not below `B`.  The
moves that `BackupFileIfNecessary` makes go to paths below `B` and are not of this kind. -/
def Event.isRelocation (B : String) : Event → Bool
  | Event.Move d _ => !(B ++ "/").data.isPrefixOf d.data
  | Event.Copy _ _ => true
  | Event.Delete _ => true
  | Event.CreateFileWriter _ => true
  | _ => false

/-- The error that the environment raises in the world `x`, if any, is recorded in `x`. -/
def Settled (env : Env) (x : World) : Prop :=
  ∀ err, env.Raise x = some err → err ≠ EBuildPatchInstallError.NoError →
    HasFatalError x = true

/-- Two environments that answer alike wherever `RunBackupAndMove` looks at the answer, as far as
the relocation calls made so far are the same: the errors raised, the results of moves to
destinations outside the backup directory `B`, the results of copies, and the results of
deleting a staged file of the list `T` from the staging directory `S`.  The results of the moves
into the backup directory and of all other deletions are free. -/
structure SameOutsideBackup (B S : String) (T : List String) (env₁ env₂ : Env) : Prop where
  raise : ∀ x y : World, x.trace.filter (Event.isRelocation B) =
    y.trace.filter (Event.isRelocation B) → env₁.Raise x = env₂.Raise y
  move : ∀ (x y : World) (d s : String), x.trace.filter (Event.isRelocation B) =
    y.trace.filter (Event.isRelocation B) → (Event.isRelocation B (Event.Move d s)) = true →
    env₁.MoveOk x d s = env₂.MoveOk y d s
  copy : ∀ (x y : World) (d s : String), x.trace.filter (Event.isRelocation B) =
    y.trace.filter (Event.isRelocation B) → env₁.CopyOk x d s = env₂.CopyOk y d s
  delete : ∀ (x y : World) (g : String), x.trace.filter (Event.isRelocation B) =
    y.trace.filter (Event.isRelocation B) → g ∈ T →
    env₁.DeleteOk x (pathCombine S g) = env₂.DeleteOk y (pathCombine S g)

/-- Two worlds of two runs of `RunBackupAndMove` that differ only in results of backups and of
deletions in the install directory: the relocation calls made so far, the error state, the
install-staging directory `S` and the staged files of the list `T` are the same, and each world
has recorded what its environment raises. -/
structure SameRelocation (B S : String) (T : List String) (env₁ env₂ : Env) (x y : World) :
    Prop where
  trace : x.trace.filter (Event.isRelocation B) = y.trace.filter (Event.isRelocation B)
  error : x.ErrorState = y.ErrorState
  staging₁ : x.InstallStagingDir = S
  staging₂ : y.InstallStagingDir = S
  staged : ∀ g ∈ T, x.disk (pathCombine S g) = y.disk (pathCombine S g)
  settled₁ : Settled env₁ x
  settled₂ : Settled env₂ y

/-- An environment with backups into directory `B` in which no move into `B` succeeds and the
removable file `old` cannot be deleted. -/
def failingBackupEnv : Env :=
  { removableEnv with
    MoveOk := fun _ d _ => !("B/").data.isPrefixOf d.data
    DeleteOk := fun _ p => p != "I/old" }

/-- A disk on which the file `old` of the previous build and an edited `fileA` (its size is in
neither manifest) are installed, and the new `fileA` is staged. -/
def editedDisk : String → Option FileState :=
  fun p => if p = "I/old" then some ⟨4, 4⟩ else if p = "I/fileA" then some ⟨9, 9⟩
    else if p = "S/Install/fileA" then some ⟨1, 7⟩ else none

/-! ## Auxiliary definitions for the revised statements -/

/-- The times of a download record lie on the binary grid of spacing `2 ^ (-k)`: they are
non-negative multiples of the spacing below `2 ^ (53 - k)`, the start not after the end.  Such
times are `double` values, and so are their sums and differences in that range. -/
def FBuildPatchDownloadRecord.OnGrid (k : ℕ) (r : FBuildPatchDownloadRecord) : Prop :=
  ∃ a b : ℕ, r.StartTime = (a : ℚ) / 2 ^ k ∧ r.EndTime = (b : ℚ) / 2 ^ k ∧ a ≤ b ∧ b < 2 ^ 53

/-- The accumulators of the download totals lie on the binary grid of spacing `2 ^ (-k)`, the
accumulated time not above the recorded end time. -/
def DownloadTotals.OnGrid (k : ℕ) (acc : DownloadTotals) : Prop :=
  ∃ T E : ℕ, acc.TotalTimeDownloading = (T : ℚ) / 2 ^ k ∧
    acc.RecoredEndTime = (E : ℚ) / 2 ^ k ∧ T ≤ E ∧ E < 2 ^ 53

/-- Two downloads with a pause between them: from 0 to 0.1 seconds and from 0.2 to 0.4 seconds,
with the `double` values of these decimal numbers; 1 byte and 2 bytes. -/
def pausedDownloads : List FBuildPatchDownloadRecord :=
  [⟨0, 3602879701896397 / 36028797018963968, 1⟩,
    ⟨3602879701896397 / 18014398509481984, 3602879701896397 / 9007199254740992, 2⟩]

/-- Two downloads of `2 ^ 62` bytes each, one after the other. -/
def hugeDownloads : List FBuildPatchDownloadRecord :=
  [⟨0, 1, 2 ^ 62⟩, ⟨1, 2, 2 ^ 62⟩]

/-- Whether an external call marks the start of a phase of an attempt: the log line that opens
`RunInstallation`, the log line of its short-circuit, the log line that opens
`RunBackupAndMove`, the log line that opens `RunVerification` and its call of
`VerifyAgainstDirectory`, and the log line before the deletion of the marker file. -/
def Event.isPhaseMark : Event → Bool
  | Event.Log text =>
    text == "BuildPatchServices: Starting Installation" ||
      text == "BuildPatchServices: Detected previous staging completed" ||
      text == "BuildPatchServices: Running backup and stage relocation" ||
      text == "BuildPatchServices: Verifying install" ||
      text == "BuildPatchServices: Reset MM"
  | Event.VerifyAgainstDirectory _ => true
  | _ => false

/-- The calls of `Event.isPhaseMark` that the retry loop makes in an attempt with the given
record: `RunInstallation` starts; it takes its short-circuit when the marker file exists;
`RunBackupAndMove` starts when `RunInstallation` returned true; `RunVerification` starts and
calls `VerifyAgainstDirectory` when `RunBackupAndMove` returned true; the deletion of the marker
is announced when the record says so. -/
def AttemptRecord.phaseMarks (job : Job) (a : AttemptRecord) : List Event :=
  [Event.Log "BuildPatchServices: Starting Installation"] ++
    (if a.bMarkerAtStart then
      [Event.Log "BuildPatchServices: Detected previous staging completed"] else []) ++
    (if a.bRunInstallation then
      [Event.Log "BuildPatchServices: Running backup and stage relocation"] else []) ++
    (if a.bRunBackupAndMove = some true then
      [Event.Log "BuildPatchServices: Verifying install",
        Event.VerifyAgainstDirectory job.InstallDirectory]
      else []) ++
    (if a.bMarkerDeleted then [Event.Log "BuildPatchServices: Reset MM"] else [])

/-- Whether an external call is the deletion of a file. -/
def Event.isDelete : Event → Bool
  | Event.Delete _ => true
  | _ => false

/-- The attribute writes of one application of `SetupFileAttributes`, in the order of source
lines 1101 to 1111. -/
def AttributeWrites (FilePath : String) (f : FFileManifestData) : List Event :=
  [Event.SetReadOnly FilePath false, Event.SetFileCompressionFlag FilePath f.bIsCompressed,
    Event.SetReadOnly FilePath f.bIsReadOnly] ++
    (if f.bIsUnixExecutable then [Event.SetExecutableFlag FilePath] else [])

/-- The files to which an attribute pass applies `SetupFileAttributes`, with the entry that is
applied, in order.  A forced pass: every file of the target manifest.  A pass that is not
forced: the files of the target manifest that have an attribute flag, and then the files of the
current manifest whose read-only or compression flag the target manifest clears. -/
def Job.AttributeTargets (job : Job) (bForce : Bool) : List (String × FFileManifestData) :=
  (job.NewBuildManifest.FileManifestList.filter
      (fun f => f.bIsReadOnly || f.bIsCompressed || f.bIsUnixExecutable || bForce)).map
      (fun f => (pathCombine job.InstallDirectory f.Filename, f)) ++
    (match (if !bForce then job.CurrentBuildManifest else none) with
      | some cur =>
        cur.FileManifestList.filterMap (fun old =>
          match job.NewBuildManifest.GetFileManifest old.Filename with
          | some nf =>
            if (old.bIsReadOnly && !nf.bIsReadOnly) || (old.bIsCompressed && !nf.bIsCompressed)
            then some (pathCombine job.InstallDirectory old.Filename, nf)
            else none
          | none => none)
      | none => [])

/-- An environment in which verification always finds `fileB` corrupt and the marker file cannot
be deleted. -/
def stuckMarkerEnv : Env :=
  { sampleEnv ["fileB"] with DeleteOk := fun _ p => p != "I/$movedMarker" }

/-! ## Basic facts about external calls -/

section Basic

variable (env : Env)

@[simp]
theorem ext_disk (e : Event) (w : World) : (ext env e w).disk = w.disk := by
  unfold ext SetFatalError; dsimp only; split <;> [split; skip] <;> rfl

@[simp]
theorem ext_trace (e : Event) (w : World) : (ext env e w).trace = w.trace ++ [e] := by
  unfold ext SetFatalError; dsimp only; split <;> [split; skip] <;> rfl

@[simp]
theorem ext_BuildProgress (e : Event) (w : World) :
    (ext env e w).BuildProgress = w.BuildProgress := by
  unfold ext SetFatalError; dsimp only; split <;> [split; skip] <;> rfl

@[simp]
theorem ext_BuildStats (e : Event) (w : World) :
    (ext env e w).BuildStats = w.BuildStats := by
  unfold ext SetFatalError; dsimp only; split <;> [split; skip] <;> rfl

@[simp]
theorem ext_FilesInstalled (e : Event) (w : World) :
    (ext env e w).FilesInstalled = w.FilesInstalled := by
  unfold ext SetFatalError; dsimp only; split <;> [split; skip] <;> rfl

@[simp]
theorem ext_InstallStagingDir (e : Event) (w : World) :
    (ext env e w).InstallStagingDir = w.InstallStagingDir := by
  unfold ext SetFatalError; dsimp only; split <;> [split; skip] <;> rfl

@[simp]
theorem ext_DataStagingDir (e : Event) (w : World) :
    (ext env e w).DataStagingDir = w.DataStagingDir := by
  unfold ext SetFatalError; dsimp only; split <;> [split; skip] <;> rfl

/-- An error that is already recorded survives an external call. -/
theorem ext_ErrorState_of_error (e : Event) (w : World)
    (h : w.ErrorState ≠ EBuildPatchInstallError.NoError) :
    (ext env e w).ErrorState = w.ErrorState := by
  unfold ext SetFatalError HasFatalError; dsimp only
  split
  · simp [h]
  · rfl

end Basic


/-! ## BackupFileIfNecessary: the decision rules -/

/-- A path that passes rules 1 to 4 reaches the last part of `BackupFileIfNecessary`. -/
theorem BackupFileIfNecessary_of_pass (env : Env) (job : Job) (Filename : String) (b : Bool)
    (w : World) (h1 : env.GetBackupDirectory.isEmpty = false)
    (h2 : (w.disk (pathCombine job.InstallDirectory Filename)).isSome = true)
    (h3 : (w.disk (pathCombine env.GetBackupDirectory Filename)).isSome = false)
    (h4 : Filename ∉ w.FilesInstalled) :
    BackupFileIfNecessary env job Filename b w =
      BackupFileIfNecessary.backupIfEdited env job Filename b
        (BackupFileIfNecessary.queried env job Filename w) := by
  simp [BackupFileIfNecessary, BackupFileIfNecessary.queried, FileExists, h1, h2, h3, h4]

@[simp]
theorem queried_disk (env : Env) (job : Job) (Filename : String) (w : World) :
    (BackupFileIfNecessary.queried env job Filename w).disk = w.disk := by
  simp [BackupFileIfNecessary.queried]

@[simp]
theorem queried_trace (env : Env) (job : Job) (Filename : String) (w : World) :
    (BackupFileIfNecessary.queried env job Filename w).trace =
      w.trace ++ [Event.FileExists (pathCombine job.InstallDirectory Filename),
        Event.FileExists (pathCombine env.GetBackupDirectory Filename)] := by
  simp [BackupFileIfNecessary.queried]

/-- C6: for a path contained in `FilesInstalled`, and for both values of
`bDiscoveredByVerification`, `BackupFileIfNecessary` returns true and performs no move: the disk
is unchanged and the only external calls made are file-existence queries. -/
theorem C6_installed_never_backed_up (env : Env) (job : Job) (Filename : String)
    (bDiscoveredByVerification : Bool) (w : World) (h : Filename ∈ w.FilesInstalled) :
    (BackupFileIfNecessary env job Filename bDiscoveredByVerification w).1 = true ∧
    (BackupFileIfNecessary env job Filename bDiscoveredByVerification w).2.disk = w.disk ∧
    ∃ es, (BackupFileIfNecessary env job Filename bDiscoveredByVerification w).2.trace
        = w.trace ++ es ∧ ∀ e ∈ es, ∃ p, e = Event.FileExists p := by
  unfold BackupFileIfNecessary
  simp only [FileExists]
  by_cases h1 : env.GetBackupDirectory.isEmpty = true
  · simp [h1]
  · by_cases h2 : (w.disk (pathCombine job.InstallDirectory Filename)).isSome = true
    · by_cases h3 : (w.disk (pathCombine env.GetBackupDirectory Filename)).isSome = true
      · simp [h1, h2, h3]
      · simp [h1, h2, h3, h]
    · simp [h1, h2]

/-- C6 at a concrete input: `fileA` was installed by this run, exists in the install directory
and has no backup yet; the call, made as verification makes it, returns true and leaves the
installed file where it is. -/
theorem C6_witness :
    "fileA" ∈ ({ sampleWorld installedDisk with FilesInstalled := ["fileA"] } : World).FilesInstalled ∧
    (BackupFileIfNecessary (backupEnv false) updateJob "fileA" true
      { sampleWorld installedDisk with FilesInstalled := ["fileA"] }).1 = true ∧
    (BackupFileIfNecessary (backupEnv false) updateJob "fileA" true
      { sampleWorld installedDisk with FilesInstalled := ["fileA"] }).2.disk = installedDisk :=
  ⟨by decide,
    (C6_installed_never_backed_up (backupEnv false) updateJob "fileA" true
      { sampleWorld installedDisk with FilesInstalled := ["fileA"] } (by decide)).1,
    (C6_installed_never_backed_up (backupEnv false) updateJob "fileA" true
      { sampleWorld installedDisk with FilesInstalled := ["fileA"] } (by decide)).2.1⟩

/-- C7: the early exits of `BackupFileIfNecessary`.  If the backup directory is empty, or no file
exists at the install path, or a file exists at the backup path, the call returns true and moves
nothing (the disk is unchanged).  The tests are made in that order: with backups disabled no
query is made, the install path is queried next, and the backup path is queried only when the
installed file exists. -/
theorem C7_early_exits (env : Env) (job : Job) (Filename : String)
    (bDiscoveredByVerification : Bool) (w : World)
    (h : env.GetBackupDirectory.isEmpty = true ∨
      (w.disk (pathCombine job.InstallDirectory Filename)).isSome = false ∨
      (w.disk (pathCombine env.GetBackupDirectory Filename)).isSome = true) :
    (BackupFileIfNecessary env job Filename bDiscoveredByVerification w).1 = true ∧
    (BackupFileIfNecessary env job Filename bDiscoveredByVerification w).2.disk = w.disk ∧
    (BackupFileIfNecessary env job Filename bDiscoveredByVerification w).2.trace =
      w.trace ++
        (if env.GetBackupDirectory.isEmpty then []
        else if (w.disk (pathCombine job.InstallDirectory Filename)).isSome = false then
          [Event.FileExists (pathCombine job.InstallDirectory Filename)]
        else
          [Event.FileExists (pathCombine job.InstallDirectory Filename),
            Event.FileExists (pathCombine env.GetBackupDirectory Filename)]) := by
  unfold BackupFileIfNecessary
  simp only [FileExists]
  by_cases h1 : env.GetBackupDirectory.isEmpty = true
  · simp [h1]
  · by_cases h2 : (w.disk (pathCombine job.InstallDirectory Filename)).isSome = true
    · have h3 : (w.disk (pathCombine env.GetBackupDirectory Filename)).isSome = true := by
        rcases h with h | h | h
        · exact absurd h h1
        · rw [h2] at h; exact absurd h (by decide)
        · exact h
      simp [h1, h2, h3]
    · simp [h1, h2]

/-- C7 at a concrete input: backups go to `B`, `fileA` is not installed; only the install path is
queried. -/
theorem C7_witness :
    (BackupFileIfNecessary (backupEnv false) updateJob "fileA" false
      (sampleWorld (fun _ => none))).1 = true ∧
    (BackupFileIfNecessary (backupEnv false) updateJob "fileA" false
      (sampleWorld (fun _ => none))).2.trace = [Event.FileExists "I/fileA"] :=
  ⟨(C7_early_exits (backupEnv false) updateJob "fileA" false (sampleWorld (fun _ => none))
      (Or.inr (Or.inl (by decide)))).1,
    by decide⟩

/-- C8: rule 5 of `BackupFileIfNecessary`.  For a path that passes rules 1 to 4, in a call with
`bDiscoveredByVerification = true` for a file that is not outdated between the current and the
target manifest, the installed file is moved to the backup path (the only change to the disk is
the one made by that move) and the call returns the success of that move. -/
theorem C8_rule5_moves_untouched_file (env : Env) (job : Job) (Filename : String) (w : World)
    (h1 : env.GetBackupDirectory.isEmpty = false)
    (h2 : (w.disk (pathCombine job.InstallDirectory Filename)).isSome = true)
    (h3 : (w.disk (pathCombine env.GetBackupDirectory Filename)).isSome = false)
    (h4 : Filename ∉ w.FilesInstalled)
    (h5 : ∀ cur, job.CurrentBuildManifest = some cur →
      env.IsFileOutdated cur job.NewBuildManifest Filename = false) :
    ∃ w1, w1.disk = w.disk ∧
      BackupFileIfNecessary env job Filename true w =
        Move env (pathCombine env.GetBackupDirectory Filename)
          (pathCombine job.InstallDirectory Filename) w1 ∧
      (BackupFileIfNecessary env job Filename true w).1 =
        env.MoveOk w1 (pathCombine env.GetBackupDirectory Filename)
          (pathCombine job.InstallDirectory Filename) := by
  rw [BackupFileIfNecessary_of_pass env job Filename true w h1 h2 h3 h4]
  unfold BackupFileIfNecessary.backupIfEdited
  cases hc : job.CurrentBuildManifest with
  | none =>
    refine ⟨Logf env "BuildPatchServices: Backing up"
      (BackupFileIfNecessary.queried env job Filename w), by simp [Logf], by simp, ?_⟩
    simp [Move, Logf, h2]
    split <;> simp_all
  | some cur =>
    refine ⟨BackupFileIfNecessary.queried env job Filename w, by simp, ?_, ?_⟩
    · simp [h5 cur hc]
    · simp [h5 cur hc, Move, h2]
      split <;> simp_all

/-- C8 at a concrete input: `fileA` is installed, not outdated and found corrupt by verification;
it ends up at the backup path and the call returns true. -/
theorem C8_witness :
    (∃ w1, w1.disk = (sampleWorld installedDisk).disk ∧
      BackupFileIfNecessary (backupEnv false) updateJob "fileA" true (sampleWorld installedDisk) =
        Move (backupEnv false) (pathCombine (backupEnv false).GetBackupDirectory "fileA")
          (pathCombine updateJob.InstallDirectory "fileA") w1 ∧
      (BackupFileIfNecessary (backupEnv false) updateJob "fileA" true
        (sampleWorld installedDisk)).1 =
        (backupEnv false).MoveOk w1 (pathCombine (backupEnv false).GetBackupDirectory "fileA")
          (pathCombine updateJob.InstallDirectory "fileA")) ∧
    (BackupFileIfNecessary (backupEnv false) updateJob "fileA" true (sampleWorld installedDisk)).1
      = true ∧
    (BackupFileIfNecessary (backupEnv false) updateJob "fileA" true
      (sampleWorld installedDisk)).2.disk "B/fileA" = some ⟨1, 7⟩ ∧
    (BackupFileIfNecessary (backupEnv false) updateJob "fileA" true
      (sampleWorld installedDisk)).2.disk "I/fileA" = none :=
  ⟨C8_rule5_moves_untouched_file (backupEnv false) updateJob "fileA"
    (sampleWorld installedDisk) (by decide) (by decide) (by decide) (by decide)
    (by intro cur _; rfl), by decide, by decide, by decide⟩

/-- C9, refuted as stated: `fileA` passes rules 1 to 4, is in the outdated set (so rule 5 does
not apply), its installed size equals the size in the target manifest and the byte-level verify
succeeds (`VerifyFile` returns 1); the call made with `bDiscoveredByVerification = true` moves
it to the backup path all the same. -/
theorem C9_counterexample :
    (backupEnv true).GetBackupDirectory.isEmpty = false ∧
    (installedDisk "I/fileA").isSome = true ∧
    (installedDisk "B/fileA").isSome = false ∧
    "fileA" ∉ (sampleWorld installedDisk).FilesInstalled ∧
    (backupEnv true).IsFileOutdated oldManifest sampleManifest "fileA" = true ∧
    (FileSize (backupEnv true) "I/fileA" (sampleWorld installedDisk)).1 =
      ManifestFileSize (sampleManifest.GetFileManifest "fileA") ∧
    (∀ w h1 h2, (backupEnv true).VerifyFile w "I/fileA" h1 h2 ≠ 0) ∧
    Event.Move "B/fileA" "I/fileA" ∈
      (BackupFileIfNecessary (backupEnv true) updateJob "fileA" true
        (sampleWorld installedDisk)).2.trace ∧
    (BackupFileIfNecessary (backupEnv true) updateJob "fileA" true
      (sampleWorld installedDisk)).2.disk "I/fileA" = none ∧
    (BackupFileIfNecessary (backupEnv true) updateJob "fileA" true
      (sampleWorld installedDisk)).2.disk "B/fileA" = some ⟨1, 7⟩ :=
  ⟨by decide, by decide, by decide, by decide, rfl, by decide, fun _ _ _ => Nat.one_ne_zero,
    by decide, by decide, by decide⟩

/-- C9, amended: rule 6 of `BackupFileIfNecessary` for a path that passes rules 1 to 4.
In a call with `bDiscoveredByVerification = false` the installed file is moved to the backup path
if and only if its size matches neither the old nor the new manifest entry's size or the
byte-level verify against both hashes fails (`VerifyFile` returns 0), and the call returns the
success of the move; otherwise no move is made, the disk is unchanged and the call returns true.
In a call with `bDiscoveredByVerification = true` to which rule 5 does not apply (the file is in
the outdated set, or there is no current manifest) no size or hash is compared: the file is moved
and the call returns the success of the move. -/
theorem C9_rule6_amended (env : Env) (job : Job) (Filename : String) (w : World)
    (h1 : env.GetBackupDirectory.isEmpty = false)
    (h2 : (w.disk (pathCombine job.InstallDirectory Filename)).isSome = true)
    (h3 : (w.disk (pathCombine env.GetBackupDirectory Filename)).isSome = false)
    (h4 : Filename ∉ w.FilesInstalled) :
    (let Installed := pathCombine job.InstallDirectory Filename
     let Backup := pathCombine env.GetBackupDirectory Filename
     let s := FileSize env Installed (BackupFileIfNecessary.queried env job Filename w)
     let bFileSizeDiffers :=
       ManifestFileSize (job.OldFileManifest Filename) ≠ s.1 ∧
         ManifestFileSize (job.NewBuildManifest.GetFileManifest Filename) ≠ s.1
     let bVerifyFails :=
       env.VerifyFile s.2 Installed (ManifestFileHash (job.OldFileManifest Filename))
         (ManifestFileHash (job.NewBuildManifest.GetFileManifest Filename)) = 0
     (bFileSizeDiffers ∨ bVerifyFails →
        ∃ w1, w1.disk = w.disk ∧
          BackupFileIfNecessary env job Filename false w = Move env Backup Installed w1) ∧
     (¬ (bFileSizeDiffers ∨ bVerifyFails) →
        (BackupFileIfNecessary env job Filename false w).1 = true ∧
        (BackupFileIfNecessary env job Filename false w).2.disk = w.disk ∧
        ∃ es, (BackupFileIfNecessary env job Filename false w).2.trace = w.trace ++ es ∧
          ∀ e ∈ es, e.isMove = false) ∧
     ((∀ cur, job.CurrentBuildManifest = some cur →
        env.IsFileOutdated cur job.NewBuildManifest Filename = true) →
        ∃ w1, w1.disk = w.disk ∧
          BackupFileIfNecessary env job Filename true w = Move env Backup Installed w1)) := by
  intro Installed Backup s bFileSizeDiffers bVerifyFails
  refine ⟨?_, ?_, ?_⟩
  · intro h
    rw [BackupFileIfNecessary_of_pass env job Filename false w h1 h2 h3 h4]
    unfold BackupFileIfNecessary.backupIfEdited
    by_cases hs : bFileSizeDiffers
    · refine ⟨Logf env "BuildPatchServices: Backing up" s.2, by simp [s, Logf, FileSize], ?_⟩
      have hs1 := hs.1
      have hs2 := hs.2
      simp only [s] at hs1 hs2
      simp [hs1, hs2, Installed, Backup, s]
    · have hv : bVerifyFails := h.resolve_left hs
      refine ⟨Logf env "BuildPatchServices: Backing up"
        (ext env (Event.VerifyFile Installed) s.2), by simp [s, Logf, FileSize], ?_⟩
      simp only [bVerifyFails, s, Installed, FileSize] at hv
      simp only [bFileSizeDiffers, s, Installed, not_and_or, not_not, FileSize] at hs
      rcases hs with hs | hs <;> simp [hs, hv, Installed, Backup, s, FileSize]
  · intro h
    rw [BackupFileIfNecessary_of_pass env job Filename false w h1 h2 h3 h4]
    unfold BackupFileIfNecessary.backupIfEdited
    simp only [not_or] at h
    obtain ⟨hs, hv⟩ := h
    simp only [bVerifyFails, s, Installed, FileSize] at hv
    simp only [bFileSizeDiffers, s, Installed, not_and_or, not_not, FileSize] at hs
    rcases hs with hs | hs <;>
      simp [hs, hv, FileSize, Event.isMove]
  · intro ho
    rw [BackupFileIfNecessary_of_pass env job Filename true w h1 h2 h3 h4]
    unfold BackupFileIfNecessary.backupIfEdited
    refine ⟨Logf env "BuildPatchServices: Backing up"
      (BackupFileIfNecessary.queried env job Filename w), by simp [Logf], ?_⟩
    cases hc : job.CurrentBuildManifest with
    | none => simp [Installed, Backup]
    | some cur => simp [ho cur hc, Installed, Backup]

/-- C9 amended, at a concrete input: an outdated `fileA` is installed unchanged (size and content
of the old manifest entry verify); the call made before the move of a staged file
(`bDiscoveredByVerification = false`) moves nothing and returns true. -/
theorem C9_witness :
    (BackupFileIfNecessary (backupEnv true) updateJob "fileA" false
      (sampleWorld installedDisk)).1 = true ∧
    (BackupFileIfNecessary (backupEnv true) updateJob "fileA" false
      (sampleWorld installedDisk)).2.disk = installedDisk :=
  ⟨((C9_rule6_amended (backupEnv true) updateJob "fileA" (sampleWorld installedDisk)
      (by decide) (by decide) (by decide) (by decide)).2.1 (by decide)).1,
   ((C9_rule6_amended (backupEnv true) updateJob "fileA" (sampleWorld installedDisk)
      (by decide) (by decide) (by decide) (by decide)).2.1 (by decide)).2.1⟩


/-! ## RunInstallation with the resume marker present -/

/-- C5: if the marker file exists when `RunInstallation` starts, then for every job and every
corrupt-file list it returns true; the external calls it makes are exactly the two directory
creations, the counter reset, the inventory purge, the marker query and two log lines, so neither
the downloader nor the chunk cache nor the file constructor is created; and it leaves the
progress of Initializing, Resuming, Downloading, Installing and MovingToInstall at 1, the weights
of Downloading, Installing and MovingToInstall at 0 and the weight of BuildVerification at 1. -/
theorem C5_resume_marker_skips_installation (env : Env) (job : Job) (CorruptFiles : List String)
    (w : World) (h : (w.disk job.PreviousMoveMarker).isSome = true) :
    (RunInstallation env job CorruptFiles w).1 = true ∧
    (RunInstallation env job CorruptFiles w).2.trace =
      w.trace ++
        [Event.Log "BuildPatchServices: Starting Installation",
          Event.MakeDirectory (env.NormalizeDirectoryName w.DataStagingDir),
          Event.MakeDirectory (env.NormalizeDirectoryName w.InstallStagingDir),
          Event.ResetCounters,
          Event.PurgeFileDataInventory,
          Event.FileExists job.PreviousMoveMarker,
          Event.Log "BuildPatchServices: Detected previous staging completed"] ∧
    (∀ s ∈ [EBuildPatchProgress.Initializing, EBuildPatchProgress.Resuming,
        EBuildPatchProgress.Downloading, EBuildPatchProgress.Installing,
        EBuildPatchProgress.MovingToInstall],
      (RunInstallation env job CorruptFiles w).2.BuildProgress.StateProgressValues s = 1) ∧
    (∀ s ∈ [EBuildPatchProgress.Downloading, EBuildPatchProgress.Installing,
        EBuildPatchProgress.MovingToInstall],
      (RunInstallation env job CorruptFiles w).2.BuildProgress.StateProgressWeights s = 0) ∧
    (RunInstallation env job CorruptFiles w).2.BuildProgress.StateProgressWeights
      EBuildPatchProgress.BuildVerification = 1 := by
  have hm : (RunInstallation env job CorruptFiles w) =
      RunInstallation.skip env
        (FileExists env job.PreviousMoveMarker
          (ext env Event.PurgeFileDataInventory
            (SetStateProgress EBuildPatchProgress.CleanUp 0
              (SetStateProgress EBuildPatchProgress.Initializing (1 / 100)
                (let w5 := ext env Event.ResetCounters
                    (ErrorReset
                      (ext env (Event.MakeDirectory (env.NormalizeDirectoryName w.InstallStagingDir))
                        (ext env (Event.MakeDirectory (env.NormalizeDirectoryName w.DataStagingDir))
                          { Logf env "BuildPatchServices: Starting Installation" w with
                            DataStagingDir := env.NormalizeDirectoryName w.DataStagingDir
                            InstallStagingDir := env.NormalizeDirectoryName w.InstallStagingDir })))
                 { w5 with BuildProgress := env.ProgressReset w5.BuildProgress }))))).2 := by
    simp [RunInstallation, FileExists, Logf, SetStateProgress, ErrorReset, h]
  rw [hm]
  simp [RunInstallation.skip, FileExists, Logf, SetStateProgress, SetStateWeight, ErrorReset]

/-- C5 at a concrete input: the marker `I/$movedMarker` is on disk, a corrupt-file list is passed
in; `RunInstallation` returns true and issues no call after the marker query but a log line. -/
theorem C5_witness :
    (RunInstallation (sampleEnv []) sampleJob ["fileA"]
      (sampleWorld (fun p => if p = "I/$movedMarker" then some ⟨0, 0⟩ else none))).1 = true ∧
    (RunInstallation (sampleEnv []) sampleJob ["fileA"]
      (sampleWorld (fun p => if p = "I/$movedMarker" then some ⟨0, 0⟩ else none))).2.trace =
      [Event.Log "BuildPatchServices: Starting Installation",
        Event.MakeDirectory "S/PatchData",
        Event.MakeDirectory "S/Install",
        Event.ResetCounters,
        Event.PurgeFileDataInventory,
        Event.FileExists "I/$movedMarker",
        Event.Log "BuildPatchServices: Detected previous staging completed"] :=
  ⟨(C5_resume_marker_skips_installation (sampleEnv []) sampleJob ["fileA"]
      (sampleWorld (fun p => if p = "I/$movedMarker" then some ⟨0, 0⟩ else none))
      (by decide)).1,
   (C5_resume_marker_skips_installation (sampleEnv []) sampleJob ["fileA"]
      (sampleWorld (fun p => if p = "I/$movedMarker" then some ⟨0, 0⟩ else none))
      (by decide)).2.1⟩


/-! ## The average download speed -/

theorem intervalUnion_eq_iUnion (l : List FBuildPatchDownloadRecord) :
    intervalUnion l = ⋃ r ∈ l, Set.Icc (r.StartTime : ℝ) (r.EndTime : ℝ) := by
  induction l with
  | nil => simp [intervalUnion]
  | cons a l ih =>
    ext x
    simp [intervalUnion, ih]

theorem intervalUnion_perm {l₁ l₂ : List FBuildPatchDownloadRecord} (h : l₁.Perm l₂) :
    intervalUnion l₁ = intervalUnion l₂ := by
  rw [intervalUnion_eq_iUnion, intervalUnion_eq_iUnion]
  ext x
  simp only [Set.mem_iUnion, exists_prop]
  exact ⟨fun ⟨r, hr, hx⟩ => ⟨r, h.mem_iff.mp hr, hx⟩, fun ⟨r, hr, hx⟩ => ⟨r, h.mem_iff.mpr hr, hx⟩⟩

/-- One record more keeps the invariant of the sweep. -/
theorem SweepInv.step {U : Set ℝ} {acc : DownloadTotals} {S : ℚ} (h : SweepInv U acc S)
    (r : FBuildPatchDownloadRecord) (hS : S ≤ r.StartTime) (hr : r.StartTime ≤ r.EndTime) :
    ∃ S', S' ≤ r.StartTime ∧
      SweepInv (U ∪ Set.Icc (r.StartTime : ℝ) (r.EndTime : ℝ)) (ExactTotals.step acc r) S' := by
  have hSr : (S : ℝ) ≤ r.StartTime := by exact_mod_cast hS
  have hrr : (r.StartTime : ℝ) ≤ r.EndTime := by exact_mod_cast hr
  by_cases h1 : acc.RecoredEndTime < r.EndTime
  · have h1r : (acc.RecoredEndTime : ℝ) < r.EndTime := by exact_mod_cast h1
    by_cases h2 : r.StartTime > acc.RecoredEndTime
    · -- a break in downloading: the new interval is disjoint from what was seen
      have h2r : (acc.RecoredEndTime : ℝ) < r.StartTime := by exact_mod_cast h2
      refine ⟨r.StartTime, le_refl _, ?_, ?_, ?_, ?_⟩
      · have hd : Disjoint U (Set.Icc (r.StartTime : ℝ) (r.EndTime : ℝ)) := by
          rw [Set.disjoint_left]
          intro x hx hx'
          have := h.below hx
          simp only [Set.mem_Iic] at this
          exact absurd (lt_of_lt_of_le h2r hx'.1) (not_lt.mpr this)
        rw [MeasureTheory.measure_union hd measurableSet_Icc, h.vol, Real.volume_Icc,
          ← ENNReal.ofReal_add (by exact_mod_cast h.nonneg) (by linarith)]
        simp [ExactTotals.step, h1, h2]
      · simp only [ExactTotals.step, h1, h2, if_true]
        have := h.nonneg
        linarith
      · intro x hx
        simp only [ExactTotals.step, h1, if_true, Set.mem_Iic]
        rcases hx with hx | hx
        · have := h.below hx
          simp only [Set.mem_Iic] at this
          linarith
        · exact hx.2
      · intro x hx
        simp only [ExactTotals.step, h1, if_true] at hx
        exact Or.inr hx
    · -- an overlap: only the stretch after the recorded end time is new
      have h2r : (r.StartTime : ℝ) ≤ acc.RecoredEndTime := by exact_mod_cast not_lt.mp h2
      have hU : U ∪ Set.Icc (r.StartTime : ℝ) (r.EndTime : ℝ) =
          U ∪ Set.Ioc (acc.RecoredEndTime : ℝ) (r.EndTime : ℝ) := by
        ext x
        simp only [Set.mem_union, Set.mem_Icc, Set.mem_Ioc]
        constructor
        · rintro (hx | hx)
          · exact Or.inl hx
          · by_cases hxR : x ≤ acc.RecoredEndTime
            · exact Or.inl (h.cover ⟨le_trans hSr hx.1, hxR⟩)
            · exact Or.inr ⟨not_le.mp hxR, hx.2⟩
        · rintro (hx | hx)
          · exact Or.inl hx
          · exact Or.inr ⟨le_trans h2r (le_of_lt hx.1), hx.2⟩
      refine ⟨S, hS, ?_, ?_, ?_, ?_⟩
      · have hd : Disjoint U (Set.Ioc (acc.RecoredEndTime : ℝ) (r.EndTime : ℝ)) := by
          rw [Set.disjoint_left]
          intro x hx hx'
          have := h.below hx
          simp only [Set.mem_Iic] at this
          exact absurd hx'.1 (not_lt.mpr this)
        rw [hU, MeasureTheory.measure_union hd measurableSet_Ioc, h.vol, Real.volume_Ioc,
          ← ENNReal.ofReal_add (by exact_mod_cast h.nonneg) (by linarith)]
        simp [ExactTotals.step, h1, h2]
      · simp only [ExactTotals.step, h1, h2, if_true, if_false]
        have := h.nonneg
        linarith
      · intro x hx
        simp only [ExactTotals.step, h1, if_true, Set.mem_Iic]
        rcases hx with hx | hx
        · have := h.below hx
          simp only [Set.mem_Iic] at this
          linarith
        · exact hx.2
      · intro x hx
        simp only [ExactTotals.step, h1, if_true] at hx
        by_cases hxR : x ≤ acc.RecoredEndTime
        · exact Or.inl (h.cover ⟨hx.1, hxR⟩)
        · exact Or.inr ⟨le_trans h2r (le_of_lt (not_le.mp hxR)), hx.2⟩
  · -- nothing to count: the interval lies inside what was seen
    have h1r : (r.EndTime : ℝ) ≤ acc.RecoredEndTime := by exact_mod_cast not_lt.mp h1
    have hU : U ∪ Set.Icc (r.StartTime : ℝ) (r.EndTime : ℝ) = U := by
      apply Set.union_eq_self_of_subset_right
      intro x hx
      exact h.cover ⟨le_trans hSr hx.1, le_trans hx.2 h1r⟩
    refine ⟨S, hS, ?_, ?_, ?_, ?_⟩
    · rw [hU, h.vol]; simp [ExactTotals.step, h1]
    · simpa [ExactTotals.step, h1] using h.nonneg
    · rw [hU]; simpa [ExactTotals.step, h1] using h.below
    · rw [hU]; simpa [ExactTotals.step, h1] using h.cover

/-- The sweep over records sorted by start time keeps the invariant. -/
theorem SweepInv.foldl (rest : List FBuildPatchDownloadRecord) :
    ∀ (U : Set ℝ) (acc : DownloadTotals) (S : ℚ), SweepInv U acc S →
      (∀ r ∈ rest, S ≤ r.StartTime) → (∀ r ∈ rest, r.StartTime ≤ r.EndTime) →
      rest.Pairwise (fun a b => a.StartTime ≤ b.StartTime) →
      ∃ S', SweepInv (U ∪ intervalUnion rest) (rest.foldl ExactTotals.step acc) S' := by
  induction rest with
  | nil => intro U acc S h _ _ _; exact ⟨S, by simpa [intervalUnion] using h⟩
  | cons r rest ih =>
    intro U acc S h hS hr hp
    obtain ⟨S', hS', h'⟩ := h.step r (hS r (List.mem_cons_self _ _)) (hr r (List.mem_cons_self _ _))
    obtain ⟨S'', h''⟩ := ih _ _ S' h'
      (fun x hx => le_trans hS' (List.rel_of_pairwise_cons hp hx))
      (fun x hx => hr x (List.mem_cons_of_mem _ hx)) (List.Pairwise.of_cons hp)
    exact ⟨S'', by simpa [intervalUnion, Set.union_assoc] using h''⟩

/-- The bytes accumulated by the sweep are the bytes at its start plus all record sizes. -/
theorem foldl_TotalDownloadedBytes (rest : List FBuildPatchDownloadRecord) :
    ∀ acc : DownloadTotals, (rest.foldl ExactTotals.step acc).TotalDownloadedBytes =
      acc.TotalDownloadedBytes + (rest.map (fun r => r.DownloadSize)).sum := by
  induction rest with
  | nil => intro acc; simp
  | cons r rest ih =>
    intro acc
    rw [List.foldl_cons, ih]
    simp only [ExactTotals.step, List.map_cons, List.sum_cons]
    split <;> ring

/-- The sweep is right on every list that is sorted by start time. -/
theorem ExactTotals.ofSorted_sorted (l : List FBuildPatchDownloadRecord) (hne : l ≠ [])
    (hr : ∀ r ∈ l, r.StartTime ≤ r.EndTime)
    (hs : l.Pairwise (fun a b => a.StartTime ≤ b.StartTime)) :
    MeasureTheory.volume (intervalUnion l) =
        ENNReal.ofReal ((ExactTotals.ofSorted l).TotalTimeDownloading : ℝ) ∧
      0 ≤ (ExactTotals.ofSorted l).TotalTimeDownloading ∧
      (ExactTotals.ofSorted l).TotalDownloadedBytes =
        (l.map (fun r => r.DownloadSize)).sum := by
  cases l with
  | nil => exact absurd rfl hne
  | cons first rest =>
    have hf : first.StartTime ≤ first.EndTime := hr first (List.mem_cons_self _ _)
    have hfr : (first.StartTime : ℝ) ≤ first.EndTime := by exact_mod_cast hf
    have h0 : SweepInv (Set.Icc (first.StartTime : ℝ) (first.EndTime : ℝ))
        ⟨first.DownloadSize, first.EndTime - first.StartTime, first.EndTime⟩ first.StartTime :=
      ⟨by rw [Real.volume_Icc]; push_cast; rfl, by simpa using hf,
        fun x hx => hx.2, fun x hx => hx⟩
    obtain ⟨S', h'⟩ := SweepInv.foldl rest _ _ _ h0
      (fun x hx => List.rel_of_pairwise_cons hs hx)
      (fun x hx => hr x (List.mem_cons_of_mem _ hx)) (List.Pairwise.of_cons hs)
    refine ⟨by simpa [intervalUnion, ExactTotals.ofSorted] using h'.vol,
      by simpa [ExactTotals.ofSorted] using h'.nonneg, ?_⟩
    simp [ExactTotals.ofSorted, foldl_TotalDownloadedBytes]

theorem SortDownloadRecords_perm (l : List FBuildPatchDownloadRecord) :
    (SortDownloadRecords l).Perm l :=
  List.perm_insertionSort _ l

theorem SortDownloadRecords_sorted (l : List FBuildPatchDownloadRecord) :
    (SortDownloadRecords l).Pairwise (fun a b => a.StartTime ≤ b.StartTime) := by
  haveI : IsTotal FBuildPatchDownloadRecord (fun a b => a.StartTime ≤ b.StartTime) :=
    ⟨fun a b => le_total a.StartTime b.StartTime⟩
  haveI : IsTrans FBuildPatchDownloadRecord (fun a b => a.StartTime ≤ b.StartTime) :=
    ⟨fun a b c hab hbc => le_trans hab hbc⟩
  exact List.sorted_insertionSort _ l

/-- The calculation of the download totals without rounding is right on every non-empty list of
records with `StartTime ≤ EndTime`. -/
theorem ExactTotals.calculate_spec (l : List FBuildPatchDownloadRecord) (hne : l ≠ [])
    (hr : ∀ r ∈ l, r.StartTime ≤ r.EndTime) :
    ((ExactTotals.calculate l).TotalTimeDownloading : ℝ) =
        (MeasureTheory.volume
          (⋃ r ∈ l, Set.Icc (r.StartTime : ℝ) (r.EndTime : ℝ))).toReal ∧
      (ExactTotals.calculate l).TotalDownloadedBytes = (l.map (fun r => r.DownloadSize)).sum ∧
      0 ≤ (ExactTotals.calculate l).TotalTimeDownloading := by
  have hp := SortDownloadRecords_perm l
  have hne' : SortDownloadRecords l ≠ [] := fun h => hne (by simpa [h] using hp.symm)
  obtain ⟨hv, h0, hb⟩ := ExactTotals.ofSorted_sorted (SortDownloadRecords l) hne'
    (fun r hr' => hr r (hp.mem_iff.mp hr')) (SortDownloadRecords_sorted l)
  refine ⟨?_, ?_, h0⟩
  · rw [← intervalUnion_eq_iUnion, ← intervalUnion_perm hp, hv,
      ENNReal.toReal_ofReal (by exact_mod_cast h0)]
    rfl
  · rw [ExactTotals.calculate, hb]
    exact (hp.map _).sum_eq

/-- The statistics that the end of `RunInstallation` stores are the totals of the calculation. -/
theorem RunInstallation.recordStats_BuildStats (env : Env) (job : Job)
    (l : List FBuildPatchDownloadRecord) (w : World) :
    (RunInstallation.recordStats env job l w).2.BuildStats.TheoreticalDownloadTime =
        (CalculateDownloadTotals l).TotalTimeDownloading ∧
      (RunInstallation.recordStats env job l w).2.BuildStats.TotalDownloadedData =
        (CalculateDownloadTotals l).TotalDownloadedBytes ∧
      (RunInstallation.recordStats env job l w).2.BuildStats.AverageDownloadSpeed =
        AverageDownloadSpeed (CalculateDownloadTotals l) := by
  unfold RunInstallation.recordStats
  simp only [Logf, ext_BuildStats]
  split <;> simp [SetDownloadSpeed]


/-! ## Properties of the error state that external calls keep -/

@[simp]
theorem SetStateProgress_ErrorState (s : EBuildPatchProgress) (v : ℚ) (w : World) :
    (SetStateProgress s v w).ErrorState = w.ErrorState := rfl

@[simp]
theorem SetStateProgress_trace (s : EBuildPatchProgress) (v : ℚ) (w : World) :
    (SetStateProgress s v w).trace = w.trace := rfl

@[simp]
theorem SetStateProgress_disk (s : EBuildPatchProgress) (v : ℚ) (w : World) :
    (SetStateProgress s v w).disk = w.disk := rfl

@[simp]
theorem FileExists_ErrorState (env : Env) (p : String) (w : World) :
    (FileExists env p w).2.ErrorState = (ext env (Event.FileExists p) w).ErrorState := rfl

@[simp]
theorem FileSize_ErrorState (env : Env) (p : String) (w : World) :
    (FileSize env p w).2.ErrorState = (ext env (Event.FileSize p) w).ErrorState := rfl

@[simp]
theorem Move_ErrorState (env : Env) (d s : String) (w : World) :
    (Move env d s w).2.ErrorState = (ext env (Event.Move d s) w).ErrorState := by
  unfold Move; dsimp only; split <;> rfl

@[simp]
theorem Copy_ErrorState (env : Env) (d s : String) (w : World) :
    (Copy env d s w).2.ErrorState = (ext env (Event.Copy d s) w).ErrorState := by
  unfold Copy; dsimp only; split <;> rfl

@[simp]
theorem Delete_ErrorState (env : Env) (p : String) (w : World) :
    (Delete env p w).2.ErrorState = (ext env (Event.Delete p) w).ErrorState := by
  unfold Delete; dsimp only; split <;> rfl

@[simp]
theorem DeleteDirectory_ErrorState (env : Env) (p : String) (w : World) :
    (DeleteDirectory env p w).2.ErrorState = (ext env (Event.DeleteDirectory p) w).ErrorState := by
  unfold DeleteDirectory; dsimp only; split <;> rfl

/-- An external call keeps "the error state is not `err`" when the environment never raises
`err`. -/
theorem ext_keeps_ne (env : Env) (err : EBuildPatchInstallError)
    (hr : ∀ x, env.Raise x ≠ some err) (e : Event) (w : World) (h : w.ErrorState ≠ err) :
    (ext env e w).ErrorState ≠ err := by
  unfold ext SetFatalError
  dsimp only
  split
  · rename_i err' hraise
    split
    · exact h
    · intro hc
      exact hr _ (hraise.trans (congrArg some hc))
  · exact h

section Keeps

variable (env : Env) (P : EBuildPatchInstallError → Prop)
  (hk : ∀ (e : Event) (w : World), P w.ErrorState → P (ext env e w).ErrorState)

include hk

theorem SetupFileAttributes_keeps (FilePath : String) (f : FFileManifestData) (w : World)
    (h : P w.ErrorState) : P (SetupFileAttributes env FilePath f w).ErrorState := by
  unfold SetupFileAttributes SetReadOnly SetFileCompressionFlag SetExecutableFlag Logf
  dsimp only
  split <;> [split; skip] <;> split <;> repeat (first | exact h | apply hk)

theorem applyLoop_keeps (job : Job) (bForce : Bool) :
    ∀ (l : List FFileManifestData) (w : World), P w.ErrorState →
      P (RunFileAttributes.applyLoop env job bForce l w).ErrorState := by
  intro l
  induction l with
  | nil => intro w h; exact h
  | cons f rest ih =>
    intro w h
    unfold RunFileAttributes.applyLoop
    split
    · exact h
    · dsimp only
      split
      · exact ih _ (SetupFileAttributes_keeps env P hk _ _ _ h)
      · exact ih _ h

theorem removedLoop_keeps (job : Job) :
    ∀ (l : List FFileManifestData) (w : World), P w.ErrorState →
      P (RunFileAttributes.removedLoop env job l w).ErrorState := by
  intro l
  induction l with
  | nil => intro w h; exact h
  | cons f rest ih =>
    intro w h
    unfold RunFileAttributes.removedLoop
    split
    · exact h
    · dsimp only
      apply ih
      split
      · split
        · exact SetupFileAttributes_keeps env P hk _ _ _ h
        · exact h
      · exact h

theorem RunFileAttributes_keeps (job : Job) (bForce : Bool) (w : World) (h : P w.ErrorState) :
    P (RunFileAttributes env job bForce w).2.ErrorState := by
  unfold RunFileAttributes
  dsimp only
  split
  · exact removedLoop_keeps env P hk job _ _ (applyLoop_keeps env P hk job bForce _ w h)
  · exact applyLoop_keeps env P hk job bForce _ w h

theorem backupIfEdited_keeps (job : Job) (Filename : String) (b : Bool) (w : World)
    (h : P w.ErrorState) :
    P (BackupFileIfNecessary.backupIfEdited env job Filename b w).2.ErrorState := by
  unfold BackupFileIfNecessary.backupIfEdited
  dsimp only
  repeat' (first
    | exact h
    | rw [Move_ErrorState]
    | rw [FileSize_ErrorState]
    | unfold Logf
    | apply hk
    | split)

theorem BackupFileIfNecessary_keeps (job : Job) (Filename : String) (b : Bool) (w : World)
    (h : P w.ErrorState) : P (BackupFileIfNecessary env job Filename b w).2.ErrorState := by
  unfold BackupFileIfNecessary
  dsimp only
  repeat' (first
    | exact h
    | rw [FileExists_ErrorState]
    | apply hk
    | apply backupIfEdited_keeps env P hk
    | split)

theorem cleanLoop_keeps (job : Job) :
    ∀ (l : List String) (w : World), P w.ErrorState →
      P (RunVerification.cleanLoop env job l w).ErrorState := by
  intro l
  induction l with
  | nil => intro w h; exact h
  | cons f rest ih =>
    intro w h
    unfold RunVerification.cleanLoop
    dsimp only
    apply ih
    rw [Delete_ErrorState]; apply hk
    rw [Delete_ErrorState]; apply hk
    exact BackupFileIfNecessary_keeps env P hk job f true w h

theorem RunVerification_verify_keeps (hv : P EBuildPatchInstallError.BuildVerifyFail) (job : Job)
    (CorruptFiles : List String) (w : World) (h : P w.ErrorState) :
    P (RunVerification.verify env job CorruptFiles w).2.2.ErrorState := by
  have hs : ∀ (log : String) (w : World), P w.ErrorState →
      P (SetFatalError EBuildPatchInstallError.BuildVerifyFail log w).ErrorState := by
    intro log w h
    unfold SetFatalError
    split
    · exact h
    · exact hv
  unfold RunVerification.verify Logf
  dsimp only
  split
  · exact hs _ _ (hk _ _ (hk _ _ h))
  · exact hk _ _ (hk _ _ h)

theorem RunVerification_keeps (hv : P EBuildPatchInstallError.BuildVerifyFail) (job : Job)
    (CorruptFiles : List String) (w : World) (h : P w.ErrorState) :
    P (RunVerification env job CorruptFiles w).2.2.ErrorState := by
  have h1 := RunVerification_verify_keeps env P hk hv job CorruptFiles w h
  unfold RunVerification Logf
  dsimp only
  apply hk
  split
  · exact cleanLoop_keeps env P hk job _ _ h1
  · exact h1

end Keeps

theorem RunFileAttributes_fst (env : Env) (job : Job) (bForce : Bool) (w : World) :
    (RunFileAttributes env job bForce w).1 = true := rfl

/-- When `RunBackupAndMove` returns true, no fatal error was recorded when it made its last
test; whatever the error state is on return was raised during the final log line. -/
theorem RunBackupAndMove_true (env : Env) (job : Job) (w : World)
    (h : (RunBackupAndMove env job w).1 = true) :
    ∃ w1, w1.ErrorState = EBuildPatchInstallError.NoError ∧
      (RunBackupAndMove env job w).2 =
        Logf env "BuildPatchServices: Relocation complete" w1 := by
  unfold RunBackupAndMove at h ⊢
  dsimp only at h ⊢
  split at h
  · unfold RunBackupAndMove.relocate at h ⊢
    dsimp only at h ⊢
    split at h
    · rename_i hb hm
      rw [if_pos hb, if_pos hm]
      refine ⟨_, ?_, rfl⟩
      simp only [Bool.and_eq_true, beq_iff_eq] at hm
      have := hm.2
      simp only [HasFatalError, bne_eq_false_iff_eq] at this
      simpa using this
    · exact absurd h (by simp)
  · exact absurd h (by simp)


/-! ## The retry loop of `Run` -/

@[simp]
theorem ext_bSuccess (env : Env) (e : Event) (w : World) : (ext env e w).bSuccess = w.bSuccess := by
  unfold ext SetFatalError; dsimp only; split <;> [split; skip] <;> rfl

/-- The record that a pass through the retry loop appends to the history. -/
theorem Run.attempt_record (env : Env) (job : Job) (pre : Bool) (k : Int) (s : RunState) :
    ∃ rec, (Run.attempt env job pre k s).Attempts = s.Attempts ++ [rec] ∧
      rec.CorruptFilesIn = s.CorruptFiles ∧
      rec.CorruptFilesOut = (Run.attempt env job pre k s).CorruptFiles ∧
      rec.bProcessSuccess = (Run.attempt env job pre k s).bProcessSuccess ∧
      rec.bCanRetry = (Run.attempt env job pre k s).bCanRetry ∧
      rec.bCanRetry = (decide (k > 0) &&
        !(rec.ErrorAtRetryDecision == EBuildPatchInstallError.UserCanceled) &&
        !env.IsNoRetryError rec.ErrorAtRetryDecision) :=
  ⟨_, rfl, rfl, rfl, rfl, rfl, rfl⟩

/-- The retry loop only appends to the history. -/
theorem Run.loop_appends (env : Env) (job : Job) (pre : Bool) :
    ∀ (n : Nat) (s : RunState), ∃ recs, recs ≠ [] ∧
      (Run.loop env job pre n s).Attempts = s.Attempts ++ recs := by
  intro n
  induction n with
  | zero =>
    intro s
    obtain ⟨rec, h, _⟩ := Run.attempt_record env job pre (-1) s
    exact ⟨[rec], by simp, h⟩
  | succ n ih =>
    intro s
    obtain ⟨rec, h, _⟩ := Run.attempt_record env job pre n s
    unfold Run.loop
    dsimp only
    split
    · obtain ⟨recs, _, h'⟩ := ih (Run.attempt env job pre n s)
      exact ⟨rec :: recs, by simp, by rw [h', h]; simp⟩
    · exact ⟨[rec], by simp, h⟩

/-- A property of the record of every single pass holds for every record of the history. -/
theorem Run.loop_forall (env : Env) (job : Job) (pre : Bool) (P : AttemptRecord → Prop)
    (hP : ∀ k s rec, (Run.attempt env job pre k s).Attempts = s.Attempts ++ [rec] → P rec) :
    ∀ (n : Nat) (s : RunState), (∀ a ∈ s.Attempts, P a) →
      ∀ a ∈ (Run.loop env job pre n s).Attempts, P a := by
  have step : ∀ k s, (∀ a ∈ s.Attempts, P a) →
      ∀ a ∈ (Run.attempt env job pre k s).Attempts, P a := by
    intro k s hs a ha
    obtain ⟨rec, h, _⟩ := Run.attempt_record env job pre k s
    rw [h] at ha
    rcases List.mem_append.mp ha with ha | ha
    · exact hs a ha
    · rw [List.mem_singleton] at ha
      exact ha ▸ hP k s rec h
  intro n
  induction n with
  | zero => intro s hs; exact step _ s hs
  | succ n ih =>
    intro s hs
    unfold Run.loop
    dsimp only
    split
    · exact ih _ (step _ s hs)
    · exact step _ s hs

/-- The state in which `Run` enters its retry loop. -/
theorem Run.eq_finish (env : Env) (job : Job) (w : World) :
    Run env job w =
      Run.finish env job (env.Seconds (Run.prepare env job w))
        (Run.loop env job (Run.bInstallPrereqs job) 5
          { bProcessSuccess := false, bCanRetry := true, CorruptFiles := [], CleanUpTime := 0,
            Attempts := [], world := Run.prepare env job w }) := rfl

@[simp]
theorem Run.finish_Attempts (env : Env) (job : Job) (t : ℚ) (s : RunState) :
    (Run.finish env job t s).Attempts = s.Attempts := rfl

/-- The result of `Run` after a retry loop that ended in failure. -/
theorem Run.finish_of_failure (env : Env) (job : Job) (t : ℚ) (s : RunState)
    (h : s.bProcessSuccess = false) :
    (Run.finish env job t s).ReturnCode = 1 ∧
      (Run.finish env job t s).world.BuildStats.ProcessSuccess = false ∧
      (Run.finish env job t s).bRunPrereqInstaller = none := by
  simp [Run.finish, h, SetRunning, Logf]

/-- The result of `Run` after a retry loop that ended in success with no prerequisites to
install. -/
theorem Run.finish_of_success (env : Env) (job : Job) (t : ℚ) (s : RunState)
    (h : s.bProcessSuccess = true) (hp : Run.bInstallPrereqs job = false) :
    (Run.finish env job t s).ReturnCode = 0 ∧
      (Run.finish env job t s).world.BuildStats.ProcessSuccess = true ∧
      (Run.finish env job t s).bRunPrereqInstaller = none := by
  simp [Run.finish, h, hp, SetRunning, Logf]

/-- When every pass fails with an error that allows a retry, the loop uses its whole budget. -/
theorem Run.loop_exhausts (env : Env) (job : Job) (pre : Bool) (err : EBuildPatchInstallError)
    (hc : err ≠ EBuildPatchInstallError.UserCanceled) (hn : env.IsNoRetryError err = false) :
    ∀ (n : Nat) (s : RunState) (recs : List AttemptRecord),
      (Run.loop env job pre n s).Attempts = s.Attempts ++ recs →
      (∀ a ∈ recs, a.ErrorAtRetryDecision = err ∧ a.bProcessSuccess = false) →
      recs.length = max n 1 ∧ (Run.loop env job pre n s).bProcessSuccess = false := by
  intro n
  induction n with
  | zero =>
    intro s recs h hb
    obtain ⟨rec, h1, _, _, h2, _⟩ := Run.attempt_record env job pre (-1) s
    have hr : recs = [rec] := by
      have : s.Attempts ++ recs = s.Attempts ++ [rec] := by rw [← h, ← h1]; rfl
      exact List.append_cancel_left this
    subst hr
    refine ⟨rfl, ?_⟩
    show (Run.attempt env job pre (-1) s).bProcessSuccess = false
    rw [← h2]
    exact (hb rec (List.mem_singleton_self _)).2
  | succ n ih =>
    intro s recs h hb
    obtain ⟨rec, h1, _, _, h2, h3, h4⟩ := Run.attempt_record env job pre n s
    unfold Run.loop at h ⊢
    dsimp only at h ⊢
    split at h
    · rename_i hcond
      rw [if_pos hcond]
      obtain ⟨recs', _, h'⟩ := Run.loop_appends env job pre n (Run.attempt env job pre n s)
      have hr : recs = rec :: recs' := by
        have : s.Attempts ++ recs = s.Attempts ++ (rec :: recs') := by
          rw [← h, h', h1]; simp
        exact List.append_cancel_left this
      subst hr
      obtain ⟨hl, hf⟩ := ih (Run.attempt env job pre n s) recs' h'
        (fun a ha => hb a (List.mem_cons_of_mem _ ha))
      refine ⟨?_, hf⟩
      have hretry : (Run.attempt env job pre n s).bCanRetry = true := by
        simp only [Bool.and_eq_true] at hcond
        exact hcond.2
      rw [← h3, h4] at hretry
      simp only [Bool.and_eq_true, decide_eq_true_eq] at hretry
      have hpos : 0 < n := by exact_mod_cast hretry.1.1
      rw [List.length_cons, hl]
      omega
    · rename_i hcond
      rw [if_neg hcond]
      have hr : recs = [rec] := by
        have : s.Attempts ++ recs = s.Attempts ++ [rec] := by rw [← h, h1]
        exact List.append_cancel_left this
      subst hr
      obtain ⟨he, hf⟩ := hb rec (List.mem_singleton_self _)
      have hf' : (Run.attempt env job pre n s).bProcessSuccess = false := by rw [← h2]; exact hf
      refine ⟨?_, hf'⟩
      have hno : (Run.attempt env job pre n s).bCanRetry = false := by
        simpa [hf'] using hcond
      rw [← h3, h4, he, hn] at hno
      have hne : (err == EBuildPatchInstallError.UserCanceled) = false := by simpa using hc
      simp only [hne, Bool.not_false, Bool.and_true, decide_eq_false_iff_not, not_lt] at hno
      have : n = 0 := by
        have : (n : Int) ≤ 0 := hno
        omega
      subst this
      rfl

/-- An attempt that ends with the error state `MoveFileToInstall` has failed, when that error is
raised by `RunBackupAndMove` only. -/
theorem Run.attempt_of_move_failure (env : Env)
    (hr : ∀ x, env.Raise x ≠ some EBuildPatchInstallError.MoveFileToInstall) (job : Job)
    (pre : Bool) (k : Int) (s : RunState) (rec : AttemptRecord)
    (h : (Run.attempt env job pre k s).Attempts = s.Attempts ++ [rec]) :
    rec.ErrorAtRetryDecision = EBuildPatchInstallError.MoveFileToInstall →
      rec.bProcessSuccess = false := by
  have h' : s.Attempts ++ [rec] = s.Attempts ++ [_] := h.symm.trans rfl
  have hr' := List.append_cancel_left h'
  simp only [List.cons.injEq, and_true] at hr'
  subst hr'
  dsimp only
  have hk := ext_keeps_ne env EBuildPatchInstallError.MoveFileToInstall hr
  cases hi : (RunInstallation env job s.CorruptFiles s.world).1
  · simp
  · simp only [if_true]
    cases hm : (RunBackupAndMove env job
      (SetStateProgress EBuildPatchProgress.Installing 1
        (SetStateProgress EBuildPatchProgress.Downloading 1
          (SetStateProgress EBuildPatchProgress.PrerequisitesInstall (if pre = true then 0 else 1)
            (RunInstallation env job s.CorruptFiles s.world).2)))).1
    · simp
    · obtain ⟨w1, hw1, hw⟩ := RunBackupAndMove_true env job _ hm
      simp only [if_true, RunFileAttributes_fst, SetStateProgress_ErrorState,
        DeleteDirectory_ErrorState, Logf]
      intro he
      exfalso
      revert he
      apply hk
      apply hk
      refine RunVerification_keeps env
        (fun e => e ≠ EBuildPatchInstallError.MoveFileToInstall) hk (by decide) job _ _ ?_
      rw [SetStateProgress_ErrorState]
      refine RunFileAttributes_keeps env
        (fun e => e ≠ EBuildPatchInstallError.MoveFileToInstall) hk job _ _ ?_
      rw [hw]
      apply hk
      rw [hw1]
      decide

/-- C1: the retry budget of `Run`.  For every job in which each attempt ends with the fatal error
`MoveFileToInstall` (raised by `RunBackupAndMove`, not by another thread), an error that is not
'cancelled' and that the environment does not classify as 'no-retry', the retry loop makes
exactly 5 attempts (`RunInstallation` is invoked once per attempt), and `Run` finishes with
`ProcessSuccess = false` and return code 1. -/
theorem C1_move_failure_exhausts_budget (env : Env) (job : Job) (w : World)
    (hn : env.IsNoRetryError EBuildPatchInstallError.MoveFileToInstall = false)
    (hr : ∀ x, env.Raise x ≠ some EBuildPatchInstallError.MoveFileToInstall)
    (h : ∀ a ∈ (Run env job w).Attempts,
      a.ErrorAtRetryDecision = EBuildPatchInstallError.MoveFileToInstall) :
    (Run env job w).Attempts.length = 5 ∧
      (Run env job w).world.BuildStats.ProcessSuccess = false ∧
      (Run env job w).ReturnCode = 1 := by
  rw [Run.eq_finish] at h ⊢
  rw [Run.finish_Attempts] at h ⊢
  have hfail := Run.loop_forall env job (Run.bInstallPrereqs job) _
    (Run.attempt_of_move_failure env hr job (Run.bInstallPrereqs job)) 5
    { bProcessSuccess := false, bCanRetry := true, CorruptFiles := [], CleanUpTime := 0,
      Attempts := [], world := Run.prepare env job w } (by simp)
  obtain ⟨hl, hf⟩ := Run.loop_exhausts env job (Run.bInstallPrereqs job)
    EBuildPatchInstallError.MoveFileToInstall (by decide) hn 5
    { bProcessSuccess := false, bCanRetry := true, CorruptFiles := [], CleanUpTime := 0,
      Attempts := [], world := Run.prepare env job w } _ (List.nil_append _).symm
    (fun a ha => ⟨h a ha, hfail a ha (h a ha)⟩)
  obtain ⟨h1, h2, _⟩ := Run.finish_of_failure env job
    (env.Seconds (Run.prepare env job w)) _ hf
  exact ⟨hl, h2, h1⟩

set_option maxRecDepth 100000 in
/-- C1 at a concrete input: `fileA` is staged and neither move nor copy into the install
directory ever succeeds; every attempt ends with `MoveFileToInstall`, `Run` makes 5 attempts (the
log line that opens `RunInstallation` is in the trace 5 times) and returns 1. -/
theorem C1_witness :
    (∀ a ∈ (Run failingMoveEnv sampleJob (sampleWorld stagedDisk)).Attempts,
      a.ErrorAtRetryDecision = EBuildPatchInstallError.MoveFileToInstall) ∧
    (Run failingMoveEnv sampleJob (sampleWorld stagedDisk)).world.trace.count
      (Event.Log "BuildPatchServices: Starting Installation") = 5 ∧
    (Run failingMoveEnv sampleJob (sampleWorld stagedDisk)).Attempts.length = 5 ∧
    (Run failingMoveEnv sampleJob (sampleWorld stagedDisk)).world.BuildStats.ProcessSuccess
      = false ∧
    (Run failingMoveEnv sampleJob (sampleWorld stagedDisk)).ReturnCode = 1 :=
  ⟨by decide, by decide,
    C1_move_failure_exhausts_budget failingMoveEnv sampleJob (sampleWorld stagedDisk) rfl
      (fun _ => by simp [failingMoveEnv, sampleEnv]) (by decide)⟩


/-! ## When verification runs -/

/-- What a pass through the retry loop records about verification. -/
theorem Run.attempt_verification (env : Env) (job : Job) (pre : Bool) (k : Int) (s : RunState)
    (rec : AttemptRecord) (h : (Run.attempt env job pre k s).Attempts = s.Attempts ++ [rec]) :
    (rec.bRunVerification.isSome = true ↔
      rec.bRunInstallation = true ∧ rec.bRunBackupAndMove = some true) ∧
    (rec.bRunVerification = none → rec.CorruptFilesOut = []) ∧
    (rec.bRunVerification.isSome = true → ∃ wv,
      rec.bRunVerification = some (RunVerification env job [] wv).1 ∧
        rec.CorruptFilesOut = (RunVerification env job [] wv).2.1) := by
  have h' : s.Attempts ++ [rec] = s.Attempts ++ [_] := h.symm.trans rfl
  have hr := List.append_cancel_left h'
  simp only [List.cons.injEq, and_true] at hr
  subst hr
  dsimp only
  cases hi : (RunInstallation env job s.CorruptFiles s.world).1
  · simp
  · simp only [if_true]
    generalize RunBackupAndMove env job
      (SetStateProgress EBuildPatchProgress.Installing 1
        (SetStateProgress EBuildPatchProgress.Downloading 1
          (SetStateProgress EBuildPatchProgress.PrerequisitesInstall (if pre = true then 0 else 1)
            (RunInstallation env job s.CorruptFiles s.world).2))) = m
    obtain ⟨mb, mw⟩ := m
    cases mb
    · simp
    · simp only [if_true, RunFileAttributes_fst, Option.isSome_some, and_self, true_iff,
        List.take_zero, forall_true_left]
      exact ⟨by simp, by simp, _, rfl, rfl⟩

/-- The corrupt-file list that a pass leaves in the loop variable is the list the next pass hands
to `RunInstallation`. -/
theorem Run.loop_chain (env : Env) (job : Job) (pre : Bool) :
    ∀ (n : Nat) (s : RunState),
      List.Chain' (fun a b => b.CorruptFilesIn = a.CorruptFilesOut) s.Attempts →
      (∀ a ∈ s.Attempts.getLast?, a.CorruptFilesOut = s.CorruptFiles) →
      List.Chain' (fun a b => b.CorruptFilesIn = a.CorruptFilesOut)
        (Run.loop env job pre n s).Attempts := by
  have step : ∀ k s,
      List.Chain' (fun a b : AttemptRecord => b.CorruptFilesIn = a.CorruptFilesOut) s.Attempts →
      (∀ a ∈ s.Attempts.getLast?, a.CorruptFilesOut = s.CorruptFiles) →
      List.Chain' (fun a b : AttemptRecord => b.CorruptFilesIn = a.CorruptFilesOut)
          (Run.attempt env job pre k s).Attempts ∧
        (∀ a ∈ (Run.attempt env job pre k s).Attempts.getLast?,
          a.CorruptFilesOut = (Run.attempt env job pre k s).CorruptFiles) := by
    intro k s hc hl
    obtain ⟨rec, h, hin, hout, _⟩ := Run.attempt_record env job pre k s
    rw [h]
    refine ⟨List.chain'_append.mpr ⟨hc, List.chain'_singleton _, ?_⟩, ?_⟩
    · intro x hx y hy
      simp only [List.head?_cons, Option.mem_def, Option.some.injEq] at hy
      subst hy
      rw [hin, hl x hx]
    · intro a ha
      rw [List.getLast?_concat] at ha
      simp only [Option.mem_def, Option.some.injEq] at ha
      subst ha
      exact hout
  intro n
  induction n with
  | zero => intro s hc hl; exact (step _ s hc hl).1
  | succ n ih =>
    intro s hc hl
    unfold Run.loop
    dsimp only
    split
    · exact ih _ (step _ s hc hl).1 (step _ s hc hl).2
    · exact (step _ s hc hl).1


/-! ## A cancel during the second attempt -/

/-- With a fatal error recorded on entry, `RunBackupAndMove` returns false and keeps the error. -/
theorem RunBackupAndMove_of_error (env : Env) (job : Job) (w : World)
    (h : w.ErrorState ≠ EBuildPatchInstallError.NoError) :
    (RunBackupAndMove env job w).1 = false ∧
      (RunBackupAndMove env job w).2.ErrorState = w.ErrorState := by
  have h1 : (Logf env "BuildPatchServices: Running backup and stage relocation" w).ErrorState
      = w.ErrorState := ext_ErrorState_of_error env _ w h
  have h2 : HasFatalError (Logf env "BuildPatchServices: Running backup and stage relocation" w)
      = true := by
    simp [HasFatalError, h1, h]
  have h3 : (Logf env "BuildPatchServices: Relocation complete"
      (Logf env "BuildPatchServices: Running backup and stage relocation" w)).ErrorState
      = w.ErrorState := by
    rw [← h1]
    exact ext_ErrorState_of_error env _ _ (by rw [h1]; exact h)
  unfold RunBackupAndMove
  simp only [h2, Bool.true_eq_false, beq_iff_eq, if_false, true_and]
  exact h3

/-- An attempt in which a fatal error is recorded when `RunInstallation` returns fails, with the
same error at its retry decision. -/
theorem Run.attempt_of_error (env : Env) (job : Job) (pre : Bool) (k : Int) (s : RunState)
    (rec : AttemptRecord) (h : (Run.attempt env job pre k s).Attempts = s.Attempts ++ [rec]) :
    rec.ErrorAfterInstallation ≠ EBuildPatchInstallError.NoError →
      rec.bProcessSuccess = false ∧ rec.ErrorAtRetryDecision = rec.ErrorAfterInstallation := by
  have h' : s.Attempts ++ [rec] = s.Attempts ++ [_] := h.symm.trans rfl
  have hr := List.append_cancel_left h'
  simp only [List.cons.injEq, and_true] at hr
  subst hr
  dsimp only
  intro he
  cases hi : (RunInstallation env job s.CorruptFiles s.world).1
  · simp
  · simp only [if_true]
    obtain ⟨hm1, hm2⟩ := RunBackupAndMove_of_error env job
      (SetStateProgress EBuildPatchProgress.Installing 1
        (SetStateProgress EBuildPatchProgress.Downloading 1
          (SetStateProgress EBuildPatchProgress.PrerequisitesInstall (if pre = true then 0 else 1)
            (RunInstallation env job s.CorruptFiles s.world).2))) (by simpa using he)
    simp [hm1, hm2]

/-- The retry decision recorded for an attempt that ends with the error state 'user cancelled'
is "no retry". -/
theorem Run.attempt_of_cancel (env : Env) (job : Job) (pre : Bool) (k : Int) (s : RunState)
    (rec : AttemptRecord) (h : (Run.attempt env job pre k s).Attempts = s.Attempts ++ [rec]) :
    rec.ErrorAtRetryDecision = EBuildPatchInstallError.UserCanceled → rec.bCanRetry = false := by
  obtain ⟨rec', h1, _, _, _, _, h4⟩ := Run.attempt_record env job pre k s
  have hr : rec = rec' := by
    have := List.append_cancel_left (h.symm.trans h1)
    simpa using this
  subst hr
  intro he
  rw [h4, he]
  simp

/-- A record with "success" or "no retry" is the last record of the history. -/
theorem Run.loop_stops (env : Env) (job : Job) (pre : Bool) :
    ∀ (n : Nat) (s : RunState) (recs : List AttemptRecord),
      (Run.loop env job pre n s).Attempts = s.Attempts ++ recs →
      ∀ (i : Nat) (a : AttemptRecord), recs[i]? = some a →
        (a.bProcessSuccess = true ∨ a.bCanRetry = false) → recs.length = i + 1 := by
  intro n
  induction n with
  | zero =>
    intro s recs h i a hi _
    obtain ⟨rec, h1, _⟩ := Run.attempt_record env job pre (-1) s
    have hr : recs = [rec] := by
      have : s.Attempts ++ recs = s.Attempts ++ [rec] := by rw [← h, ← h1]; rfl
      exact List.append_cancel_left this
    subst hr
    cases i with
    | zero => rfl
    | succ j => simp at hi
  | succ n ih =>
    intro s recs h i a hi ha
    obtain ⟨rec, h1, _, _, h2, h3, _⟩ := Run.attempt_record env job pre n s
    unfold Run.loop at h
    dsimp only at h
    split at h
    · rename_i hcond
      obtain ⟨recs', _, h'⟩ := Run.loop_appends env job pre n (Run.attempt env job pre n s)
      have hr : recs = rec :: recs' := by
        have : s.Attempts ++ recs = s.Attempts ++ (rec :: recs') := by
          rw [← h, h', h1]; simp
        exact List.append_cancel_left this
      subst hr
      cases i with
      | zero =>
        simp only [List.getElem?_cons_zero, Option.some.injEq] at hi
        subst hi
        simp only [Bool.and_eq_true, Bool.not_eq_true'] at hcond
        rw [h2, h3] at ha
        rcases ha with ha | ha
        · rw [hcond.1] at ha; exact absurd ha (by decide)
        · rw [hcond.2] at ha; exact absurd ha (by decide)
      | succ j =>
        simp only [List.getElem?_cons_succ] at hi
        have := ih (Run.attempt env job pre n s) recs' h' j a hi ha
        simp [this]
    · have hr : recs = [rec] := by
        have : s.Attempts ++ recs = s.Attempts ++ [rec] := by rw [← h, h1]
        exact List.append_cancel_left this
      subst hr
      cases i with
      | zero => rfl
      | succ j => simp at hi

/-- The loop ends with the outcome of the last attempt. -/
theorem Run.loop_result (env : Env) (job : Job) (pre : Bool) :
    ∀ (n : Nat) (s : RunState), ∃ last,
      (Run.loop env job pre n s).Attempts.getLast? = some last ∧
        last.bProcessSuccess = (Run.loop env job pre n s).bProcessSuccess := by
  intro n
  induction n with
  | zero =>
    intro s
    obtain ⟨rec, h1, _, _, h2, _⟩ := Run.attempt_record env job pre (-1) s
    exact ⟨rec, by show (Run.attempt env job pre (-1) s).Attempts.getLast? = _
                   rw [h1, List.getLast?_concat], h2⟩
  | succ n ih =>
    intro s
    obtain ⟨rec, h1, _, _, h2, _⟩ := Run.attempt_record env job pre n s
    unfold Run.loop
    dsimp only
    split
    · exact ih _
    · exact ⟨rec, by rw [h1, List.getLast?_concat], h2⟩

set_option maxRecDepth 100000 in
/-- C2, refuted as stated, in two runs of the first installation of `sampleManifest`.
In the first run verification fails in attempt 1 and succeeds in attempt 2, and the user cancels
while the staging directory is deleted at the end of attempt 2: the loop ends, but `Run` finishes
with success (return code 0, `ProcessSuccess = true`) and the error state `UserCanceled`.
In the second run the user cancels at the start of the second `RunInstallation` (the cancel is
raised when the trace has 43 entries, the last two being the log line that opens
`RunInstallation` and the creation of the data staging directory), before the error record is
reset: the cancel is lost and `RunInstallation` is invoked 5 times. -/
theorem C2_counterexample :
    ((Run lateCancelEnv sampleJob (sampleWorld stagedDisk)).Attempts.map
        (fun a => (a.ErrorAtRetryDecision, a.bProcessSuccess)) =
      [(EBuildPatchInstallError.BuildVerifyFail, false),
        (EBuildPatchInstallError.UserCanceled, true)] ∧
      (Run lateCancelEnv sampleJob (sampleWorld stagedDisk)).ReturnCode = 0 ∧
      (Run lateCancelEnv sampleJob (sampleWorld stagedDisk)).world.BuildStats.ProcessSuccess
        = true ∧
      (Run lateCancelEnv sampleJob (sampleWorld stagedDisk)).world.ErrorState =
        EBuildPatchInstallError.UserCanceled) ∧
    (((Run earlyCancelEnv sampleJob (sampleWorld stagedDisk)).world.trace.take 43).drop 41 =
        [Event.Log "BuildPatchServices: Starting Installation",
          Event.MakeDirectory "S/PatchData"] ∧
      earlyCancelEnv.Raise
          { sampleWorld stagedDisk with
            trace := (Run earlyCancelEnv sampleJob (sampleWorld stagedDisk)).world.trace.take 43 }
        = some EBuildPatchInstallError.UserCanceled ∧
      (Run earlyCancelEnv sampleJob (sampleWorld stagedDisk)).Attempts.length = 5 ∧
      (Run earlyCancelEnv sampleJob (sampleWorld stagedDisk)).world.trace.count
        (Event.Log "BuildPatchServices: Starting Installation") = 5) := by
  decide

/-- C2, amended: if `UserCanceled` is the error state at the retry decision of the second attempt
of `Run`, the loop ends after that attempt and `RunInstallation` is not invoked a third time; if
`UserCanceled` is already the error state when the second `RunInstallation` returns, then moreover
`Run` finishes with failure (`ProcessSuccess = false`, return code 1). -/
theorem C2_cancel_amended (env : Env) (job : Job) (w : World) (a : AttemptRecord)
    (ha : (Run env job w).Attempts[1]? = some a) :
    (a.ErrorAtRetryDecision = EBuildPatchInstallError.UserCanceled →
      (Run env job w).Attempts.length = 2) ∧
    (a.ErrorAfterInstallation = EBuildPatchInstallError.UserCanceled →
      (Run env job w).Attempts.length = 2 ∧
        (Run env job w).world.BuildStats.ProcessSuccess = false ∧
        (Run env job w).ReturnCode = 1) := by
  rw [Run.eq_finish] at ha ⊢
  rw [Run.finish_Attempts] at ha ⊢
  have hmem := List.getElem?_mem ha
  have hcancel := Run.loop_forall env job (Run.bInstallPrereqs job) _
    (Run.attempt_of_cancel env job (Run.bInstallPrereqs job)) 5
    { bProcessSuccess := false, bCanRetry := true, CorruptFiles := [], CleanUpTime := 0,
      Attempts := [], world := Run.prepare env job w } (by simp) a hmem
  have herror := Run.loop_forall env job (Run.bInstallPrereqs job) _
    (Run.attempt_of_error env job (Run.bInstallPrereqs job)) 5
    { bProcessSuccess := false, bCanRetry := true, CorruptFiles := [], CleanUpTime := 0,
      Attempts := [], world := Run.prepare env job w } (by simp) a hmem
  have hlen : a.ErrorAtRetryDecision = EBuildPatchInstallError.UserCanceled →
      (Run.loop env job (Run.bInstallPrereqs job) 5
        { bProcessSuccess := false, bCanRetry := true, CorruptFiles := [], CleanUpTime := 0,
          Attempts := [], world := Run.prepare env job w }).Attempts.length = 2 :=
    fun he => Run.loop_stops env job (Run.bInstallPrereqs job) 5
      { bProcessSuccess := false, bCanRetry := true, CorruptFiles := [], CleanUpTime := 0,
        Attempts := [], world := Run.prepare env job w } _ (List.nil_append _).symm 1 a ha
      (Or.inr (hcancel he))
  refine ⟨hlen, fun he => ?_⟩
  obtain ⟨hf, hd⟩ := herror (by rw [he]; decide)
  have hl := hlen (by rw [hd, he])
  obtain ⟨last, hlast, hres⟩ := Run.loop_result env job (Run.bInstallPrereqs job) 5
    { bProcessSuccess := false, bCanRetry := true, CorruptFiles := [], CleanUpTime := 0,
      Attempts := [], world := Run.prepare env job w }
  have hla : last = a := by
    rw [List.getLast?_eq_getElem?, hl] at hlast
    rw [ha] at hlast
    exact (Option.some.inj hlast).symm
  subst hla
  obtain ⟨h1, h2, _⟩ := Run.finish_of_failure env job (env.Seconds (Run.prepare env job w)) _
    (hres.symm.trans hf)
  exact ⟨hl, h2, h1⟩

set_option maxRecDepth 100000 in
/-- C2 amended, at a concrete input: verification fails in attempt 1, and in attempt 2 the user
cancels while the downloader is created; `RunInstallation` is invoked twice and `Run` returns 1. -/
theorem C2_witness :
    (Run cancelEnv sampleJob (sampleWorld stagedDisk)).Attempts.map
        (fun a => (a.ErrorAfterInstallation, a.ErrorAtRetryDecision)) =
      [(EBuildPatchInstallError.NoError, EBuildPatchInstallError.BuildVerifyFail),
        (EBuildPatchInstallError.UserCanceled, EBuildPatchInstallError.UserCanceled)] ∧
    (Run cancelEnv sampleJob (sampleWorld stagedDisk)).Attempts.length = 2 ∧
    (Run cancelEnv sampleJob (sampleWorld stagedDisk)).world.BuildStats.ProcessSuccess = false ∧
    (Run cancelEnv sampleJob (sampleWorld stagedDisk)).ReturnCode = 1 := by
  have hs : ((Run cancelEnv sampleJob (sampleWorld stagedDisk)).Attempts[1]?).isSome = true := by
    decide
  obtain ⟨a, ha⟩ := Option.isSome_iff_exists.mp hs
  have he : a.ErrorAfterInstallation = EBuildPatchInstallError.UserCanceled := by
    have h : (Run cancelEnv sampleJob (sampleWorld stagedDisk)).Attempts[1]?.map
        (fun a => a.ErrorAfterInstallation) = some EBuildPatchInstallError.UserCanceled := by
      decide
    rw [ha] at h
    simpa using h
  exact ⟨by decide, (C2_cancel_amended cancelEnv sampleJob (sampleWorld stagedDisk) a ha).2 he⟩


/-! ## The attribute pass of a repair run -/

/-- Without a raised error an external call leaves the error state alone. -/
theorem ext_ErrorState_of_quiet (env : Env) (hq : ∀ x, env.Raise x = none) (e : Event)
    (w : World) : (ext env e w).ErrorState = w.ErrorState := by
  unfold ext
  simp [hq]

theorem SetupFileAttributes_ErrorState_of_quiet (env : Env) (hq : ∀ x, env.Raise x = none)
    (FilePath : String) (f : FFileManifestData) (w : World) :
    (SetupFileAttributes env FilePath f w).ErrorState = w.ErrorState := by
  unfold SetupFileAttributes SetReadOnly SetFileCompressionFlag SetExecutableFlag Logf
  dsimp only
  split <;> [split; skip] <;> split <;> simp [ext_ErrorState_of_quiet env hq]

theorem RunFileAttributes_forced (env : Env) (job : Job) (w : World) :
    RunFileAttributes env job true w =
      (true, ForcedAttributePass env job job.NewBuildManifest.FileManifestList w) := by
  have h : ∀ (l : List FFileManifestData) (w : World),
      RunFileAttributes.applyLoop env job true l w = ForcedAttributePass env job l w := by
    intro l
    induction l with
    | nil => intro w; rfl
    | cons f rest ih =>
      intro w
      simp only [RunFileAttributes.applyLoop, ForcedAttributePass, Bool.or_true, if_true, ih]
  simp [RunFileAttributes, h]

theorem ForcedAttributePass_of_quiet (env : Env) (job : Job) (hq : ∀ x, env.Raise x = none) :
    ∀ (l : List FFileManifestData) (w : World),
      w.ErrorState = EBuildPatchInstallError.NoError →
      ForcedAttributePass env job l w =
        l.foldl (fun w f =>
          SetupFileAttributes env (pathCombine job.InstallDirectory f.Filename) f w) w := by
  intro l
  induction l with
  | nil => intro w _; rfl
  | cons f rest ih =>
    intro w hw
    have hf : HasFatalError w = false := by simp [HasFatalError, hw]
    simp only [ForcedAttributePass, hf, Bool.false_eq_true, if_false, List.foldl_cons]
    exact ih _ (by rw [SetupFileAttributes_ErrorState_of_quiet env hq, hw])

/-- The argument that `Run` passes to `RunFileAttributes` is `bIsRepairing`. -/
theorem Run.attempt_force (env : Env) (job : Job) (pre : Bool) (k : Int) (s : RunState)
    (rec : AttemptRecord) (h : (Run.attempt env job pre k s).Attempts = s.Attempts ++ [rec]) :
    ∀ b, rec.bForceFileAttributes = some b → b = job.bIsRepairing env := by
  have h' : s.Attempts ++ [rec] = s.Attempts ++ [_] := h.symm.trans rfl
  have hr := List.append_cancel_left h'
  simp only [List.cons.injEq, and_true] at hr
  subst hr
  dsimp only
  intro b hb
  simp only [Option.ite_none_right_eq_some, Option.some.injEq] at hb
  exact hb.2.symm


/-! ## The files that `RunInstallation` requires -/

/-- The two branches of `RunInstallation` after the marker test. -/
theorem RunInstallation_eq (env : Env) (job : Job) (CorruptFiles : List String) (w : World) :
    RunInstallation env job CorruptFiles w =
      if (w.disk job.PreviousMoveMarker).isSome then
        RunInstallation.skip env (RunInstallation.entry env job w)
      else RunInstallation.construct env job CorruptFiles (RunInstallation.entry env job w) := by
  simp [RunInstallation, RunInstallation.entry, FileExists, Logf, SetStateProgress, ErrorReset]

@[simp]
theorem UpdateDownloadProgressInfo_trace (env : Env) (job : Job) (b : Bool) (w : World) :
    (UpdateDownloadProgressInfo env job b w).trace = w.trace := by
  unfold UpdateDownloadProgressInfo
  split
  · rfl
  · split <;> rfl

/-- A wait loop issues only its query and sleeps. -/
theorem RunInstallation.waitLoop_filter (env : Env) (job : Job) (q : Event → Bool)
    (query : Event) (hq : q query = false) (hs : q Event.Sleep = false) :
    ∀ (n : Nat) (w : World),
      (RunInstallation.waitLoop env job query n w).trace.filter q = w.trace.filter q := by
  intro n
  induction n with
  | zero => intro w; simp [RunInstallation.waitLoop, hq]
  | succ n ih => intro w; simp [RunInstallation.waitLoop, ih, hq, hs]

/-- The calls of `RunInstallation.recordStats` hand no list over. -/
theorem RunInstallation.recordStats_handOver (env : Env) (job : Job)
    (d : List FBuildPatchDownloadRecord) (w : World) :
    (RunInstallation.recordStats env job d w).2.trace.filter Event.isHandOver =
      w.trace.filter Event.isHandOver := by
  unfold RunInstallation.recordStats
  cases job.bIsChunkData <;>
    simp [Logf, SetDownloadSpeed, Event.isHandOver]

@[simp]
theorem SetStateWeight_trace (s : EBuildPatchProgress) (v : ℚ) (w : World) :
    (SetStateWeight s v w).trace = w.trace := rfl

/-- The lists that `RunInstallation.construct` hands over: the corrupt files when there are any,
and the outdated files otherwise. -/
theorem RunInstallation.construct_handOver (env : Env) (job : Job) (CorruptFiles : List String)
    (w : World) :
    (RunInstallation.construct env job CorruptFiles w).2.trace.filter Event.isHandOver =
      w.trace.filter Event.isHandOver ++
        (if CorruptFiles = [] then [Event.GetOutdatedFiles] else []) ++
        (if job.bIsChunkData then
          [Event.ChunkCacheInit (if CorruptFiles = [] then
            env.GetOutdatedFiles w job.CurrentBuildManifest job.NewBuildManifest
              job.InstallDirectory else CorruptFiles)]
          else []) ++
        [Event.FileConstructorCreate (if CorruptFiles = [] then
          env.GetOutdatedFiles w job.CurrentBuildManifest job.NewBuildManifest
            job.InstallDirectory else CorruptFiles)] := by
  have hw1 := RunInstallation.waitLoop_filter env job Event.isHandOver
    Event.FileConstructorIsComplete rfl rfl
  have hw2 := RunInstallation.waitLoop_filter env job Event.isHandOver
    Event.DownloaderIsComplete rfl rfl
  unfold RunInstallation.construct
  dsimp only
  rw [RunInstallation.recordStats_handOver]
  simp only [ext_trace, Logf, List.filter_append, hw1, hw2]
  generalize job.bIsChunkData = cd
  generalize job.bIsFileData = fd
  generalize job.bIsRepairing env = rp
  cases CorruptFiles with
  | nil =>
    cases cd <;> cases fd <;> cases rp <;>
      simp only [ext_trace, Logf, List.filter_append, SetStateWeight_trace,
        SetStateProgress_trace, List.filter_cons, List.filter_nil, Event.isHandOver,
        List.length_nil, lt_self_iff_false, if_true, if_false, List.append_nil, List.nil_append,
        List.append_assoc, Bool.false_eq_true]
  | cons c cs =>
    cases cd <;> cases fd <;> cases rp <;>
      simp only [ext_trace, Logf, List.filter_append, SetStateWeight_trace,
        SetStateProgress_trace, List.filter_cons, List.filter_nil, Event.isHandOver,
        List.length_cons, Nat.succ_pos, if_true, if_false, List.append_nil, List.nil_append,
        List.append_assoc, Bool.false_eq_true, reduceCtorEq, gt_iff_lt, Nat.zero_lt_succ]

/-- The lists that `RunInstallation` hands over when the marker file is absent. -/
theorem RunInstallation_handOver (env : Env) (job : Job) (CorruptFiles : List String) (w : World)
    (h : (w.disk job.PreviousMoveMarker).isSome = false) :
    (RunInstallation env job CorruptFiles w).2.trace.filter Event.isHandOver =
      w.trace.filter Event.isHandOver ++
        (if CorruptFiles = [] then [Event.GetOutdatedFiles] else []) ++
        (if job.bIsChunkData then
          [Event.ChunkCacheInit (if CorruptFiles = [] then
            env.GetOutdatedFiles (RunInstallation.entry env job w) job.CurrentBuildManifest
              job.NewBuildManifest job.InstallDirectory else CorruptFiles)]
          else []) ++
        [Event.FileConstructorCreate (if CorruptFiles = [] then
          env.GetOutdatedFiles (RunInstallation.entry env job w) job.CurrentBuildManifest
            job.NewBuildManifest job.InstallDirectory else CorruptFiles)] := by
  rw [RunInstallation_eq, h]
  simp only [Bool.false_eq_true, if_false]
  rw [RunInstallation.construct_handOver]
  have he : (RunInstallation.entry env job w).trace.filter Event.isHandOver =
      w.trace.filter Event.isHandOver := by
    simp [RunInstallation.entry, FileExists, Logf, ErrorReset, Event.isHandOver]
  rw [he]

/-- C11: when the marker file is absent, for every job (repair runs included) and every corrupt-file
list passed in, `RunInstallation` hands one and the same list `F` to the chunk cache (initialised
for chunk data only) and to the file constructor (always created); `F` is the corrupt-file list
itself, element for element and in order, whenever that list is non-empty, and `GetOutdatedFiles`
is then not called; only when the list is empty is `GetOutdatedFiles` called, and `F` is its
result. -/
theorem C11_required_files (env : Env) (job : Job) (CorruptFiles : List String) (w : World)
    (h : (w.disk job.PreviousMoveMarker).isSome = false) :
    ∃ F : List String,
      (RunInstallation env job CorruptFiles w).2.trace.filter Event.isHandOver =
        w.trace.filter Event.isHandOver ++
          (if CorruptFiles = [] then [Event.GetOutdatedFiles] else []) ++
          (if job.bIsChunkData then [Event.ChunkCacheInit F] else []) ++
          [Event.FileConstructorCreate F] ∧
      (CorruptFiles ≠ [] → F = CorruptFiles) ∧
      (CorruptFiles = [] →
        F = env.GetOutdatedFiles (RunInstallation.entry env job w) job.CurrentBuildManifest
          job.NewBuildManifest job.InstallDirectory) := by
  refine ⟨if CorruptFiles = [] then
      env.GetOutdatedFiles (RunInstallation.entry env job w) job.CurrentBuildManifest
        job.NewBuildManifest job.InstallDirectory else CorruptFiles,
    RunInstallation_handOver env job CorruptFiles w h, ?_, ?_⟩
  · intro hc; simp [hc]
  · intro hc; simp [hc]

/-- C11 at concrete inputs: in a repair run with the corrupt-file list `fileB, fileA` both the
chunk cache and the file constructor receive exactly that list, in that order, and
`GetOutdatedFiles` is not called; in an update with an empty list in which `GetOutdatedFiles`
answers `fileA`, that answer is handed over. -/
theorem C11_witness :
    (∃ F : List String,
      (RunInstallation (sampleEnv []) repairJob ["fileB", "fileA"]
          (sampleWorld installedDisk)).2.trace.filter Event.isHandOver =
        (sampleWorld installedDisk).trace.filter Event.isHandOver ++
          (if ["fileB", "fileA"] = [] then [Event.GetOutdatedFiles] else []) ++
          (if repairJob.bIsChunkData then [Event.ChunkCacheInit F] else []) ++
          [Event.FileConstructorCreate F] ∧
      (["fileB", "fileA"] ≠ [] → F = ["fileB", "fileA"]) ∧
      (["fileB", "fileA"] = [] →
        F = (sampleEnv []).GetOutdatedFiles
          (RunInstallation.entry (sampleEnv []) repairJob (sampleWorld installedDisk))
          repairJob.CurrentBuildManifest repairJob.NewBuildManifest
          repairJob.InstallDirectory)) ∧
    (RunInstallation (sampleEnv []) repairJob ["fileB", "fileA"]
        (sampleWorld installedDisk)).2.trace.filter Event.isHandOver =
      [Event.ChunkCacheInit ["fileB", "fileA"], Event.FileConstructorCreate ["fileB", "fileA"]] ∧
    (RunInstallation { sampleEnv [] with GetOutdatedFiles := fun _ _ _ _ => ["fileA"] } updateJob []
        (sampleWorld installedDisk)).2.trace.filter Event.isHandOver =
      [Event.GetOutdatedFiles, Event.ChunkCacheInit ["fileA"],
        Event.FileConstructorCreate ["fileA"]] :=
  ⟨C11_required_files (sampleEnv []) repairJob ["fileB", "fileA"] (sampleWorld installedDisk)
      (by decide), by decide, by decide⟩


/-! ## The trace of the file operations -/

section Traces

variable (env : Env)

@[simp]
theorem FileExists_trace (p : String) (w : World) :
    (FileExists env p w).2.trace = w.trace ++ [Event.FileExists p] := by
  simp [FileExists]

@[simp]
theorem FileSize_trace (p : String) (w : World) :
    (FileSize env p w).2.trace = w.trace ++ [Event.FileSize p] := by
  simp [FileSize]

@[simp]
theorem Move_trace (d s : String) (w : World) :
    (Move env d s w).2.trace = w.trace ++ [Event.Move d s] := by
  unfold Move; dsimp only; split <;> simp

@[simp]
theorem Copy_trace (d s : String) (w : World) :
    (Copy env d s w).2.trace = w.trace ++ [Event.Copy d s] := by
  unfold Copy; dsimp only; split <;> simp

@[simp]
theorem Delete_trace (p : String) (w : World) :
    (Delete env p w).2.trace = w.trace ++ [Event.Delete p] := by
  unfold Delete; dsimp only; split <;> simp

@[simp]
theorem DeleteDirectory_trace (p : String) (w : World) :
    (DeleteDirectory env p w).2.trace = w.trace ++ [Event.DeleteDirectory p] := by
  unfold DeleteDirectory; dsimp only; split <;> simp

@[simp]
theorem CreateFileWriter_trace (p : String) (w : World) :
    (CreateFileWriter env p w).2.trace = w.trace ++ [Event.CreateFileWriter p] := by
  unfold CreateFileWriter; dsimp only; split <;> simp

@[simp]
theorem SetReadOnly_trace (p : String) (v : Bool) (w : World) :
    (SetReadOnly env p v w).2.trace = w.trace ++ [Event.SetReadOnly p v] := by
  simp [SetReadOnly]

@[simp]
theorem SetFileCompressionFlag_trace (p : String) (v : Bool) (w : World) :
    (SetFileCompressionFlag env p v w).2.trace = w.trace ++ [Event.SetFileCompressionFlag p v] := by
  simp [SetFileCompressionFlag]

@[simp]
theorem SetExecutableFlag_trace (p : String) (w : World) :
    (SetExecutableFlag env p w).2.trace = w.trace ++ [Event.SetExecutableFlag p] := by
  simp [SetExecutableFlag]

@[simp]
theorem SetFatalError_trace (err : EBuildPatchInstallError) (log : String) (w : World) :
    (SetFatalError err log w).trace = w.trace := by
  unfold SetFatalError; split <;> rfl

@[simp]
theorem FilesInstalledAdd_trace (f : String) (w : World) :
    (FilesInstalledAdd f w).trace = w.trace := rfl

end Traces

/-! ## The calls that only `Run` makes -/

section RunCalls

variable (env : Env)

@[simp]
theorem backupIfEdited_runCalls (job : Job) (f : String) (b : Bool) (w : World) :
    (BackupFileIfNecessary.backupIfEdited env job f b w).2.trace.filter Event.isRunCall =
      w.trace.filter Event.isRunCall := by
  unfold BackupFileIfNecessary.backupIfEdited
  dsimp only
  repeat' split
  all_goals simp [Logf, Event.isRunCall]

@[simp]
theorem BackupFileIfNecessary_runCalls (job : Job) (f : String) (b : Bool) (w : World) :
    (BackupFileIfNecessary env job f b w).2.trace.filter Event.isRunCall =
      w.trace.filter Event.isRunCall := by
  unfold BackupFileIfNecessary
  dsimp only
  repeat' split
  all_goals simp [Logf, Event.isRunCall]

@[simp]
theorem SetupFileAttributes_runCalls (p : String) (f : FFileManifestData) (w : World) :
    (SetupFileAttributes env p f w).trace.filter Event.isRunCall =
      w.trace.filter Event.isRunCall := by
  unfold SetupFileAttributes
  dsimp only
  repeat' split
  all_goals simp [Logf, Event.isRunCall]

@[simp]
theorem applyLoop_runCalls (job : Job) (bForce : Bool) :
    ∀ (l : List FFileManifestData) (w : World),
      (RunFileAttributes.applyLoop env job bForce l w).trace.filter Event.isRunCall =
        w.trace.filter Event.isRunCall := by
  intro l
  induction l with
  | nil => intro w; rfl
  | cons f rest ih =>
    intro w
    unfold RunFileAttributes.applyLoop
    dsimp only
    repeat' split
    all_goals simp [ih]

@[simp]
theorem removedLoop_runCalls (job : Job) :
    ∀ (l : List FFileManifestData) (w : World),
      (RunFileAttributes.removedLoop env job l w).trace.filter Event.isRunCall =
        w.trace.filter Event.isRunCall := by
  intro l
  induction l with
  | nil => intro w; rfl
  | cons f rest ih =>
    intro w
    unfold RunFileAttributes.removedLoop
    dsimp only
    repeat' split
    all_goals simp [ih]

@[simp]
theorem RunFileAttributes_runCalls (job : Job) (bForce : Bool) (w : World) :
    (RunFileAttributes env job bForce w).2.trace.filter Event.isRunCall =
      w.trace.filter Event.isRunCall := by
  unfold RunFileAttributes
  dsimp only
  split <;> simp

@[simp]
theorem cleanLoop_runCalls (job : Job) :
    ∀ (l : List String) (w : World),
      (RunVerification.cleanLoop env job l w).trace.filter Event.isRunCall =
        w.trace.filter Event.isRunCall := by
  intro l
  induction l with
  | nil => intro w; rfl
  | cons f rest ih =>
    intro w
    unfold RunVerification.cleanLoop
    simp [ih, Event.isRunCall]

@[simp]
theorem RunVerification_verify_runCalls (job : Job) (CorruptFiles : List String) (w : World) :
    (RunVerification.verify env job CorruptFiles w).2.2.trace.filter Event.isRunCall =
      w.trace.filter Event.isRunCall := by
  unfold RunVerification.verify
  dsimp only
  split <;> simp [Logf, Event.isRunCall]

@[simp]
theorem RunVerification_runCalls (job : Job) (CorruptFiles : List String) (w : World) :
    (RunVerification env job CorruptFiles w).2.2.trace.filter Event.isRunCall =
      w.trace.filter Event.isRunCall := by
  unfold RunVerification
  dsimp only
  split <;> simp [Logf, Event.isRunCall]

@[simp]
theorem retryBody_runCalls (f d s : String) (w : World) :
    (RunBackupAndMove.retryBody env f d s w).2.trace.filter Event.isRunCall =
      w.trace.filter Event.isRunCall := by
  unfold RunBackupAndMove.retryBody
  dsimp only
  split <;> simp [Logf, Event.isRunCall]

@[simp]
theorem retryLoop_runCalls (f d s : String) :
    ∀ (n : Nat) (w : World),
      (RunBackupAndMove.retryLoop env f d s n w).2.trace.filter Event.isRunCall =
        w.trace.filter Event.isRunCall := by
  intro n
  induction n using Nat.strong_induction_on with
  | _ n ih =>
    intro w
    match n with
    | 0 => rfl
    | 1 => simp [RunBackupAndMove.retryLoop]
    | m + 2 =>
      unfold RunBackupAndMove.retryLoop
      dsimp only
      split
      · simp
      · rw [ih m (by omega)]; simp

@[simp]
theorem removeLoop_runCalls (job : Job) :
    ∀ (l : List String) (w : World),
      (RunBackupAndMove.removeLoop env job l w).trace.filter Event.isRunCall =
        w.trace.filter Event.isRunCall := by
  intro l
  induction l with
  | nil => intro w; rfl
  | cons f rest ih =>
    intro w
    unfold RunBackupAndMove.removeLoop
    simp [ih, Logf, Event.isRunCall]

@[simp]
theorem moveLoop_runCalls (job : Job) (x : ℚ) :
    ∀ (l : List String) (i : Nat) (b : Bool) (w : World),
      (RunBackupAndMove.moveLoop env job x l i b w).2.trace.filter Event.isRunCall =
        w.trace.filter Event.isRunCall := by
  intro l
  induction l with
  | nil => intro i b w; rfl
  | cons f rest ih =>
    intro i b w
    unfold RunBackupAndMove.moveLoop
    dsimp only
    repeat' split
    all_goals simp [ih, Logf, Event.isRunCall]

@[simp]
theorem relocate_runCalls (job : Job) (w : World) :
    (RunBackupAndMove.relocate env job w).2.trace.filter Event.isRunCall =
      w.trace.filter Event.isRunCall := by
  unfold RunBackupAndMove.relocate
  dsimp only
  split <;> simp

@[simp]
theorem RunBackupAndMove_runCalls (job : Job) (w : World) :
    (RunBackupAndMove env job w).2.trace.filter Event.isRunCall =
      w.trace.filter Event.isRunCall := by
  unfold RunBackupAndMove
  dsimp only
  split <;> simp [Logf, Event.isRunCall]

@[simp]
theorem RunInstallation_entry_runCalls (job : Job) (w : World) :
    (RunInstallation.entry env job w).trace.filter Event.isRunCall =
      w.trace.filter Event.isRunCall := by
  simp [RunInstallation.entry, Logf, ErrorReset, Event.isRunCall]

@[simp]
theorem RunInstallation_skip_runCalls (w : World) :
    (RunInstallation.skip env w).2.trace.filter Event.isRunCall =
      w.trace.filter Event.isRunCall := by
  simp [RunInstallation.skip, Logf, Event.isRunCall]

@[simp]
theorem RunInstallation_recordStats_runCalls (job : Job) (d : List FBuildPatchDownloadRecord)
    (w : World) :
    (RunInstallation.recordStats env job d w).2.trace.filter Event.isRunCall =
      w.trace.filter Event.isRunCall := by
  unfold RunInstallation.recordStats
  cases job.bIsChunkData <;> simp [Logf, SetDownloadSpeed, Event.isRunCall]

@[simp]
theorem RunInstallation_construct_runCalls (job : Job) (CorruptFiles : List String) (w : World) :
    (RunInstallation.construct env job CorruptFiles w).2.trace.filter Event.isRunCall =
      w.trace.filter Event.isRunCall := by
  have hw1 := RunInstallation.waitLoop_filter env job Event.isRunCall
    Event.FileConstructorIsComplete rfl rfl
  have hw2 := RunInstallation.waitLoop_filter env job Event.isRunCall
    Event.DownloaderIsComplete rfl rfl
  unfold RunInstallation.construct
  dsimp only
  rw [RunInstallation_recordStats_runCalls]
  simp only [ext_trace, Logf, List.filter_append, hw1, hw2]
  generalize job.bIsChunkData = cd
  generalize job.bIsFileData = fd
  generalize job.bIsRepairing env = rp
  cases CorruptFiles with
  | nil =>
    cases cd <;> cases fd <;> cases rp <;>
      simp [Logf, Event.isRunCall]
  | cons c cs =>
    cases cd <;> cases fd <;> cases rp <;>
      simp [Logf, Event.isRunCall]

@[simp]
theorem RunInstallation_runCalls (job : Job) (CorruptFiles : List String) (w : World) :
    (RunInstallation env job CorruptFiles w).2.trace.filter Event.isRunCall =
      w.trace.filter Event.isRunCall := by
  rw [RunInstallation_eq]
  split <;> simp

/-- The end of a pass through the retry loop (source lines 250 to 254). -/
theorem Run.resetMarker_runCalls (job : Job) (c : Bool) (x : World) :
    (if c = true then
        (Delete env job.PreviousMoveMarker (Logf env "BuildPatchServices: Reset MM" x)).2
      else x).trace.filter Event.isRunCall =
      x.trace.filter Event.isRunCall ++
        (if c = true then [Event.Log "BuildPatchServices: Reset MM"] else []) := by
  cases c <;> simp [Logf, Event.isRunCall]

/-- The calls of `Event.isRunCall` in one pass through the retry loop are those of its record. -/
theorem Run.attempt_runCalls (job : Job) (pre : Bool) (k : Int) (s : RunState)
    (rec : AttemptRecord) (h : (Run.attempt env job pre k s).Attempts = s.Attempts ++ [rec]) :
    (Run.attempt env job pre k s).world.trace.filter Event.isRunCall =
      s.world.trace.filter Event.isRunCall ++ rec.runCalls job := by
  have h' : s.Attempts ++ [rec] = s.Attempts ++ [_] := h.symm.trans rfl
  have hr := List.append_cancel_left h'
  simp only [List.cons.injEq, and_true] at hr
  subst hr
  clear h h'
  unfold AttemptRecord.runCalls
  dsimp only [Run.attempt]
  rw [Run.resetMarker_runCalls, ← List.append_assoc]
  congr 1
  cases hi : (RunInstallation env job s.CorruptFiles s.world).1
  · simp
  · simp only [if_true]
    have hmt : (RunBackupAndMove env job
        (SetStateProgress EBuildPatchProgress.Installing 1
          (SetStateProgress EBuildPatchProgress.Downloading 1
            (SetStateProgress EBuildPatchProgress.PrerequisitesInstall
              (if pre = true then 0 else 1)
              (RunInstallation env job s.CorruptFiles s.world).2)))).2.trace.filter
          Event.isRunCall = s.world.trace.filter Event.isRunCall := by
      simp
    generalize RunBackupAndMove env job
      (SetStateProgress EBuildPatchProgress.Installing 1
        (SetStateProgress EBuildPatchProgress.Downloading 1
          (SetStateProgress EBuildPatchProgress.PrerequisitesInstall (if pre = true then 0 else 1)
            (RunInstallation env job s.CorruptFiles s.world).2))) = m at hmt ⊢
    obtain ⟨mb, mw⟩ := m
    cases mb
    · simpa using hmt
    · simp only [RunFileAttributes_fst, if_true]
      simpa [Logf, Event.isRunCall] using hmt

/-- The calls of `Event.isRunCall` in the retry loop are those of the records it appends. -/
theorem Run.loop_runCalls (job : Job) (pre : Bool) :
    ∀ (n : Nat) (s : RunState) (recs : List AttemptRecord),
      (Run.loop env job pre n s).Attempts = s.Attempts ++ recs →
      (Run.loop env job pre n s).world.trace.filter Event.isRunCall =
        s.world.trace.filter Event.isRunCall ++ recs.flatMap (AttemptRecord.runCalls job) := by
  intro n
  induction n with
  | zero =>
    intro s recs h
    obtain ⟨rec, h1, _⟩ := Run.attempt_record env job pre (-1) s
    have hr : recs = [rec] := by
      have : s.Attempts ++ recs = s.Attempts ++ [rec] := by rw [← h, ← h1]; rfl
      exact List.append_cancel_left this
    subst hr
    have := Run.attempt_runCalls env job pre (-1) s rec h1
    simpa [Run.loop] using this
  | succ n ih =>
    intro s recs h
    obtain ⟨rec, h1, _⟩ := Run.attempt_record env job pre n s
    have ha := Run.attempt_runCalls env job pre n s rec h1
    unfold Run.loop at h ⊢
    dsimp only at h ⊢
    split at h
    · rename_i hcond
      rw [if_pos hcond]
      obtain ⟨recs', _, h'⟩ := Run.loop_appends env job pre n (Run.attempt env job pre n s)
      have hr : recs = rec :: recs' := by
        have : s.Attempts ++ recs = s.Attempts ++ (rec :: recs') := by
          rw [← h, h', h1]; simp
        exact List.append_cancel_left this
      subst hr
      rw [ih _ recs' h', ha]
      simp
    · rename_i hcond
      rw [if_neg hcond]
      have hr : recs = [rec] := by
        have : s.Attempts ++ recs = s.Attempts ++ [rec] := by rw [← h, h1]
        exact List.append_cancel_left this
      subst hr
      simpa using ha

@[simp]
theorem Run.prepare_runCalls (job : Job) (w : World) :
    (Run.prepare env job w).trace.filter Event.isRunCall = w.trace.filter Event.isRunCall := by
  unfold Run.prepare
  dsimp only
  split <;>
    simp [ErrorReset, SetRunning, SetInited, SetDownloadSpeed, UpdateDownloadProgressInfo,
      Event.isRunCall]

/-- The only call of `Event.isRunCall` that `RunPrereqInstaller` makes is the start of the
process. -/
theorem RunPrereqInstaller_runCalls (job : Job) (w : World) :
    (RunPrereqInstaller env job w).2.trace.filter Event.isRunCall =
      w.trace.filter Event.isRunCall ++ [job.PrereqCall env] := by
  unfold RunPrereqInstaller Job.PrereqCall
  dsimp only
  repeat' split
  all_goals simp_all [Logf, Event.isRunCall]

/-- The calls of `Event.isRunCall` after the retry loop. -/
theorem Run.finish_runCalls (job : Job) (t : ℚ) (s : RunState) :
    (Run.finish env job t s).world.trace.filter Event.isRunCall =
      s.world.trace.filter Event.isRunCall ++
        (if (Run.finish env job t s).bRunPrereqInstaller.isSome then [job.PrereqCall env]
          else []) := by
  unfold Run.finish
  dsimp only
  cases hc : (s.bProcessSuccess && Run.bInstallPrereqs job)
  · simp [Logf, SetRunning, Event.isRunCall]
  · simp [Logf, SetRunning, Event.isRunCall, RunPrereqInstaller_runCalls]

/-- The calls of `Event.isRunCall` in a run are: per attempt the deletion of the staging
directory and the log line before the deletion of the marker, as its record says, and at the end
the start of the prerequisites installer if it was invoked. -/
theorem Run_runCalls (job : Job) (w : World) :
    (Run env job w).world.trace.filter Event.isRunCall =
      w.trace.filter Event.isRunCall ++
        (Run env job w).Attempts.flatMap (AttemptRecord.runCalls job) ++
        (if (Run env job w).bRunPrereqInstaller.isSome then [job.PrereqCall env] else []) := by
  rw [Run.eq_finish, Run.finish_runCalls, Run.finish_Attempts]
  rw [Run.loop_runCalls env job _ 5 _ _ (List.nil_append _).symm]
  simp

end RunCalls


/-! ## The staging directory and the marker file at the end of an attempt -/

/-- How the record of a pass through the retry loop relates the results of the phases, the
deletion of the staging directory and the deletion of the marker file. -/
theorem Run.attempt_outcome (env : Env) (job : Job) (pre : Bool) (k : Int) (s : RunState)
    (rec : AttemptRecord) (h : (Run.attempt env job pre k s).Attempts = s.Attempts ++ [rec]) :
    (rec.bStagingDeleted = true ↔
      rec.bRunInstallation = true ∧ rec.bRunBackupAndMove = some true) ∧
    rec.bForceFileAttributes.isSome = rec.bStagingDeleted ∧
    rec.bRunVerification.isSome = rec.bStagingDeleted ∧
    (rec.bProcessSuccess = true ↔ rec.bRunVerification = some true) ∧
    rec.bMarkerDeleted = (rec.bProcessSuccess || rec.bCanRetry) := by
  have h' : s.Attempts ++ [rec] = s.Attempts ++ [_] := h.symm.trans rfl
  have hr := List.append_cancel_left h'
  simp only [List.cons.injEq, and_true] at hr
  subst hr
  clear h h'
  dsimp only
  cases hi : (RunInstallation env job s.CorruptFiles s.world).1
  · simp
  · simp only [if_true]
    generalize RunBackupAndMove env job
      (SetStateProgress EBuildPatchProgress.Installing 1
        (SetStateProgress EBuildPatchProgress.Downloading 1
          (SetStateProgress EBuildPatchProgress.PrerequisitesInstall (if pre = true then 0 else 1)
            (RunInstallation env job s.CorruptFiles s.world).2))) = m
    obtain ⟨mb, mw⟩ := m
    cases mb
    · simp
    · simp [RunFileAttributes_fst]

/-- A record after which the loop test holds is followed by another record. -/
theorem Run.loop_continues (env : Env) (job : Job) (pre : Bool) :
    ∀ (n : Nat) (s : RunState) (recs : List AttemptRecord),
      (Run.loop env job pre n s).Attempts = s.Attempts ++ recs →
      ∀ (i : Nat) (a : AttemptRecord), recs[i]? = some a →
        a.bProcessSuccess = false → a.bCanRetry = true → i + 1 < recs.length := by
  intro n
  induction n with
  | zero =>
    intro s recs h i a hi _ hc
    obtain ⟨rec, h1, _, _, _, _, h5⟩ := Run.attempt_record env job pre (-1) s
    have hr : recs = [rec] := by
      have : s.Attempts ++ recs = s.Attempts ++ [rec] := by rw [← h, ← h1]; rfl
      exact List.append_cancel_left this
    subst hr
    cases i with
    | zero =>
      simp only [List.getElem?_cons_zero, Option.some.injEq] at hi
      subst hi
      rw [h5] at hc
      simp at hc
    | succ j => simp at hi
  | succ n ih =>
    intro s recs h i a hi hp hc
    obtain ⟨rec, h1, _, _, h2, h3, _⟩ := Run.attempt_record env job pre n s
    unfold Run.loop at h
    dsimp only at h
    split at h
    · obtain ⟨recs', hne, h'⟩ := Run.loop_appends env job pre n (Run.attempt env job pre n s)
      have hr : recs = rec :: recs' := by
        have : s.Attempts ++ recs = s.Attempts ++ (rec :: recs') := by
          rw [← h, h', h1]; simp
        exact List.append_cancel_left this
      subst hr
      cases i with
      | zero =>
        have := List.length_pos.mpr hne
        simp only [List.length_cons]
        omega
      | succ j =>
        simp only [List.getElem?_cons_succ] at hi
        have := ih (Run.attempt env job pre n s) recs' h' j a hi hp hc
        simp only [List.length_cons]
        omega
    · rename_i hcond
      have hr : recs = [rec] := by
        have : s.Attempts ++ recs = s.Attempts ++ [rec] := by rw [← h, h1]
        exact List.append_cancel_left this
      subst hr
      cases i with
      | zero =>
        simp only [List.getElem?_cons_zero, Option.some.injEq] at hi
        subst hi
        rw [h2] at hp
        rw [h3] at hc
        simp [hp, hc] at hcond
      | succ j => simp at hi

/-- The directory deletions among the calls of a list of attempt records. -/
theorem AttemptRecord.runCalls_deleteDirectory (job : Job) :
    ∀ l : List AttemptRecord,
      (l.flatMap (AttemptRecord.runCalls job)).filter Event.isDeleteDirectory =
        (l.filter (fun a => a.bStagingDeleted)).map
          (fun _ => Event.DeleteDirectory job.StagingDirectory) := by
  intro l
  induction l with
  | nil => rfl
  | cons a rest ih =>
    rw [List.flatMap_cons, List.filter_append, ih]
    unfold AttemptRecord.runCalls
    cases hsd : a.bStagingDeleted <;> cases hmd : a.bMarkerDeleted <;>
      simp [Event.isDeleteDirectory, List.filter_cons, hsd]

/-- A directory deletion is one of the calls of `Event.isRunCall`. -/
theorem Event.filter_isDeleteDirectory (l : List Event) :
    (l.filter Event.isRunCall).filter Event.isDeleteDirectory =
      l.filter Event.isDeleteDirectory := by
  rw [List.filter_filter]
  congr 1
  funext e
  cases e <;> rfl

/-- C17: in every attempt of `Run`, the staging directory is deleted only if `RunInstallation` of
that same attempt returned true, and in an attempt whose `RunInstallation` returned false it is
not deleted; the calls of `DeleteDirectory` in the whole run are exactly one deletion of the
staging directory for each attempt recorded as having deleted it, so no other code path deletes
it. -/
theorem C17_staging_deleted_only_after_installation (env : Env) (job : Job) (w : World) :
    (∀ a ∈ (Run env job w).Attempts,
      (a.bStagingDeleted = true → a.bRunInstallation = true) ∧
      (a.bRunInstallation = false → a.bStagingDeleted = false)) ∧
    (Run env job w).world.trace.filter Event.isDeleteDirectory =
      w.trace.filter Event.isDeleteDirectory ++
        ((Run env job w).Attempts.filter (fun a => a.bStagingDeleted)).map
          (fun _ => Event.DeleteDirectory job.StagingDirectory) := by
  constructor
  · rw [Run.eq_finish, Run.finish_Attempts]
    refine Run.loop_forall env job _ _ ?_ 5 _ (by simp)
    intro k s rec h
    have ho := (Run.attempt_outcome env job _ k s rec h).1
    refine ⟨fun hd => (ho.mp hd).1, fun hi => ?_⟩
    cases hd : rec.bStagingDeleted
    · rfl
    · rw [(ho.mp hd).1] at hi
      exact absurd hi (by decide)
  · have h := congrArg (List.filter Event.isDeleteDirectory) (Run_runCalls env job w)
    rw [Event.filter_isDeleteDirectory, List.filter_append, List.filter_append,
      Event.filter_isDeleteDirectory, AttemptRecord.runCalls_deleteDirectory] at h
    rw [h]
    cases (Run env job w).bRunPrereqInstaller.isSome <;>
      simp [Job.PrereqCall, Event.isDeleteDirectory]

set_option maxRecDepth 100000 in
/-- C17 at a concrete input: verification fails in the first attempt, and in the second attempt
the user cancels while the downloader is created, so that `RunInstallation` returns false; the
staging directory is deleted in the first attempt only, by the single call of `DeleteDirectory`
in the run. -/
theorem C17_witness :
    (Run cancelEnv sampleJob (sampleWorld stagedDisk)).Attempts.map
        (fun a => (a.bRunInstallation, a.bStagingDeleted)) = [(true, true), (false, false)] ∧
    (Run cancelEnv sampleJob (sampleWorld stagedDisk)).world.trace.filter
        Event.isDeleteDirectory =
      (sampleWorld stagedDisk).trace.filter Event.isDeleteDirectory ++
        ((Run cancelEnv sampleJob (sampleWorld stagedDisk)).Attempts.filter
          (fun a => a.bStagingDeleted)).map
          (fun _ => Event.DeleteDirectory sampleJob.StagingDirectory) ∧
    (Run cancelEnv sampleJob (sampleWorld stagedDisk)).world.trace.filter
        Event.isDeleteDirectory = [Event.DeleteDirectory "S"] :=
  ⟨by decide,
    (C17_staging_deleted_only_after_installation cancelEnv sampleJob
      (sampleWorld stagedDisk)).2,
    by decide⟩

set_option maxRecDepth 100000 in
/-- C18, refuted as stated: verification finds `fileB` corrupt in each of the five attempts, so
no attempt succeeds as a whole, and yet each attempt deletes the staging directory: the run
calls `DeleteDirectory` on it five times. -/
theorem C18_counterexample :
    (Run (sampleEnv ["fileB"]) sampleJob (sampleWorld stagedDisk)).Attempts.map
        (fun a => (a.bRunVerification, a.bProcessSuccess, a.bStagingDeleted)) =
      [(some false, false, true), (some false, false, true), (some false, false, true),
        (some false, false, true), (some false, false, true)] ∧
    (Run (sampleEnv ["fileB"]) sampleJob (sampleWorld stagedDisk)).world.trace.filter
        Event.isDeleteDirectory =
      [Event.DeleteDirectory "S", Event.DeleteDirectory "S", Event.DeleteDirectory "S",
        Event.DeleteDirectory "S", Event.DeleteDirectory "S"] := by
  decide

/-- C18, amended: in every attempt of `Run`, the staging directory is cleaned if and only if the
installation part of that attempt succeeded, that is `RunInstallation` and `RunBackupAndMove`
returned true (the attribute pass then runs, and it always returns true); these are exactly the
attempts in which verification runs, and the result of verification plays no part: an attempt
whose verification failed has cleaned the staging directory, and so has every attempt that
succeeded as a whole.  A pass through the retry loop whose record says so makes one call of
`DeleteDirectory`, on the staging directory, and any other pass makes none. -/
theorem C18_staging_cleaned_amended (env : Env) (job : Job) (w : World) :
    (∀ a ∈ (Run env job w).Attempts,
      (a.bStagingDeleted = true ↔
        a.bRunInstallation = true ∧ a.bRunBackupAndMove = some true ∧
          a.bForceFileAttributes.isSome = true) ∧
      a.bRunVerification.isSome = a.bStagingDeleted ∧
      (a.bRunVerification = some false → a.bStagingDeleted = true) ∧
      (a.bProcessSuccess = true → a.bStagingDeleted = true)) ∧
    (∀ (k : Int) (s : RunState) (rec : AttemptRecord),
      (Run.attempt env job (Run.bInstallPrereqs job) k s).Attempts = s.Attempts ++ [rec] →
      (Run.attempt env job (Run.bInstallPrereqs job) k s).world.trace.filter
          Event.isDeleteDirectory =
        s.world.trace.filter Event.isDeleteDirectory ++
          (if rec.bStagingDeleted then [Event.DeleteDirectory job.StagingDirectory] else [])) := by
  constructor
  · rw [Run.eq_finish, Run.finish_Attempts]
    refine Run.loop_forall env job _ _ ?_ 5 _ (by simp)
    intro k s rec h
    obtain ⟨h1, h2, h3, h4, _⟩ := Run.attempt_outcome env job _ k s rec h
    refine ⟨⟨fun hd => ⟨(h1.mp hd).1, (h1.mp hd).2, by rw [h2, hd]⟩,
      fun hc => h1.mpr ⟨hc.1, hc.2.1⟩⟩, h3, ?_, ?_⟩
    · intro hv
      rw [← h3, hv]
      rfl
    · intro hp
      rw [← h3, h4.mp hp]
      rfl
  · intro k s rec h
    have hc := congrArg (List.filter Event.isDeleteDirectory)
      (Run.attempt_runCalls env job _ k s rec h)
    rw [Event.filter_isDeleteDirectory, List.filter_append,
      Event.filter_isDeleteDirectory] at hc
    rw [hc]
    unfold AttemptRecord.runCalls
    cases rec.bStagingDeleted <;> cases rec.bMarkerDeleted <;>
      simp [Event.isDeleteDirectory]

set_option maxRecDepth 100000 in
/-- C18 amended, at a concrete input: in the run in which verification finds `fileB` corrupt, every
attempt ran verification, which failed, and cleaned the staging directory. -/
theorem C18_witness :
    (∀ a ∈ (Run (sampleEnv ["fileB"]) sampleJob (sampleWorld stagedDisk)).Attempts,
      a.bRunVerification = some false → a.bStagingDeleted = true) ∧
    (Run (sampleEnv ["fileB"]) sampleJob (sampleWorld stagedDisk)).Attempts.map
        (fun a => (a.bRunInstallation, a.bRunBackupAndMove, a.bRunVerification)) =
      [(true, some true, some false), (true, some true, some false),
        (true, some true, some false), (true, some true, some false),
        (true, some true, some false)] :=
  ⟨fun a ha =>
      ((C18_staging_cleaned_amended (sampleEnv ["fileB"]) sampleJob (sampleWorld stagedDisk)).1
        a ha).2.2.1,
    by decide⟩


/-! ## The deletion of the marker file -/

/-- The log lines before the deletion of the marker among the calls of a list of attempt
records. -/
theorem AttemptRecord.runCalls_resetMarker (job : Job) :
    ∀ l : List AttemptRecord,
      (l.flatMap (AttemptRecord.runCalls job)).filter Event.isResetMarker =
        (l.filter (fun a => a.bMarkerDeleted)).map
          (fun _ => Event.Log "BuildPatchServices: Reset MM") := by
  intro l
  induction l with
  | nil => rfl
  | cons a rest ih =>
    rw [List.flatMap_cons, List.filter_append, ih]
    unfold AttemptRecord.runCalls
    cases hsd : a.bStagingDeleted <;> cases hmd : a.bMarkerDeleted <;>
      simp [Event.isResetMarker, List.filter_cons, hmd]

/-- The log line before the deletion of the marker is one of the calls of `Event.isRunCall`. -/
theorem Event.filter_isResetMarker (l : List Event) :
    (l.filter Event.isRunCall).filter Event.isResetMarker = l.filter Event.isResetMarker := by
  rw [List.filter_filter]
  congr 1
  funext e
  cases e <;> simp [Event.isResetMarker, Event.isRunCall]

/-- A pass through the retry loop that records the deletion of the marker ends with the log line
and the call of `Delete` on the marker file. -/
theorem Run.attempt_resetMarker (env : Env) (job : Job) (pre : Bool) (k : Int) (s : RunState)
    (rec : AttemptRecord) (h : (Run.attempt env job pre k s).Attempts = s.Attempts ++ [rec])
    (hd : rec.bMarkerDeleted = true) :
    [Event.Log "BuildPatchServices: Reset MM", Event.Delete job.PreviousMoveMarker] <:+
      (Run.attempt env job pre k s).world.trace := by
  have h' : s.Attempts ++ [rec] = s.Attempts ++ [_] := h.symm.trans rfl
  have hr := List.append_cancel_left h'
  simp only [List.cons.injEq, and_true] at hr
  subst hr
  clear h h'
  dsimp only at hd
  dsimp only [Run.attempt]
  rw [if_pos hd]
  simp only [Delete_trace, Logf, ext_trace, List.append_assoc, List.singleton_append]
  exact List.suffix_append _ _

/-! ## The prerequisites installer -/

/-- Whether `Run.finish` invokes `RunPrereqInstaller`, and what follows from its result. -/
theorem Run.finish_prereq (env : Env) (job : Job) (t : ℚ) (s : RunState) :
    (Run.finish env job t s).bRunPrereqInstaller.isSome =
      (s.bProcessSuccess && Run.bInstallPrereqs job) ∧
    ∀ r, (Run.finish env job t s).bRunPrereqInstaller = some r →
      r = (RunPrereqInstaller env job s.world).1 ∧
      (Run.finish env job t s).world.BuildStats.ProcessSuccess = r ∧
      (Run.finish env job t s).ReturnCode = (if r then 0 else 1) := by
  unfold Run.finish
  dsimp only
  cases hc : (s.bProcessSuccess && Run.bInstallPrereqs job)
  · simp
  · simp only [Bool.and_eq_true] at hc
    simp [hc.1, hc.2, Logf, SetRunning]

/-- A process start is one of the calls of `Event.isRunCall`. -/
theorem Event.filter_isCreateProc (l : List Event) :
    (l.filter Event.isRunCall).filter Event.isCreateProc = l.filter Event.isCreateProc := by
  rw [List.filter_filter]
  congr 1
  funext e
  cases e <;> rfl

/-- The calls of a list of attempt records start no process. -/
theorem AttemptRecord.runCalls_createProc (job : Job) :
    ∀ l : List AttemptRecord,
      (l.flatMap (AttemptRecord.runCalls job)).filter Event.isCreateProc = [] := by
  intro l
  induction l with
  | nil => rfl
  | cons a rest ih =>
    rw [List.flatMap_cons, List.filter_append, ih]
    unfold AttemptRecord.runCalls
    cases a.bStagingDeleted <;> cases a.bMarkerDeleted <;> simp [Event.isCreateProc]

/-- C15: `Run` invokes `RunPrereqInstaller` if and only if the retry loop ended in success (its
last attempt succeeded), there is no current manifest and the prerequisite path of the target
manifest is not empty; it invokes it at most once: the only process that the run starts is the
prerequisites installer, once if it is invoked and never otherwise; and when it is invoked, the
final `ProcessSuccess` is its result, so a false result makes `Run` fail with return code 1. -/
theorem C15_prerequisite_gating (env : Env) (job : Job) (w : World) :
    ((Run env job w).bRunPrereqInstaller.isSome = true ↔
      (∃ last, (Run env job w).Attempts.getLast? = some last ∧ last.bProcessSuccess = true) ∧
        job.CurrentBuildManifest = none ∧ job.NewBuildManifest.PrereqPath.isEmpty = false) ∧
    (Run env job w).world.trace.filter Event.isCreateProc =
      w.trace.filter Event.isCreateProc ++
        (if (Run env job w).bRunPrereqInstaller.isSome then [job.PrereqCall env] else []) ∧
    (∀ r, (Run env job w).bRunPrereqInstaller = some r →
      (Run env job w).world.BuildStats.ProcessSuccess = r ∧
        (Run env job w).ReturnCode = (if r then 0 else 1)) := by
  refine ⟨?_, ?_, ?_⟩
  · obtain ⟨last, hl, hp⟩ := Run.loop_result env job (Run.bInstallPrereqs job) 5
      { bProcessSuccess := false, bCanRetry := true, CorruptFiles := [], CleanUpTime := 0,
        Attempts := [], world := Run.prepare env job w }
    rw [Run.eq_finish, Run.finish_Attempts, (Run.finish_prereq env job _ _).1, hl, ← hp]
    unfold Run.bInstallPrereqs
    clear hl hp
    cases hb : last.bProcessSuccess <;> cases job.CurrentBuildManifest <;>
      cases job.NewBuildManifest.PrereqPath.isEmpty <;> simp [hb]
  · have h := congrArg (List.filter Event.isCreateProc) (Run_runCalls env job w)
    rw [Event.filter_isCreateProc, List.filter_append, List.filter_append,
      Event.filter_isCreateProc, AttemptRecord.runCalls_createProc] at h
    rw [h]
    cases (Run env job w).bRunPrereqInstaller.isSome <;>
      simp [Job.PrereqCall, Event.isCreateProc]
  · intro r hr
    rw [Run.eq_finish] at hr ⊢
    exact ((Run.finish_prereq env job _ _).2 r hr).2

set_option maxRecDepth 100000 in
/-- C15 at concrete inputs: a first installation whose manifest names the installer `setup.exe`.
When the installer exits with code 1 it was invoked once, after the only attempt had succeeded,
and `Run` fails; when the download fails it is not invoked at all. -/
theorem C15_witness :
    ((Run { sampleEnv [] with GetProcReturnCode := fun _ => 1 } prereqJob
        (sampleWorld stagedDisk)).world.BuildStats.ProcessSuccess = false ∧
      (Run { sampleEnv [] with GetProcReturnCode := fun _ => 1 } prereqJob
        (sampleWorld stagedDisk)).ReturnCode = (if false = true then 0 else 1)) ∧
    (Run { sampleEnv [] with GetProcReturnCode := fun _ => 1 } prereqJob
        (sampleWorld stagedDisk)).Attempts.map (fun a => a.bProcessSuccess) = [true] ∧
    (Run { sampleEnv [] with GetProcReturnCode := fun _ => 1 } prereqJob
        (sampleWorld stagedDisk)).world.trace.filter Event.isCreateProc =
      [Event.CreateProc "I/setup.exe" "/q"] ∧
    (Run downloadErrorEnv prereqJob (sampleWorld stagedDisk)).bRunPrereqInstaller = none ∧
    (Run downloadErrorEnv prereqJob (sampleWorld stagedDisk)).world.trace.filter
        Event.isCreateProc = [] :=
  ⟨(C15_prerequisite_gating { sampleEnv [] with GetProcReturnCode := fun _ => 1 } prereqJob
      (sampleWorld stagedDisk)).2.2 false (by decide),
    by decide, by decide, by decide, by decide⟩


/-! ## The result of `RunPrereqInstaller` -/

/-- An external call leaves the error state alone or sets it to what the environment raises. -/
theorem ext_ErrorState_cases (env : Env) (e : Event) (w : World) :
    (ext env e w).ErrorState = w.ErrorState ∨
      ∃ x, env.Raise x = some (ext env e w).ErrorState := by
  unfold ext SetFatalError
  dsimp only
  split
  · rename_i err hraise
    split
    · exact Or.inl rfl
    · exact Or.inr ⟨_, hraise⟩
  · exact Or.inl rfl

/-- C16: `RunPrereqInstaller` returns true if and only if the process could be started and its
exit code is 0 or 3010.  When it returns true the progress of `PrerequisitesInstall` is 1.  When
it returns false (failed launch, or any other exit code) the progress of `PrerequisitesInstall`
stays at 0 and a fatal error is recorded on return: it is `PrerequisiteError`, unless an error was
already recorded on entry or was raised by the environment during the call (the error record
keeps the first error). -/
theorem C16_prereq_installer_result (env : Env) (job : Job) (w : World) :
    ((RunPrereqInstaller env job w).1 = true ↔
      RunPrereqInstaller.launched env job w = true ∧
        (RunPrereqInstaller.exitCode env job w = 0 ∨
          RunPrereqInstaller.exitCode env job w = 3010)) ∧
    ((RunPrereqInstaller env job w).1 = true →
      (RunPrereqInstaller env job w).2.BuildProgress.StateProgressValues
        EBuildPatchProgress.PrerequisitesInstall = 1) ∧
    ((RunPrereqInstaller env job w).1 = false →
      (RunPrereqInstaller env job w).2.BuildProgress.StateProgressValues
        EBuildPatchProgress.PrerequisitesInstall = 0 ∧
      HasFatalError (RunPrereqInstaller env job w).2 = true ∧
      ((RunPrereqInstaller env job w).2.ErrorState = EBuildPatchInstallError.PrerequisiteError ∨
        (RunPrereqInstaller env job w).2.ErrorState = w.ErrorState ∨
        ∃ x, env.Raise x = some (RunPrereqInstaller env job w).2.ErrorState)) := by
  have hk : ∀ (e : Event) (x : World),
      (x.ErrorState = w.ErrorState ∨ ∃ y, env.Raise y = some x.ErrorState) →
      ((ext env e x).ErrorState = w.ErrorState ∨
        ∃ y, env.Raise y = some (ext env e x).ErrorState) := by
    intro e x hx
    rcases ext_ErrorState_cases env e x with h | h
    · rw [h]; exact hx
    · exact Or.inr h
  have hs : ∀ x : World,
      (x.ErrorState = w.ErrorState ∨ ∃ y, env.Raise y = some x.ErrorState) →
      HasFatalError (SetFatalError EBuildPatchInstallError.PrerequisiteError "" x) = true ∧
      ((SetFatalError EBuildPatchInstallError.PrerequisiteError "" x).ErrorState =
          EBuildPatchInstallError.PrerequisiteError ∨
        (SetFatalError EBuildPatchInstallError.PrerequisiteError "" x).ErrorState =
          w.ErrorState ∨
        ∃ y, env.Raise y =
          some (SetFatalError EBuildPatchInstallError.PrerequisiteError "" x).ErrorState) := by
    intro x hx
    unfold SetFatalError
    split
    · rename_i hf
      exact ⟨hf, Or.inr hx⟩
    · exact ⟨by simp [HasFatalError], Or.inl rfl⟩
  unfold RunPrereqInstaller RunPrereqInstaller.launched RunPrereqInstaller.exitCode
    Job.PrereqCall
  dsimp only
  cases hv : env.CreateProcValid
    (SetStateProgress EBuildPatchProgress.PrerequisitesInstall 0
      (Logf env "BuildPatchServices: Running prerequisites installer" w))
    (env.ConvertRelativePathToFull
      (pathCombine job.InstallDirectory job.NewBuildManifest.PrereqPath))
    job.NewBuildManifest.PrereqArgs
  · simp only [Bool.not_false, if_true, Bool.false_eq_true, if_false, false_and, iff_false,
      Bool.not_eq_true, true_and, false_implies, forall_true_left]
    refine ⟨?_, hs _ ?_⟩
    · simp [SetFatalError, Logf, SetStateProgress]
      split <;> simp
    · exact hk _ _ (hk _ _ (hk _ _ (hk _ _ (Or.inl rfl))))
  · simp only [Bool.not_true, Bool.false_eq_true, if_false, if_true, true_and]
    generalize hc : env.GetProcReturnCode
      (ext env
        (Event.CreateProc
          (env.ConvertRelativePathToFull
            (pathCombine job.InstallDirectory job.NewBuildManifest.PrereqPath))
          job.NewBuildManifest.PrereqArgs)
        (SetStateProgress EBuildPatchProgress.PrerequisitesInstall 0
          (Logf env "BuildPatchServices: Running prerequisites installer" w))) = code
    by_cases h0 : code = 0
    · subst h0
      simp [SetStateProgress]
    · by_cases h1 : code = 3010
      · subst h1
        simp [SetStateProgress]
      · simp only [bne_iff_ne, ne_eq, h0, not_false_eq_true, if_true, beq_iff_eq, h1, if_false,
          Bool.false_eq_true, or_self, iff_false, not_true_eq_false, false_implies,
          forall_true_left, true_and]
        refine ⟨?_, hs _ ?_⟩
        · simp [SetFatalError, Logf, SetStateProgress]
          split <;> simp
        · exact hk _ _ (hk _ _ (hk _ _ (hk _ _ (hk _ _ (Or.inl rfl)))))

/-- C16 at concrete inputs: with exit code 1 the installer of `prereqJob` fails, the progress of
`PrerequisitesInstall` is 0 and the error state is `PrerequisiteError`; with exit code 3010 it
succeeds and the progress is 1; when the process cannot be started it fails whatever the exit
code would be. -/
theorem C16_witness :
    ((RunPrereqInstaller { sampleEnv [] with GetProcReturnCode := fun _ => 1 } prereqJob
        (sampleWorld stagedDisk)).2.BuildProgress.StateProgressValues
        EBuildPatchProgress.PrerequisitesInstall = 0 ∧
      HasFatalError (RunPrereqInstaller { sampleEnv [] with GetProcReturnCode := fun _ => 1 }
        prereqJob (sampleWorld stagedDisk)).2 = true ∧
      ((RunPrereqInstaller { sampleEnv [] with GetProcReturnCode := fun _ => 1 } prereqJob
          (sampleWorld stagedDisk)).2.ErrorState = EBuildPatchInstallError.PrerequisiteError ∨
        (RunPrereqInstaller { sampleEnv [] with GetProcReturnCode := fun _ => 1 } prereqJob
          (sampleWorld stagedDisk)).2.ErrorState = (sampleWorld stagedDisk).ErrorState ∨
        ∃ x, ({ sampleEnv [] with GetProcReturnCode := fun _ => 1 } : Env).Raise x =
          some (RunPrereqInstaller { sampleEnv [] with GetProcReturnCode := fun _ => 1 }
            prereqJob (sampleWorld stagedDisk)).2.ErrorState)) ∧
    (RunPrereqInstaller { sampleEnv [] with GetProcReturnCode := fun _ => 1 } prereqJob
      (sampleWorld stagedDisk)).2.ErrorState = EBuildPatchInstallError.PrerequisiteError ∧
    (RunPrereqInstaller { sampleEnv [] with GetProcReturnCode := fun _ => 3010 } prereqJob
      (sampleWorld stagedDisk)).1 = true ∧
    (RunPrereqInstaller { sampleEnv [] with GetProcReturnCode := fun _ => 3010 } prereqJob
      (sampleWorld stagedDisk)).2.BuildProgress.StateProgressValues
      EBuildPatchProgress.PrerequisitesInstall = 1 ∧
    (RunPrereqInstaller { sampleEnv [] with CreateProcValid := fun _ _ _ => false } prereqJob
      (sampleWorld stagedDisk)).1 = false :=
  ⟨(C16_prereq_installer_result { sampleEnv [] with GetProcReturnCode := fun _ => 1 } prereqJob
      (sampleWorld stagedDisk)).2.2 (by decide),
    by decide, by decide, by decide, by decide⟩


/-! ## What the file operations do to the disk -/

/-- The path operator is injective in its second argument. -/
theorem pathCombine_right_inj (a x y : String) (h : pathCombine a x = pathCombine a y) :
    x = y := by
  unfold pathCombine at h
  have := congrArg String.data h
  simp only [String.data_append, List.append_cancel_left_eq] at this
  exact String.ext this

theorem DiskStep.refl (W C : String → Prop) (d : String → Option FileState) :
    DiskStep W C d d := fun _ => Or.inl rfl

theorem DiskStep.of_eq {W C : String → Prop} {d d' : String → Option FileState} (h : d' = d) :
    DiskStep W C d d' := fun _ => Or.inl (by rw [h])

theorem DiskStep.trans {W C : String → Prop} {d d' d'' : String → Option FileState}
    (h1 : DiskStep W C d d') (h2 : DiskStep W C d' d'') : DiskStep W C d d'' := by
  intro p
  rcases h2 p with h | h | h
  · rcases h1 p with g | g | g
    · exact Or.inl (h.trans g)
    · exact Or.inr (Or.inl ⟨g.1, h.trans g.2⟩)
    · exact Or.inr (Or.inr ⟨g.1, by rw [h]; exact g.2⟩)
  · exact Or.inr (Or.inl h)
  · exact Or.inr (Or.inr h)

theorem DiskStep.mono {W C W' C' : String → Prop} {d d' : String → Option FileState}
    (h : DiskStep W C d d') (hW : ∀ p, W p → W' p) (hC : ∀ p, C p → C' p) :
    DiskStep W' C' d d' := by
  intro p
  rcases h p with g | g | g
  · exact Or.inl g
  · exact Or.inr (Or.inl ⟨hC p g.1, g.2⟩)
  · exact Or.inr (Or.inr ⟨hW p g.1, g.2⟩)

/-- A path that is neither written nor cleared keeps its file. -/
theorem DiskStep.same {W C : String → Prop} {d d' : String → Option FileState}
    (h : DiskStep W C d d') (p : String) (hW : ¬ W p) (hC : ¬ C p) : d' p = d p := by
  rcases h p with g | g | g
  · exact g
  · exact absurd g.1 hC
  · exact absurd g.1 hW

/-- A path that is not written keeps its file or loses it. -/
theorem DiskStep.same_or_none {W C : String → Prop} {d d' : String → Option FileState}
    (h : DiskStep W C d d') (p : String) (hW : ¬ W p) : d' p = d p ∨ d' p = none := by
  rcases h p with g | g | g
  · exact Or.inl g
  · exact Or.inr g.2
  · exact absurd g.1 hW

section Disk

variable (env : Env)

theorem Move_diskStep (d s : String) (w : World) :
    DiskStep (fun p => p = d) (fun p => p = s) w.disk (Move env d s w).2.disk := by
  unfold Move
  dsimp only
  split
  · rename_i hok
    simp only [Bool.and_eq_true] at hok
    intro p
    dsimp only
    by_cases hd : p = d
    · exact Or.inr (Or.inr ⟨hd, by simp [hd, hok.2]⟩)
    · by_cases hs : p = s
      · subst hs
        exact Or.inr (Or.inl ⟨rfl, by simp [hd]⟩)
      · exact Or.inl (by simp [hd, hs])
  · exact DiskStep.of_eq (by simp)

/-- A move that succeeds puts the file of the source at the destination. -/
theorem Move_disk_dest (d s : String) (w : World) (h : (Move env d s w).1 = true) :
    (Move env d s w).2.disk d = w.disk s ∧ (w.disk s).isSome = true := by
  unfold Move at h ⊢
  dsimp only at h ⊢
  split
  · rename_i hok
    simp only [Bool.and_eq_true] at hok
    exact ⟨by simp, hok.2⟩
  · rename_i hok
    rw [if_neg hok] at h
    exact absurd h (by simp)

/-- A move that fails leaves the disk as it is. -/
theorem Move_disk_of_false (d s : String) (w : World) (h : (Move env d s w).1 = false) :
    (Move env d s w).2.disk = w.disk := by
  unfold Move at h ⊢
  dsimp only at h ⊢
  split
  · rename_i hok
    rw [if_pos hok] at h
    exact absurd h (by simp)
  · simp

theorem Copy_diskStep (d s : String) (w : World) :
    DiskStep (fun p => p = d) (fun _ => False) w.disk (Copy env d s w).2.disk := by
  unfold Copy
  dsimp only
  split
  · rename_i hok
    simp only [Bool.and_eq_true] at hok
    intro p
    dsimp only
    by_cases hd : p = d
    · exact Or.inr (Or.inr ⟨hd, by simp [hd, hok.2]⟩)
    · exact Or.inl (by simp [hd])
  · exact DiskStep.of_eq (by simp)

/-- A copy that succeeds puts the file of the source at the destination. -/
theorem Copy_disk_dest (d s : String) (w : World) (h : (Copy env d s w).1 = true) :
    (Copy env d s w).2.disk d = w.disk s ∧ (w.disk s).isSome = true := by
  unfold Copy at h ⊢
  dsimp only at h ⊢
  split
  · rename_i hok
    simp only [Bool.and_eq_true] at hok
    exact ⟨by simp, hok.2⟩
  · rename_i hok
    rw [if_neg hok] at h
    exact absurd h (by simp)

/-- A copy that fails leaves the disk as it is. -/
theorem Copy_disk_of_false (d s : String) (w : World) (h : (Copy env d s w).1 = false) :
    (Copy env d s w).2.disk = w.disk := by
  unfold Copy at h ⊢
  dsimp only at h ⊢
  split
  · rename_i hok
    rw [if_pos hok] at h
    exact absurd h (by simp)
  · simp

theorem Delete_diskStep (path : String) (w : World) :
    DiskStep (fun _ => False) (fun p => p = path) w.disk (Delete env path w).2.disk := by
  unfold Delete
  dsimp only
  split
  · intro p
    dsimp only
    by_cases hd : p = path
    · exact Or.inr (Or.inl ⟨hd, by simp [hd]⟩)
    · exact Or.inl (by simp [hd])
  · exact DiskStep.of_eq (by simp)

/-- A deletion that the file system carries out leaves no file at the path. -/
theorem Delete_disk_of_ok (path : String) (w : World) (h : env.DeleteOk w path = true) :
    (Delete env path w).2.disk path = none := by
  simp [Delete, h]

theorem CreateFileWriter_diskStep (path : String) (w : World) :
    DiskStep (fun p => p = path) (fun _ => False) w.disk (CreateFileWriter env path w).2.disk := by
  unfold CreateFileWriter
  dsimp only
  split
  · intro p
    dsimp only
    by_cases hd : p = path
    · exact Or.inr (Or.inr ⟨hd, by simp [hd]⟩)
    · exact Or.inl (by simp [hd])
  · exact DiskStep.of_eq (by simp)

@[simp]
theorem FileExists_disk (p : String) (w : World) : (FileExists env p w).2.disk = w.disk := by
  simp [FileExists]

@[simp]
theorem FileSize_disk (p : String) (w : World) : (FileSize env p w).2.disk = w.disk := by
  simp [FileSize]

@[simp]
theorem SetFatalError_disk (err : EBuildPatchInstallError) (log : String) (w : World) :
    (SetFatalError err log w).disk = w.disk := by
  unfold SetFatalError; split <;> rfl

@[simp]
theorem SetStateWeight_disk (s : EBuildPatchProgress) (v : ℚ) (w : World) :
    (SetStateWeight s v w).disk = w.disk := rfl

@[simp]
theorem FilesInstalledAdd_disk (f : String) (w : World) :
    (FilesInstalledAdd f w).disk = w.disk := rfl

theorem backupIfEdited_diskStep (job : Job) (f : String) (b : Bool) (w : World) :
    DiskStep (fun p => p = pathCombine env.GetBackupDirectory f)
      (fun p => p = pathCombine job.InstallDirectory f)
      w.disk (BackupFileIfNecessary.backupIfEdited env job f b w).2.disk := by
  have hm : ∀ x : World, x.disk = w.disk → DiskStep
      (fun p => p = pathCombine env.GetBackupDirectory f)
      (fun p => p = pathCombine job.InstallDirectory f) w.disk
      (Move env (pathCombine env.GetBackupDirectory f) (pathCombine job.InstallDirectory f)
        x).2.disk := fun x hx => hx ▸ Move_diskStep env _ _ x
  unfold BackupFileIfNecessary.backupIfEdited
  dsimp only
  repeat' split
  all_goals first
    | exact hm _ (by simp [Logf])
    | exact DiskStep.of_eq (by simp [Logf])

/-- The only change that `BackupFileIfNecessary` makes to the disk is the move of the installed
file to the backup directory, and it makes none when backups are disabled. -/
theorem BackupFileIfNecessary_diskStep (job : Job) (f : String) (b : Bool) (w : World) :
    DiskStep
      (fun p => env.GetBackupDirectory.isEmpty = false ∧ p = pathCombine env.GetBackupDirectory f)
      (fun p => env.GetBackupDirectory.isEmpty = false ∧ p = pathCombine job.InstallDirectory f)
      w.disk (BackupFileIfNecessary env job f b w).2.disk := by
  cases he : env.GetBackupDirectory.isEmpty
  · have hb : ∀ x : World, x.disk = w.disk → DiskStep
        (fun p => false = false ∧ p = pathCombine env.GetBackupDirectory f)
        (fun p => false = false ∧ p = pathCombine job.InstallDirectory f) w.disk
        (BackupFileIfNecessary.backupIfEdited env job f b x).2.disk := fun x hx =>
      hx ▸ (backupIfEdited_diskStep env job f b x).mono (fun p hp => ⟨rfl, hp⟩)
        (fun p hp => ⟨rfl, hp⟩)
    unfold BackupFileIfNecessary
    dsimp only
    repeat' split
    all_goals first
      | exact hb _ (by simp)
      | exact DiskStep.of_eq (by simp)
  · unfold BackupFileIfNecessary
    simp only [he, Bool.not_true, Bool.not_false, if_true]
    exact DiskStep.refl _ _ _

/-- For a path in `FilesInstalled`, `BackupFileIfNecessary` leaves the disk as it is. -/
theorem BackupFileIfNecessary_disk_of_installed (job : Job) (f : String) (b : Bool) (w : World)
    (h : f ∈ w.FilesInstalled) : (BackupFileIfNecessary env job f b w).2.disk = w.disk := by
  unfold BackupFileIfNecessary
  dsimp only
  repeat' split
  all_goals first
    | simp
    | (rename_i hc; simp [FileExists, h] at hc)

end Disk


/-! ## The clean-up after verification -/

section StagingDir

variable (env : Env)

@[simp]
theorem SetFatalError_InstallStagingDir (err : EBuildPatchInstallError) (log : String)
    (w : World) : (SetFatalError err log w).InstallStagingDir = w.InstallStagingDir := by
  unfold SetFatalError; split <;> rfl

@[simp]
theorem FileExists_InstallStagingDir (p : String) (w : World) :
    (FileExists env p w).2.InstallStagingDir = w.InstallStagingDir := by
  simp [FileExists]

@[simp]
theorem FileSize_InstallStagingDir (p : String) (w : World) :
    (FileSize env p w).2.InstallStagingDir = w.InstallStagingDir := by
  simp [FileSize]

@[simp]
theorem Move_InstallStagingDir (d s : String) (w : World) :
    (Move env d s w).2.InstallStagingDir = w.InstallStagingDir := by
  unfold Move; dsimp only; split <;> simp

@[simp]
theorem Copy_InstallStagingDir (d s : String) (w : World) :
    (Copy env d s w).2.InstallStagingDir = w.InstallStagingDir := by
  unfold Copy; dsimp only; split <;> simp

@[simp]
theorem Delete_InstallStagingDir (p : String) (w : World) :
    (Delete env p w).2.InstallStagingDir = w.InstallStagingDir := by
  unfold Delete; dsimp only; split <;> simp

@[simp]
theorem CreateFileWriter_InstallStagingDir (p : String) (w : World) :
    (CreateFileWriter env p w).2.InstallStagingDir = w.InstallStagingDir := by
  unfold CreateFileWriter; dsimp only; split <;> simp

@[simp]
theorem backupIfEdited_InstallStagingDir (job : Job) (f : String) (b : Bool) (w : World) :
    (BackupFileIfNecessary.backupIfEdited env job f b w).2.InstallStagingDir =
      w.InstallStagingDir := by
  unfold BackupFileIfNecessary.backupIfEdited
  dsimp only
  repeat' split
  all_goals simp [Logf]

@[simp]
theorem BackupFileIfNecessary_InstallStagingDir (job : Job) (f : String) (b : Bool) (w : World) :
    (BackupFileIfNecessary env job f b w).2.InstallStagingDir = w.InstallStagingDir := by
  unfold BackupFileIfNecessary
  dsimp only
  repeat' split
  all_goals simp

end StagingDir

/-- The loop over the corrupt files is the clean-up in the words of the claim. -/
theorem RunVerification.cleanLoop_eq (env : Env) (job : Job) :
    ∀ (l : List String) (w : World),
      RunVerification.cleanLoop env job l w =
        CorruptFilesCleanUp env job w.InstallStagingDir l w := by
  intro l
  induction l with
  | nil => intro w; rfl
  | cons f rest ih =>
    intro w
    unfold RunVerification.cleanLoop CorruptFilesCleanUp
    dsimp only
    rw [ih]
    simp [CorruptFilesCleanUp]

/-- What the clean-up may change on the disk. -/
theorem CorruptFilesCleanUp_diskStep (env : Env) (job : Job) (S : String) :
    ∀ (l : List String) (w : World),
      DiskStep
        (fun p => env.GetBackupDirectory.isEmpty = false ∧
          ∃ g ∈ l, p = pathCombine env.GetBackupDirectory g)
        (fun p => ∃ g ∈ l, p = pathCombine job.InstallDirectory g ∨ p = pathCombine S g)
        w.disk (CorruptFilesCleanUp env job S l w).disk := by
  intro l
  induction l with
  | nil => intro w; exact DiskStep.refl _ _ _
  | cons f rest ih =>
    intro w
    unfold CorruptFilesCleanUp
    rw [List.foldl_cons]
    refine DiskStep.trans ?_ ((ih _).mono ?_ ?_)
    · refine DiskStep.trans (DiskStep.trans
        ((BackupFileIfNecessary_diskStep env job f true w).mono ?_ ?_)
        ((Delete_diskStep env _ _).mono ?_ ?_)) ((Delete_diskStep env _ _).mono ?_ ?_)
      · exact fun p hp => ⟨hp.1, f, List.mem_cons_self _ _, hp.2⟩
      · exact fun p hp => ⟨f, List.mem_cons_self _ _, Or.inl hp.2⟩
      · exact fun p hp => hp.elim
      · exact fun p hp => ⟨f, List.mem_cons_self _ _, Or.inl hp⟩
      · exact fun p hp => hp.elim
      · exact fun p hp => ⟨f, List.mem_cons_self _ _, Or.inr hp⟩
    · exact fun p hp =>
        ⟨hp.1, hp.2.elim fun g hg => ⟨g, List.mem_cons_of_mem _ hg.1, hg.2⟩⟩
    · exact fun p hp => hp.elim fun g hg => ⟨g, List.mem_cons_of_mem _ hg.1, hg.2⟩

/-- When every deletion is carried out and no backup path is a path of a corrupt file, no
corrupt file is left in the install directory or in the install-staging directory. -/
theorem CorruptFilesCleanUp_disk (env : Env) (job : Job) (S : String)
    (hd : ∀ x p, env.DeleteOk x p = true) :
    ∀ (l : List String) (w : World),
      (env.GetBackupDirectory.isEmpty = false → ∀ g ∈ l, ∀ f ∈ l,
        pathCombine env.GetBackupDirectory g ≠ pathCombine job.InstallDirectory f ∧
          pathCombine env.GetBackupDirectory g ≠ pathCombine S f) →
      ∀ f ∈ l,
        (CorruptFilesCleanUp env job S l w).disk (pathCombine job.InstallDirectory f) = none ∧
          (CorruptFilesCleanUp env job S l w).disk (pathCombine S f) = none := by
  intro l
  induction l with
  | nil => intro w _ f hf; simp at hf
  | cons g rest ih =>
    intro w hsep f hf
    have hrest := CorruptFilesCleanUp_diskStep env job S rest
      (Delete env (pathCombine S g)
        (Delete env (pathCombine job.InstallDirectory g)
          (BackupFileIfNecessary env job g true w).2).2).2
    have hfold : CorruptFilesCleanUp env job S (g :: rest) w =
        CorruptFilesCleanUp env job S rest
          (Delete env (pathCombine S g)
            (Delete env (pathCombine job.InstallDirectory g)
              (BackupFileIfNecessary env job g true w).2).2).2 := rfl
    rw [hfold]
    rcases List.mem_cons.mp hf with hfg | hfr
    · subst hfg
      have hI : (Delete env (pathCombine S f)
          (Delete env (pathCombine job.InstallDirectory f)
            (BackupFileIfNecessary env job f true w).2).2).2.disk
          (pathCombine job.InstallDirectory f) = none := by
        rcases (Delete_diskStep env (pathCombine S f)
          (Delete env (pathCombine job.InstallDirectory f)
            (BackupFileIfNecessary env job f true w).2).2).same_or_none
          (pathCombine job.InstallDirectory f) (fun h => h) with h | h
        · rw [h]; exact Delete_disk_of_ok env _ _ (hd _ _)
        · exact h
      have hS : (Delete env (pathCombine S f)
          (Delete env (pathCombine job.InstallDirectory f)
            (BackupFileIfNecessary env job f true w).2).2).2.disk (pathCombine S f) = none :=
        Delete_disk_of_ok env _ _ (hd _ _)
      constructor
      · rcases hrest.same_or_none (pathCombine job.InstallDirectory f)
          (fun h => h.2.elim fun x hx =>
            (hsep h.1 x (List.mem_cons_of_mem _ hx.1) f hf).1 hx.2.symm) with h | h
        · rw [h]; exact hI
        · exact h
      · rcases hrest.same_or_none (pathCombine S f)
          (fun h => h.2.elim fun x hx =>
            (hsep h.1 x (List.mem_cons_of_mem _ hx.1) f hf).2 hx.2.symm) with h | h
        · rw [h]; exact hS
        · exact h
    · exact ih _ (fun he x hx y hy =>
        hsep he x (List.mem_cons_of_mem _ hx) y (List.mem_cons_of_mem _ hy)) f hfr

@[simp]
theorem RunVerification_verify_InstallStagingDir (env : Env) (job : Job) (C : List String)
    (w : World) :
    (RunVerification.verify env job C w).2.2.InstallStagingDir = w.InstallStagingDir := by
  unfold RunVerification.verify
  dsimp only
  split <;> simp [Logf, SetStateProgress]

@[simp]
theorem RunVerification_verify_disk (env : Env) (job : Job) (C : List String) (w : World) :
    (RunVerification.verify env job C w).2.2.disk = w.disk := by
  unfold RunVerification.verify
  dsimp only
  split <;> simp [Logf]

/-- The external calls of the first part of `RunVerification`. -/
theorem RunVerification_verify_trace (env : Env) (job : Job) (C : List String) (w : World) :
    (RunVerification.verify env job C w).2.2.trace =
      w.trace ++ [Event.Log "BuildPatchServices: Verifying install",
        Event.VerifyAgainstDirectory job.InstallDirectory] := by
  unfold RunVerification.verify
  dsimp only
  split <;> simp [Logf]

/-- A pass through the retry loop that records the deletion of the marker leaves no marker file
when the file system carries out the deletion. -/
theorem Run.attempt_marker_gone (env : Env) (job : Job) (pre : Bool) (k : Int) (s : RunState)
    (rec : AttemptRecord) (h : (Run.attempt env job pre k s).Attempts = s.Attempts ++ [rec])
    (hd : rec.bMarkerDeleted = true) (hok : ∀ x, env.DeleteOk x job.PreviousMoveMarker = true) :
    (Run.attempt env job pre k s).world.disk job.PreviousMoveMarker = none := by
  have h' : s.Attempts ++ [rec] = s.Attempts ++ [_] := h.symm.trans rfl
  have hr := List.append_cancel_left h'
  simp only [List.cons.injEq, and_true] at hr
  subst hr
  clear h h'
  dsimp only at hd
  dsimp only [Run.attempt]
  rw [if_pos hd]
  exact Delete_disk_of_ok env _ _ (hok _)


/-! ## Verification twice in a row -/

/-- The corrupt-file list that `RunVerification` leaves is the answer of
`VerifyAgainstDirectory`, whatever list is passed in. -/
theorem RunVerification_list (env : Env) (job : Job) (C : List String) (w : World) :
    (RunVerification env job C w).2.1 =
      (env.VerifyAgainstDirectory
        (Logf env "BuildPatchServices: Verifying install"
          (SetStateProgress EBuildPatchProgress.BuildVerification 0 w))
        job.NewBuildManifest job.InstallDirectory).2.1 := by
  simp [RunVerification, RunVerification.verify]

/-- What `RunVerification` may change on the disk. -/
theorem RunVerification_diskStep (env : Env) (job : Job) (C : List String) (w : World) :
    DiskStep
      (fun p => env.GetBackupDirectory.isEmpty = false ∧
        ∃ g ∈ (RunVerification env job C w).2.1, p = pathCombine env.GetBackupDirectory g)
      (fun p => ∃ g ∈ (RunVerification env job C w).2.1,
        p = pathCombine job.InstallDirectory g ∨ p = pathCombine w.InstallStagingDir g)
      w.disk (RunVerification env job C w).2.2.disk := by
  have h := CorruptFilesCleanUp_diskStep env job w.InstallStagingDir
    (RunVerification env job C w).2.1 (RunVerification.verify env job C w).2.2
  rw [RunVerification_verify_disk] at h
  unfold RunVerification at h ⊢
  dsimp only at h ⊢
  split
  · rw [RunVerification.cleanLoop_eq, RunVerification_verify_InstallStagingDir]
    simpa [Logf] using h
  · exact DiskStep.of_eq (by simp [Logf])

/-- The corrupt files of two disks are the same when every file of the manifest mismatches on
the one exactly when it mismatches on the other. -/
theorem CorruptFilesOnDisk_congr (d d' : String → Option FileState) (m : FBuildPatchAppManifest)
    (dir : String)
    (h : ∀ f ∈ m.FileManifestList,
      (d' (pathCombine dir f.Filename) != some ⟨f.FileSize, f.FileHash⟩) =
        (d (pathCombine dir f.Filename) != some ⟨f.FileSize, f.FileHash⟩)) :
    CorruptFilesOnDisk d' m dir = CorruptFilesOnDisk d m dir := by
  unfold CorruptFilesOnDisk
  congr 1
  exact List.filter_congr h

/-- C13: let `VerifyAgainstDirectory` report the files of the target manifest that mismatch on
disk (as the spec describes it), let the file names of the manifest be distinct, and let no
staging path or backup path of a manifest file be the install path of a manifest file.  Then
for every state of the install directory, a second `RunVerification` right after the first
yields the same corrupt-file list, although the first has backed up and deleted the corrupt
files; and for every environment the list that `RunVerification` leaves does not depend on the
list passed in. -/
theorem C13_verification_idempotent (env : Env) (job : Job) (C₁ C₂ : List String) (w : World)
    (hv : ∀ x, (env.VerifyAgainstDirectory x job.NewBuildManifest job.InstallDirectory).2.1 =
      CorruptFilesOnDisk x.disk job.NewBuildManifest job.InstallDirectory)
    (hn : job.NewBuildManifest.GetFileList.Nodup)
    (hsep : ∀ g ∈ job.NewBuildManifest.GetFileList, ∀ f ∈ job.NewBuildManifest.GetFileList,
      pathCombine w.InstallStagingDir g ≠ pathCombine job.InstallDirectory f ∧
        (env.GetBackupDirectory.isEmpty = false →
          pathCombine env.GetBackupDirectory g ≠ pathCombine job.InstallDirectory f)) :
    (RunVerification env job C₂ (RunVerification env job C₁ w).2.2).2.1 =
        (RunVerification env job C₁ w).2.1 ∧
      (RunVerification env job C₂ w).2.1 = (RunVerification env job C₁ w).2.1 := by
  have hl : ∀ C x, (RunVerification env job C x).2.1 =
      CorruptFilesOnDisk x.disk job.NewBuildManifest job.InstallDirectory := by
    intro C x
    rw [RunVerification_list, hv]
    simp [Logf]
  refine ⟨?_, by rw [hl, hl]⟩
  rw [hl C₂, hl C₁]
  have hstep := RunVerification_diskStep env job C₁ w
  rw [hl C₁] at hstep
  have hsub : ∀ g ∈ CorruptFilesOnDisk w.disk job.NewBuildManifest job.InstallDirectory,
      g ∈ job.NewBuildManifest.GetFileList := by
    intro g hg
    unfold CorruptFilesOnDisk at hg
    obtain ⟨e, he, rfl⟩ := List.mem_map.mp hg
    exact List.mem_map.mpr ⟨e, (List.mem_filter.mp he).1, rfl⟩
  apply CorruptFilesOnDisk_congr
  intro e he
  have hmem : e.Filename ∈ job.NewBuildManifest.GetFileList := List.mem_map.mpr ⟨e, he, rfl⟩
  have hW : ¬ (env.GetBackupDirectory.isEmpty = false ∧
      ∃ g ∈ CorruptFilesOnDisk w.disk job.NewBuildManifest job.InstallDirectory,
        pathCombine job.InstallDirectory e.Filename = pathCombine env.GetBackupDirectory g) := by
    rintro ⟨hb, g, hg, hp⟩
    exact (hsep g (hsub g hg) e.Filename hmem).2 hb hp.symm
  by_cases hc : e.Filename ∈ CorruptFilesOnDisk w.disk job.NewBuildManifest job.InstallDirectory
  · have hbad : (w.disk (pathCombine job.InstallDirectory e.Filename) !=
        some ⟨e.FileSize, e.FileHash⟩) = true := by
      unfold CorruptFilesOnDisk at hc
      obtain ⟨e', he', hname⟩ := List.mem_map.mp hc
      have hee : e' = e :=
        List.inj_on_of_nodup_map hn (List.mem_filter.mp he').1 he hname
      subst hee
      exact (List.mem_filter.mp he').2
    rw [hbad]
    rcases hstep.same_or_none _ hW with h | h
    · rw [h]; exact hbad
    · rw [h]; rfl
  · have hC : ¬ ∃ g ∈ CorruptFilesOnDisk w.disk job.NewBuildManifest job.InstallDirectory,
        pathCombine job.InstallDirectory e.Filename = pathCombine job.InstallDirectory g ∨
          pathCombine job.InstallDirectory e.Filename = pathCombine w.InstallStagingDir g := by
      rintro ⟨g, hg, hp | hp⟩
      · exact hc (pathCombine_right_inj _ _ _ hp ▸ hg)
      · exact (hsep g (hsub g hg) e.Filename hmem).1 hp.symm
    rw [hstep.same _ hW hC]

/-- C13 at a concrete input: `fileA` is installed as the manifest describes it and `fileB` with
another content.  The first `RunVerification` reports `fileB`, moves it to the backup directory
and deletes it; the second one, run on the disk that the first has left and with another list
passed in, reports `fileB` again. -/
theorem C13_witness :
    updateJob.NewBuildManifest.GetFileList.Nodup ∧
    ((RunVerification verifyingEnv updateJob ["fileA"]
          (RunVerification verifyingEnv updateJob [] (sampleWorld halfInstalledDisk)).2.2).2.1 =
        (RunVerification verifyingEnv updateJob [] (sampleWorld halfInstalledDisk)).2.1 ∧
      (RunVerification verifyingEnv updateJob ["fileA"] (sampleWorld halfInstalledDisk)).2.1 =
        (RunVerification verifyingEnv updateJob [] (sampleWorld halfInstalledDisk)).2.1) ∧
    (RunVerification verifyingEnv updateJob [] (sampleWorld halfInstalledDisk)).2.1 =
      ["fileB"] ∧
    (RunVerification verifyingEnv updateJob [] (sampleWorld halfInstalledDisk)).2.2.disk
      "I/fileB" = none ∧
    (RunVerification verifyingEnv updateJob [] (sampleWorld halfInstalledDisk)).2.2.disk
      "B/fileB" = some ⟨2, 6⟩ ∧
    (RunVerification verifyingEnv updateJob ["fileA"]
      (RunVerification verifyingEnv updateJob [] (sampleWorld halfInstalledDisk)).2.2).2.1 =
      ["fileB"] :=
  ⟨by decide,
    C13_verification_idempotent verifyingEnv updateJob [] ["fileA"]
      (sampleWorld halfInstalledDisk) (fun _ => rfl) (by decide) (by decide),
    by decide, by decide, by decide, by decide⟩


/-! ## The files that `RunBackupAndMove` installs -/

/-- The body of the loop over the constructed files, in terms of its parts. -/
theorem RunBackupAndMove.moveLoop_cons (env : Env) (job : Job) (x : ℚ) (g : String)
    (rest : List String) (i : Nat) (b : Bool) (w : World) :
    RunBackupAndMove.moveLoop env job x (g :: rest) i b w =
      if HasFatalError w then (true, w)
      else if (w.disk (pathCombine w.InstallStagingDir g)).isSome = false then
        RunBackupAndMove.moveLoop env job x rest (i + 1) b
          (SetStateProgress EBuildPatchProgress.MovingToInstall ((i : ℚ) / x)
            (FileExists env (pathCombine w.InstallStagingDir g) w).2)
      else if (RunBackupAndMove.moveFile env g (pathCombine job.InstallDirectory g)
          (pathCombine w.InstallStagingDir g)
          (RunBackupAndMove.prepare env job g b
            (FileExists env (pathCombine w.InstallStagingDir g) w).2)).1 = false then
        (false, SetFatalError EBuildPatchInstallError.MoveFileToInstall ""
          (Logf env "BuildPatchServices: ERROR: Failed to move file"
            (RunBackupAndMove.moveFile env g (pathCombine job.InstallDirectory g)
              (pathCombine w.InstallStagingDir g)
              (RunBackupAndMove.prepare env job g b
                (FileExists env (pathCombine w.InstallStagingDir g) w).2)).2))
      else
        RunBackupAndMove.moveLoop env job x rest (i + 1) true
          (SetStateProgress EBuildPatchProgress.MovingToInstall ((i : ℚ) / x)
            (FilesInstalledAdd g
              (RunBackupAndMove.moveFile env g (pathCombine job.InstallDirectory g)
                (pathCombine w.InstallStagingDir g)
                (RunBackupAndMove.prepare env job g b
                  (FileExists env (pathCombine w.InstallStagingDir g) w).2)).2)) := by
  rw [RunBackupAndMove.moveLoop]
  simp only [RunBackupAndMove.moveFile, RunBackupAndMove.prepare, FileExists, Bool.not_eq_true',
    Bool.not_eq_true]

section Relocation

variable (env : Env)

@[simp]
theorem FileExists_FilesInstalled (p : String) (w : World) :
    (FileExists env p w).2.FilesInstalled = w.FilesInstalled := by
  simp [FileExists]

@[simp]
theorem FileSize_FilesInstalled (p : String) (w : World) :
    (FileSize env p w).2.FilesInstalled = w.FilesInstalled := by
  simp [FileSize]

@[simp]
theorem Move_FilesInstalled (d s : String) (w : World) :
    (Move env d s w).2.FilesInstalled = w.FilesInstalled := by
  unfold Move; dsimp only; split <;> simp

@[simp]
theorem Copy_FilesInstalled (d s : String) (w : World) :
    (Copy env d s w).2.FilesInstalled = w.FilesInstalled := by
  unfold Copy; dsimp only; split <;> simp

@[simp]
theorem Delete_FilesInstalled (p : String) (w : World) :
    (Delete env p w).2.FilesInstalled = w.FilesInstalled := by
  unfold Delete; dsimp only; split <;> simp

@[simp]
theorem CreateFileWriter_FilesInstalled (p : String) (w : World) :
    (CreateFileWriter env p w).2.FilesInstalled = w.FilesInstalled := by
  unfold CreateFileWriter; dsimp only; split <;> simp

@[simp]
theorem SetFatalError_FilesInstalled (err : EBuildPatchInstallError) (log : String)
    (w : World) : (SetFatalError err log w).FilesInstalled = w.FilesInstalled := by
  unfold SetFatalError; split <;> rfl

@[simp]
theorem backupIfEdited_FilesInstalled (job : Job) (f : String) (b : Bool) (w : World) :
    (BackupFileIfNecessary.backupIfEdited env job f b w).2.FilesInstalled =
      w.FilesInstalled := by
  unfold BackupFileIfNecessary.backupIfEdited
  dsimp only
  repeat' split
  all_goals simp [Logf]

@[simp]
theorem BackupFileIfNecessary_FilesInstalled (job : Job) (f : String) (b : Bool) (w : World) :
    (BackupFileIfNecessary env job f b w).2.FilesInstalled = w.FilesInstalled := by
  unfold BackupFileIfNecessary
  dsimp only
  repeat' split
  all_goals simp

@[simp]
theorem prepare_FilesInstalled (job : Job) (g : String) (b : Bool) (w : World) :
    (RunBackupAndMove.prepare env job g b w).FilesInstalled = w.FilesInstalled := by
  unfold RunBackupAndMove.prepare
  dsimp only
  repeat' split
  all_goals simp [Logf, SetStateWeight]

@[simp]
theorem prepare_InstallStagingDir (job : Job) (g : String) (b : Bool) (w : World) :
    (RunBackupAndMove.prepare env job g b w).InstallStagingDir = w.InstallStagingDir := by
  unfold RunBackupAndMove.prepare
  dsimp only
  repeat' split
  all_goals simp [Logf, SetStateWeight]

/-- What the creation of the marker and the backup of the installed file may change on the
disk; the installed file stays where it is when the run has installed it itself. -/
theorem prepare_diskStep (job : Job) (g : String) (b : Bool) (w : World) :
    DiskStep
      (fun p => p = job.PreviousMoveMarker ∨
        (env.GetBackupDirectory.isEmpty = false ∧ p = pathCombine env.GetBackupDirectory g))
      (fun p => g ∉ w.FilesInstalled ∧ p = pathCombine job.InstallDirectory g)
      w.disk (RunBackupAndMove.prepare env job g b w).disk := by
  have hb : ∀ x : World, x.FilesInstalled = w.FilesInstalled → DiskStep
      (fun p => p = job.PreviousMoveMarker ∨
        (env.GetBackupDirectory.isEmpty = false ∧ p = pathCombine env.GetBackupDirectory g))
      (fun p => g ∉ w.FilesInstalled ∧ p = pathCombine job.InstallDirectory g)
      x.disk (BackupFileIfNecessary env job g false x).2.disk := by
    intro x hx
    by_cases hg : g ∈ w.FilesInstalled
    · exact DiskStep.of_eq
        (BackupFileIfNecessary_disk_of_installed env job g false x (hx ▸ hg))
    · exact (BackupFileIfNecessary_diskStep env job g false x).mono
        (fun p hp => Or.inr hp) (fun p hp => ⟨hg, hp.2⟩)
  have hc : ∀ x : World, DiskStep
      (fun p => p = job.PreviousMoveMarker ∨
        (env.GetBackupDirectory.isEmpty = false ∧ p = pathCombine env.GetBackupDirectory g))
      (fun p => g ∉ w.FilesInstalled ∧ p = pathCombine job.InstallDirectory g)
      x.disk (CreateFileWriter env job.PreviousMoveMarker x).2.disk := fun x =>
    (CreateFileWriter_diskStep env _ x).mono (fun p hp => Or.inl hp) (fun p hp => hp.elim)
  unfold RunBackupAndMove.prepare
  dsimp only
  cases b
  · simp only [Bool.not_false, if_true]
    split
    · refine DiskStep.trans ?_ (hb _ (by simp [Logf, SetStateWeight]))
      have := hc (Logf env "BuildPatchServices: Create MM" w)
      simpa [Logf, SetStateWeight] using this
    · refine DiskStep.trans ?_ (hb _ (by simp [Logf]))
      have := hc (Logf env "BuildPatchServices: Create MM" w)
      simpa [Logf] using this
  · simp only [Bool.not_true, Bool.false_eq_true, if_false]
    exact hb w rfl

@[simp]
theorem retryBody_FilesInstalled (f d s : String) (w : World) :
    (RunBackupAndMove.retryBody env f d s w).2.FilesInstalled = w.FilesInstalled := by
  unfold RunBackupAndMove.retryBody
  dsimp only
  split <;> simp [Logf]

@[simp]
theorem retryBody_InstallStagingDir (f d s : String) (w : World) :
    (RunBackupAndMove.retryBody env f d s w).2.InstallStagingDir = w.InstallStagingDir := by
  unfold RunBackupAndMove.retryBody
  dsimp only
  split <;> simp [Logf]

/-- One pass of the retry loop: when it succeeds the destination holds the file of the source
and the source keeps it or has lost it; when it fails the disk is as before. -/
theorem retryBody_disk (f d s : String) (hds : d ≠ s) (w : World) :
    ((RunBackupAndMove.retryBody env f d s w).1 = true →
      (RunBackupAndMove.retryBody env f d s w).2.disk d = w.disk s ∧
        (w.disk s).isSome = true ∧
        DiskStep (fun p => p = d) (fun p => p = s) w.disk
          (RunBackupAndMove.retryBody env f d s w).2.disk) ∧
    ((RunBackupAndMove.retryBody env f d s w).1 = false →
      (RunBackupAndMove.retryBody env f d s w).2.disk = w.disk) := by
  unfold RunBackupAndMove.retryBody Logf
  dsimp only
  cases hc : (Copy env d s
    (ext env (Event.Log "BuildPatchServices: ERROR: Failed to move file, trying copy")
      (ext env (Event.RecordConstructionError f) w))).1
  · simp only [Bool.not_false, if_true]
    have hcd := Copy_disk_of_false env _ _ _ hc
    simp only [ext_disk] at hcd
    constructor
    · intro hm
      have h1 := Move_disk_dest env _ _ _ hm
      have h2 := Move_diskStep env d s (ext env Event.Sleep
        (ext env (Event.Log
            "BuildPatchServices: ERROR: Failed to copy file, retying after 0.5 sec")
          (Copy env d s
            (ext env (Event.Log "BuildPatchServices: ERROR: Failed to move file, trying copy")
              (ext env (Event.RecordConstructionError f) w))).2))
      simp only [ext_disk, hcd] at h1 h2
      exact ⟨h1.1, h1.2, h2⟩
    · intro hm
      have h1 := Move_disk_of_false env _ _ _ hm
      simp only [ext_disk, hcd] at h1
      exact h1
  · simp only [Bool.not_true, Bool.false_eq_true, if_false]
    have h1 := Copy_disk_dest env _ _ _ hc
    have h2 := Copy_diskStep env d s
      (ext env (Event.Log "BuildPatchServices: ERROR: Failed to move file, trying copy")
        (ext env (Event.RecordConstructionError f) w))
    have h3 := Delete_diskStep env s (Copy env d s
      (ext env (Event.Log "BuildPatchServices: ERROR: Failed to move file, trying copy")
        (ext env (Event.RecordConstructionError f) w))).2
    simp only [ext_disk] at h1 h2
    refine ⟨fun _ => ⟨?_, h1.2, DiskStep.trans (h2.mono (fun _ hp => hp) (fun _ hp => hp.elim))
      (h3.mono (fun _ hp => hp.elim) (fun _ hp => hp))⟩, fun h => absurd h (by simp)⟩
    rw [← h1.1]
    exact h3.same d (fun hp => hp) hds

@[simp]
theorem retryLoop_FilesInstalled (f d s : String) :
    ∀ (n : Nat) (w : World),
      (RunBackupAndMove.retryLoop env f d s n w).2.FilesInstalled = w.FilesInstalled := by
  intro n
  induction n using Nat.strong_induction_on with
  | _ n ih =>
    intro w
    match n with
    | 0 => rfl
    | 1 => simp [RunBackupAndMove.retryLoop]
    | m + 2 =>
      unfold RunBackupAndMove.retryLoop
      dsimp only
      split
      · simp
      · rw [ih m (by omega)]; simp

@[simp]
theorem retryLoop_InstallStagingDir (f d s : String) :
    ∀ (n : Nat) (w : World),
      (RunBackupAndMove.retryLoop env f d s n w).2.InstallStagingDir = w.InstallStagingDir := by
  intro n
  induction n using Nat.strong_induction_on with
  | _ n ih =>
    intro w
    match n with
    | 0 => rfl
    | 1 => simp [RunBackupAndMove.retryLoop]
    | m + 2 =>
      unfold RunBackupAndMove.retryLoop
      dsimp only
      split
      · simp
      · rw [ih m (by omega)]; simp

/-- The retry loop: when it succeeds the destination holds the file of the source and the
source keeps it or has lost it; when it fails the disk is as before. -/
theorem retryLoop_disk (f d s : String) (hds : d ≠ s) :
    ∀ (n : Nat) (w : World),
      ((RunBackupAndMove.retryLoop env f d s n w).1 = true →
        (RunBackupAndMove.retryLoop env f d s n w).2.disk d = w.disk s ∧
          (w.disk s).isSome = true ∧
          DiskStep (fun p => p = d) (fun p => p = s) w.disk
            (RunBackupAndMove.retryLoop env f d s n w).2.disk) ∧
      ((RunBackupAndMove.retryLoop env f d s n w).1 = false →
        (RunBackupAndMove.retryLoop env f d s n w).2.disk = w.disk) := by
  intro n
  induction n using Nat.strong_induction_on with
  | _ n ih =>
    intro w
    match n with
    | 0 => exact ⟨fun h => absurd h (by simp [RunBackupAndMove.retryLoop]), fun _ => rfl⟩
    | 1 =>
      have := retryBody_disk env f d s hds w
      simpa [RunBackupAndMove.retryLoop] using this
    | m + 2 =>
      have hb := retryBody_disk env f d s hds w
      unfold RunBackupAndMove.retryLoop
      dsimp only
      split
      · rename_i hr
        exact ⟨fun _ => hb.1 hr, fun h => absurd (hr.symm.trans h) (by simp)⟩
      · rename_i hr
        have hr' : (RunBackupAndMove.retryBody env f d s w).1 = false := by
          simpa using hr
        have hd := hb.2 hr'
        have := ih m (by omega) (RunBackupAndMove.retryBody env f d s w).2
        rw [hd] at this
        exact this

@[simp]
theorem moveFile_FilesInstalled (f d s : String) (w : World) :
    (RunBackupAndMove.moveFile env f d s w).2.FilesInstalled = w.FilesInstalled := by
  unfold RunBackupAndMove.moveFile
  dsimp only
  split <;> simp

@[simp]
theorem moveFile_InstallStagingDir (f d s : String) (w : World) :
    (RunBackupAndMove.moveFile env f d s w).2.InstallStagingDir = w.InstallStagingDir := by
  unfold RunBackupAndMove.moveFile
  dsimp only
  split <;> simp

/-- The move of a constructed file with its retries: when it succeeds the destination holds the
file of the source and the source keeps it or has lost it; when it fails the disk is as
before. -/
theorem moveFile_disk (f d s : String) (hds : d ≠ s) (w : World) :
    ((RunBackupAndMove.moveFile env f d s w).1 = true →
      (RunBackupAndMove.moveFile env f d s w).2.disk d = w.disk s ∧
        (w.disk s).isSome = true ∧
        DiskStep (fun p => p = d) (fun p => p = s) w.disk
          (RunBackupAndMove.moveFile env f d s w).2.disk) ∧
    ((RunBackupAndMove.moveFile env f d s w).1 = false →
      (RunBackupAndMove.moveFile env f d s w).2.disk = w.disk) := by
  unfold RunBackupAndMove.moveFile
  dsimp only
  cases hm : (Move env d s w).1
  · simp only [Bool.not_false, if_true]
    have hd := Move_disk_of_false env d s w hm
    have := retryLoop_disk env f d s hds NUM_FILE_MOVE_RETRIES (Move env d s w).2
    rw [hd] at this
    exact this
  · simp only [Bool.not_true, Bool.false_eq_true, if_false]
    have h1 := Move_disk_dest env d s w hm
    exact ⟨fun _ => ⟨h1.1, h1.2, Move_diskStep env d s w⟩,
      fun h => absurd (hm.symm.trans h) (by simp)⟩

end Relocation

theorem FilesInstalledAdd_mem (f g : String) (w : World) :
    f ∈ (FilesInstalledAdd g w).FilesInstalled ↔ f ∈ w.FilesInstalled ∨ f = g := by
  unfold FilesInstalledAdd
  dsimp only
  split
  · rename_i h
    constructor
    · exact fun hf => Or.inl hf
    · rintro (hf | hf)
      · exact hf
      · subst hf; simpa using h
  · simp

/-- The invariant depends on the disk, on `FilesInstalled` and on the staging directory only. -/
theorem InstallInv.congr {job : Job} {S : String} {d0 : String → Option FileState}
    {F0 T : List String} {w w' : World} (h : InstallInv job S d0 F0 T w)
    (hd : w'.disk = w.disk) (hf : w'.FilesInstalled = w.FilesInstalled)
    (hs : w'.InstallStagingDir = w.InstallStagingDir) : InstallInv job S d0 F0 T w' :=
  ⟨hs.trans h.staging, fun f hf' => by rw [hd]; exact h.staged f hf',
    fun f hf' => by rw [hd]; exact h.installed f (hf ▸ hf'),
    fun f hf' hn hi => by rw [hf]; exact h.moved f hf' (hd ▸ hn) hi⟩

/-- The invariant across the relocation of one staged file. -/
theorem InstallInv.relocation (env : Env) (job : Job) (S : String)
    (d0 : String → Option FileState) (F0 T : List String)
    (h1 : ∀ x ∈ T, ∀ f ∈ T, pathCombine job.InstallDirectory x ≠ pathCombine S f)
    (h2 : env.GetBackupDirectory.isEmpty = false → ∀ x ∈ T, ∀ f ∈ T,
      pathCombine env.GetBackupDirectory x ≠ pathCombine S f ∧
        pathCombine env.GetBackupDirectory x ≠ pathCombine job.InstallDirectory f)
    (h3 : ∀ f ∈ T, job.PreviousMoveMarker ≠ pathCombine S f ∧
      job.PreviousMoveMarker ≠ pathCombine job.InstallDirectory f)
    (g : String) (hg : g ∈ T) (b : Bool) (w : World) (h : InstallInv job S d0 F0 T w)
    (hex : (w.disk (pathCombine S g)).isSome = true) :
    ((RunBackupAndMove.moveFile env g (pathCombine job.InstallDirectory g) (pathCombine S g)
        (RunBackupAndMove.prepare env job g b (FileExists env (pathCombine S g) w).2)).1 =
        false →
      InstallInv job S d0 F0 T
        (RunBackupAndMove.moveFile env g (pathCombine job.InstallDirectory g) (pathCombine S g)
          (RunBackupAndMove.prepare env job g b (FileExists env (pathCombine S g) w).2)).2) ∧
    ((RunBackupAndMove.moveFile env g (pathCombine job.InstallDirectory g) (pathCombine S g)
        (RunBackupAndMove.prepare env job g b (FileExists env (pathCombine S g) w).2)).1 =
        true →
      InstallInv job S d0 F0 T
        (FilesInstalledAdd g
          (RunBackupAndMove.moveFile env g (pathCombine job.InstallDirectory g)
            (pathCombine S g)
            (RunBackupAndMove.prepare env job g b
              (FileExists env (pathCombine S g) w).2)).2)) := by
  have hp := prepare_diskStep env job g b (FileExists env (pathCombine S g) w).2
  simp only [FileExists_disk, FileExists_FilesInstalled] at hp
  generalize hwp : RunBackupAndMove.prepare env job g b
    (FileExists env (pathCombine S g) w).2 = wp at hp
  have hpF : wp.FilesInstalled = w.FilesInstalled := by rw [← hwp]; simp
  have hpS : wp.InstallStagingDir = w.InstallStagingDir := by rw [← hwp]; simp
  -- the staged files and the installed files are untouched by the preparation
  have hpst : ∀ f ∈ T, wp.disk (pathCombine S f) = w.disk (pathCombine S f) := by
    intro f hf
    refine hp.same _ ?_ ?_
    · rintro (hm | ⟨he, hb⟩)
      · exact (h3 f hf).1 hm.symm
      · exact (h2 he g hg f hf).1 hb.symm
    · rintro ⟨_, hi⟩
      exact h1 g hg f hf hi.symm
  have hpin : ∀ f ∈ T, f ∈ w.FilesInstalled →
      wp.disk (pathCombine job.InstallDirectory f) =
        w.disk (pathCombine job.InstallDirectory f) := by
    intro f hf hfi
    refine hp.same _ ?_ ?_
    · rintro (hm | ⟨he, hb⟩)
      · exact (h3 f hf).2 hm.symm
      · exact (h2 he g hg f hf).2 hb.symm
    · rintro ⟨hgn, hi⟩
      exact hgn (pathCombine_right_inj _ _ _ hi ▸ hfi)
  have hinvp : InstallInv job S d0 F0 T wp := by
    refine ⟨hpS.trans h.staging, ?_, ?_, ?_⟩
    · intro f hf; rw [hpst f hf]; exact h.staged f hf
    · intro f hf
      rw [hpF] at hf
      rcases h.installed f hf with h0 | ⟨hT, hs, hd⟩
      · exact Or.inl h0
      · exact Or.inr ⟨hT, hs, by rw [hpin f hT hf]; exact hd⟩
    · intro f hf hn hi
      rw [hpF]
      exact h.moved f hf (by rw [← hpst f hf]; exact hn) hi
  have hds : pathCombine job.InstallDirectory g ≠ pathCombine S g := h1 g hg g hg
  have hm := moveFile_disk env g (pathCombine job.InstallDirectory g) (pathCombine S g) hds wp
  generalize hmm : RunBackupAndMove.moveFile env g (pathCombine job.InstallDirectory g)
    (pathCombine S g) wp = m at hm
  have hmF : m.2.FilesInstalled = wp.FilesInstalled := by rw [← hmm]; simp
  have hmS : m.2.InstallStagingDir = wp.InstallStagingDir := by rw [← hmm]; simp
  constructor
  · intro hf
    exact hinvp.congr (hm.2 hf) hmF hmS
  · intro ht
    obtain ⟨hdest, _, hstep⟩ := hm.1 ht
    have hg0 : wp.disk (pathCombine S g) = d0 (pathCombine S g) := by
      rcases hinvp.staged g hg with hs | hs
      · exact hs
      · rw [hpst g hg] at hs
        rw [hs] at hex
        exact absurd hex (by simp)
    have hg0s : (d0 (pathCombine S g)).isSome = true := by
      rw [← hg0, hpst g hg]; exact hex
    refine ⟨by simpa using hmS.trans hinvp.staging, ?_, ?_, ?_⟩
    · intro f hf
      simp only [FilesInstalledAdd_disk]
      rcases hstep.same_or_none (pathCombine S f) (fun hc => h1 g hg f hf hc.symm) with hs | hs
      · rw [hs]; exact hinvp.staged f hf
      · exact Or.inr hs
    · intro f hf
      simp only [FilesInstalledAdd_disk]
      rcases (FilesInstalledAdd_mem f g m.2).mp hf with hfi | hfg
      · rw [hmF] at hfi
        rcases hinvp.installed f hfi with h0 | ⟨hT, hs, hd⟩
        · exact Or.inl h0
        · by_cases hfg : f = g
          · subst hfg
            exact Or.inr ⟨hT, hs, by rw [hdest, hg0]⟩
          · refine Or.inr ⟨hT, hs, ?_⟩
            rw [hstep.same _ (fun hc => hfg (pathCombine_right_inj _ _ _ hc))
              (fun hc => h1 f hT g hg hc)]
            exact hd
      · subst hfg
        exact Or.inr ⟨hg, hg0s, by rw [hdest, hg0]⟩
    · intro f hf hn hi
      simp only [FilesInstalledAdd_disk] at hn
      refine (FilesInstalledAdd_mem f g m.2).mpr ?_
      by_cases hfg : f = g
      · exact Or.inr hfg
      · left
        rw [hmF]
        refine hinvp.moved f hf ?_ hi
        rw [← hstep.same _ (fun hc => h1 g hg f hf hc.symm)
          (fun hc => hfg (pathCombine_right_inj _ _ _ hc))]
        exact hn

/-- The loop over the constructed files keeps the invariant, only adds to `FilesInstalled`, and
when it runs to its end without a fatal error every file that was staged is installed. -/
theorem RunBackupAndMove.moveLoop_inv (env : Env) (job : Job) (x : ℚ) (S : String)
    (d0 : String → Option FileState) (F0 T : List String)
    (h1 : ∀ x ∈ T, ∀ f ∈ T, pathCombine job.InstallDirectory x ≠ pathCombine S f)
    (h2 : env.GetBackupDirectory.isEmpty = false → ∀ x ∈ T, ∀ f ∈ T,
      pathCombine env.GetBackupDirectory x ≠ pathCombine S f ∧
        pathCombine env.GetBackupDirectory x ≠ pathCombine job.InstallDirectory f)
    (h3 : ∀ f ∈ T, job.PreviousMoveMarker ≠ pathCombine S f ∧
      job.PreviousMoveMarker ≠ pathCombine job.InstallDirectory f) :
    ∀ (l : List String) (i : Nat) (b : Bool) (w : World), (∀ g ∈ l, g ∈ T) →
      InstallInv job S d0 F0 T w →
      InstallInv job S d0 F0 T (RunBackupAndMove.moveLoop env job x l i b w).2 ∧
      (∀ f ∈ w.FilesInstalled,
        f ∈ (RunBackupAndMove.moveLoop env job x l i b w).2.FilesInstalled) ∧
      ((RunBackupAndMove.moveLoop env job x l i b w).1 = true →
        HasFatalError (RunBackupAndMove.moveLoop env job x l i b w).2 = false →
        ∀ f ∈ l, (d0 (pathCombine S f)).isSome = true →
          f ∈ (RunBackupAndMove.moveLoop env job x l i b w).2.FilesInstalled) := by
  intro l
  induction l with
  | nil =>
    intro i b w _ h
    exact ⟨h, fun f hf => hf, fun _ _ f hf => absurd hf (by simp)⟩
  | cons g rest ih =>
    intro i b w hl h
    have hg : g ∈ T := hl g (List.mem_cons_self _ _)
    have hrest : ∀ g' ∈ rest, g' ∈ T := fun g' hg' => hl g' (List.mem_cons_of_mem _ hg')
    rw [RunBackupAndMove.moveLoop_cons, h.staging]
    split
    · rename_i he
      exact ⟨h, fun f hf => hf, fun _ hne => absurd he (by rw [hne]; simp)⟩
    · split
      · rename_i hex
        have hinv : InstallInv job S d0 F0 T
            (SetStateProgress EBuildPatchProgress.MovingToInstall ((i : ℚ) / x)
              (FileExists env (pathCombine S g) w).2) :=
          h.congr (by simp) (by simp [SetStateProgress]) (by simp [SetStateProgress])
        obtain ⟨i1, i2, i3⟩ := ih (i + 1) b _ hrest hinv
        refine ⟨i1, fun f hf => i2 f (by simpa [SetStateProgress] using hf), ?_⟩
        intro ht hne f hf hs
        rcases List.mem_cons.mp hf with hfg | hfr
        · subst hfg
          refine i2 f ?_
          have hn : w.disk (pathCombine S f) = none := by
            cases hd : w.disk (pathCombine S f) with
            | none => rfl
            | some v => rw [hd] at hex; simp at hex
          simpa [SetStateProgress] using h.moved f hg hn hs
        · exact i3 ht hne f hfr hs
      · rename_i hex
        have hex' : (w.disk (pathCombine S g)).isSome = true := by
          cases hd : (w.disk (pathCombine S g)).isSome
          · exact absurd hd hex
          · rfl
        have hstep := InstallInv.relocation env job S d0 F0 T h1 h2 h3 g hg b w h hex'
        split
        · rename_i hm
          refine ⟨(hstep.1 hm).congr (by simp [Logf]) (by simp [Logf]) (by simp [Logf]), ?_,
            fun ht => absurd ht (by simp)⟩
          intro f hf
          simpa [Logf] using hf
        · rename_i hm
          have hm' : (RunBackupAndMove.moveFile env g (pathCombine job.InstallDirectory g)
              (pathCombine S g)
              (RunBackupAndMove.prepare env job g b
                (FileExists env (pathCombine S g) w).2)).1 = true := by simpa using hm
          have hinv : InstallInv job S d0 F0 T
              (SetStateProgress EBuildPatchProgress.MovingToInstall ((i : ℚ) / x)
                (FilesInstalledAdd g
                  (RunBackupAndMove.moveFile env g (pathCombine job.InstallDirectory g)
                    (pathCombine S g)
                    (RunBackupAndMove.prepare env job g b
                      (FileExists env (pathCombine S g) w).2)).2)) :=
            (hstep.2 hm').congr (by simp) (by simp [SetStateProgress])
              (by simp [SetStateProgress])
          obtain ⟨i1, i2, i3⟩ := ih (i + 1) true _ hrest hinv
          have hadd : ∀ f, f ∈ w.FilesInstalled ∨ f = g →
              f ∈ (SetStateProgress EBuildPatchProgress.MovingToInstall ((i : ℚ) / x)
                (FilesInstalledAdd g
                  (RunBackupAndMove.moveFile env g (pathCombine job.InstallDirectory g)
                    (pathCombine S g)
                    (RunBackupAndMove.prepare env job g b
                      (FileExists env (pathCombine S g) w).2)).2)).FilesInstalled := by
            intro f hf
            have : f ∈ (FilesInstalledAdd g
                (RunBackupAndMove.moveFile env g (pathCombine job.InstallDirectory g)
                  (pathCombine S g)
                  (RunBackupAndMove.prepare env job g b
                    (FileExists env (pathCombine S g) w).2)).2).FilesInstalled :=
              (FilesInstalledAdd_mem f g _).mpr (by simpa using hf)
            simpa [SetStateProgress] using this
          refine ⟨i1, fun f hf => i2 f (hadd f (Or.inl hf)), ?_⟩
          intro ht hne f hf hs
          rcases List.mem_cons.mp hf with hfg | hfr
          · exact i2 f (hadd f (Or.inr hfg))
          · exact i3 ht hne f hfr hs

@[simp]
theorem removeLoop_FilesInstalled (env : Env) (job : Job) :
    ∀ (l : List String) (w : World),
      (RunBackupAndMove.removeLoop env job l w).FilesInstalled = w.FilesInstalled := by
  intro l
  induction l with
  | nil => intro w; rfl
  | cons f rest ih => intro w; unfold RunBackupAndMove.removeLoop; simp [ih, Logf]

@[simp]
theorem removeLoop_InstallStagingDir (env : Env) (job : Job) :
    ∀ (l : List String) (w : World),
      (RunBackupAndMove.removeLoop env job l w).InstallStagingDir = w.InstallStagingDir := by
  intro l
  induction l with
  | nil => intro w; rfl
  | cons f rest ih => intro w; unfold RunBackupAndMove.removeLoop; simp [ih, Logf]

/-- What the loop over the removable files may change on the disk. -/
theorem removeLoop_diskStep (env : Env) (job : Job) :
    ∀ (l : List String) (w : World),
      DiskStep
        (fun p => env.GetBackupDirectory.isEmpty = false ∧
          ∃ g ∈ l, p = pathCombine env.GetBackupDirectory g)
        (fun p => ∃ g ∈ l, p = pathCombine job.InstallDirectory g)
        w.disk (RunBackupAndMove.removeLoop env job l w).disk := by
  intro l
  induction l with
  | nil => intro w; exact DiskStep.refl _ _ _
  | cons f rest ih =>
    intro w
    unfold RunBackupAndMove.removeLoop
    dsimp only
    refine DiskStep.trans ?_ ((ih _).mono ?_ ?_)
    · simp only [Logf, ext_disk]
      refine DiskStep.trans
        ((BackupFileIfNecessary_diskStep env job f false w).mono ?_ ?_)
        ((Delete_diskStep env _ _).mono ?_ ?_)
      · exact fun p hp => ⟨hp.1, f, List.mem_cons_self _ _, hp.2⟩
      · exact fun p hp => ⟨f, List.mem_cons_self _ _, hp.2⟩
      · exact fun p hp => hp.elim
      · exact fun p hp => ⟨f, List.mem_cons_self _ _, hp⟩
    · exact fun p hp =>
        ⟨hp.1, hp.2.elim fun g hg => ⟨g, List.mem_cons_of_mem _ hg.1, hg.2⟩⟩
    · exact fun p hp => hp.elim fun g hg => ⟨g, List.mem_cons_of_mem _ hg.1, hg.2⟩

/-- `RunBackupAndMove` establishes the invariant relative to the world in which it is called,
and when it returns true every target file that was staged is in `FilesInstalled`. -/
theorem RunBackupAndMove_installs (env : Env) (job : Job) (w : World)
    (h1 : ∀ x ∈ job.FilesToRemove env ++ job.NewBuildManifest.GetFileList,
      ∀ f ∈ job.NewBuildManifest.GetFileList,
        pathCombine job.InstallDirectory x ≠ pathCombine w.InstallStagingDir f)
    (h2 : env.GetBackupDirectory.isEmpty = false →
      ∀ x ∈ job.FilesToRemove env ++ job.NewBuildManifest.GetFileList,
      ∀ f ∈ job.NewBuildManifest.GetFileList,
        pathCombine env.GetBackupDirectory x ≠ pathCombine w.InstallStagingDir f ∧
          pathCombine env.GetBackupDirectory x ≠ pathCombine job.InstallDirectory f)
    (h3 : ∀ f ∈ job.NewBuildManifest.GetFileList,
      job.PreviousMoveMarker ≠ pathCombine w.InstallStagingDir f ∧
        job.PreviousMoveMarker ≠ pathCombine job.InstallDirectory f) :
    InstallInv job w.InstallStagingDir w.disk w.FilesInstalled
        job.NewBuildManifest.GetFileList (RunBackupAndMove env job w).2 ∧
      (∀ f ∈ w.FilesInstalled, f ∈ (RunBackupAndMove env job w).2.FilesInstalled) ∧
      ((RunBackupAndMove env job w).1 = true →
        ∀ f ∈ job.NewBuildManifest.GetFileList,
          (w.disk (pathCombine w.InstallStagingDir f)).isSome = true →
          f ∈ (RunBackupAndMove env job w).2.FilesInstalled) := by
  have hinv0 : InstallInv job w.InstallStagingDir w.disk w.FilesInstalled
      job.NewBuildManifest.GetFileList w :=
    ⟨rfl, fun f _ => Or.inl rfl, fun f hf => Or.inl hf,
      fun f _ hn hs => absurd hs (by rw [hn]; simp)⟩
  unfold RunBackupAndMove
  dsimp only
  split
  · -- no fatal error on entry
    unfold RunBackupAndMove.relocate
    dsimp only
    have hrm := removeLoop_diskStep env job (job.FilesToRemove env)
      { Logf env "BuildPatchServices: Running backup and stage relocation" w with
        BuildStats :=
          { (Logf env "BuildPatchServices: Running backup and stage relocation" w).BuildStats with
            NumFilesToRemove := (job.FilesToRemove env).length } }
    generalize hw3 : RunBackupAndMove.removeLoop env job (job.FilesToRemove env)
      { Logf env "BuildPatchServices: Running backup and stage relocation" w with
        BuildStats :=
          { (Logf env "BuildPatchServices: Running backup and stage relocation" w).BuildStats with
            NumFilesToRemove := (job.FilesToRemove env).length } } = w3 at hrm
    have h3F : w3.FilesInstalled = w.FilesInstalled := by rw [← hw3]; simp [Logf]
    have h3S : w3.InstallStagingDir = w.InstallStagingDir := by rw [← hw3]; simp [Logf]
    simp only [Logf, ext_disk] at hrm
    have hinv3 : InstallInv job w.InstallStagingDir w.disk w.FilesInstalled
        job.NewBuildManifest.GetFileList
        (SetStateProgress EBuildPatchProgress.MovingToInstall 0 w3) := by
      refine ⟨h3S, ?_, ?_, ?_⟩
      · intro f hf
        left
        refine hrm.same _ ?_ ?_
        · rintro ⟨he, g, hg, hp⟩
          exact (h2 he g (List.mem_append_left _ hg) f hf).1 hp.symm
        · rintro ⟨g, hg, hp⟩
          exact h1 g (List.mem_append_left _ hg) f hf hp.symm
      · intro f hf
        exact Or.inl (by simpa [SetStateProgress, h3F] using hf)
      · intro f hf hn hs
        have : w3.disk (pathCombine w.InstallStagingDir f) =
            w.disk (pathCombine w.InstallStagingDir f) := by
          refine hrm.same _ ?_ ?_
          · rintro ⟨he, g, hg, hp⟩
            exact (h2 he g (List.mem_append_left _ hg) f hf).1 hp.symm
          · rintro ⟨g, hg, hp⟩
            exact h1 g (List.mem_append_left _ hg) f hf hp.symm
        simp only [SetStateProgress_disk, this] at hn
        rw [hn] at hs
        exact absurd hs (by simp)
    obtain ⟨i1, i2, i3⟩ := RunBackupAndMove.moveLoop_inv env job
      (job.NewBuildManifest.GetFileList.length : ℚ) w.InstallStagingDir w.disk w.FilesInstalled
      job.NewBuildManifest.GetFileList
      (fun x hx f hf => h1 x (List.mem_append_right _ hx) f hf)
      (fun he x hx f hf => h2 he x (List.mem_append_right _ hx) f hf) h3
      job.NewBuildManifest.GetFileList 0 false _ (fun g hg => hg) hinv3
    have hFT : (match job.CurrentBuildManifest with
        | some cur => env.GetRemovableFiles cur job.NewBuildManifest
        | none => []) = job.FilesToRemove env := rfl
    simp only [hFT, hw3]
    have hmono : ∀ f ∈ w.FilesInstalled,
        f ∈ (RunBackupAndMove.moveLoop env job (job.NewBuildManifest.GetFileList.length : ℚ)
          job.NewBuildManifest.GetFileList 0 false
          (SetStateProgress EBuildPatchProgress.MovingToInstall 0 w3)).2.FilesInstalled :=
      fun f hf => i2 f (by simpa [SetStateProgress, h3F] using hf)
    split
    · rename_i hb
      simp only [Bool.and_eq_true, beq_iff_eq] at hb
      refine ⟨i1.congr (by simp [Logf]) (by simp [Logf, SetStateProgress])
        (by simp [Logf, SetStateProgress]), fun f hf => ?_, fun _ f hf hs => ?_⟩
      · simpa [Logf, SetStateProgress] using hmono f hf
      · have := i3 (by simpa using hb.1) hb.2 f hf hs
        simpa [Logf, SetStateProgress] using this
    · exact ⟨i1.congr (by simp [Logf]) (by simp [Logf]) (by simp [Logf]),
        fun f hf => by simpa [Logf] using hmono f hf, fun ht => absurd ht (by simp)⟩
  · exact ⟨hinv0.congr (by simp [Logf]) (by simp [Logf]) (by simp [Logf]),
      fun f hf => by simpa [Logf] using hf, fun ht => absurd ht (by simp)⟩

/-- C14: let no install path of a removable or target file be the staging path of a target
file, no backup path of such a file be the staging or install path of a target file, and the
marker file be neither.  Then for every job, when `RunBackupAndMove` returns true,
`FilesInstalled` contains every file of the target manifest that existed in the install-staging
directory; and whether it returns true or not, it only adds to `FilesInstalled`, and every path
it has added is a target file that was staged and whose staged content is now in the install
directory: a path is added only after its move (or the copy fallback) has succeeded. -/
theorem C14_files_installed (env : Env) (job : Job) (w : World)
    (h1 : ∀ x ∈ job.FilesToRemove env ++ job.NewBuildManifest.GetFileList,
      ∀ f ∈ job.NewBuildManifest.GetFileList,
        pathCombine job.InstallDirectory x ≠ pathCombine w.InstallStagingDir f)
    (h2 : env.GetBackupDirectory.isEmpty = false →
      ∀ x ∈ job.FilesToRemove env ++ job.NewBuildManifest.GetFileList,
      ∀ f ∈ job.NewBuildManifest.GetFileList,
        pathCombine env.GetBackupDirectory x ≠ pathCombine w.InstallStagingDir f ∧
          pathCombine env.GetBackupDirectory x ≠ pathCombine job.InstallDirectory f)
    (h3 : ∀ f ∈ job.NewBuildManifest.GetFileList,
      job.PreviousMoveMarker ≠ pathCombine w.InstallStagingDir f ∧
        job.PreviousMoveMarker ≠ pathCombine job.InstallDirectory f) :
    ((RunBackupAndMove env job w).1 = true →
      ∀ f ∈ job.NewBuildManifest.GetFileList,
        (w.disk (pathCombine w.InstallStagingDir f)).isSome = true →
        f ∈ (RunBackupAndMove env job w).2.FilesInstalled) ∧
    (∀ f ∈ w.FilesInstalled, f ∈ (RunBackupAndMove env job w).2.FilesInstalled) ∧
    (∀ f ∈ (RunBackupAndMove env job w).2.FilesInstalled, f ∉ w.FilesInstalled →
      f ∈ job.NewBuildManifest.GetFileList ∧
        (w.disk (pathCombine w.InstallStagingDir f)).isSome = true ∧
        (RunBackupAndMove env job w).2.disk (pathCombine job.InstallDirectory f) =
          w.disk (pathCombine w.InstallStagingDir f)) := by
  obtain ⟨hinv, hmono, hall⟩ := RunBackupAndMove_installs env job w h1 h2 h3
  refine ⟨hall, hmono, fun f hf hn => ?_⟩
  rcases hinv.installed f hf with h0 | h0
  · exact absurd h0 hn
  · exact h0

/-- C14 at a concrete input: the update from `oldManifest` to `sampleManifest` with the new
`fileA` and `fileB` staged, backups into `B`.  `RunBackupAndMove` returns true, `FilesInstalled`
is `fileA, fileB`, and the install directory holds the staged contents. -/
theorem C14_witness :
    (∀ f ∈ updateJob.NewBuildManifest.GetFileList,
      ((sampleWorld fullyStagedDisk).disk
        (pathCombine (sampleWorld fullyStagedDisk).InstallStagingDir f)).isSome = true →
      f ∈ (RunBackupAndMove (backupEnv true) updateJob
        (sampleWorld fullyStagedDisk)).2.FilesInstalled) ∧
    ("fileA" ∈ updateJob.NewBuildManifest.GetFileList ∧
      ((sampleWorld fullyStagedDisk).disk
        (pathCombine (sampleWorld fullyStagedDisk).InstallStagingDir "fileA")).isSome = true ∧
      (RunBackupAndMove (backupEnv true) updateJob (sampleWorld fullyStagedDisk)).2.disk
          (pathCombine updateJob.InstallDirectory "fileA") =
        (sampleWorld fullyStagedDisk).disk
          (pathCombine (sampleWorld fullyStagedDisk).InstallStagingDir "fileA")) ∧
    (RunBackupAndMove (backupEnv true) updateJob (sampleWorld fullyStagedDisk)).1 = true ∧
    (RunBackupAndMove (backupEnv true) updateJob (sampleWorld fullyStagedDisk)).2.FilesInstalled =
      ["fileA", "fileB"] ∧
    (RunBackupAndMove (backupEnv true) updateJob (sampleWorld fullyStagedDisk)).2.disk
      "I/fileA" = some ⟨1, 7⟩ ∧
    (RunBackupAndMove (backupEnv true) updateJob (sampleWorld fullyStagedDisk)).2.disk
      "I/fileB" = some ⟨2, 8⟩ :=
  ⟨(C14_files_installed (backupEnv true) updateJob (sampleWorld fullyStagedDisk)
      (by decide) (by decide) (by decide)).1 (by decide),
    (C14_files_installed (backupEnv true) updateJob (sampleWorld fullyStagedDisk)
      (by decide) (by decide) (by decide)).2.2 "fileA" (by decide) (by decide),
    by decide, by decide, by decide, by decide⟩


/-! ## An attempt that starts with the marker file -/

/-- An attempt that finds the marker file has `RunInstallation` return true and calls
`RunBackupAndMove`. -/
theorem Run.attempt_marker (env : Env) (job : Job) (pre : Bool) (k : Int) (s : RunState)
    (rec : AttemptRecord) (h : (Run.attempt env job pre k s).Attempts = s.Attempts ++ [rec])
    (hm : rec.bMarkerAtStart = true) :
    rec.bRunInstallation = true ∧ rec.bRunBackupAndMove.isSome = true ∧
      (rec.bRunVerification.isSome = true ↔ rec.bRunBackupAndMove = some true) := by
  have h' : s.Attempts ++ [rec] = s.Attempts ++ [_] := h.symm.trans rfl
  have hr := List.append_cancel_left h'
  simp only [List.cons.injEq, and_true] at hr
  subst hr
  clear h h'
  dsimp only at hm ⊢
  have hi : (RunInstallation env job s.CorruptFiles s.world).1 = true := by
    rw [RunInstallation_eq, hm]
    rfl
  simp only [hi, if_true]
  generalize RunBackupAndMove env job
    (SetStateProgress EBuildPatchProgress.Installing 1
      (SetStateProgress EBuildPatchProgress.Downloading 1
        (SetStateProgress EBuildPatchProgress.PrerequisitesInstall (if pre = true then 0 else 1)
          (RunInstallation env job s.CorruptFiles s.world).2))) = m
  obtain ⟨mb, mw⟩ := m
  cases mb <;> simp [RunFileAttributes_fst]

/-- The loop over the constructed files changes nothing when none of them is staged. -/
theorem RunBackupAndMove.moveLoop_idle (env : Env) (job : Job) (x : ℚ) :
    ∀ (l : List String) (i : Nat) (b : Bool) (w : World),
      (∀ f ∈ l, w.disk (pathCombine w.InstallStagingDir f) = none) →
      (RunBackupAndMove.moveLoop env job x l i b w).2.disk = w.disk ∧
      (RunBackupAndMove.moveLoop env job x l i b w).2.FilesInstalled = w.FilesInstalled ∧
      (RunBackupAndMove.moveLoop env job x l i b w).2.trace.filter Event.isFileChange =
        w.trace.filter Event.isFileChange := by
  intro l
  induction l with
  | nil => intro i b w _; exact ⟨rfl, rfl, rfl⟩
  | cons g rest ih =>
    intro i b w h
    rw [RunBackupAndMove.moveLoop_cons]
    split
    · exact ⟨rfl, rfl, rfl⟩
    · rw [if_pos (by rw [h g (List.mem_cons_self _ _)]; rfl)]
      obtain ⟨i1, i2, i3⟩ := ih (i + 1) b
        (SetStateProgress EBuildPatchProgress.MovingToInstall ((i : ℚ) / x)
          (FileExists env (pathCombine w.InstallStagingDir g) w).2)
        (fun f hf => by
          simpa [SetStateProgress] using h f (List.mem_cons_of_mem _ hf))
      refine ⟨by simpa using i1, by simpa [SetStateProgress] using i2, ?_⟩
      rw [i3]
      simp [Event.isFileChange]

/-- `RunBackupAndMove` changes no file when the job has no removable file and no file of the
target manifest is staged. -/
theorem RunBackupAndMove_idle (env : Env) (job : Job) (w : World)
    (hr : job.FilesToRemove env = [])
    (hs : ∀ f ∈ job.NewBuildManifest.GetFileList,
      w.disk (pathCombine w.InstallStagingDir f) = none) :
    (RunBackupAndMove env job w).2.disk = w.disk ∧
    (RunBackupAndMove env job w).2.FilesInstalled = w.FilesInstalled ∧
    (RunBackupAndMove env job w).2.trace.filter Event.isFileChange =
      w.trace.filter Event.isFileChange := by
  have hFT : (match job.CurrentBuildManifest with
      | some cur => env.GetRemovableFiles cur job.NewBuildManifest
      | none => []) = job.FilesToRemove env := rfl
  unfold RunBackupAndMove
  dsimp only
  split
  · unfold RunBackupAndMove.relocate
    dsimp only
    simp only [hFT, hr, RunBackupAndMove.removeLoop]
    obtain ⟨i1, i2, i3⟩ := RunBackupAndMove.moveLoop_idle env job
      (job.NewBuildManifest.GetFileList.length : ℚ) job.NewBuildManifest.GetFileList 0 false
      (SetStateProgress EBuildPatchProgress.MovingToInstall 0
        { Logf env "BuildPatchServices: Running backup and stage relocation" w with
          BuildStats :=
            { (Logf env "BuildPatchServices: Running backup and stage relocation" w).BuildStats
              with NumFilesToRemove := ([] : List String).length } })
      (fun f hf => by simpa [SetStateProgress, Logf] using hs f hf)
    split
    · refine ⟨by simpa [Logf] using i1, by simpa [Logf, SetStateProgress] using i2, ?_⟩
      simp only [Logf, ext_trace, SetStateProgress_trace, List.filter_append] at i3 ⊢
      rw [i3]
      simp [Event.isFileChange]
    · refine ⟨by simpa [Logf] using i1, by simpa [Logf, SetStateProgress] using i2, ?_⟩
      simp only [Logf, ext_trace, SetStateProgress_trace, List.filter_append] at i3 ⊢
      rw [i3]
      simp [Event.isFileChange]
  · simp [Logf, Event.isFileChange]


/-! ## The retries of a failed move -/

/-- The attempts on the destination that one pass of the retry loop appends to the trace: the
copy, and the move when the copy failed. -/
theorem RunBackupAndMove.retryBody_attempts (env : Env) (f d s : String) (w : World) :
    (RunBackupAndMove.retryBody env f d s w).2.trace.filter (Event.isAttemptOn d) =
      w.trace.filter (Event.isAttemptOn d) ++
        (if (Copy env d s
            (Logf env "BuildPatchServices: ERROR: Failed to move file, trying copy"
              (ext env (Event.RecordConstructionError f) w))).1
          then [Event.Copy d s] else [Event.Copy d s, Event.Move d s]) := by
  unfold RunBackupAndMove.retryBody
  dsimp only
  split <;> rename_i h
  · simp [Logf, Event.isAttemptOn, List.filter_cons] at h ⊢
    simp [h]
  · simp [Logf, Event.isAttemptOn, List.filter_cons] at h ⊢
    simp [h]

/-- The retry loop entered with `MoveRetries = n` appends at most `n + 1` attempts on the
destination when `n` is odd (and at most `n` when it is even). -/
theorem RunBackupAndMove.retryLoop_attempts (env : Env) (f d s : String) :
    ∀ (n : Nat) (w : World),
      ∃ l : List Event,
        (RunBackupAndMove.retryLoop env f d s n w).2.trace.filter (Event.isAttemptOn d) =
          w.trace.filter (Event.isAttemptOn d) ++ l ∧ l.length ≤ 2 * ((n + 1) / 2)
  | 0, w => ⟨[], by simp [RunBackupAndMove.retryLoop]⟩
  | 1, w => by
    have h := RunBackupAndMove.retryBody_attempts env f d s w
    rw [RunBackupAndMove.retryLoop]
    refine ⟨_, h, ?_⟩
    split <;> simp
  | n + 2, w => by
    have h := RunBackupAndMove.retryBody_attempts env f d s w
    rw [RunBackupAndMove.retryLoop]
    by_cases hb : (RunBackupAndMove.retryBody env f d s w).1 = true
    · simp only [hb, if_true]
      refine ⟨_, h, ?_⟩
      split <;> simp <;> omega
    · have hb' : (RunBackupAndMove.retryBody env f d s w).1 = false := by simpa using hb
      simp only [hb', Bool.false_eq_true, if_false]
      obtain ⟨l, hl, hn⟩ := RunBackupAndMove.retryLoop_attempts env f d s n
        (RunBackupAndMove.retryBody env f d s w).2
      rw [hl, h, List.append_assoc]
      refine ⟨_, rfl, ?_⟩
      have : (n + 2 + 1) / 2 = (n + 1) / 2 + 1 := by omega
      rw [this]
      split <;> simp <;> omega

set_option maxRecDepth 100000 in
/-- Claim C21 (move retry bound), evaluated on the code: with `NUM_FILE_MOVE_RETRIES = 5` the
retry loop makes at most six further attempts on the destination, whatever the environment does,
and it makes six when no move and no copy succeeds.  For the staged `fileA` of `sampleJob` in
`failingMoveEnv`, `RunBackupAndMove` issues the first move, then three times a copy followed by a
move, and returns false with the error `MoveFileToInstall`: the counter `MoveRetries` is
decremented before each copy and before each move but tested at the head of the loop only, so
the third pass starts with the counter at 1 and makes the fifth and the sixth attempt. -/
theorem C21_retry_attempts :
    (∀ (env : Env) (f d s : String) (w : World), ∃ l : List Event,
      (RunBackupAndMove.retryLoop env f d s NUM_FILE_MOVE_RETRIES w).2.trace.filter
          (Event.isAttemptOn d) = w.trace.filter (Event.isAttemptOn d) ++ l ∧ l.length ≤ 6) ∧
      (RunBackupAndMove failingMoveEnv sampleJob (sampleWorld stagedDisk)).2.trace.filter
          (Event.isAttemptOn "I/fileA") =
        [Event.Move "I/fileA" "S/Install/fileA",
          Event.Copy "I/fileA" "S/Install/fileA", Event.Move "I/fileA" "S/Install/fileA",
          Event.Copy "I/fileA" "S/Install/fileA", Event.Move "I/fileA" "S/Install/fileA",
          Event.Copy "I/fileA" "S/Install/fileA", Event.Move "I/fileA" "S/Install/fileA"] ∧
      (RunBackupAndMove failingMoveEnv sampleJob (sampleWorld stagedDisk)).1 = false ∧
      (RunBackupAndMove failingMoveEnv sampleJob (sampleWorld stagedDisk)).2.ErrorState =
        EBuildPatchInstallError.MoveFileToInstall := by
  refine ⟨fun env f d s w => ?_, by decide, by decide, by decide⟩
  obtain ⟨l, hl, hn⟩ := RunBackupAndMove.retryLoop_attempts env f d s NUM_FILE_MOVE_RETRIES w
  exact ⟨l, hl, by simpa [NUM_FILE_MOVE_RETRIES] using hn⟩


/-! ## A move that fails after all retries -/

/-- The loop over the constructed files continues from the state in which it tests a file. -/
theorem RunBackupAndMove.moveLoop_of_loopHead (env : Env) (job : Job) (x : ℚ) :
    ∀ (files : List String) (k i : Nat) (b : Bool) (w : World) (i' : Nat) (b' : Bool)
      (w' : World),
      RunBackupAndMove.loopHead env job x files k i b w = some (i', b', w') →
      RunBackupAndMove.moveLoop env job x files i b w =
        RunBackupAndMove.moveLoop env job x (files.drop k) i' b' w'
  | files, 0, i, b, w, i', b', w', h => by
    cases files <;> simp [RunBackupAndMove.loopHead] at h <;>
      obtain ⟨rfl, rfl, rfl⟩ := h <;> rfl
  | [], k + 1, i, b, w, i', b', w', h => by simp [RunBackupAndMove.loopHead] at h
  | f :: rest, k + 1, i, b, w, i', b', w', h => by
    rw [RunBackupAndMove.moveLoop_cons]
    rw [RunBackupAndMove.loopHead] at h
    by_cases he : HasFatalError w = true
    · simp [he] at h
    · simp only [he, if_false] at h ⊢
      cases hx : (w.disk (pathCombine w.InstallStagingDir f)).isSome
      · simp only [FileExists, hx, Bool.not_false, if_true] at h
        simp only [if_true, List.drop_succ_cons]
        exact RunBackupAndMove.moveLoop_of_loopHead env job x rest k _ _ _ _ _ _ h
      · simp only [FileExists, hx, Bool.not_true, Bool.false_eq_true, if_false] at h
        simp only [Bool.true_eq_false, if_false, List.drop_succ_cons]
        cases hm : (RunBackupAndMove.moveFile env f (pathCombine job.InstallDirectory f)
            (pathCombine w.InstallStagingDir f)
            (RunBackupAndMove.prepare env job f b
              (FileExists env (pathCombine w.InstallStagingDir f) w).2)).1
        · simp [FileExists, hm] at h
          simp only [FileExists] at hm
          simp [hm] at h
        · simp only [FileExists] at hm
          simp only [hm, Bool.not_true, Bool.false_eq_true, if_false] at h
          simp only [FileExists, hm, Bool.true_eq_false, if_false]
          exact RunBackupAndMove.moveLoop_of_loopHead env job x rest k _ _ _ _ _ _ h

/-- When the loop over the constructed files has returned false, so does `RunBackupAndMove`,
after its last log line. -/
theorem RunBackupAndMove_of_loop_failure (env : Env) (job : Job) (w x : World)
    (hw : HasFatalError (Logf env "BuildPatchServices: Running backup and stage relocation" w)
      = false)
    (hx : RunBackupAndMove.moveLoop env job (job.NewBuildManifest.GetFileList.length : ℚ)
        job.NewBuildManifest.GetFileList 0 false
        (RunBackupAndMove.loopEntry env job
          (Logf env "BuildPatchServices: Running backup and stage relocation" w)) = (false, x)) :
    RunBackupAndMove env job w = (false, Logf env "BuildPatchServices: Relocation complete" x) := by
  unfold RunBackupAndMove.loopEntry Job.FilesToRemove at hx
  unfold RunBackupAndMove RunBackupAndMove.relocate
  simp only [hw, beq_self_eq_true, if_true]
  simp only [Nat.cast_inj] at hx ⊢
  rw [hx]
  simp

/-- Claim C22 (unrecoverable move failure): let the loop of `RunBackupAndMove` over the target
files arrive at the file `f` at position `k` of the list with no fatal error, let `f` be staged,
and let its move fail after all retries.  Then `RunBackupAndMove` returns false with a fatal
error recorded, which is `MoveFileToInstall` unless another error was raised before the failure
was declared; after the last attempt on `f` it only writes two log lines, so no later file is
backed up or moved; and `FilesInstalled` is what it was when the loop arrived at `f`, so the
failed path is not added.  With a fatal error on entry, `RunBackupAndMove` returns false and its
only external calls are its two log lines: no file is removed, backed up or moved. -/
theorem C22_move_failure (env : Env) (job : Job) (w : World) :
    (∀ (k i : Nat) (b : Bool) (h : World) (f : String),
      HasFatalError (Logf env "BuildPatchServices: Running backup and stage relocation" w)
        = false →
      RunBackupAndMove.loopHead env job (job.NewBuildManifest.GetFileList.length : ℚ)
        job.NewBuildManifest.GetFileList k 0 false
        (RunBackupAndMove.loopEntry env job
          (Logf env "BuildPatchServices: Running backup and stage relocation" w))
        = some (i, b, h) →
      job.NewBuildManifest.GetFileList[k]? = some f →
      HasFatalError h = false →
      (h.disk (pathCombine h.InstallStagingDir f)).isSome = true →
      ∀ m : Bool × World,
        m = RunBackupAndMove.moveFile env f (pathCombine job.InstallDirectory f)
          (pathCombine h.InstallStagingDir f)
          (RunBackupAndMove.prepare env job f b
            (FileExists env (pathCombine h.InstallStagingDir f) h).2) →
        m.1 = false →
        (RunBackupAndMove env job w).1 = false ∧
          HasFatalError (RunBackupAndMove env job w).2 = true ∧
          ((Logf env "BuildPatchServices: ERROR: Failed to move file" m.2).ErrorState
              = EBuildPatchInstallError.NoError →
            (RunBackupAndMove env job w).2.ErrorState
              = EBuildPatchInstallError.MoveFileToInstall) ∧
          (RunBackupAndMove env job w).2.trace = m.2.trace ++
            [Event.Log "BuildPatchServices: ERROR: Failed to move file",
              Event.Log "BuildPatchServices: Relocation complete"] ∧
          (RunBackupAndMove env job w).2.disk = m.2.disk ∧
          (RunBackupAndMove env job w).2.FilesInstalled = h.FilesInstalled) ∧
      (HasFatalError w = true →
        (RunBackupAndMove env job w).1 = false ∧
          (RunBackupAndMove env job w).2.trace = w.trace ++
            [Event.Log "BuildPatchServices: Running backup and stage relocation",
              Event.Log "BuildPatchServices: Relocation complete"] ∧
          (RunBackupAndMove env job w).2.disk = w.disk ∧
          (RunBackupAndMove env job w).2.FilesInstalled = w.FilesInstalled ∧
          (RunBackupAndMove env job w).2.ErrorState = w.ErrorState) := by
  constructor
  · intro k i b h f hw hh hf he hs m hm hm1
    have hloop := RunBackupAndMove.moveLoop_of_loopHead env job _ _ _ _ _ _ _ _ _ hh
    obtain ⟨hk, hget⟩ := List.getElem?_eq_some_iff.mp hf
    rw [List.drop_eq_getElem_cons hk, hget, RunBackupAndMove.moveLoop_cons] at hloop
    simp only [he, Bool.false_eq_true, if_false, hs, Bool.true_eq_false, ← hm, hm1,
      if_true] at hloop
    rw [RunBackupAndMove_of_loop_failure env job w _ hw hloop]
    have hfatal : HasFatalError (SetFatalError EBuildPatchInstallError.MoveFileToInstall ""
        (Logf env "BuildPatchServices: ERROR: Failed to move file" m.2)) = true := by
      unfold SetFatalError
      split
      · assumption
      · simp [HasFatalError]
    have hne : (SetFatalError EBuildPatchInstallError.MoveFileToInstall ""
        (Logf env "BuildPatchServices: ERROR: Failed to move file" m.2)).ErrorState
        ≠ EBuildPatchInstallError.NoError := by
      simpa [HasFatalError] using hfatal
    have hkeep : (Logf env "BuildPatchServices: Relocation complete"
        (SetFatalError EBuildPatchInstallError.MoveFileToInstall ""
          (Logf env "BuildPatchServices: ERROR: Failed to move file" m.2))).ErrorState =
        (SetFatalError EBuildPatchInstallError.MoveFileToInstall ""
          (Logf env "BuildPatchServices: ERROR: Failed to move file" m.2)).ErrorState :=
      ext_ErrorState_of_error env _ _ hne
    refine ⟨rfl, ?_, ?_, ?_, ?_, ?_⟩
    · rw [← hfatal]
      simp only [HasFatalError, hkeep]
    · intro hno
      show (Logf env _ _).ErrorState = _
      rw [hkeep]
      unfold SetFatalError
      simp [HasFatalError, hno]
    · simp [Logf]
    · simp [Logf, SetFatalError_disk]
    · rw [hm]
      simp [Logf, SetFatalError_FilesInstalled, moveFile_FilesInstalled, prepare_FilesInstalled,
        FileExists_FilesInstalled]
  · intro hw
    have hne : w.ErrorState ≠ EBuildPatchInstallError.NoError := by
      simpa [HasFatalError] using hw
    have h1 := ext_ErrorState_of_error env
      (Event.Log "BuildPatchServices: Running backup and stage relocation") w hne
    have h2 : HasFatalError (Logf env "BuildPatchServices: Running backup and stage relocation" w)
        = true := by
      simp only [HasFatalError, Logf, h1]
      simpa [HasFatalError] using hw
    have h3 := (RunBackupAndMove_of_error env job w hne).2
    refine ⟨?_, ?_, ?_, ?_, h3⟩
    all_goals
      unfold RunBackupAndMove
      simp only [h2, Bool.true_eq_false, beq_iff_eq, if_false]
      try simp [Logf]

set_option maxRecDepth 100000 in
/-- Witness for C22: `fileA` and `fileB` are staged and no move or copy of `fileB` succeeds.  The
loop arrives at `fileB` (position 1) after it has installed `fileA`; `RunBackupAndMove` returns
false with the error `MoveFileToInstall` and `FilesInstalled` holds `fileA` only.  With the
error `UserCanceled` on entry it returns false after its two log lines. -/
theorem C22_witness :
    ((RunBackupAndMove failingSecondMoveEnv sampleJob (sampleWorld fullyStagedDisk)).1 = false ∧
      (RunBackupAndMove failingSecondMoveEnv sampleJob (sampleWorld fullyStagedDisk)).2.ErrorState
        = EBuildPatchInstallError.MoveFileToInstall ∧
      (RunBackupAndMove failingSecondMoveEnv sampleJob
        (sampleWorld fullyStagedDisk)).2.FilesInstalled = ["fileA"]) ∧
    ((RunBackupAndMove (sampleEnv []) sampleJob
        { sampleWorld fullyStagedDisk with
          ErrorState := EBuildPatchInstallError.UserCanceled }).1 = false ∧
      (RunBackupAndMove (sampleEnv []) sampleJob
        { sampleWorld fullyStagedDisk with
          ErrorState := EBuildPatchInstallError.UserCanceled }).2.trace =
        [Event.Log "BuildPatchServices: Running backup and stage relocation",
          Event.Log "BuildPatchServices: Relocation complete"]) := by
  have hs : (RunBackupAndMove.loopHead failingSecondMoveEnv sampleJob
      (sampleJob.NewBuildManifest.GetFileList.length : ℚ)
      sampleJob.NewBuildManifest.GetFileList 1 0 false
      (RunBackupAndMove.loopEntry failingSecondMoveEnv sampleJob
        (Logf failingSecondMoveEnv "BuildPatchServices: Running backup and stage relocation"
          (sampleWorld fullyStagedDisk)))).isSome = true := by decide
  have h := (C22_move_failure failingSecondMoveEnv sampleJob (sampleWorld fullyStagedDisk)).1
    1 _ _ _ "fileB" (by decide) (Option.some_get hs).symm (by decide) (by decide) (by decide)
    _ rfl (by decide)
  have h' := (C22_move_failure (sampleEnv []) sampleJob
    { sampleWorld fullyStagedDisk with
      ErrorState := EBuildPatchInstallError.UserCanceled }).2 (by decide)
  refine ⟨⟨h.1, h.2.2.1 (by decide), ?_⟩, h'.1, h'.2.1⟩
  rw [h.2.2.2.2.2]
  decide

/-! ## The order in which `SetupFileAttributes` writes the attributes -/

/-- Claim C23 (order of `SetupFileAttributes`), refuted as stated: for the entry `toolEntry`,
read-only and executable, the calls are `SetReadOnly(false)`, `SetFileCompressionFlag`,
`SetReadOnly(true)`, `SetExecutableFlag`: the executable flag is written after the read-only
flag has been restored, so the read-only flag is not the last attribute written. -/
theorem C23_counterexample :
    toolEntry.bIsReadOnly = true ∧ toolEntry.bIsUnixExecutable = true ∧
    (SetupFileAttributes (sampleEnv []) "I/tool" toolEntry (sampleWorld installedDisk)).trace =
      [Event.SetReadOnly "I/tool" false, Event.SetFileCompressionFlag "I/tool" false,
        Event.SetReadOnly "I/tool" true, Event.SetExecutableFlag "I/tool"] ∧
    (SetupFileAttributes (sampleEnv []) "I/tool" toolEntry
      (sampleWorld installedDisk)).trace.getLast? = some (Event.SetExecutableFlag "I/tool") := by
  decide

/-- Claim C23, amended: for every file and manifest entry `SetupFileAttributes` writes the
attributes in the order: clear read-only, set the compression flag, restore the target read-only
flag, and then, only for an entry flagged executable, set the executable flag.  So the read-only
flag is restored after the compression flag is set, and it is the last attribute written exactly
for the entries that are not flagged executable. -/
theorem C23_attribute_order_amended (env : Env) (FilePath : String) (f : FFileManifestData)
    (w : World) :
    (SetupFileAttributes env FilePath f w).trace.filter Event.isAttributeWrite =
        w.trace.filter Event.isAttributeWrite ++
          [Event.SetReadOnly FilePath false,
            Event.SetFileCompressionFlag FilePath f.bIsCompressed,
            Event.SetReadOnly FilePath f.bIsReadOnly] ++
          (if f.bIsUnixExecutable then [Event.SetExecutableFlag FilePath] else []) ∧
      (((SetupFileAttributes env FilePath f w).trace.filter Event.isAttributeWrite).getLast? =
          some (Event.SetReadOnly FilePath f.bIsReadOnly) ↔ f.bIsUnixExecutable = false) := by
  have h : (SetupFileAttributes env FilePath f w).trace.filter Event.isAttributeWrite =
      w.trace.filter Event.isAttributeWrite ++
        [Event.SetReadOnly FilePath false,
          Event.SetFileCompressionFlag FilePath f.bIsCompressed,
          Event.SetReadOnly FilePath f.bIsReadOnly] ++
        (if f.bIsUnixExecutable then [Event.SetExecutableFlag FilePath] else []) := by
    unfold SetupFileAttributes SetReadOnly SetFileCompressionFlag SetExecutableFlag Logf
    dsimp only
    split <;> [split; skip] <;> split <;>
      simp_all [Event.isAttributeWrite, List.filter_cons]
  refine ⟨h, ?_⟩
  rw [h]
  cases f.bIsUnixExecutable <;> simp [List.getLast?_append]

/-- Witness for C23 amended: the attribute writes for the entry `toolEntry`, which is flagged
executable, and for the entry of `fileB` in `sampleManifest`, which is not: there the restored
read-only flag is the last attribute written. -/
theorem C23_witness :
    (SetupFileAttributes (sampleEnv []) "I/tool" toolEntry
        (sampleWorld installedDisk)).trace.filter Event.isAttributeWrite =
      (sampleWorld installedDisk).trace.filter Event.isAttributeWrite ++
        [Event.SetReadOnly "I/tool" false,
          Event.SetFileCompressionFlag "I/tool" toolEntry.bIsCompressed,
          Event.SetReadOnly "I/tool" toolEntry.bIsReadOnly] ++
        (if toolEntry.bIsUnixExecutable then [Event.SetExecutableFlag "I/tool"] else []) ∧
    ((SetupFileAttributes (sampleEnv []) "I/fileB" ⟨"fileB", 2, 8, true, false, false⟩
        (sampleWorld installedDisk)).trace.filter Event.isAttributeWrite).getLast? =
      some (Event.SetReadOnly "I/fileB" true) :=
  ⟨(C23_attribute_order_amended (sampleEnv []) "I/tool" toolEntry (sampleWorld installedDisk)).1,
    (C23_attribute_order_amended (sampleEnv []) "I/fileB" ⟨"fileB", 2, 8, true, false, false⟩
      (sampleWorld installedDisk)).2.mpr rfl⟩


/-! ## The removed-attribute pass of `RunFileAttributes` -/

/-- With a fatal error recorded, the loop over the current manifest does nothing. -/
theorem RunFileAttributes.removedLoop_of_error (env : Env) (job : Job)
    (l : List FFileManifestData) (w : World) (h : HasFatalError w = true) :
    RunFileAttributes.removedLoop env job l w = w := by
  cases l <;> simp [RunFileAttributes.removedLoop, h]

/-- The loop over the current manifest handles a list part by part. -/
theorem RunFileAttributes.removedLoop_append (env : Env) (job : Job) :
    ∀ (l₁ l₂ : List FFileManifestData) (w : World),
      RunFileAttributes.removedLoop env job (l₁ ++ l₂) w =
        RunFileAttributes.removedLoop env job l₂ (RunFileAttributes.removedLoop env job l₁ w)
  | [], l₂, w => rfl
  | f :: l₁, l₂, w => by
    by_cases h : HasFatalError w = true
    · rw [RunFileAttributes.removedLoop_of_error env job _ w h,
        RunFileAttributes.removedLoop_of_error env job _ w h,
        RunFileAttributes.removedLoop_of_error env job _ w h]
    · simp only [List.cons_append, RunFileAttributes.removedLoop, h, if_false]
      exact RunFileAttributes.removedLoop_append env job l₁ l₂ _

/-- The step of the loop over the current manifest at an entry whose read-only or compression
flag is cleared in the target manifest. -/
theorem RunFileAttributes.removedLoop_cons_of_removed (env : Env) (job : Job)
    (Old New : FFileManifestData) (rest : List FFileManifestData) (w : World)
    (hw : HasFatalError w = false)
    (hn : job.NewBuildManifest.GetFileManifest Old.Filename = some New)
    (hr : (Old.bIsReadOnly && !New.bIsReadOnly || Old.bIsCompressed && !New.bIsCompressed)
      = true) :
    RunFileAttributes.removedLoop env job (Old :: rest) w =
      RunFileAttributes.removedLoop env job rest
        (SetupFileAttributes env (pathCombine job.InstallDirectory Old.Filename) New w) := by
  rw [RunFileAttributes.removedLoop]
  simp only [hw, Bool.false_eq_true, if_false, hn, hr, if_true]

/-- The step of the loop over the current manifest at an entry that has no entry in the target
manifest, or none of whose read-only and compression flags is cleared there. -/
theorem RunFileAttributes.removedLoop_cons_of_kept (env : Env) (job : Job)
    (Old : FFileManifestData) (rest : List FFileManifestData) (w : World)
    (hr : ∀ New, job.NewBuildManifest.GetFileManifest Old.Filename = some New →
      (Old.bIsReadOnly && !New.bIsReadOnly || Old.bIsCompressed && !New.bIsCompressed)
        = false) :
    RunFileAttributes.removedLoop env job (Old :: rest) w =
      RunFileAttributes.removedLoop env job rest w := by
  by_cases hw : HasFatalError w = true
  · rw [RunFileAttributes.removedLoop_of_error env job _ w hw,
      RunFileAttributes.removedLoop_of_error env job _ w hw]
  · rw [RunFileAttributes.removedLoop]
    simp only [hw, if_false]
    cases hn : job.NewBuildManifest.GetFileManifest Old.Filename with
    | none => rfl
    | some New => simp only [hr New hn, Bool.false_eq_true, if_false]

/-- Claim C24 (removed-attribute pass), refuted as stated: in the update `execJob` the file
`tool` is in both manifests, flagged executable in the current one and not in the target one;
the run is not forced, the current manifest is valid and no fatal error is recorded before or
after the pass.  `RunFileAttributes` makes no external call at all: `SetupFileAttributes`, which
would clear the read-only flag of `I/tool` first, is not applied. -/
theorem C24_counterexample :
    execJob.bIsRepairing (sampleEnv []) = false ∧
    execJob.CurrentBuildManifest.isSome = true ∧
    (execJob.CurrentBuildManifest.bind (fun cur => cur.GetFileManifest "tool")).map
        (fun f => f.bIsUnixExecutable) = some true ∧
    (execJob.NewBuildManifest.GetFileManifest "tool").map (fun f => f.bIsUnixExecutable)
      = some false ∧
    HasFatalError (RunFileAttributes (sampleEnv []) execJob false (sampleWorld installedDisk)).2
      = false ∧
    (RunFileAttributes (sampleEnv []) execJob false (sampleWorld installedDisk)).2.trace = [] ∧
    (SetupFileAttributes (sampleEnv []) "I/tool" ⟨"tool", 3, 10, false, false, false⟩
      (sampleWorld installedDisk)).trace =
      [Event.SetReadOnly "I/tool" false, Event.SetFileCompressionFlag "I/tool" false,
        Event.SetReadOnly "I/tool" false] := by
  decide

/-- Claim C24, amended: on a run that is not forced, with a valid current manifest, the pass
after the loop over the target manifest goes through the entries of the current manifest in
order.  At an entry that has an entry in the target manifest and whose read-only flag or
compression flag is set in the current entry and cleared in the target entry, reached with no
fatal error recorded, `SetupFileAttributes` is applied to the installed file with the target
entry.  At an entry for which neither of these two flags is cleared (for instance one that only
loses its executable flag) nothing is applied.  On a forced run the pass is not executed:
`RunFileAttributes` is the loop over the target manifest alone. -/
theorem C24_removed_attributes_amended (env : Env) (job : Job) (cur : FBuildPatchAppManifest)
    (w : World) (hc : job.CurrentBuildManifest = some cur) :
    (∀ (l₁ l₂ : List FFileManifestData) (Old New : FFileManifestData),
      cur.FileManifestList = l₁ ++ Old :: l₂ →
      job.NewBuildManifest.GetFileManifest Old.Filename = some New →
      (Old.bIsReadOnly && !New.bIsReadOnly || Old.bIsCompressed && !New.bIsCompressed)
        = true →
      HasFatalError (RunFileAttributes.removedLoop env job l₁
        (RunFileAttributes.applyLoop env job false job.NewBuildManifest.FileManifestList w))
        = false →
      RunFileAttributes env job false w =
        (true, RunFileAttributes.removedLoop env job l₂
          (SetupFileAttributes env (pathCombine job.InstallDirectory Old.Filename) New
            (RunFileAttributes.removedLoop env job l₁
              (RunFileAttributes.applyLoop env job false
                job.NewBuildManifest.FileManifestList w))))) ∧
    (∀ (l₁ l₂ : List FFileManifestData) (Old : FFileManifestData),
      cur.FileManifestList = l₁ ++ Old :: l₂ →
      (∀ New, job.NewBuildManifest.GetFileManifest Old.Filename = some New →
        (Old.bIsReadOnly && !New.bIsReadOnly || Old.bIsCompressed && !New.bIsCompressed)
          = false) →
      RunFileAttributes env job false w =
        (true, RunFileAttributes.removedLoop env job l₂
          (RunFileAttributes.removedLoop env job l₁
            (RunFileAttributes.applyLoop env job false
              job.NewBuildManifest.FileManifestList w)))) ∧
    RunFileAttributes env job true w =
      (true, RunFileAttributes.applyLoop env job true job.NewBuildManifest.FileManifestList w) := by
  refine ⟨?_, ?_, ?_⟩
  · intro l₁ l₂ Old New hl hn hr hw
    unfold RunFileAttributes
    simp only [Bool.not_false, if_true, hc, hl]
    rw [RunFileAttributes.removedLoop_append,
      RunFileAttributes.removedLoop_cons_of_removed env job Old New l₂ _ hw hn hr]
  · intro l₁ l₂ Old hl hr
    unfold RunFileAttributes
    simp only [Bool.not_false, if_true, hc, hl]
    rw [RunFileAttributes.removedLoop_append,
      RunFileAttributes.removedLoop_cons_of_kept env job Old l₂ _ hr]
  · unfold RunFileAttributes
    simp

/-- Witness for C24 amended: in the update `updateJob` the file `fileA` is read-only in the
current manifest and not in the target manifest, so the pass applies `SetupFileAttributes` to
`I/fileA` with the target entry, after the loop over the target manifest has handled the
read-only `fileB`; the entry `tool` of `execJob` only loses its executable flag and nothing is
applied. -/
theorem C24_witness :
    RunFileAttributes (sampleEnv []) updateJob false (sampleWorld installedDisk) =
      (true, RunFileAttributes.removedLoop (sampleEnv []) updateJob []
        (SetupFileAttributes (sampleEnv []) (pathCombine updateJob.InstallDirectory "fileA")
          ⟨"fileA", 1, 7, false, false, false⟩
          (RunFileAttributes.removedLoop (sampleEnv []) updateJob []
            (RunFileAttributes.applyLoop (sampleEnv []) updateJob false
              updateJob.NewBuildManifest.FileManifestList (sampleWorld installedDisk))))) ∧
    (RunFileAttributes (sampleEnv []) updateJob false (sampleWorld installedDisk)).2.trace =
      [Event.SetReadOnly "I/fileB" false, Event.SetFileCompressionFlag "I/fileB" false,
        Event.SetReadOnly "I/fileB" true,
        Event.SetReadOnly "I/fileA" false, Event.SetFileCompressionFlag "I/fileA" false,
        Event.SetReadOnly "I/fileA" false] ∧
    RunFileAttributes (sampleEnv []) execJob false (sampleWorld installedDisk) =
      (true, RunFileAttributes.removedLoop (sampleEnv []) execJob []
        (RunFileAttributes.removedLoop (sampleEnv []) execJob []
          (RunFileAttributes.applyLoop (sampleEnv []) execJob false
            execJob.NewBuildManifest.FileManifestList (sampleWorld installedDisk)))) :=
  ⟨(C24_removed_attributes_amended (sampleEnv []) updateJob oldManifest
      (sampleWorld installedDisk) rfl).1 [] [] ⟨"fileA", 1, 5, true, false, false⟩
      ⟨"fileA", 1, 7, false, false, false⟩ rfl (by decide) (by decide) (by decide),
    by decide,
    (C24_removed_attributes_amended (sampleEnv []) execJob _
      (sampleWorld installedDisk) rfl).2.1 [] [] ⟨"tool", 3, 9, false, false, true⟩ rfl
      (by decide)⟩


/-! ## The outcome of `RunVerification` -/

section Record

variable (env : Env) (Q : World → Prop)
  (hk : ∀ (e : Event) (w : World), Q w → Q (ext env e w))
  (hd : ∀ (w : World) (d : String → Option FileState), Q w → Q { w with disk := d })

include hk

theorem FileExists_record (p : String) (w : World) (h : Q w) : Q (FileExists env p w).2 :=
  hk _ _ h

theorem FileSize_record (p : String) (w : World) (h : Q w) : Q (FileSize env p w).2 :=
  hk _ _ h

include hd

theorem Move_record (d s : String) (w : World) (h : Q w) : Q (Move env d s w).2 := by
  unfold Move
  dsimp only
  split
  · exact hd _ _ (hk _ _ h)
  · exact hk _ _ h

theorem Delete_record (p : String) (w : World) (h : Q w) : Q (Delete env p w).2 := by
  unfold Delete
  dsimp only
  split
  · exact hd _ _ (hk _ _ h)
  · exact hk _ _ h

theorem backupIfEdited_record (job : Job) (f : String) (b : Bool) (w : World) (h : Q w) :
    Q (BackupFileIfNecessary.backupIfEdited env job f b w).2 := by
  unfold BackupFileIfNecessary.backupIfEdited
  dsimp only
  repeat' (first
    | exact h
    | apply Move_record env Q hk hd
    | apply FileSize_record env Q hk
    | unfold Logf
    | apply hk
    | split)

theorem BackupFileIfNecessary_record (job : Job) (f : String) (b : Bool) (w : World)
    (h : Q w) : Q (BackupFileIfNecessary env job f b w).2 := by
  unfold BackupFileIfNecessary
  dsimp only
  repeat' (first
    | exact h
    | apply FileExists_record env Q hk
    | apply backupIfEdited_record env Q hk hd
    | split)

theorem cleanLoop_record (job : Job) :
    ∀ (l : List String) (w : World), Q w → Q (RunVerification.cleanLoop env job l w)
  | [], _, h => h
  | f :: rest, w, h => by
    rw [RunVerification.cleanLoop]
    exact cleanLoop_record job rest _
      (Delete_record env Q hk hd _ _
        (Delete_record env Q hk hd _ _ (BackupFileIfNecessary_record env Q hk hd job f true w h)))

end Record

/-- An error that is already recorded survives an external call, with its message. -/
theorem ext_record_of_error (env : Env) (e : Event) (w : World) (E : EBuildPatchInstallError)
    (L : String) (hE : E ≠ EBuildPatchInstallError.NoError)
    (h : w.ErrorState = E ∧ w.ErrorLog = L) :
    (ext env e w).ErrorState = E ∧ (ext env e w).ErrorLog = L := by
  unfold ext SetFatalError HasFatalError
  dsimp only
  split
  · simp [h.1, hE, h.2]
  · exact h

/-- The value that `RunVerification` returns is the flag that `VerifyAgainstDirectory`
returns. -/
theorem RunVerification_fst (env : Env) (job : Job) (C : List String) (w : World) :
    (RunVerification env job C w).1 =
      (env.VerifyAgainstDirectory
        (Logf env "BuildPatchServices: Verifying install"
          (SetStateProgress EBuildPatchProgress.BuildVerification 0 w))
        job.NewBuildManifest job.InstallDirectory).1 := by
  simp [RunVerification, RunVerification.verify]

/-- The error record after the first part of `RunVerification`: the record of the world in
which the result of `VerifyAgainstDirectory` is tested, after `SetFatalError` when the
verification failed. -/
theorem RunVerification_verify_record (env : Env) (job : Job) (C : List String) (w : World) :
    (RunVerification.verify env job C w).2.2.ErrorState =
        (if (RunVerification.verify env job C w).1 then RunVerification.verified env job w
          else SetFatalError EBuildPatchInstallError.BuildVerifyFail
            ("Build verification failed on " ++
              toString (RunVerification.verify env job C w).2.1.length ++ " file(s)")
            (RunVerification.verified env job w)).ErrorState ∧
      (RunVerification.verify env job C w).2.2.ErrorLog =
        (if (RunVerification.verify env job C w).1 then RunVerification.verified env job w
          else SetFatalError EBuildPatchInstallError.BuildVerifyFail
            ("Build verification failed on " ++
              toString (RunVerification.verify env job C w).2.1.length ++ " file(s)")
            (RunVerification.verified env job w)).ErrorLog := by
  unfold RunVerification.verify RunVerification.verified
  dsimp only
  cases (env.VerifyAgainstDirectory
    (Logf env "BuildPatchServices: Verifying install"
      (SetStateProgress EBuildPatchProgress.BuildVerification 0 w))
    job.NewBuildManifest job.InstallDirectory).1 <;> simp [SetStateProgress]

/-- What `RunVerification` does after its first part keeps every property of the error record
that external calls keep. -/
theorem RunVerification_record (env : Env) (job : Job) (C : List String) (w : World)
    (R : EBuildPatchInstallError → String → Prop)
    (hk : ∀ (e : Event) (x : World), R x.ErrorState x.ErrorLog →
      R (ext env e x).ErrorState (ext env e x).ErrorLog)
    (h : R (RunVerification.verify env job C w).2.2.ErrorState
      (RunVerification.verify env job C w).2.2.ErrorLog) :
    R (RunVerification env job C w).2.2.ErrorState
      (RunVerification env job C w).2.2.ErrorLog := by
  unfold RunVerification Logf
  dsimp only
  apply hk
  split
  · exact cleanLoop_record env (fun x => R x.ErrorState x.ErrorLog) hk (fun _ _ hx => hx)
      job _ _ h
  · exact h

/-- When `RunVerification` returns true it keeps every property of the error record that
external calls keep. -/
theorem RunVerification_of_true (env : Env) (job : Job) (C : List String) (w : World)
    (R : EBuildPatchInstallError → String → Prop)
    (hk : ∀ (e : Event) (x : World), R x.ErrorState x.ErrorLog →
      R (ext env e x).ErrorState (ext env e x).ErrorLog)
    (ht : (RunVerification env job C w).1 = true) (hR : R w.ErrorState w.ErrorLog) :
    R (RunVerification env job C w).2.2.ErrorState
      (RunVerification env job C w).2.2.ErrorLog := by
  have hrec := RunVerification_verify_record env job C w
  have h1 : (RunVerification.verify env job C w).1 = (RunVerification env job C w).1 := rfl
  rw [h1] at hrec
  simp only [ht, if_true] at hrec
  apply RunVerification_record env job C w R hk
  rw [hrec.1, hrec.2]
  unfold RunVerification.verified Logf
  exact hk _ _ (hk _ _ hR)

/-- Claim C25 (outcome of `RunVerification`): let `VerifyAgainstDirectory` report success exactly
when the list of corrupt files it produces is empty (as the spec describes it).  Then
`RunVerification` returns true if and only if the corrupt-file list it leaves is empty.  When it
returns false a fatal error is recorded on return, and if none was recorded when the result of
`VerifyAgainstDirectory` was tested, it is `BuildVerifyFail` with the message
`Build verification failed on N file(s)`, where `N` is the length of the corrupt-file list.
When it returns true it raises no error of its own: every property of the error record that the
external calls keep holds on return if it held on entry. -/
theorem C25_verification_outcome (env : Env) (job : Job) (C : List String) (w : World)
    (hv : ∀ x, (env.VerifyAgainstDirectory x job.NewBuildManifest job.InstallDirectory).1 =
      VerifySuccess (env.VerifyAgainstDirectory x job.NewBuildManifest job.InstallDirectory).2.1) :
    ((RunVerification env job C w).1 = true ↔ (RunVerification env job C w).2.1 = []) ∧
    ((RunVerification env job C w).1 = false →
      HasFatalError (RunVerification env job C w).2.2 = true ∧
      (HasFatalError (RunVerification.verified env job w) = false →
        (RunVerification env job C w).2.2.ErrorState = EBuildPatchInstallError.BuildVerifyFail ∧
        (RunVerification env job C w).2.2.ErrorLog =
          "Build verification failed on " ++
            toString (RunVerification env job C w).2.1.length ++ " file(s)")) ∧
    ((RunVerification env job C w).1 = true →
      ∀ R : EBuildPatchInstallError → String → Prop,
        (∀ (e : Event) (x : World), R x.ErrorState x.ErrorLog →
          R (ext env e x).ErrorState (ext env e x).ErrorLog) →
        R w.ErrorState w.ErrorLog →
        R (RunVerification env job C w).2.2.ErrorState
          (RunVerification env job C w).2.2.ErrorLog) := by
  have hrec := RunVerification_verify_record env job C w
  have h1 : (RunVerification.verify env job C w).1 = (RunVerification env job C w).1 := rfl
  have h2 : (RunVerification.verify env job C w).2.1 = (RunVerification env job C w).2.1 := rfl
  rw [h1, h2] at hrec
  refine ⟨?_, ?_, ?_⟩
  · rw [RunVerification_fst, RunVerification_list, hv, VerifySuccess, List.isEmpty_iff]
  · intro hf
    simp only [hf, Bool.false_eq_true, if_false] at hrec
    constructor
    · have hne : (RunVerification.verify env job C w).2.2.ErrorState
          ≠ EBuildPatchInstallError.NoError := by
        rw [hrec.1]
        unfold SetFatalError
        split
        · rename_i he
          simpa [HasFatalError] using he
        · simp
      have := RunVerification_record env job C w
        (fun E _ => E ≠ EBuildPatchInstallError.NoError)
        (fun e x hx => by rw [ext_ErrorState_of_error env e x hx]; exact hx) hne
      simpa [HasFatalError] using this
    · intro hno
      simp only [SetFatalError, hno, Bool.false_eq_true, if_false] at hrec
      exact RunVerification_record env job C w
        (fun E L => E = EBuildPatchInstallError.BuildVerifyFail ∧
          L = "Build verification failed on " ++
            toString (RunVerification env job C w).2.1.length ++ " file(s)")
        (fun e x hx => ext_record_of_error env e x _ _ (by simp) hx) hrec
  · intro ht R hk hR
    exact RunVerification_of_true env job C w R hk ht hR

/-- Witness for C25: when `VerifyAgainstDirectory` finds `fileB` corrupt, `RunVerification`
returns false, leaves the list `[fileB]` and records `BuildVerifyFail` with the message for one
file; when it finds nothing, `RunVerification` returns true, leaves the empty list and the error
record stays empty. -/
theorem C25_witness :
    ((RunVerification (sampleEnv ["fileB"]) sampleJob [] (sampleWorld installedDisk)).1 = false ∧
      (RunVerification (sampleEnv ["fileB"]) sampleJob [] (sampleWorld installedDisk)).2.1
        = ["fileB"] ∧
      (RunVerification (sampleEnv ["fileB"]) sampleJob []
        (sampleWorld installedDisk)).2.2.ErrorState = EBuildPatchInstallError.BuildVerifyFail ∧
      (RunVerification (sampleEnv ["fileB"]) sampleJob []
        (sampleWorld installedDisk)).2.2.ErrorLog = "Build verification failed on 1 file(s)") ∧
    ((RunVerification (sampleEnv []) sampleJob ["fileA"] (sampleWorld installedDisk)).1 = true ∧
      (RunVerification (sampleEnv []) sampleJob ["fileA"] (sampleWorld installedDisk)).2.1
        = [] ∧
      (RunVerification (sampleEnv []) sampleJob ["fileA"]
        (sampleWorld installedDisk)).2.2.ErrorState = EBuildPatchInstallError.NoError ∧
      (RunVerification (sampleEnv []) sampleJob ["fileA"]
        (sampleWorld installedDisk)).2.2.ErrorLog = "") := by
  have h := C25_verification_outcome (sampleEnv ["fileB"]) sampleJob []
    (sampleWorld installedDisk) (fun _ => rfl)
  have h' := C25_verification_outcome (sampleEnv []) sampleJob ["fileA"]
    (sampleWorld installedDisk) (fun _ => rfl)
  have hf : (RunVerification (sampleEnv ["fileB"]) sampleJob []
      (sampleWorld installedDisk)).1 = false := by decide
  have ht : (RunVerification (sampleEnv []) sampleJob ["fileA"]
      (sampleWorld installedDisk)).1 = true := by decide
  have hm := (h.2.1 hf).2 (by decide)
  have hl : (RunVerification (sampleEnv ["fileB"]) sampleJob []
      (sampleWorld installedDisk)).2.1 = ["fileB"] := by decide
  refine ⟨⟨hf, hl, hm.1, ?_⟩, ht, h'.1.mp ht, ?_⟩
  · rw [hm.2, hl]
    decide
  · exact h'.2.2 ht
      (fun E L => E = EBuildPatchInstallError.NoError ∧ L = "")
      (fun e x hx => by
        unfold ext
        simpa [sampleEnv] using hx)
      ⟨rfl, rfl⟩


/-! ## The outcome of a cancelled job -/

/-- What holds of the record and the state after every single pass holds of the last record and
the state after the loop. -/
theorem Run.loop_last (env : Env) (job : Job) (pre : Bool)
    (T : AttemptRecord → RunState → Prop)
    (hT : ∀ k s, ∃ rec, (Run.attempt env job pre k s).Attempts = s.Attempts ++ [rec] ∧
      T rec (Run.attempt env job pre k s)) :
    ∀ (n : Nat) (s : RunState), ∃ last,
      (Run.loop env job pre n s).Attempts.getLast? = some last ∧
        T last (Run.loop env job pre n s) := by
  intro n
  induction n with
  | zero =>
    intro s
    obtain ⟨rec, h1, h2⟩ := hT (-1) s
    exact ⟨rec, by show (Run.attempt env job pre (-1) s).Attempts.getLast? = _
                   rw [h1, List.getLast?_concat], h2⟩
  | succ n ih =>
    intro s
    obtain ⟨rec, h1, h2⟩ := hT n s
    unfold Run.loop
    dsimp only
    split
    · exact ih _
    · exact ⟨rec, by rw [h1, List.getLast?_concat], h2⟩

/-- The deletion of the marker at the end of a pass keeps an error that is recorded. -/
theorem Run.resetMarker_error (env : Env) (job : Job) (c : Bool) (x : World)
    (he : x.ErrorState ≠ EBuildPatchInstallError.NoError) :
    (if c = true then
        (Delete env job.PreviousMoveMarker (Logf env "BuildPatchServices: Reset MM" x)).2
      else x).ErrorState = x.ErrorState := by
  cases c
  · rfl
  · have h1 : (Logf env "BuildPatchServices: Reset MM" x).ErrorState = x.ErrorState :=
      ext_ErrorState_of_error env _ _ he
    simp only [if_true]
    rw [Delete_ErrorState, ext_ErrorState_of_error env _ _ (by rw [h1]; exact he), h1]

/-- The end of a pass through the retry loop keeps an error that is recorded at the retry
decision. -/
theorem Run.attempt_error (env : Env) (job : Job) (pre : Bool) (k : Int) (s : RunState) :
    ∃ rec, (Run.attempt env job pre k s).Attempts = s.Attempts ++ [rec] ∧
      rec.bProcessSuccess = (Run.attempt env job pre k s).bProcessSuccess ∧
      (rec.ErrorAtRetryDecision ≠ EBuildPatchInstallError.NoError →
        (Run.attempt env job pre k s).world.ErrorState = rec.ErrorAtRetryDecision) := by
  refine ⟨_, rfl, rfl, ?_⟩
  intro he
  dsimp only [Run.attempt] at he ⊢
  exact Run.resetMarker_error env job _ _ he

section Success

variable (env : Env) (P : EBuildPatchInstallError → Prop)
  (hk : ∀ (e : Event) (w : World), P w.ErrorState → P (ext env e w).ErrorState)
  (h0 : P EBuildPatchInstallError.NoError)

include hk

/-- When `RunPrereqInstaller` returns true it keeps every property of the error state that
external calls keep. -/
theorem RunPrereqInstaller_of_true (job : Job) (w : World)
    (ht : (RunPrereqInstaller env job w).1 = true) (h : P w.ErrorState) :
    P (RunPrereqInstaller env job w).2.ErrorState := by
  have hbase : P (ext env
      (Event.CreateProc
        (env.ConvertRelativePathToFull
          (pathCombine job.InstallDirectory job.NewBuildManifest.PrereqPath))
        job.NewBuildManifest.PrereqArgs)
      (SetStateProgress EBuildPatchProgress.PrerequisitesInstall 0
        (Logf env "BuildPatchServices: Running prerequisites installer" w))).ErrorState :=
    hk _ _ (hk _ _ h)
  unfold RunPrereqInstaller at ht ⊢
  dsimp only at ht ⊢
  cases hv : env.CreateProcValid
    (SetStateProgress EBuildPatchProgress.PrerequisitesInstall 0
      (Logf env "BuildPatchServices: Running prerequisites installer" w))
    (env.ConvertRelativePathToFull
      (pathCombine job.InstallDirectory job.NewBuildManifest.PrereqPath))
    job.NewBuildManifest.PrereqArgs
  · simp [hv] at ht
  · simp only [hv, Bool.not_true, Bool.false_eq_true, if_false, if_true] at ht ⊢
    generalize hc : env.GetProcReturnCode
      (ext env
        (Event.CreateProc
          (env.ConvertRelativePathToFull
            (pathCombine job.InstallDirectory job.NewBuildManifest.PrereqPath))
          job.NewBuildManifest.PrereqArgs)
        (SetStateProgress EBuildPatchProgress.PrerequisitesInstall 0
          (Logf env "BuildPatchServices: Running prerequisites installer" w))) = code at ht ⊢
    by_cases h0 : code = 0
    · subst h0
      simp only [bne_self_eq_false, Bool.false_eq_true, if_false, if_true,
        SetStateProgress_ErrorState]
      exact hk _ _ hbase
    · by_cases h1 : code = 3010
      · subst h1
        simp only [bne_iff_ne, ne_eq, OfNat.ofNat_ne_zero, not_false_eq_true, if_true,
          beq_self_eq_true, SetStateProgress_ErrorState, Logf]
        exact hk _ _ (hk _ _ hbase)
      · simp [h0, h1] at ht

/-- The end of `Run` after a loop that left a state with the property: when `Run` reports
success, the final error state has the property. -/
theorem Run.finish_of_world_success (job : Job) (t : ℚ) (s : RunState)
    (hs : s.bProcessSuccess = true → P s.world.ErrorState) :
    (Run.finish env job t s).world.BuildStats.ProcessSuccess = true →
      P (Run.finish env job t s).world.ErrorState := by
  unfold Run.finish
  dsimp only
  cases hc : (s.bProcessSuccess && Run.bInstallPrereqs job)
  · simp only [Bool.false_eq_true, if_false, SetRunning, Logf, ext_BuildStats]
    intro h
    exact hk _ _ (hs h)
  · simp only [if_true, SetRunning, Logf, ext_BuildStats, Bool.and_eq_true]
    intro h
    exact hk _ _ (RunPrereqInstaller_of_true env P hk job s.world h.2 (hs h.1))

include h0

/-- After a pass through the retry loop that succeeded, the error state has every property
that holds of "no error" and that external calls keep. -/
theorem Run.attempt_of_success (job : Job) (pre : Bool) (k : Int) (s : RunState) :
    ∃ rec, (Run.attempt env job pre k s).Attempts = s.Attempts ++ [rec] ∧
      rec.bProcessSuccess = (Run.attempt env job pre k s).bProcessSuccess ∧
      ((Run.attempt env job pre k s).bProcessSuccess = true →
        P (Run.attempt env job pre k s).world.ErrorState) := by
  refine ⟨_, rfl, rfl, ?_⟩
  intro hs
  dsimp only [Run.attempt] at hs ⊢
  cases hi : (RunInstallation env job s.CorruptFiles s.world).1
  · simp [hi] at hs
  · simp only [hi, if_true] at hs ⊢
    have hmt := RunBackupAndMove_true env job
      (SetStateProgress EBuildPatchProgress.Installing 1
        (SetStateProgress EBuildPatchProgress.Downloading 1
          (SetStateProgress EBuildPatchProgress.PrerequisitesInstall (if pre = true then 0 else 1)
            (RunInstallation env job s.CorruptFiles s.world).2)))
    generalize RunBackupAndMove env job
      (SetStateProgress EBuildPatchProgress.Installing 1
        (SetStateProgress EBuildPatchProgress.Downloading 1
          (SetStateProgress EBuildPatchProgress.PrerequisitesInstall (if pre = true then 0 else 1)
            (RunInstallation env job s.CorruptFiles s.world).2))) = m at hmt hs ⊢
    obtain ⟨mb, mw⟩ := m
    cases mb
    · simp at hs
    · obtain ⟨w1, hw1, hm⟩ := hmt rfl
      have hmw : P mw.ErrorState := by
        have : mw = Logf env "BuildPatchServices: Relocation complete" w1 := hm
        rw [this]
        exact hk _ _ (hw1 ▸ h0)
      have ha := RunFileAttributes_keeps env P hk job (job.bIsRepairing env) mw hmw
      simp only [RunFileAttributes_fst, if_true] at hs ⊢
      generalize (RunFileAttributes env job (job.bIsRepairing env) mw).2 = aw at ha hs ⊢
      have hv := RunVerification_of_true env job (List.take 0 s.CorruptFiles)
        (SetStateProgress EBuildPatchProgress.Initializing 1 aw) (fun E _ => P E) hk hs ha
      generalize RunVerification env job (List.take 0 s.CorruptFiles)
        (SetStateProgress EBuildPatchProgress.Initializing 1 aw) = v at hv hs ⊢
      simp only [hs, Bool.true_or, if_true]
      rw [Delete_ErrorState]
      apply hk
      apply hk
      rw [SetStateProgress_ErrorState, DeleteDirectory_ErrorState]
      exact hk _ _ (hk _ _ hv)

/-- When `Run` reports success, its final error state has every property that holds of "no
error" and that external calls keep. -/
theorem Run.world_of_success (job : Job) (w : World)
    (h : (Run env job w).world.BuildStats.ProcessSuccess = true) :
    P (Run env job w).world.ErrorState := by
  rw [Run.eq_finish] at h ⊢
  obtain ⟨last, _, _, hl⟩ := Run.loop_last env job (Run.bInstallPrereqs job)
    (fun rec st => rec.bProcessSuccess = st.bProcessSuccess ∧
      (st.bProcessSuccess = true → P st.world.ErrorState))
    (Run.attempt_of_success env P hk h0 job (Run.bInstallPrereqs job)) 5
    { bProcessSuccess := false, bCanRetry := true, CorruptFiles := [], CleanUpTime := 0,
      Attempts := [], world := Run.prepare env job w }
  exact Run.finish_of_world_success env P hk job _ _ hl h

end Success

/-- The end of `Run` after a loop that ended in failure keeps the error that is recorded. -/
theorem Run.finish_error (env : Env) (job : Job) (t : ℚ) (s : RunState)
    (h : s.bProcessSuccess = false)
    (he : s.world.ErrorState ≠ EBuildPatchInstallError.NoError) :
    (Run.finish env job t s).world.ErrorState = s.world.ErrorState := by
  unfold Run.finish
  simp only [h, Bool.false_and, Bool.false_eq_true, if_false, SetRunning, Logf]
  exact ext_ErrorState_of_error env _ _ he

set_option maxRecDepth 100000 in
/-- Claim C26 (cancelled job outcome), refuted as stated: in this run verification fails in the
first attempt and succeeds in the second, and the user cancels while the staging directory is
deleted at the end of the second attempt.  The run ends with the error state `UserCanceled`,
`IsCanceled()` is true and `HasError()` is false, but `BuildStats.ProcessSuccess` is true and
`Run` returns 0. -/
theorem C26_counterexample :
    (Run lateCancelEnv sampleJob (sampleWorld stagedDisk)).world.ErrorState =
        EBuildPatchInstallError.UserCanceled ∧
      IsCanceled (Run lateCancelEnv sampleJob (sampleWorld stagedDisk)).world = true ∧
      HasError (Run lateCancelEnv sampleJob (sampleWorld stagedDisk)).world = false ∧
      (Run lateCancelEnv sampleJob (sampleWorld stagedDisk)).world.BuildStats.ProcessSuccess
        = true ∧
      (Run lateCancelEnv sampleJob (sampleWorld stagedDisk)).ReturnCode = 0 := by
  decide

/-- Claim C26, amended: for every run of `Run` that ends with the error state `UserCanceled`,
`HasError()` returns false and `IsCanceled()` returns true.  When a fatal error, the user cancel
or any other, was already recorded when `RunInstallation` returned in the last attempt (every
download or construction failure is), the run ends with that error, `BuildStats.ProcessSuccess`
is false and `Run` returns 1, so that `HasError()` returns true unless the error is the user
cancel; a cancel that is recorded only after the verification of the last attempt has succeeded
leaves `ProcessSuccess` true.  A run that ends with a fatal error that is not raised from
outside the installer's thread, but recorded by the installer itself (a move, verification or
prerequisite failure), has `ProcessSuccess` false, so that `HasError()` returns true. -/
theorem C26_cancelled_outcome_amended (env : Env) (job : Job) (w : World) :
    ((Run env job w).world.ErrorState = EBuildPatchInstallError.UserCanceled →
      HasError (Run env job w).world = false ∧ IsCanceled (Run env job w).world = true) ∧
    (∀ a, (Run env job w).Attempts.getLast? = some a →
      a.ErrorAfterInstallation ≠ EBuildPatchInstallError.NoError →
      (Run env job w).world.ErrorState = a.ErrorAfterInstallation ∧
        (Run env job w).world.BuildStats.ProcessSuccess = false ∧
        (Run env job w).ReturnCode = 1 ∧
        (HasError (Run env job w).world = true ↔
          a.ErrorAfterInstallation ≠ EBuildPatchInstallError.UserCanceled)) ∧
    ((∀ x, env.Raise x ≠ some (Run env job w).world.ErrorState) →
      (Run env job w).world.ErrorState ≠ EBuildPatchInstallError.NoError →
      (Run env job w).world.BuildStats.ProcessSuccess = false ∧
        (Run env job w).ReturnCode = 1 ∧
        ((Run env job w).world.ErrorState ≠ EBuildPatchInstallError.UserCanceled →
          HasError (Run env job w).world = true)) := by
  have hhas : HasError (Run env job w).world = true ↔
      (Run env job w).world.ErrorState ≠ EBuildPatchInstallError.UserCanceled ∧
        (Run env job w).world.BuildStats.ProcessSuccess = false := by
    unfold HasError
    by_cases hc : (Run env job w).world.ErrorState = EBuildPatchInstallError.UserCanceled
    · simp [hc]
    · simp [hc]
  have hcode : (Run env job w).world.BuildStats.ProcessSuccess = false →
      (Run env job w).ReturnCode = 1 := by
    rw [Run.eq_finish]
    unfold Run.finish
    dsimp only
    cases (Run.loop env job (Run.bInstallPrereqs job) 5
        { bProcessSuccess := false, bCanRetry := true, CorruptFiles := [], CleanUpTime := 0,
          Attempts := [], world := Run.prepare env job w }).bProcessSuccess <;>
      cases Run.bInstallPrereqs job <;>
      simp [SetRunning, Logf]
  refine ⟨?_, ?_, ?_⟩
  · intro hc
    simp [HasError, IsCanceled, hc]
  · intro a ha he
    have hfin : (Run env job w).world.ErrorState = a.ErrorAfterInstallation ∧
        (Run env job w).world.BuildStats.ProcessSuccess = false := by
      rw [Run.eq_finish] at ha ⊢
      rw [Run.finish_Attempts] at ha
      have herror := Run.loop_forall env job (Run.bInstallPrereqs job) _
        (Run.attempt_of_error env job (Run.bInstallPrereqs job)) 5
        { bProcessSuccess := false, bCanRetry := true, CorruptFiles := [], CleanUpTime := 0,
          Attempts := [], world := Run.prepare env job w } (by simp) a
        (List.mem_of_mem_getLast? ha)
      obtain ⟨hf, hd⟩ := herror he
      obtain ⟨last, hlast, hsucc, hworld⟩ := Run.loop_last env job (Run.bInstallPrereqs job)
        (fun rec st => rec.bProcessSuccess = st.bProcessSuccess ∧
          (rec.ErrorAtRetryDecision ≠ EBuildPatchInstallError.NoError →
            st.world.ErrorState = rec.ErrorAtRetryDecision))
        (Run.attempt_error env job (Run.bInstallPrereqs job)) 5
        { bProcessSuccess := false, bCanRetry := true, CorruptFiles := [], CleanUpTime := 0,
          Attempts := [], world := Run.prepare env job w }
      have hla : last = a := Option.some.inj (hlast.symm.trans ha)
      subst hla
      have hw := hworld (by rw [hd]; exact he)
      rw [hd] at hw
      obtain ⟨_, h2, _⟩ := Run.finish_of_failure env job (env.Seconds (Run.prepare env job w)) _
        (hsucc.symm.trans hf)
      refine ⟨?_, h2⟩
      rw [Run.finish_error env job _ _ (hsucc.symm.trans hf) (by rw [hw]; exact he), hw]
    refine ⟨hfin.1, hfin.2, hcode hfin.2, ?_⟩
    rw [hhas, hfin.1]
    exact ⟨fun h => h.1, fun h => ⟨h, hfin.2⟩⟩
  · intro hr hne
    have hfalse : (Run env job w).world.BuildStats.ProcessSuccess = false := by
      by_contra hs
      simp only [Bool.not_eq_false] at hs
      have hP := Run.world_of_success env
        (fun E => E = EBuildPatchInstallError.NoError ∨ ∃ x, env.Raise x = some E)
        (fun e x hx => by
          rcases ext_ErrorState_cases env e x with h | ⟨y, hy⟩
          · rw [h]; exact hx
          · exact Or.inr ⟨y, hy⟩)
        (Or.inl rfl) job w hs
      rcases hP with h | ⟨x, hx⟩
      · exact hne h
      · exact hr x hx
    exact ⟨hfalse, hcode hfalse, fun hnc => hhas.mpr ⟨hnc, hfalse⟩⟩

set_option maxRecDepth 100000 in
/-- Witness for C26 amended: the run with the late cancel ends with `UserCanceled`, so
`HasError()` is false and `IsCanceled()` is true; in the run in which the download fails, the
error `DownloadError` is recorded when `RunInstallation` returns, the run ends with it,
`ProcessSuccess` is false and `HasError()` is true; the run in which no move succeeds ends with
`MoveFileToInstall`, which the installer records itself, `ProcessSuccess` is false and
`HasError()` is true. -/
theorem C26_witness :
    (HasError (Run lateCancelEnv sampleJob (sampleWorld stagedDisk)).world = false ∧
      IsCanceled (Run lateCancelEnv sampleJob (sampleWorld stagedDisk)).world = true) ∧
    ((Run downloadErrorEnv sampleJob (sampleWorld stagedDisk)).world.ErrorState =
        EBuildPatchInstallError.DownloadError ∧
      (Run downloadErrorEnv sampleJob (sampleWorld stagedDisk)).world.BuildStats.ProcessSuccess
        = false ∧
      (Run downloadErrorEnv sampleJob (sampleWorld stagedDisk)).ReturnCode = 1 ∧
      HasError (Run downloadErrorEnv sampleJob (sampleWorld stagedDisk)).world = true) ∧
    ((Run failingMoveEnv sampleJob (sampleWorld stagedDisk)).world.ErrorState =
        EBuildPatchInstallError.MoveFileToInstall ∧
      (Run failingMoveEnv sampleJob (sampleWorld stagedDisk)).world.BuildStats.ProcessSuccess
        = false ∧
      (Run failingMoveEnv sampleJob (sampleWorld stagedDisk)).ReturnCode = 1 ∧
      HasError (Run failingMoveEnv sampleJob (sampleWorld stagedDisk)).world = true) := by
  have hs : ((Run downloadErrorEnv sampleJob (sampleWorld stagedDisk)).Attempts.getLast?).isSome
      = true := by decide
  obtain ⟨a, ha⟩ := Option.isSome_iff_exists.mp hs
  have he : a.ErrorAfterInstallation = EBuildPatchInstallError.DownloadError := by
    have h : (Run downloadErrorEnv sampleJob (sampleWorld stagedDisk)).Attempts.getLast?.map
        (fun a => a.ErrorAfterInstallation) = some EBuildPatchInstallError.DownloadError := by
      decide
    rw [ha] at h
    simpa using h
  obtain ⟨h1, h2, h3, h4⟩ :=
    (C26_cancelled_outcome_amended downloadErrorEnv sampleJob (sampleWorld stagedDisk)).2.1 a ha
      (by rw [he]; decide)
  obtain ⟨g1, g2, g3⟩ :=
    (C26_cancelled_outcome_amended failingMoveEnv sampleJob (sampleWorld stagedDisk)).2.2
      (fun x => by simp [failingMoveEnv, sampleEnv]) (by decide)
  exact ⟨(C26_cancelled_outcome_amended lateCancelEnv sampleJob (sampleWorld stagedDisk)).1
      (by decide),
    ⟨h1.trans he, h2, h3, h4.mpr (by rw [he]; decide)⟩,
    ⟨by decide, g1, g2, g3 (by decide)⟩⟩


/-! ## `CancelInstall` and the pause state -/

@[simp]
theorem ext_TimePausedAt (env : Env) (e : Event) (w : World) :
    (ext env e w).TimePausedAt = w.TimePausedAt := by
  unfold ext SetFatalError; dsimp only; split <;> [split; skip] <;> rfl

/-- A toggle of a paused installer resumes it and counts the paused interval. -/
theorem TogglePauseInstall_of_paused (env : Env) (x : World) (h : IsPaused x = true) :
    IsPaused (TogglePauseInstall env x).2 = false ∧
      (TogglePauseInstall env x).2.BuildStats.ProcessPausedTime =
        x.BuildStats.ProcessPausedTime + (env.Seconds x - x.TimePausedAt) := by
  unfold IsPaused at h
  simp [TogglePauseInstall, IsPaused, TogglePauseState, h]

/-- The last part of `BackupFileIfNecessary` in a call made by verification: the move, after
the log line `Backing up` unless the current manifest is valid and the file is not outdated. -/
theorem BackupFileIfNecessary.backupIfEdited_discovered (env : Env) (job : Job)
    (Filename : String) (x : World) :
    BackupFileIfNecessary.backupIfEdited env job Filename true x =
      if (match job.CurrentBuildManifest with
          | some cur => !env.IsFileOutdated cur job.NewBuildManifest Filename
          | none => false) = true then
        Move env (pathCombine env.GetBackupDirectory Filename)
          (pathCombine job.InstallDirectory Filename) x
      else
        Move env (pathCombine env.GetBackupDirectory Filename)
          (pathCombine job.InstallDirectory Filename)
          (Logf env "BuildPatchServices: Backing up" x) := by
  unfold BackupFileIfNecessary.backupIfEdited
  cases job.CurrentBuildManifest <;> simp

/-- Claim C28 (`BackupFileIfNecessary` for verification-discovered files): for a path that passes
rules 1 to 4, a call with `bDiscoveredByVerification = true` moves the installed file to the
backup path and returns the result of that move, whatever the manifests say.  The external
calls of the whole call are the two existence queries of rules 2 and 3, the log line
`Backing up` (left out when the current manifest is valid and the file is not outdated) and the
move; the size of the file is not queried and `VerifyFile` is not called. -/
theorem C28_discovered_always_backed_up (env : Env) (job : Job) (Filename : String) (w : World)
    (h1 : env.GetBackupDirectory.isEmpty = false)
    (h2 : (w.disk (pathCombine job.InstallDirectory Filename)).isSome = true)
    (h3 : (w.disk (pathCombine env.GetBackupDirectory Filename)).isSome = false)
    (h4 : Filename ∉ w.FilesInstalled) :
    ∃ w1, w1.disk = w.disk ∧
      (w1.trace = w.trace ++ [Event.FileExists (pathCombine job.InstallDirectory Filename),
          Event.FileExists (pathCombine env.GetBackupDirectory Filename)] ∨
        w1.trace = w.trace ++ [Event.FileExists (pathCombine job.InstallDirectory Filename),
          Event.FileExists (pathCombine env.GetBackupDirectory Filename),
          Event.Log "BuildPatchServices: Backing up"]) ∧
      BackupFileIfNecessary env job Filename true w =
        Move env (pathCombine env.GetBackupDirectory Filename)
          (pathCombine job.InstallDirectory Filename) w1 ∧
      (BackupFileIfNecessary env job Filename true w).1 =
        env.MoveOk w1 (pathCombine env.GetBackupDirectory Filename)
          (pathCombine job.InstallDirectory Filename) ∧
      (BackupFileIfNecessary env job Filename true w).2.trace = w1.trace ++
        [Event.Move (pathCombine env.GetBackupDirectory Filename)
          (pathCombine job.InstallDirectory Filename)] := by
  rw [BackupFileIfNecessary_of_pass env job Filename true w h1 h2 h3 h4,
    BackupFileIfNecessary.backupIfEdited_discovered]
  have hmove : ∀ w1 : World, w1.disk = w.disk →
      (Move env (pathCombine env.GetBackupDirectory Filename)
        (pathCombine job.InstallDirectory Filename) w1).1 =
        env.MoveOk w1 (pathCombine env.GetBackupDirectory Filename)
          (pathCombine job.InstallDirectory Filename) := by
    intro w1 hd
    simp [Move, hd, h2]
    split <;> simp_all
  split
  · exact ⟨BackupFileIfNecessary.queried env job Filename w, by simp, Or.inl (by simp),
      rfl, hmove _ (by simp), by simp⟩
  · exact ⟨Logf env "BuildPatchServices: Backing up"
      (BackupFileIfNecessary.queried env job Filename w), by simp [Logf],
      Or.inr (by simp [Logf]), rfl, hmove _ (by simp [Logf]), by simp [Logf]⟩

/-- Witness for C28: `fileA` is installed and found corrupt by verification.  In the update in
which it is outdated, and in the first installation, which has no current manifest, the call
moves it to the backup path and returns true; the calls are the two existence queries, the log
line and the move. -/
theorem C28_witness :
    ((BackupFileIfNecessary (backupEnv true) updateJob "fileA" true
        (sampleWorld installedDisk)).1 = true ∧
      (BackupFileIfNecessary (backupEnv true) updateJob "fileA" true
        (sampleWorld installedDisk)).2.disk "B/fileA" = some ⟨1, 7⟩ ∧
      (BackupFileIfNecessary (backupEnv true) updateJob "fileA" true
        (sampleWorld installedDisk)).2.trace =
        [Event.FileExists "I/fileA", Event.FileExists "B/fileA",
          Event.Log "BuildPatchServices: Backing up", Event.Move "B/fileA" "I/fileA"]) ∧
    ((BackupFileIfNecessary (backupEnv false) sampleJob "fileA" true
        (sampleWorld installedDisk)).1 = true ∧
      (BackupFileIfNecessary (backupEnv false) sampleJob "fileA" true
        (sampleWorld installedDisk)).2.trace =
        [Event.FileExists "I/fileA", Event.FileExists "B/fileA",
          Event.Log "BuildPatchServices: Backing up", Event.Move "B/fileA" "I/fileA"]) := by
  obtain ⟨w1, _, _, _, h1, _⟩ := C28_discovered_always_backed_up (backupEnv true) updateJob
    "fileA" (sampleWorld installedDisk) (by decide) (by decide) (by decide) (by decide)
  obtain ⟨w2, _, _, _, h2, _⟩ := C28_discovered_always_backed_up (backupEnv false) sampleJob
    "fileA" (sampleWorld installedDisk) (by decide) (by decide) (by decide) (by decide)
  exact ⟨⟨h1.trans rfl, by decide, by decide⟩, h2.trans rfl, by decide⟩


/-! ## The outcome of `Run` -/

/-- The retry loop entered with `InstallRetries = n` makes at least one pass and at most `n`
passes (one when `n` is 0). -/
theorem Run.loop_length (env : Env) (job : Job) (pre : Bool) :
    ∀ (n : Nat) (s : RunState) (recs : List AttemptRecord),
      (Run.loop env job pre n s).Attempts = s.Attempts ++ recs →
      1 ≤ recs.length ∧ recs.length ≤ max n 1 := by
  intro n
  induction n with
  | zero =>
    intro s recs h
    obtain ⟨rec, h1, _⟩ := Run.attempt_record env job pre (-1) s
    have hr : recs = [rec] := by
      have : s.Attempts ++ recs = s.Attempts ++ [rec] := by rw [← h, ← h1]; rfl
      exact List.append_cancel_left this
    subst hr
    simp
  | succ n ih =>
    intro s recs h
    obtain ⟨rec, h1, _, _, _, h3, h4⟩ := Run.attempt_record env job pre n s
    unfold Run.loop at h
    dsimp only at h
    split at h
    · rename_i hcond
      obtain ⟨recs', _, h'⟩ := Run.loop_appends env job pre n (Run.attempt env job pre n s)
      have hr : recs = rec :: recs' := by
        have : s.Attempts ++ recs = s.Attempts ++ (rec :: recs') := by
          rw [← h, h', h1]; simp
        exact List.append_cancel_left this
      subst hr
      obtain ⟨_, hl⟩ := ih (Run.attempt env job pre n s) recs' h'
      have hretry : (Run.attempt env job pre n s).bCanRetry = true := by
        simp only [Bool.and_eq_true] at hcond
        exact hcond.2
      rw [← h3, h4] at hretry
      simp only [Bool.and_eq_true, decide_eq_true_eq] at hretry
      have hpos : 0 < n := by exact_mod_cast hretry.1.1
      rw [List.length_cons]
      omega
    · have hr : recs = [rec] := by
        have : s.Attempts ++ recs = s.Attempts ++ [rec] := by rw [← h, h1]
        exact List.append_cancel_left this
      subst hr
      simp

/-- Claim C30 (all-or-nothing outcome of `Run`): for every behaviour of the collaborators the
retry loop makes at least 1 and at most 5 attempts; `ProcessSuccess` is true exactly when the
return code is 0; when `Run` finishes with `ProcessSuccess = true`, then in the last attempt
`RunInstallation`, `RunBackupAndMove` and `RunVerification` all returned true, and if the
prerequisites phase was required, `RunPrereqInstaller` was called and returned true; and an
attempt in which the three phases returned true is the last attempt. -/
theorem C30_all_or_nothing (env : Env) (job : Job) (w : World) :
    (1 ≤ (Run env job w).Attempts.length ∧ (Run env job w).Attempts.length ≤ 5) ∧
    ((Run env job w).world.BuildStats.ProcessSuccess = true ↔ (Run env job w).ReturnCode = 0) ∧
    ((Run env job w).world.BuildStats.ProcessSuccess = true →
      ∃ last, (Run env job w).Attempts.getLast? = some last ∧
        last.bRunInstallation = true ∧ last.bRunBackupAndMove = some true ∧
        last.bRunVerification = some true ∧
        (Run.bInstallPrereqs job = true → (Run env job w).bRunPrereqInstaller = some true)) ∧
    (∀ (i : Nat) (a : AttemptRecord), (Run env job w).Attempts[i]? = some a →
      a.bRunInstallation = true → a.bRunBackupAndMove = some true →
      a.bRunVerification = some true → (Run env job w).Attempts.length = i + 1) := by
  rw [Run.eq_finish, Run.finish_Attempts]
  have hall := Run.loop_forall env job (Run.bInstallPrereqs job) _
    (Run.attempt_outcome env job (Run.bInstallPrereqs job)) 5
    { bProcessSuccess := false, bCanRetry := true, CorruptFiles := [], CleanUpTime := 0,
      Attempts := [], world := Run.prepare env job w } (by simp)
  obtain ⟨last, hlast, hres⟩ := Run.loop_result env job (Run.bInstallPrereqs job) 5
    { bProcessSuccess := false, bCanRetry := true, CorruptFiles := [], CleanUpTime := 0,
      Attempts := [], world := Run.prepare env job w }
  refine ⟨?_, ?_, ?_, ?_⟩
  · have h := Run.loop_length env job (Run.bInstallPrereqs job) 5
      { bProcessSuccess := false, bCanRetry := true, CorruptFiles := [], CleanUpTime := 0,
        Attempts := [], world := Run.prepare env job w } _ (List.nil_append _).symm
    simpa using h
  · unfold Run.finish
    dsimp only
    cases (Run.loop env job (Run.bInstallPrereqs job) 5
        { bProcessSuccess := false, bCanRetry := true, CorruptFiles := [], CleanUpTime := 0,
          Attempts := [], world := Run.prepare env job w }).bProcessSuccess <;>
      cases Run.bInstallPrereqs job <;>
      simp [SetRunning, Logf]
  · intro hs
    have hsucc : (Run.loop env job (Run.bInstallPrereqs job) 5
        { bProcessSuccess := false, bCanRetry := true, CorruptFiles := [], CleanUpTime := 0,
          Attempts := [], world := Run.prepare env job w }).bProcessSuccess = true := by
      by_contra hc
      simp only [Bool.not_eq_true] at hc
      have := (Run.finish_of_failure env job (env.Seconds (Run.prepare env job w)) _ hc).2.1
      rw [this] at hs
      exact Bool.false_ne_true hs
    obtain ⟨h1, _, _, h4, _⟩ := hall last (List.mem_of_mem_getLast? hlast)
    have hv := h4.mp (hres.trans hsucc)
    have hd : last.bStagingDeleted = true := by
      have hsome : last.bRunVerification.isSome = true := by rw [hv]; rfl
      obtain ⟨_, _, h3, _⟩ := hall last (List.mem_of_mem_getLast? hlast)
      rw [← h3]; exact hsome
    refine ⟨last, hlast, (h1.mp hd).1, (h1.mp hd).2, hv, ?_⟩
    intro hp
    obtain ⟨hsome, hr⟩ := Run.finish_prereq env job (env.Seconds (Run.prepare env job w))
      (Run.loop env job (Run.bInstallPrereqs job) 5
        { bProcessSuccess := false, bCanRetry := true, CorruptFiles := [], CleanUpTime := 0,
          Attempts := [], world := Run.prepare env job w })
    have hsome' := hsome.trans (by rw [hsucc, hp])
    obtain ⟨r, hr'⟩ := Option.isSome_iff_exists.mp hsome'
    obtain ⟨_, h2, _⟩ := hr r hr'
    rw [hr', ← h2, hs]
  · intro i a ha _ _ hv
    obtain ⟨_, _, _, h4, _⟩ := hall a (List.getElem?_mem ha)
    exact Run.loop_stops env job (Run.bInstallPrereqs job) 5
      { bProcessSuccess := false, bCanRetry := true, CorruptFiles := [], CleanUpTime := 0,
        Attempts := [], world := Run.prepare env job w } _ (List.nil_append _).symm i a ha
      (Or.inl (h4.mpr hv))

set_option maxRecDepth 100000 in
/-- Witness for C30: the first installation of `prereqJob` succeeds in its first attempt, in
which the three phases return true, and the prerequisites installer returns true; the run in
which no move succeeds makes 5 attempts and returns 1. -/
theorem C30_witness :
    ((Run (sampleEnv []) prereqJob (sampleWorld stagedDisk)).world.BuildStats.ProcessSuccess
        = true ∧
      (Run (sampleEnv []) prereqJob (sampleWorld stagedDisk)).ReturnCode = 0 ∧
      (∃ last, (Run (sampleEnv []) prereqJob (sampleWorld stagedDisk)).Attempts.getLast?
          = some last ∧
        last.bRunInstallation = true ∧ last.bRunBackupAndMove = some true ∧
        last.bRunVerification = some true ∧
        (Run (sampleEnv []) prereqJob (sampleWorld stagedDisk)).bRunPrereqInstaller
          = some true) ∧
      (Run (sampleEnv []) prereqJob (sampleWorld stagedDisk)).Attempts.length = 1) ∧
    ((Run failingMoveEnv sampleJob (sampleWorld stagedDisk)).Attempts.length = 5 ∧
      (Run failingMoveEnv sampleJob (sampleWorld stagedDisk)).ReturnCode = 1 ∧
      (Run failingMoveEnv sampleJob (sampleWorld stagedDisk)).world.BuildStats.ProcessSuccess
        = false) := by
  have h := C30_all_or_nothing (sampleEnv []) prereqJob (sampleWorld stagedDisk)
  have hs : (Run (sampleEnv []) prereqJob (sampleWorld stagedDisk)).world.BuildStats.ProcessSuccess
      = true := by decide
  obtain ⟨last, h1, h2, h3, h4, h5⟩ := h.2.2.1 hs
  have hget : (Run (sampleEnv []) prereqJob (sampleWorld stagedDisk)).Attempts[0]? = some last := by
    have hl : (Run (sampleEnv []) prereqJob (sampleWorld stagedDisk)).Attempts.length = 1 := by
      decide
    rw [List.getLast?_eq_getElem?, hl] at h1
    exact h1
  exact ⟨⟨hs, h.2.1.mp hs, ⟨last, h1, h2, h3, h4, h5 (by decide)⟩,
    h.2.2.2 0 last hget h2 h3 h4⟩, by decide, by decide, by decide⟩


/-! ## `RunBackupAndMove` does not look at the results of backups -/

/-- A move into the backup directory is not a relocation call. -/
theorem Event.isRelocation_backup (B f s : String) :
    Event.isRelocation B (Event.Move (pathCombine B f) s) = false := by
  simp [Event.isRelocation, pathCombine, String.data_append, List.isPrefixOf_iff_prefix]

section Quiet

variable (env : Env) (B : String) (Q : World → Prop)
  (hk : ∀ (e : Event) (w : World), Event.isRelocation B e = false → Q w → Q (ext env e w))
  (hd : ∀ (w : World) (d : String → Option FileState), Q w → Q { w with disk := d })

include hk

theorem FileExists_quiet (p : String) (w : World) (h : Q w) : Q (FileExists env p w).2 :=
  hk _ _ rfl h

theorem FileSize_quiet (p : String) (w : World) (h : Q w) : Q (FileSize env p w).2 :=
  hk _ _ rfl h

theorem Logf_quiet (text : String) (w : World) (h : Q w) : Q (Logf env text w) :=
  hk _ _ rfl h

include hd

theorem Move_quiet (d s : String) (w : World)
    (hq : Event.isRelocation B (Event.Move d s) = false) (h : Q w) : Q (Move env d s w).2 := by
  unfold Move
  dsimp only
  split
  · exact hd _ _ (hk _ _ hq h)
  · exact hk _ _ hq h

theorem backupIfEdited_quiet (job : Job) (f : String) (b : Bool) (w : World)
    (hB : env.GetBackupDirectory = B) (h : Q w) :
    Q (BackupFileIfNecessary.backupIfEdited env job f b w).2 := by
  have hq : Event.isRelocation B (Event.Move (pathCombine env.GetBackupDirectory f)
      (pathCombine job.InstallDirectory f)) = false := by
    rw [hB]; exact Event.isRelocation_backup B f _
  unfold BackupFileIfNecessary.backupIfEdited
  dsimp only
  repeat' (first
    | exact h
    | exact hq
    | apply Move_quiet env B Q hk hd
    | apply Logf_quiet env B Q hk
    | apply FileSize_quiet env B Q hk
    | exact hk _ _ rfl (FileSize_quiet env B Q hk _ _ h)
    | split)

theorem BackupFileIfNecessary_quiet (job : Job) (f : String) (b : Bool) (w : World)
    (hB : env.GetBackupDirectory = B) (h : Q w) :
    Q (BackupFileIfNecessary env job f b w).2 := by
  unfold BackupFileIfNecessary
  dsimp only
  repeat' (first
    | exact h
    | exact hB
    | apply FileExists_quiet env B Q hk
    | apply backupIfEdited_quiet env B Q hk hd
    | split)

end Quiet

section Same

variable {B S : String} {T : List String} {env₁ env₂ : Env}

theorem SameOutsideBackup.raise_left (hE : SameOutsideBackup B S T env₁ env₂) (x y : World)
    (h : x.trace.filter (Event.isRelocation B) = y.trace.filter (Event.isRelocation B)) :
    env₁.Raise x = env₁.Raise y :=
  (hE.raise x x rfl).trans (hE.raise y x h.symm).symm

theorem SameOutsideBackup.raise_right (hE : SameOutsideBackup B S T env₁ env₂) (x y : World)
    (h : x.trace.filter (Event.isRelocation B) = y.trace.filter (Event.isRelocation B)) :
    env₂.Raise x = env₂.Raise y :=
  (hE.raise x x rfl).symm.trans (hE.raise x y h)

end Same

/-- After an external call the world has recorded what the environment raises, when the
environment looks at the relocation calls only. -/
theorem Settled.after_ext (env : Env) (B : String)
    (hr : ∀ x y : World, x.trace.filter (Event.isRelocation B) =
      y.trace.filter (Event.isRelocation B) → env.Raise x = env.Raise y)
    (e : Event) (x : World) : Settled env (ext env e x) := by
  intro err h hne
  have h' : env.Raise { x with trace := x.trace ++ [e] } = some err := by
    rw [← h]
    exact hr _ _ (by rw [ext_trace])
  unfold ext
  simp only [h']
  unfold SetFatalError
  split
  · assumption
  · simpa [HasFatalError] using hne

/-- A world with the trace and the error state of a settled world is settled. -/
theorem Settled.transfer (env : Env) (B : String)
    (hr : ∀ x y : World, x.trace.filter (Event.isRelocation B) =
      y.trace.filter (Event.isRelocation B) → env.Raise x = env.Raise y)
    {x x' : World} (h : Settled env x)
    (ht : x'.trace.filter (Event.isRelocation B) = x.trace.filter (Event.isRelocation B))
    (he : x'.ErrorState = x.ErrorState) : Settled env x' := by
  intro err hraise hne
  have := h err (by rw [← hraise]; exact hr _ _ ht.symm) hne
  simpa [HasFatalError, he] using this

/-- A call that is not a relocation call leaves the error state of a settled world alone. -/
theorem ext_ErrorState_of_settled (env : Env) (B : String)
    (hr : ∀ x y : World, x.trace.filter (Event.isRelocation B) =
      y.trace.filter (Event.isRelocation B) → env.Raise x = env.Raise y)
    (e : Event) (x : World) (hq : Event.isRelocation B e = false) (hs : Settled env x) :
    (ext env e x).ErrorState = x.ErrorState := by
  have hR : env.Raise { x with trace := x.trace ++ [e] } = env.Raise x :=
    hr _ _ (by simp [List.filter_append, hq])
  unfold ext
  dsimp only
  rw [hR]
  cases h : env.Raise x with
  | none => rfl
  | some err =>
    dsimp only
    unfold SetFatalError
    split
    · rfl
    · rename_i hno
      have hno' : x.ErrorState = EBuildPatchInstallError.NoError := by
        simpa [HasFatalError] using hno
      by_cases hne : err = EBuildPatchInstallError.NoError
      · rw [hne, hno']
      · have := hs err h hne
        rw [HasFatalError, hno'] at this
        exact absurd this (by decide)

section Relocation

variable {B S : String} {T : List String} {env₁ env₂ : Env}
  (hE : SameOutsideBackup B S T env₁ env₂)

include hE

/-- The same external call made in two worlds with the same relocation calls, error state and
staged files. -/
theorem SameRelocation.first_ext (x y : World)
    (ht : x.trace.filter (Event.isRelocation B) = y.trace.filter (Event.isRelocation B))
    (he : x.ErrorState = y.ErrorState) (hs₁ : x.InstallStagingDir = S)
    (hs₂ : y.InstallStagingDir = S)
    (hd : ∀ g ∈ T, x.disk (pathCombine S g) = y.disk (pathCombine S g)) (e : Event) :
    SameRelocation B S T env₁ env₂ (ext env₁ e x) (ext env₂ e y) := by
  have hf : (x.trace ++ [e]).filter (Event.isRelocation B) =
      (y.trace ++ [e]).filter (Event.isRelocation B) := by
    simp [List.filter_append, ht]
  refine ⟨by simpa using hf, ?_, by simpa using hs₁, by simpa using hs₂,
    by simpa using hd, Settled.after_ext env₁ B hE.raise_left e x,
    Settled.after_ext env₂ B hE.raise_right e y⟩
  have hR : env₁.Raise { x with trace := x.trace ++ [e] } =
      env₂.Raise { y with trace := y.trace ++ [e] } := hE.raise _ _ hf
  unfold BuildPatch.ext
  dsimp only
  rw [hR]
  cases env₂.Raise { y with trace := y.trace ++ [e] } with
  | none => exact he
  | some err =>
    dsimp only
    unfold SetFatalError HasFatalError
    dsimp only
    rw [he]
    split
    · rfl
    · rfl

/-- The same external call in both runs. -/
theorem SameRelocation.ext {x y : World} (h : SameRelocation B S T env₁ env₂ x y) (e : Event) :
    SameRelocation B S T env₁ env₂ (ext env₁ e x) (ext env₂ e y) :=
  SameRelocation.first_ext hE x y h.trace h.error h.staging₁ h.staging₂ h.staged e

/-- Changes in both runs that keep the trace, the error state and the staging directory, and
leave the staged files the same. -/
theorem SameRelocation.update {x y x' y' : World} (h : SameRelocation B S T env₁ env₂ x y)
    (ht₁ : x'.trace.filter (Event.isRelocation B) = x.trace.filter (Event.isRelocation B))
    (ht₂ : y'.trace.filter (Event.isRelocation B) = y.trace.filter (Event.isRelocation B))
    (he₁ : x'.ErrorState = x.ErrorState) (he₂ : y'.ErrorState = y.ErrorState)
    (hs₁ : x'.InstallStagingDir = x.InstallStagingDir)
    (hs₂ : y'.InstallStagingDir = y.InstallStagingDir)
    (hd : ∀ g ∈ T, x'.disk (pathCombine S g) = y'.disk (pathCombine S g)) :
    SameRelocation B S T env₁ env₂ x' y' :=
  ⟨by rw [ht₁, ht₂, h.trace], by rw [he₁, he₂, h.error], by rw [hs₁, h.staging₁],
    by rw [hs₂, h.staging₂], hd, h.settled₁.transfer env₁ B hE.raise_left ht₁ he₁,
    h.settled₂.transfer env₂ B hE.raise_right ht₂ he₂⟩

/-- A backup in each run, whatever the two calls do and return, when no staged file is at the
install path or at the backup path of the file. -/
theorem SameRelocation.backup {x y : World} (h : SameRelocation B S T env₁ env₂ x y)
    (hB₁ : env₁.GetBackupDirectory = B) (hB₂ : env₂.GetBackupDirectory = B)
    (job : Job) (f : String) (b : Bool)
    (hsep : ∀ g ∈ T, pathCombine S g ≠ pathCombine job.InstallDirectory f ∧
      (B.isEmpty = false → pathCombine S g ≠ pathCombine B f)) :
    SameRelocation B S T env₁ env₂ (BackupFileIfNecessary env₁ job f b x).2
      (BackupFileIfNecessary env₂ job f b y).2 := by
  have hq : ∀ (env : Env) (hr : ∀ x y : World, x.trace.filter (Event.isRelocation B) =
        y.trace.filter (Event.isRelocation B) → env.Raise x = env.Raise y)
      (hB : env.GetBackupDirectory = B) (w : World), Settled env w →
      ((BackupFileIfNecessary env job f b w).2.trace.filter (Event.isRelocation B) =
          w.trace.filter (Event.isRelocation B) ∧
        (BackupFileIfNecessary env job f b w).2.ErrorState = w.ErrorState ∧
        (BackupFileIfNecessary env job f b w).2.InstallStagingDir = w.InstallStagingDir ∧
        Settled env (BackupFileIfNecessary env job f b w).2) ∧
      ∀ g ∈ T, (BackupFileIfNecessary env job f b w).2.disk (pathCombine S g) =
        w.disk (pathCombine S g) := by
    intro env hr hB w hw
    constructor
    · refine BackupFileIfNecessary_quiet env B
        (fun z => z.trace.filter (Event.isRelocation B) =
            w.trace.filter (Event.isRelocation B) ∧
          z.ErrorState = w.ErrorState ∧ z.InstallStagingDir = w.InstallStagingDir ∧
          Settled env z) ?_ ?_ job f b w hB ⟨rfl, rfl, rfl, hw⟩
      · intro e z he hz
        refine ⟨?_, ?_, ?_, Settled.after_ext env B hr e z⟩
        · rw [ext_trace, List.filter_append, hz.1]
          simp [he]
        · rw [ext_ErrorState_of_settled env B hr e z he hz.2.2.2, hz.2.1]
        · rw [ext_InstallStagingDir, hz.2.2.1]
      · intro z d hz
        exact ⟨hz.1, hz.2.1, hz.2.2.1, hz.2.2.2.transfer env B hr rfl rfl⟩
    · intro g hg
      refine (BackupFileIfNecessary_diskStep env job f b w).same _ ?_ ?_
      · rintro ⟨hb, hp⟩
        exact (hsep g hg).2 (by rw [← hB]; exact hb) (by rw [hp, hB])
      · rintro ⟨_, hp⟩
        exact (hsep g hg).1 hp
  obtain ⟨⟨a1, a2, a3, _⟩, a5⟩ := hq env₁ hE.raise_left hB₁ x h.settled₁
  obtain ⟨⟨b1, b2, b3, _⟩, b5⟩ := hq env₂ hE.raise_right hB₂ y h.settled₂
  exact h.update hE a1 b1 a2 b2 a3 b3
    (fun g hg => by rw [a5 g hg, b5 g hg]; exact h.staged g hg)

end Relocation

section Steps

variable {B S : String} {T : List String} {env₁ env₂ : Env}
  (hE : SameOutsideBackup B S T env₁ env₂)

include hE

theorem SameRelocation.fileExists {x y : World} (h : SameRelocation B S T env₁ env₂ x y)
    (g : String) (hg : g ∈ T) :
    (FileExists env₁ (pathCombine S g) x).1 = (FileExists env₂ (pathCombine S g) y).1 ∧
      SameRelocation B S T env₁ env₂ (FileExists env₁ (pathCombine S g) x).2
        (FileExists env₂ (pathCombine S g) y).2 :=
  ⟨by simp [FileExists, h.staged g hg], h.ext hE _⟩

/-- A move of a staged file to a destination outside the backup directory and outside the
staged files gives the same result in both runs. -/
theorem SameRelocation.move {x y : World} (h : SameRelocation B S T env₁ env₂ x y)
    (d g : String) (hg : g ∈ T)
    (hq : Event.isRelocation B (Event.Move d (pathCombine S g)) = true)
    (hd : ∀ g' ∈ T, pathCombine S g' ≠ d) :
    (Move env₁ d (pathCombine S g) x).1 = (Move env₂ d (pathCombine S g) y).1 ∧
      SameRelocation B S T env₁ env₂ (Move env₁ d (pathCombine S g) x).2
        (Move env₂ d (pathCombine S g) y).2 := by
  have hok : (env₁.MoveOk x d (pathCombine S g) && (x.disk (pathCombine S g)).isSome) =
      (env₂.MoveOk y d (pathCombine S g) && (y.disk (pathCombine S g)).isSome) := by
    rw [hE.move x y d _ h.trace hq, h.staged g hg]
  unfold Move
  dsimp only
  rw [hok]
  split
  · refine ⟨rfl, (h.ext hE (Event.Move d (pathCombine S g))).update hE rfl rfl rfl rfl rfl rfl ?_⟩
    intro g' hg'
    simp only [hd g' hg', if_false]
    split
    · rfl
    · exact h.staged g' hg'
  · exact ⟨rfl, h.ext hE _⟩

/-- A copy of a staged file to a destination outside the staged files gives the same result in
both runs. -/
theorem SameRelocation.copy {x y : World} (h : SameRelocation B S T env₁ env₂ x y)
    (d g : String) (hg : g ∈ T) (hd : ∀ g' ∈ T, pathCombine S g' ≠ d) :
    (Copy env₁ d (pathCombine S g) x).1 = (Copy env₂ d (pathCombine S g) y).1 ∧
      SameRelocation B S T env₁ env₂ (Copy env₁ d (pathCombine S g) x).2
        (Copy env₂ d (pathCombine S g) y).2 := by
  have hok : (env₁.CopyOk x d (pathCombine S g) && (x.disk (pathCombine S g)).isSome) =
      (env₂.CopyOk y d (pathCombine S g) && (y.disk (pathCombine S g)).isSome) := by
    rw [hE.copy x y d _ h.trace, h.staged g hg]
  unfold Copy
  dsimp only
  rw [hok]
  split
  · refine ⟨rfl, (h.ext hE (Event.Copy d (pathCombine S g))).update hE rfl rfl rfl rfl rfl rfl ?_⟩
    intro g' hg'
    simp only [hd g' hg', if_false]
    exact h.staged g' hg'
  · exact ⟨rfl, h.ext hE _⟩

/-- The deletion of a staged file has the same effect in both runs. -/
theorem SameRelocation.deleteStaged {x y : World} (h : SameRelocation B S T env₁ env₂ x y)
    (g : String) (hg : g ∈ T) :
    SameRelocation B S T env₁ env₂ (Delete env₁ (pathCombine S g) x).2
      (Delete env₂ (pathCombine S g) y).2 := by
  unfold Delete
  dsimp only
  rw [hE.delete x y g h.trace hg]
  split
  · refine (h.ext hE (Event.Delete (pathCombine S g))).update hE rfl rfl rfl rfl rfl rfl ?_
    intro g' hg'
    dsimp only
    split
    · rfl
    · exact h.staged g' hg'
  · exact h.ext hE _

/-- The deletion of a file that is not a staged file, whatever its result in either run. -/
theorem SameRelocation.deleteOther {x y : World} (h : SameRelocation B S T env₁ env₂ x y)
    (p : String) (hp : ∀ g' ∈ T, pathCombine S g' ≠ p) :
    SameRelocation B S T env₁ env₂ (Delete env₁ p x).2 (Delete env₂ p y).2 := by
  have hx : ∀ g' ∈ T, (Delete env₁ p x).2.disk (pathCombine S g') =
      x.disk (pathCombine S g') := fun g' hg' =>
    (Delete_diskStep env₁ p x).same _ (fun hf => hf) (hp g' hg')
  have hy : ∀ g' ∈ T, (Delete env₂ p y).2.disk (pathCombine S g') =
      y.disk (pathCombine S g') := fun g' hg' =>
    (Delete_diskStep env₂ p y).same _ (fun hf => hf) (hp g' hg')
  refine (h.ext hE (Event.Delete p)).update hE (by simp) (by simp)
    (by rw [Delete_ErrorState]) (by rw [Delete_ErrorState]) (by simp) (by simp) ?_
  intro g' hg'
  rw [hx g' hg', hy g' hg']
  exact h.staged g' hg'

/-- The creation of a file that is not a staged file, whatever its result in either run. -/
theorem SameRelocation.createFileWriter {x y : World}
    (h : SameRelocation B S T env₁ env₂ x y)
    (p : String) (hp : ∀ g' ∈ T, pathCombine S g' ≠ p) :
    SameRelocation B S T env₁ env₂ (CreateFileWriter env₁ p x).2
      (CreateFileWriter env₂ p y).2 := by
  have hx : ∀ g' ∈ T, (CreateFileWriter env₁ p x).2.disk (pathCombine S g') =
      x.disk (pathCombine S g') := fun g' hg' =>
    (CreateFileWriter_diskStep env₁ p x).same _ (hp g' hg') (fun hf => hf)
  have hy : ∀ g' ∈ T, (CreateFileWriter env₂ p y).2.disk (pathCombine S g') =
      y.disk (pathCombine S g') := fun g' hg' =>
    (CreateFileWriter_diskStep env₂ p y).same _ (hp g' hg') (fun hf => hf)
  have he : ∀ (env : Env) (w : World), (CreateFileWriter env p w).2.ErrorState =
      (BuildPatch.ext env (Event.CreateFileWriter p) w).ErrorState := by
    intro env w
    unfold CreateFileWriter; dsimp only; split <;> rfl
  refine (h.ext hE (Event.CreateFileWriter p)).update hE (by simp) (by simp)
    (he _ _) (he _ _) (by simp) (by simp) ?_
  intro g' hg'
  rw [hx g' hg', hy g' hg']
  exact h.staged g' hg'

end Steps

/-- The same fatal error set in both runs. -/
theorem SameRelocation.setFatalError {B S : String} {T : List String} {env₁ env₂ : Env}
    {x y : World} (h : SameRelocation B S T env₁ env₂ x y)
    (err : EBuildPatchInstallError) (hne : err ≠ EBuildPatchInstallError.NoError)
    (log : String) :
    SameRelocation B S T env₁ env₂ (SetFatalError err log x) (SetFatalError err log y) := by
  have hf : ∀ w : World, HasFatalError (SetFatalError err log w) = true := by
    intro w
    unfold SetFatalError
    split
    · assumption
    · simpa [HasFatalError] using hne
  refine ⟨by simpa using h.trace, ?_, ?_, ?_, by simpa [SetFatalError_disk] using h.staged,
    fun _ _ _ => hf x, fun _ _ _ => hf y⟩
  · unfold SetFatalError HasFatalError
    rw [h.error]
    split
    · exact h.error
    · rfl
  · rw [SetFatalError_InstallStagingDir]; exact h.staging₁
  · rw [SetFatalError_InstallStagingDir]; exact h.staging₂

section Loops

variable {B S : String} {T : List String} {env₁ env₂ : Env}
  (hE : SameOutsideBackup B S T env₁ env₂)

include hE

/-- One pass of the retry loop for a staged file gives the same result in both runs. -/
theorem SameRelocation.retryBody {x y : World} (h : SameRelocation B S T env₁ env₂ x y)
    (f d g : String) (hg : g ∈ T)
    (hq : Event.isRelocation B (Event.Move d (pathCombine S g)) = true)
    (hd : ∀ g' ∈ T, pathCombine S g' ≠ d) :
    (RunBackupAndMove.retryBody env₁ f d (pathCombine S g) x).1 =
        (RunBackupAndMove.retryBody env₂ f d (pathCombine S g) y).1 ∧
      SameRelocation B S T env₁ env₂ (RunBackupAndMove.retryBody env₁ f d (pathCombine S g) x).2
        (RunBackupAndMove.retryBody env₂ f d (pathCombine S g) y).2 := by
  have h1 := (h.ext hE (Event.RecordConstructionError f)).ext hE
    (Event.Log "BuildPatchServices: ERROR: Failed to move file, trying copy")
  obtain ⟨hc, h2⟩ := h1.copy hE d g hg hd
  unfold RunBackupAndMove.retryBody Logf
  dsimp only
  rw [hc]
  cases hb : (Copy env₂ d (pathCombine S g)
    (BuildPatch.ext env₂ (Event.Log "BuildPatchServices: ERROR: Failed to move file, trying copy")
      (BuildPatch.ext env₂ (Event.RecordConstructionError f) y))).1
  · simp only [Bool.not_false, if_true]
    exact ((h2.ext hE _).ext hE _).move hE d g hg hq hd
  · simp only [Bool.not_true, Bool.false_eq_true, if_false, true_and]
    exact h2.deleteStaged hE g hg

/-- The retry loop for a staged file gives the same result in both runs. -/
theorem SameRelocation.retryLoop (f d g : String) (hg : g ∈ T)
    (hq : Event.isRelocation B (Event.Move d (pathCombine S g)) = true)
    (hd : ∀ g' ∈ T, pathCombine S g' ≠ d) :
    ∀ (n : Nat) (x y : World), SameRelocation B S T env₁ env₂ x y →
      (RunBackupAndMove.retryLoop env₁ f d (pathCombine S g) n x).1 =
          (RunBackupAndMove.retryLoop env₂ f d (pathCombine S g) n y).1 ∧
        SameRelocation B S T env₁ env₂
          (RunBackupAndMove.retryLoop env₁ f d (pathCombine S g) n x).2
          (RunBackupAndMove.retryLoop env₂ f d (pathCombine S g) n y).2
  | 0, x, y, h => by
    simp only [RunBackupAndMove.retryLoop, true_and]
    exact h
  | 1, x, y, h => by
    simp only [RunBackupAndMove.retryLoop]
    exact h.retryBody hE f d g hg hq hd
  | n + 2, x, y, h => by
    obtain ⟨hb, h1⟩ := h.retryBody hE f d g hg hq hd
    rw [RunBackupAndMove.retryLoop, RunBackupAndMove.retryLoop, hb]
    split
    · exact ⟨hb, h1⟩
    · exact SameRelocation.retryLoop f d g hg hq hd n _ _ h1

/-- The move of a staged file with its retries gives the same result in both runs. -/
theorem SameRelocation.moveFile {x y : World} (h : SameRelocation B S T env₁ env₂ x y)
    (f d g : String) (hg : g ∈ T)
    (hq : Event.isRelocation B (Event.Move d (pathCombine S g)) = true)
    (hd : ∀ g' ∈ T, pathCombine S g' ≠ d) :
    (RunBackupAndMove.moveFile env₁ f d (pathCombine S g) x).1 =
        (RunBackupAndMove.moveFile env₂ f d (pathCombine S g) y).1 ∧
      SameRelocation B S T env₁ env₂ (RunBackupAndMove.moveFile env₁ f d (pathCombine S g) x).2
        (RunBackupAndMove.moveFile env₂ f d (pathCombine S g) y).2 := by
  obtain ⟨hm, h1⟩ := h.move hE d g hg hq hd
  unfold RunBackupAndMove.moveFile
  dsimp only
  rw [hm]
  split
  · exact SameRelocation.retryLoop hE f d g hg hq hd _ _ _ h1
  · exact ⟨hm, h1⟩

/-- The creation of the marker and the backup before a move, in both runs. -/
theorem SameRelocation.prepare {x y : World} (h : SameRelocation B S T env₁ env₂ x y)
    (hB₁ : env₁.GetBackupDirectory = B) (hB₂ : env₂.GetBackupDirectory = B)
    (job : Job) (f : String) (b : Bool)
    (hm : ∀ g ∈ T, pathCombine S g ≠ job.PreviousMoveMarker)
    (hsep : ∀ g ∈ T, pathCombine S g ≠ pathCombine job.InstallDirectory f ∧
      (B.isEmpty = false → pathCombine S g ≠ pathCombine B f)) :
    SameRelocation B S T env₁ env₂ (RunBackupAndMove.prepare env₁ job f b x)
      (RunBackupAndMove.prepare env₂ job f b y) := by
  unfold RunBackupAndMove.prepare
  dsimp only
  refine SameRelocation.backup hE ?_ hB₁ hB₂ job f false hsep
  cases b
  · simp only [Bool.not_false, if_true]
    have h1 := (h.ext hE (Event.Log "BuildPatchServices: Create MM")).createFileWriter hE
      job.PreviousMoveMarker hm
    split <;> split <;> exact h1.update hE rfl rfl rfl rfl rfl rfl h1.staged
  · simp only [Bool.not_true, Bool.false_eq_true, if_false]
    exact h

end Loops

section Procedure

variable {B S : String} {T : List String} {env₁ env₂ : Env}
  (hE : SameOutsideBackup B S T env₁ env₂)
  (hB₁ : env₁.GetBackupDirectory = B) (hB₂ : env₂.GetBackupDirectory = B) (job : Job)

include hE hB₁ hB₂

/-- The loop over the removable files, in both runs. -/
theorem SameRelocation.removeLoop :
    ∀ (l : List String) (x y : World),
      (∀ f ∈ l, ∀ g ∈ T, pathCombine S g ≠ pathCombine job.InstallDirectory f ∧
        (B.isEmpty = false → pathCombine S g ≠ pathCombine B f)) →
      SameRelocation B S T env₁ env₂ x y →
      SameRelocation B S T env₁ env₂ (RunBackupAndMove.removeLoop env₁ job l x)
        (RunBackupAndMove.removeLoop env₂ job l y)
  | [], _, _, _, h => h
  | f :: rest, x, y, hsep, h => by
    rw [RunBackupAndMove.removeLoop, RunBackupAndMove.removeLoop]
    refine SameRelocation.removeLoop rest _ _
      (fun f' hf' => hsep f' (List.mem_cons_of_mem _ hf')) ?_
    have h1 := h.backup hE hB₁ hB₂ job f false (hsep f (List.mem_cons_self _ _))
    exact (h1.deleteOther hE _ (fun g hg => (hsep f (List.mem_cons_self _ _) g hg).1)).ext hE _

/-- The loop over the constructed files returns the same value in both runs. -/
theorem SameRelocation.moveLoop (N : ℚ)
    (hm : ∀ g ∈ T, pathCombine S g ≠ job.PreviousMoveMarker)
    (hq : ∀ g ∈ T, Event.isRelocation B
      (Event.Move (pathCombine job.InstallDirectory g) (pathCombine S g)) = true) :
    ∀ (l : List String) (i : Nat) (b : Bool) (x y : World),
      (∀ f ∈ l, f ∈ T) →
      (∀ f ∈ l, ∀ g ∈ T, pathCombine S g ≠ pathCombine job.InstallDirectory f ∧
        (B.isEmpty = false → pathCombine S g ≠ pathCombine B f)) →
      SameRelocation B S T env₁ env₂ x y →
      (RunBackupAndMove.moveLoop env₁ job N l i b x).1 =
          (RunBackupAndMove.moveLoop env₂ job N l i b y).1 ∧
        SameRelocation B S T env₁ env₂ (RunBackupAndMove.moveLoop env₁ job N l i b x).2
          (RunBackupAndMove.moveLoop env₂ job N l i b y).2
  | [], _, _, _, _, _, _, h => by
    simp only [RunBackupAndMove.moveLoop, true_and]
    exact h
  | f :: rest, i, b, x, y, hl, hsep, h => by
    have hfT : f ∈ T := hl f (List.mem_cons_self _ _)
    have hrest : ∀ f' ∈ rest, f' ∈ T := fun f' hf' => hl f' (List.mem_cons_of_mem _ hf')
    have hsep' : ∀ f' ∈ rest, ∀ g ∈ T,
        pathCombine S g ≠ pathCombine job.InstallDirectory f' ∧
          (B.isEmpty = false → pathCombine S g ≠ pathCombine B f') :=
      fun f' hf' => hsep f' (List.mem_cons_of_mem _ hf')
    have hsf := hsep f (List.mem_cons_self _ _)
    rw [RunBackupAndMove.moveLoop_cons, RunBackupAndMove.moveLoop_cons]
    have herr : HasFatalError x = HasFatalError y := by
      unfold HasFatalError; rw [h.error]
    rw [herr, h.staging₁, h.staging₂, h.staged f hfT]
    cases he : HasFatalError y
    case true =>
      simp only [if_true, true_and]
      exact h
    case false =>
      simp only [Bool.false_eq_true, if_false]
      have hx := h.fileExists hE f hfT
      cases hs : (y.disk (pathCombine S f)).isSome
      · simp only [if_true]
        exact SameRelocation.moveLoop N hm hq rest _ _ _ _ hrest hsep'
          (hx.2.update hE rfl rfl rfl rfl rfl rfl hx.2.staged)
      · simp only [Bool.true_eq_false, if_false]
        have hp := hx.2.prepare hE hB₁ hB₂ job f b hm hsf
        obtain ⟨hmv, hw⟩ := hp.moveFile hE f (pathCombine job.InstallDirectory f) f hfT
          (hq f hfT) (fun g hg => (hsf g hg).1)
        rw [hmv]
        cases hres : (RunBackupAndMove.moveFile env₂ f (pathCombine job.InstallDirectory f)
            (pathCombine S f) (RunBackupAndMove.prepare env₂ job f b
              (FileExists env₂ (pathCombine S f) y).2)).1
        · simp only [if_true, true_and]
          exact (hw.ext hE _).setFatalError EBuildPatchInstallError.MoveFileToInstall
            (by decide) ""
        · simp only [Bool.true_eq_false, if_false]
          exact SameRelocation.moveLoop N hm hq rest _ _ _ _ hrest hsep'
            (hw.update hE rfl rfl rfl rfl rfl rfl hw.staged)

/-- Two runs of `RunBackupAndMove` from the same world return the same value and make the
same relocation calls. -/
theorem RunBackupAndMove_same (w : World) (hS : w.InstallStagingDir = S)
    (hT : job.NewBuildManifest.GetFileList = T)
    (hR : job.FilesToRemove env₁ = job.FilesToRemove env₂)
    (hsep : ∀ f ∈ job.FilesToRemove env₁ ++ T, ∀ g ∈ T,
      pathCombine S g ≠ pathCombine job.InstallDirectory f ∧
        (B.isEmpty = false → pathCombine S g ≠ pathCombine B f))
    (hm : ∀ g ∈ T, pathCombine S g ≠ job.PreviousMoveMarker)
    (hq : ∀ g ∈ T, Event.isRelocation B
      (Event.Move (pathCombine job.InstallDirectory g) (pathCombine S g)) = true) :
    (RunBackupAndMove env₁ job w).1 = (RunBackupAndMove env₂ job w).1 ∧
      SameRelocation B S T env₁ env₂ (RunBackupAndMove env₁ job w).2
        (RunBackupAndMove env₂ job w).2 := by
  have h1 : SameRelocation B S T env₁ env₂
      (Logf env₁ "BuildPatchServices: Running backup and stage relocation" w)
      (Logf env₂ "BuildPatchServices: Running backup and stage relocation" w) :=
    SameRelocation.first_ext hE w w rfl rfl hS hS (fun _ _ => rfl) _
  have hrel : ∀ (env : Env) (x : World), RunBackupAndMove.relocate env job x =
      if ((RunBackupAndMove.moveLoop env job (job.NewBuildManifest.GetFileList.length : ℚ)
            job.NewBuildManifest.GetFileList 0 false
            (RunBackupAndMove.loopEntry env job x)).1 &&
          (HasFatalError (RunBackupAndMove.moveLoop env job
            (job.NewBuildManifest.GetFileList.length : ℚ)
            job.NewBuildManifest.GetFileList 0 false
            (RunBackupAndMove.loopEntry env job x)).2 == false)) = true then
        (true, SetStateProgress EBuildPatchProgress.MovingToInstall 1
          (RunBackupAndMove.moveLoop env job (job.NewBuildManifest.GetFileList.length : ℚ)
            job.NewBuildManifest.GetFileList 0 false
            (RunBackupAndMove.loopEntry env job x)).2)
      else
        (false, (RunBackupAndMove.moveLoop env job
          (job.NewBuildManifest.GetFileList.length : ℚ)
          job.NewBuildManifest.GetFileList 0 false
          (RunBackupAndMove.loopEntry env job x)).2) := fun _ _ => rfl
  have hentry : ∀ x y, SameRelocation B S T env₁ env₂ x y →
      SameRelocation B S T env₁ env₂ (RunBackupAndMove.loopEntry env₁ job x)
        (RunBackupAndMove.loopEntry env₂ job y) := by
    intro x y h
    unfold RunBackupAndMove.loopEntry
    rw [← hR]
    have h2 : SameRelocation B S T env₁ env₂
        { x with BuildStats :=
            { x.BuildStats with NumFilesToRemove := (job.FilesToRemove env₁).length } }
        { y with BuildStats :=
            { y.BuildStats with NumFilesToRemove := (job.FilesToRemove env₁).length } } :=
      h.update hE rfl rfl rfl rfl rfl rfl h.staged
    have h3 := SameRelocation.removeLoop hE hB₁ hB₂ job (job.FilesToRemove env₁) _ _
      (fun f hf => hsep f (List.mem_append_left _ hf)) h2
    exact h3.update hE rfl rfl rfl rfl rfl rfl h3.staged
  have hloop : ∀ x y, SameRelocation B S T env₁ env₂ x y →
      (RunBackupAndMove.relocate env₁ job x).1 = (RunBackupAndMove.relocate env₂ job y).1 ∧
        SameRelocation B S T env₁ env₂ (RunBackupAndMove.relocate env₁ job x).2
          (RunBackupAndMove.relocate env₂ job y).2 := by
    intro x y h
    obtain ⟨hv, hw⟩ := SameRelocation.moveLoop hE hB₁ hB₂ job
      (job.NewBuildManifest.GetFileList.length : ℚ) hm hq job.NewBuildManifest.GetFileList 0
      false _ _ (fun f hf => hT ▸ hf)
      (fun f hf => hsep f (List.mem_append_right _ (hT ▸ hf))) (hentry x y h)
    have herr : HasFatalError (RunBackupAndMove.moveLoop env₁ job
          (job.NewBuildManifest.GetFileList.length : ℚ)
          job.NewBuildManifest.GetFileList 0 false
          (RunBackupAndMove.loopEntry env₁ job x)).2 =
        HasFatalError (RunBackupAndMove.moveLoop env₂ job
          (job.NewBuildManifest.GetFileList.length : ℚ)
          job.NewBuildManifest.GetFileList 0 false
          (RunBackupAndMove.loopEntry env₂ job y)).2 := by
      unfold HasFatalError; rw [hw.error]
    rw [hrel, hrel, hv, herr]
    split
    · exact ⟨rfl, hw.update hE rfl rfl rfl rfl rfl rfl hw.staged⟩
    · exact ⟨rfl, hw⟩
  have herr1 : HasFatalError
        (Logf env₁ "BuildPatchServices: Running backup and stage relocation" w) =
      HasFatalError (Logf env₂ "BuildPatchServices: Running backup and stage relocation" w) := by
    unfold HasFatalError; rw [h1.error]
  unfold RunBackupAndMove
  dsimp only
  rw [herr1]
  split
  · obtain ⟨hv, hw⟩ := hloop _ _ h1
    exact ⟨hv, hw.ext hE _⟩
  · exact ⟨rfl, h1.ext hE _⟩

end Procedure

section Appends

variable (env : Env)

/-- The procedure `BackupFileIfNecessary` only appends to the trace. -/
theorem BackupFileIfNecessary_appends (job : Job) (f : String) (b : Bool) (w : World) :
    w.trace <+: (BackupFileIfNecessary env job f b w).2.trace :=
  BackupFileIfNecessary_record env (fun x => w.trace <+: x.trace)
    (fun e x hx => by
      show w.trace <+: (ext env e x).trace
      rw [ext_trace]
      exact List.IsPrefix.trans hx (List.prefix_append _ _))
    (fun _ _ hx => hx) job f b w (List.prefix_refl _)

theorem retryBody_appends (f d s : String) (w : World) :
    w.trace <+: (RunBackupAndMove.retryBody env f d s w).2.trace := by
  unfold RunBackupAndMove.retryBody
  dsimp only
  split <;> simp [Logf]

theorem retryLoop_appends (f d s : String) :
    ∀ (n : Nat) (w : World), w.trace <+: (RunBackupAndMove.retryLoop env f d s n w).2.trace
  | 0, w => by simp [RunBackupAndMove.retryLoop]
  | 1, w => by
    rw [RunBackupAndMove.retryLoop]
    exact retryBody_appends env f d s w
  | n + 2, w => by
    rw [RunBackupAndMove.retryLoop]
    split
    · exact retryBody_appends env f d s w
    · exact (retryBody_appends env f d s w).trans (retryLoop_appends f d s n _)

/-- The move of a file with its retries starts with the move. -/
theorem moveFile_appends (f d s : String) (w : World) :
    w.trace ++ [Event.Move d s] <+: (RunBackupAndMove.moveFile env f d s w).2.trace := by
  unfold RunBackupAndMove.moveFile
  dsimp only
  split
  · refine List.IsPrefix.trans ?_ (retryLoop_appends env f d s _ _)
    simp
  · simp

theorem prepare_appends (job : Job) (f : String) (b : Bool) (w : World) :
    w.trace <+: (RunBackupAndMove.prepare env job f b w).trace := by
  unfold RunBackupAndMove.prepare
  dsimp only
  refine List.IsPrefix.trans ?_ (BackupFileIfNecessary_appends env job f false _)
  split
  · split <;> simp [Logf]
  · exact List.prefix_refl _

theorem moveLoop_appends (job : Job) (N : ℚ) :
    ∀ (l : List String) (i : Nat) (b : Bool) (w : World),
      w.trace <+: (RunBackupAndMove.moveLoop env job N l i b w).2.trace
  | [], _, _, w => by simp [RunBackupAndMove.moveLoop]
  | f :: rest, i, b, w => by
    rw [RunBackupAndMove.moveLoop_cons]
    have hp := prepare_appends env job f b (FileExists env (pathCombine w.InstallStagingDir f) w).2
    have hm := moveFile_appends env f (pathCombine job.InstallDirectory f)
      (pathCombine w.InstallStagingDir f)
      (RunBackupAndMove.prepare env job f b
        (FileExists env (pathCombine w.InstallStagingDir f) w).2)
    have hw : w.trace <+: (RunBackupAndMove.moveFile env f (pathCombine job.InstallDirectory f)
        (pathCombine w.InstallStagingDir f)
        (RunBackupAndMove.prepare env job f b
          (FileExists env (pathCombine w.InstallStagingDir f) w).2)).2.trace := by
      refine List.IsPrefix.trans ?_ ((List.prefix_append _ _).trans hm)
      refine List.IsPrefix.trans ?_ hp
      simp
    split
    · exact List.prefix_refl _
    · split
      · refine List.IsPrefix.trans ?_ (moveLoop_appends job N rest _ _ _)
        simp
      · split
        · simp only [SetFatalError_trace, Logf, ext_trace]
          exact hw.trans (List.prefix_append _ _)
        · refine List.IsPrefix.trans ?_ (moveLoop_appends job N rest _ _ _)
          simpa using hw

theorem removeLoop_appends (job : Job) :
    ∀ (l : List String) (w : World),
      w.trace <+: (RunBackupAndMove.removeLoop env job l w).trace
  | [], w => by simp [RunBackupAndMove.removeLoop]
  | f :: rest, w => by
    rw [RunBackupAndMove.removeLoop]
    refine List.IsPrefix.trans ?_ (removeLoop_appends job rest _)
    simp only [Logf, ext_trace, Delete_trace, List.append_assoc]
    exact (BackupFileIfNecessary_appends env job f false w).trans (List.prefix_append _ _)

end Appends

/-- Claim C29 (`RunBackupAndMove` ignores backup failures).  For every removable file the
deletion from the install directory is the call that follows `BackupFileIfNecessary`, and for
every staged file that the loop reaches without a fatal error the move into the install
directory is the call that follows the backup, whatever `BackupFileIfNecessary` returned.  And
two runs from the same state in environments that differ only in the results of the moves into
the backup directory and of the deletions in the install directory return the same value and
make the same relocation calls (deletions, copies, file creations and moves to destinations
outside the backup directory).  "Differ only in" is: the two environments have the same backup
directory and removable files, and as long as the relocation calls made are the same they
raise the same errors and give the same results for moves to destinations outside the backup
directory, for copies and for deletions of staged files; the staged files are assumed not to lie
at an install path, a backup path or the marker path, and the install paths not below the
backup directory. -/
theorem C29_backup_results_ignored (env : Env) (job : Job) (w : World) :
    (∀ (f : String) (rest : List String) (x : World), ∃ es,
      (RunBackupAndMove.removeLoop env job (f :: rest) x).trace =
        (BackupFileIfNecessary env job f false x).2.trace ++
          Event.Delete (pathCombine job.InstallDirectory f) :: es) ∧
    (∀ (N : ℚ) (f : String) (rest : List String) (i : Nat) (b : Bool) (x : World),
      HasFatalError x = false →
      (x.disk (pathCombine x.InstallStagingDir f)).isSome = true →
      ∃ es, (RunBackupAndMove.moveLoop env job N (f :: rest) i b x).2.trace =
        (RunBackupAndMove.prepare env job f b
          (FileExists env (pathCombine x.InstallStagingDir f) x).2).trace ++
          Event.Move (pathCombine job.InstallDirectory f)
            (pathCombine x.InstallStagingDir f) :: es) ∧
    (∀ env₂ : Env,
      env₂.GetBackupDirectory = env.GetBackupDirectory →
      job.FilesToRemove env₂ = job.FilesToRemove env →
      SameOutsideBackup env.GetBackupDirectory w.InstallStagingDir
        job.NewBuildManifest.GetFileList env env₂ →
      (∀ f ∈ job.FilesToRemove env ++ job.NewBuildManifest.GetFileList,
        ∀ g ∈ job.NewBuildManifest.GetFileList,
          pathCombine w.InstallStagingDir g ≠ pathCombine job.InstallDirectory f ∧
            (env.GetBackupDirectory.isEmpty = false →
              pathCombine w.InstallStagingDir g ≠ pathCombine env.GetBackupDirectory f)) →
      (∀ g ∈ job.NewBuildManifest.GetFileList,
        pathCombine w.InstallStagingDir g ≠ job.PreviousMoveMarker) →
      (∀ g ∈ job.NewBuildManifest.GetFileList,
        Event.isRelocation env.GetBackupDirectory
          (Event.Move (pathCombine job.InstallDirectory g)
            (pathCombine w.InstallStagingDir g)) = true) →
      (RunBackupAndMove env job w).1 = (RunBackupAndMove env₂ job w).1 ∧
        (RunBackupAndMove env job w).2.trace.filter
            (Event.isRelocation env.GetBackupDirectory) =
          (RunBackupAndMove env₂ job w).2.trace.filter
            (Event.isRelocation env.GetBackupDirectory)) := by
  refine ⟨?_, ?_, ?_⟩
  · intro f rest x
    rw [RunBackupAndMove.removeLoop]
    obtain ⟨es, hes⟩ := removeLoop_appends env job rest
      (Logf env "BuildPatchServices: Removed"
        (Delete env (pathCombine job.InstallDirectory f)
          (BackupFileIfNecessary env job f false x).2).2)
    refine ⟨Event.Log "BuildPatchServices: Removed" :: es, ?_⟩
    rw [← hes]
    simp [Logf]
  · intro N f rest i b x he hs
    have hm := moveFile_appends env f (pathCombine job.InstallDirectory f)
      (pathCombine x.InstallStagingDir f)
      (RunBackupAndMove.prepare env job f b
        (FileExists env (pathCombine x.InstallStagingDir f) x).2)
    rw [RunBackupAndMove.moveLoop_cons]
    simp only [he, Bool.false_eq_true, if_false, hs, Bool.true_eq_false]
    split
    · obtain ⟨es, hes⟩ := hm
      refine ⟨es ++ [Event.Log "BuildPatchServices: ERROR: Failed to move file"], ?_⟩
      simp only [SetFatalError_trace, Logf, ext_trace, ← hes]
      simp
    · obtain ⟨es, hes⟩ := hm.trans (by
        have := moveLoop_appends env job N rest (i + 1) true
          (SetStateProgress EBuildPatchProgress.MovingToInstall ((i : ℚ) / N)
            (FilesInstalledAdd f
              (RunBackupAndMove.moveFile env f (pathCombine job.InstallDirectory f)
                (pathCombine x.InstallStagingDir f)
                (RunBackupAndMove.prepare env job f b
                  (FileExists env (pathCombine x.InstallStagingDir f) x).2)).2))
        simpa using this)
      exact ⟨es, by rw [← hes]; simp⟩
  · intro env₂ hB hR hE hsep hm hq
    obtain ⟨hv, hw⟩ := RunBackupAndMove_same hE rfl hB job w rfl rfl hR.symm hsep hm hq
    exact ⟨hv, hw.trace⟩

set_option maxRecDepth 100000 in
/-- Witness for C29: the removable file `old` and an edited `fileA` are installed and the new
`fileA` is staged.  In `removableEnv` the backups succeed and `old` is deleted; in
`failingBackupEnv` no move into the backup directory succeeds and `old` cannot be deleted.
`BackupFileIfNecessary` returns true in the one and false in the other, and both runs of
`RunBackupAndMove` return true after the same relocation calls: the deletion of `old`, the
creation of the marker and the move of `fileA`. -/
theorem C29_witness :
    ((BackupFileIfNecessary removableEnv updateJob "old" false (sampleWorld editedDisk)).1
        = true ∧
      (BackupFileIfNecessary failingBackupEnv updateJob "old" false (sampleWorld editedDisk)).1
        = false) ∧
    ((RunBackupAndMove removableEnv updateJob (sampleWorld editedDisk)).1 =
        (RunBackupAndMove failingBackupEnv updateJob (sampleWorld editedDisk)).1 ∧
      (RunBackupAndMove removableEnv updateJob (sampleWorld editedDisk)).2.trace.filter
          (Event.isRelocation removableEnv.GetBackupDirectory) =
        (RunBackupAndMove failingBackupEnv updateJob (sampleWorld editedDisk)).2.trace.filter
          (Event.isRelocation removableEnv.GetBackupDirectory)) ∧
    (RunBackupAndMove failingBackupEnv updateJob (sampleWorld editedDisk)).1 = true ∧
    (RunBackupAndMove failingBackupEnv updateJob (sampleWorld editedDisk)).2.trace.filter
        (Event.isRelocation "B") =
      [Event.Delete "I/old", Event.CreateFileWriter "I/$movedMarker",
        Event.Move "I/fileA" "S/Install/fileA"] ∧
    (RunBackupAndMove failingBackupEnv updateJob (sampleWorld editedDisk)).2.trace.filter
        Event.isMove =
      [Event.Move "B/old" "I/old", Event.Move "B/fileA" "I/fileA",
        Event.Move "I/fileA" "S/Install/fileA"] ∧
    (∃ es, (RunBackupAndMove.removeLoop failingBackupEnv updateJob ["old"]
        (sampleWorld editedDisk)).trace =
      (BackupFileIfNecessary failingBackupEnv updateJob "old" false
        (sampleWorld editedDisk)).2.trace ++
        Event.Delete (pathCombine updateJob.InstallDirectory "old") :: es) ∧
    (∃ es, (RunBackupAndMove.moveLoop failingBackupEnv updateJob 2 ["fileA", "fileB"] 0 false
        (sampleWorld editedDisk)).2.trace =
      (RunBackupAndMove.prepare failingBackupEnv updateJob "fileA" false
        (FileExists failingBackupEnv
          (pathCombine (sampleWorld editedDisk).InstallStagingDir "fileA")
          (sampleWorld editedDisk)).2).trace ++
        Event.Move (pathCombine updateJob.InstallDirectory "fileA")
          (pathCombine (sampleWorld editedDisk).InstallStagingDir "fileA") :: es) := by
  have hE : SameOutsideBackup removableEnv.GetBackupDirectory
      (sampleWorld editedDisk).InstallStagingDir updateJob.NewBuildManifest.GetFileList
      removableEnv failingBackupEnv := by
    refine ⟨fun _ _ _ => rfl, fun x y d s _ hq => ?_, fun _ _ _ _ _ => rfl,
      fun x y g _ hg => ?_⟩
    · exact hq.symm
    · have hg' : g = "fileA" ∨ g = "fileB" := by
        simpa [updateJob, sampleManifest, FBuildPatchAppManifest.GetFileList] using hg
      rcases hg' with rfl | rfl <;> rfl
  exact ⟨⟨by decide, by decide⟩,
    (C29_backup_results_ignored removableEnv updateJob (sampleWorld editedDisk)).2.2
      failingBackupEnv rfl rfl hE (by decide) (by decide) (by decide),
    by decide, by decide, by decide,
    (C29_backup_results_ignored failingBackupEnv updateJob (sampleWorld editedDisk)).1
      "old" [] (sampleWorld editedDisk),
    (C29_backup_results_ignored failingBackupEnv updateJob (sampleWorld editedDisk)).2.1
      2 "fileA" ["fileB"] 0 false (sampleWorld editedDisk) (by decide) (by decide)⟩

/-! ## The download statistics in `int64` and `double` arithmetic -/

/-- An `int64` operation whose exact result is in range gives that result. -/
theorem Int64.wrap_of_range (n : Int) (h0 : -2 ^ 63 ≤ n) (h1 : n < 2 ^ 63) :
    Int64.wrap n = n := by
  unfold Int64.wrap
  rw [Int.emod_eq_of_lt (by omega) (by omega)]
  omega

theorem Double.roundHalfEven_intCast (m : ℤ) : Double.roundHalfEven (m : ℚ) = m := by
  simp [Double.roundHalfEven]

/-- The exponent of the binade of a positive rational. -/
theorem Double.log_eq {r : ℚ} {e : ℤ} (h1 : (2 : ℚ) ^ e ≤ r) (h2 : r < (2 : ℚ) ^ (e + 1)) :
    Int.log 2 r = e := by
  have hr : 0 < r := lt_of_lt_of_le (by positivity) h1
  have a := (Int.zpow_le_iff_le_log (b := 2) (by norm_num) hr).mp (by exact_mod_cast h1)
  have b := (Int.lt_zpow_iff_log_lt (b := 2) (by norm_num) hr).mp (by exact_mod_cast h2)
  omega

/-- The rounding of a rational in the binade of exponent `e`, from the floor of its multiple of
the spacing. -/
theorem Double.round_eval (q : ℚ) (e : ℤ) (f : ℤ) (v : ℚ) (h1 : (2 : ℚ) ^ e ≤ |q|)
    (h2 : |q| < (2 : ℚ) ^ (e + 1)) (he : -1022 ≤ e)
    (hf : ⌊q / 2 ^ (e - 52)⌋ = f)
    (hv : v = ((if q / 2 ^ (e - 52) - f < 1 / 2 then f
      else if 1 / 2 < q / 2 ^ (e - 52) - f then f + 1
      else if f % 2 = 0 then f else f + 1 : ℤ) : ℚ) * 2 ^ (e - 52)) :
    Double.round q = v := by
  unfold Double.round Double.roundHalfEven
  rw [Double.log_eq h1 h2, max_eq_left (by omega)]
  simp only [Int.fract, hf]
  rw [hv]

/-- A multiple of `2 ^ (-k)` with at most 53 significant bits is a `double`: rounding leaves it
as it is. -/
theorem Double.round_of_grid (k : ℕ) (n : ℤ) (hk : k ≤ 1074) (hn : |n| < 2 ^ 53) :
    Double.round ((n : ℚ) / 2 ^ k) = (n : ℚ) / 2 ^ k := by
  by_cases h0 : n = 0
  · subst h0
    simp [Double.round, Double.roundHalfEven]
  unfold Double.round
  dsimp only
  have hq0 : (0 : ℚ) < |(n : ℚ) / 2 ^ k| := by
    rw [abs_pos]
    exact div_ne_zero (by exact_mod_cast h0) (by positivity)
  have hlt : |(n : ℚ) / 2 ^ k| < (2 : ℚ) ^ ((53 : ℤ) - k) := by
    rw [abs_div, abs_of_pos (by positivity : (0 : ℚ) < 2 ^ k), zpow_sub₀ (by norm_num),
      zpow_natCast]
    apply div_lt_div_of_pos_right _ (by positivity)
    have : ((|n| : ℤ) : ℚ) < ((2 ^ 53 : ℤ) : ℚ) := by exact_mod_cast hn
    rw [Int.cast_abs] at this
    exact_mod_cast this
  have hlog : Int.log 2 |(n : ℚ) / 2 ^ k| < (53 : ℤ) - k :=
    (Int.lt_zpow_iff_log_lt (b := 2) (by norm_num) hq0).mp (by exact_mod_cast hlt)
  generalize Int.log 2 |(n : ℚ) / 2 ^ k| = L at hlog
  have hpk : max (L - 52) (-1074) ≤ -(k : ℤ) := max_le (by omega) (by omega)
  generalize max (L - 52) (-1074) = p at hpk
  obtain ⟨d, hd⟩ : ∃ d : ℕ, (d : ℤ) = -(k : ℤ) - p := ⟨(-(k : ℤ) - p).toNat, by omega⟩
  have hp : p = -(k : ℤ) - d := by omega
  subst hp
  have hval : (n : ℚ) / 2 ^ k / 2 ^ (-(k : ℤ) - d) = ((n * 2 ^ d : ℤ) : ℚ) := by
    rw [zpow_sub₀ (by norm_num), zpow_neg, zpow_natCast, zpow_natCast]
    push_cast
    field_simp
    ring
  rw [hval, Double.roundHalfEven_intCast]
  rw [zpow_sub₀ (by norm_num), zpow_neg, zpow_natCast, zpow_natCast]
  push_cast
  field_simp
  ring

theorem Double.round_of_eq {k : ℕ} {q : ℚ} {n : ℤ} (hk : k ≤ 1074) (hn : |n| < 2 ^ 53)
    (hq : q = (n : ℚ) / 2 ^ k) : Double.round q = q := by
  subst hq
  exact Double.round_of_grid k n hk hn

/-- On the grid, one pass through the accumulation loop rounds nothing and wraps nothing. -/
theorem AccumulateDownloadRecord_exact (k : ℕ) (hk : k ≤ 1074) (acc : DownloadTotals)
    (r : FBuildPatchDownloadRecord) (hacc : acc.OnGrid k) (hr : r.OnGrid k)
    (hb0 : 0 ≤ acc.TotalDownloadedBytes + r.DownloadSize)
    (hb1 : acc.TotalDownloadedBytes + r.DownloadSize < 2 ^ 63) :
    AccumulateDownloadRecord acc r = ExactTotals.step acc r ∧
      (ExactTotals.step acc r).OnGrid k := by
  obtain ⟨T, E, hT, hE, hTE, hE53⟩ := hacc
  obtain ⟨a, b, ha, hb, hab, hb53⟩ := hr
  have hw : Int64.wrap (acc.TotalDownloadedBytes + r.DownloadSize) =
      acc.TotalDownloadedBytes + r.DownloadSize :=
    Int64.wrap_of_range _ (by omega) hb1
  have h2 : (0 : ℚ) < 2 ^ k := by positivity
  unfold AccumulateDownloadRecord ExactTotals.step
  dsimp only
  by_cases h1 : acc.RecoredEndTime < r.EndTime
  · have hEb : E < b := by
      rw [hE, hb, div_lt_div_iff_of_pos_right h2] at h1
      exact_mod_cast h1
    simp only [h1, if_true]
    by_cases hg : r.StartTime > acc.RecoredEndTime
    · have hEa : E < a := by
        rw [gt_iff_lt, hE, ha, div_lt_div_iff_of_pos_right h2] at hg
        exact_mod_cast hg
      have hsub : Double.sub r.EndTime r.StartTime = r.EndTime - r.StartTime :=
        Double.round_of_eq (n := (b : ℤ) - a) hk (by rw [abs_lt]; constructor <;> omega)
          (by rw [ha, hb]; push_cast; ring)
      have hadd : Double.add acc.TotalTimeDownloading (r.EndTime - r.StartTime) =
          acc.TotalTimeDownloading + (r.EndTime - r.StartTime) :=
        Double.round_of_eq (n := (T : ℤ) + (b - a)) hk (by rw [abs_lt]; constructor <;> omega)
          (by rw [hT, ha, hb]; push_cast; ring)
      simp only [hg, if_true, hsub, hadd, hw, true_and]
      refine ⟨T + (b - a), b, ?_, hb, by omega, hb53⟩
      rw [hT, ha, hb, Nat.cast_add, Nat.cast_sub hab]
      ring
    · have hsub : Double.sub r.EndTime acc.RecoredEndTime = r.EndTime - acc.RecoredEndTime :=
        Double.round_of_eq (n := (b : ℤ) - E) hk (by rw [abs_lt]; constructor <;> omega)
          (by rw [hE, hb]; push_cast; ring)
      have hadd : Double.add acc.TotalTimeDownloading (r.EndTime - acc.RecoredEndTime) =
          acc.TotalTimeDownloading + (r.EndTime - acc.RecoredEndTime) :=
        Double.round_of_eq (n := (T : ℤ) + (b - E)) hk (by rw [abs_lt]; constructor <;> omega)
          (by rw [hT, hE, hb]; push_cast; ring)
      simp only [hg, if_false, hsub, hadd, hw, true_and]
      refine ⟨T + (b - E), b, ?_, hb, by omega, hb53⟩
      rw [hT, hE, hb, Nat.cast_add, Nat.cast_sub (le_of_lt hEb)]
      ring
  · simp only [h1, if_false, hw, true_and]
    exact ⟨T, E, hT, hE, hTE, hE53⟩

/-- On the grid, the accumulation loop rounds nothing and wraps nothing. -/
theorem AccumulateDownloadRecord_foldl_exact (k : ℕ) (hk : k ≤ 1074) :
    ∀ (rest : List FBuildPatchDownloadRecord) (acc : DownloadTotals), acc.OnGrid k →
      (∀ r ∈ rest, r.OnGrid k) → (∀ r ∈ rest, 0 ≤ r.DownloadSize) →
      0 ≤ acc.TotalDownloadedBytes →
      acc.TotalDownloadedBytes + (rest.map (fun r => r.DownloadSize)).sum < 2 ^ 63 →
      rest.foldl AccumulateDownloadRecord acc = rest.foldl ExactTotals.step acc := by
  intro rest
  induction rest with
  | nil => intro acc _ _ _ _ _; rfl
  | cons r rest ih =>
    intro acc hacc hg hs h0 h1
    have hr0 := hs r (List.mem_cons_self _ _)
    have hsum : 0 ≤ (rest.map (fun r => r.DownloadSize)).sum :=
      List.sum_nonneg (by
        intro x hx
        obtain ⟨y, hy, rfl⟩ := List.mem_map.mp hx
        exact hs y (List.mem_cons_of_mem _ hy))
    rw [List.map_cons, List.sum_cons] at h1
    obtain ⟨he, hinv⟩ := AccumulateDownloadRecord_exact k hk acc r hacc
      (hg r (List.mem_cons_self _ _)) (by omega) (by omega)
    rw [List.foldl_cons, List.foldl_cons, he]
    have hbytes : (ExactTotals.step acc r).TotalDownloadedBytes =
        acc.TotalDownloadedBytes + r.DownloadSize := by
      unfold ExactTotals.step
      dsimp only
      split <;> rfl
    exact ih _ hinv (fun x hx => hg x (List.mem_cons_of_mem _ hx))
      (fun x hx => hs x (List.mem_cons_of_mem _ hx)) (by rw [hbytes]; omega)
      (by rw [hbytes]; omega)

/-- On the grid, with sizes that are not negative and a sum below `2 ^ 63`, the totals that the
code computes are the totals of the calculation without rounding. -/
theorem CalculateDownloadTotals_exact (k : ℕ) (hk : k ≤ 1074)
    (l : List FBuildPatchDownloadRecord) (hg : ∀ r ∈ l, r.OnGrid k)
    (hs : ∀ r ∈ l, 0 ≤ r.DownloadSize) (hsum : (l.map (fun r => r.DownloadSize)).sum < 2 ^ 63) :
    CalculateDownloadTotals l = ExactTotals.calculate l := by
  have hp := SortDownloadRecords_perm l
  have hg' : ∀ r ∈ SortDownloadRecords l, r.OnGrid k := fun r hr => hg r (hp.mem_iff.mp hr)
  have hs' : ∀ r ∈ SortDownloadRecords l, 0 ≤ r.DownloadSize :=
    fun r hr => hs r (hp.mem_iff.mp hr)
  have hsum' : ((SortDownloadRecords l).map (fun r => r.DownloadSize)).sum < 2 ^ 63 := by
    rw [(hp.map _).sum_eq]; exact hsum
  unfold CalculateDownloadTotals ExactTotals.calculate
  generalize SortDownloadRecords l = s at hg' hs' hsum'
  cases s with
  | nil => rfl
  | cons first rest =>
    obtain ⟨a, b, ha, hb, hab, hb53⟩ := hg' first (List.mem_cons_self _ _)
    have hsub : Double.sub first.EndTime first.StartTime = first.EndTime - first.StartTime :=
      Double.round_of_eq (n := (b : ℤ) - a) hk (by rw [abs_lt]; constructor <;> omega)
        (by rw [ha, hb]; push_cast; ring)
    simp only [AccumulateDownloadRecords, ExactTotals.ofSorted, hsub]
    rw [List.map_cons, List.sum_cons] at hsum'
    refine AccumulateDownloadRecord_foldl_exact k hk rest _ ⟨b - a, b, ?_, hb, by omega, hb53⟩
      (fun x hx => hg' x (List.mem_cons_of_mem _ hx))
      (fun x hx => hs' x (List.mem_cons_of_mem _ hx)) (hs' first (List.mem_cons_self _ _))
      hsum'
    show first.EndTime - first.StartTime = _
    rw [ha, hb, Nat.cast_sub hab]
    ring

/-- The totals that the code computes for the two downloads with a pause between them. -/
theorem CalculateDownloadTotals_pausedDownloads :
    CalculateDownloadTotals pausedDownloads =
      ⟨3, 1351079888211149 / 4503599627370496, 3602879701896397 / 9007199254740992⟩ := by
  have s1 : Double.sub (3602879701896397 / 36028797018963968) 0 =
      3602879701896397 / 36028797018963968 := by
    have h := Double.round_of_eq (k := 55) (n := 3602879701896397)
      (q := 3602879701896397 / 36028797018963968 - 0) (by norm_num) (by norm_num)
      (by norm_num)
    rw [Double.sub, h]
    norm_num
  have s2 : Double.sub (3602879701896397 / 9007199254740992)
      (3602879701896397 / 18014398509481984) = 3602879701896397 / 18014398509481984 := by
    have h := Double.round_of_eq (k := 54) (n := 3602879701896397)
      (q := 3602879701896397 / 9007199254740992 - 3602879701896397 / 18014398509481984)
      (by norm_num) (by norm_num) (by norm_num)
    rw [Double.sub, h]
    norm_num
  have s3 : Double.add (3602879701896397 / 36028797018963968)
      (3602879701896397 / 18014398509481984) = 1351079888211149 / 4503599627370496 := by
    unfold Double.add
    apply Double.round_eval _ (-2) 5404319552844595
    · norm_num [abs_of_pos]
    · norm_num [abs_of_pos]
    · norm_num
    · rw [Int.floor_eq_iff]; norm_num
    · norm_num
  have hs : SortDownloadRecords pausedDownloads = pausedDownloads := by
    norm_num [SortDownloadRecords, pausedDownloads, List.insertionSort, List.orderedInsert]
  rw [CalculateDownloadTotals, hs]
  norm_num [pausedDownloads, AccumulateDownloadRecords, AccumulateDownloadRecord, s1, s2, s3,
    Int64.wrap]

/-- The totals of the same two downloads without rounding. -/
theorem ExactTotals.calculate_pausedDownloads :
    ExactTotals.calculate pausedDownloads =
      ⟨3, 10808639105689191 / 36028797018963968, 3602879701896397 / 9007199254740992⟩ := by
  norm_num [ExactTotals.calculate, SortDownloadRecords, pausedDownloads, List.insertionSort,
    List.orderedInsert, ExactTotals.ofSorted, ExactTotals.step]

theorem AccumulateDownloadRecord_bytes (acc : DownloadTotals) (r : FBuildPatchDownloadRecord) :
    (AccumulateDownloadRecord acc r).TotalDownloadedBytes =
      Int64.wrap (acc.TotalDownloadedBytes + r.DownloadSize) := by
  unfold AccumulateDownloadRecord
  dsimp only
  split <;> rfl

/-- The average download speed that the code computes for the two downloads with a pause
between them. -/
theorem AverageDownloadSpeed_pausedDownloads :
    AverageDownloadSpeed (CalculateDownloadTotals pausedDownloads) =
      5629499534213119 / 562949953421312 := by
  have c : Double.ofInt64 3 = 3 := by
    have h := Double.round_of_eq (k := 0) (n := 3) (q := ((3 : ℤ) : ℚ)) (by norm_num)
      (by norm_num) (by norm_num)
    rw [Double.ofInt64, h]
    norm_num
  have d : Double.div 3 (1351079888211149 / 4503599627370496) =
      5629499534213119 / 562949953421312 := by
    unfold Double.div
    apply Double.round_eval _ 3 5629499534213119
    · norm_num [abs_of_pos]
    · norm_num [abs_of_pos]
    · norm_num
    · rw [Int.floor_eq_iff]; norm_num
    · norm_num
  rw [CalculateDownloadTotals_pausedDownloads]
  norm_num [AverageDownloadSpeed, c, d]

section PhaseMarks

variable (env : Env)

@[simp]
theorem backupIfEdited_phaseMarks (job : Job) (f : String) (b : Bool) (w : World) :
    (BackupFileIfNecessary.backupIfEdited env job f b w).2.trace.filter Event.isPhaseMark =
      w.trace.filter Event.isPhaseMark := by
  unfold BackupFileIfNecessary.backupIfEdited
  dsimp only
  repeat' split
  all_goals simp [Logf, Event.isPhaseMark]

@[simp]
theorem BackupFileIfNecessary_phaseMarks (job : Job) (f : String) (b : Bool) (w : World) :
    (BackupFileIfNecessary env job f b w).2.trace.filter Event.isPhaseMark =
      w.trace.filter Event.isPhaseMark := by
  unfold BackupFileIfNecessary
  dsimp only
  repeat' split
  all_goals simp [Logf, Event.isPhaseMark]

@[simp]
theorem SetupFileAttributes_phaseMarks (p : String) (f : FFileManifestData) (w : World) :
    (SetupFileAttributes env p f w).trace.filter Event.isPhaseMark =
      w.trace.filter Event.isPhaseMark := by
  unfold SetupFileAttributes
  dsimp only
  repeat' split
  all_goals simp [Logf, Event.isPhaseMark]

@[simp]
theorem applyLoop_phaseMarks (job : Job) (bForce : Bool) :
    ∀ (l : List FFileManifestData) (w : World),
      (RunFileAttributes.applyLoop env job bForce l w).trace.filter Event.isPhaseMark =
        w.trace.filter Event.isPhaseMark := by
  intro l
  induction l with
  | nil => intro w; rfl
  | cons f rest ih =>
    intro w
    unfold RunFileAttributes.applyLoop
    dsimp only
    repeat' split
    all_goals simp [ih]

@[simp]
theorem removedLoop_phaseMarks (job : Job) :
    ∀ (l : List FFileManifestData) (w : World),
      (RunFileAttributes.removedLoop env job l w).trace.filter Event.isPhaseMark =
        w.trace.filter Event.isPhaseMark := by
  intro l
  induction l with
  | nil => intro w; rfl
  | cons f rest ih =>
    intro w
    unfold RunFileAttributes.removedLoop
    dsimp only
    repeat' split
    all_goals simp [ih]

@[simp]
theorem RunFileAttributes_phaseMarks (job : Job) (bForce : Bool) (w : World) :
    (RunFileAttributes env job bForce w).2.trace.filter Event.isPhaseMark =
      w.trace.filter Event.isPhaseMark := by
  unfold RunFileAttributes
  dsimp only
  split <;> simp

@[simp]
theorem cleanLoop_phaseMarks (job : Job) :
    ∀ (l : List String) (w : World),
      (RunVerification.cleanLoop env job l w).trace.filter Event.isPhaseMark =
        w.trace.filter Event.isPhaseMark := by
  intro l
  induction l with
  | nil => intro w; rfl
  | cons f rest ih =>
    intro w
    unfold RunVerification.cleanLoop
    simp [ih, Event.isPhaseMark]

@[simp]
theorem RunVerification_verify_phaseMarks (job : Job) (CorruptFiles : List String) (w : World) :
    (RunVerification.verify env job CorruptFiles w).2.2.trace.filter Event.isPhaseMark =
      w.trace.filter Event.isPhaseMark ++
        [Event.Log "BuildPatchServices: Verifying install",
          Event.VerifyAgainstDirectory job.InstallDirectory] := by
  unfold RunVerification.verify
  dsimp only
  split <;> simp [Logf, Event.isPhaseMark]

@[simp]
theorem RunVerification_phaseMarks (job : Job) (CorruptFiles : List String) (w : World) :
    (RunVerification env job CorruptFiles w).2.2.trace.filter Event.isPhaseMark =
      w.trace.filter Event.isPhaseMark ++
        [Event.Log "BuildPatchServices: Verifying install",
          Event.VerifyAgainstDirectory job.InstallDirectory] := by
  unfold RunVerification
  dsimp only
  split <;> simp [Logf, Event.isPhaseMark]

@[simp]
theorem retryBody_phaseMarks (f d s : String) (w : World) :
    (RunBackupAndMove.retryBody env f d s w).2.trace.filter Event.isPhaseMark =
      w.trace.filter Event.isPhaseMark := by
  unfold RunBackupAndMove.retryBody
  dsimp only
  split <;> simp [Logf, Event.isPhaseMark]

@[simp]
theorem retryLoop_phaseMarks (f d s : String) :
    ∀ (n : Nat) (w : World),
      (RunBackupAndMove.retryLoop env f d s n w).2.trace.filter Event.isPhaseMark =
        w.trace.filter Event.isPhaseMark := by
  intro n
  induction n using Nat.strong_induction_on with
  | _ n ih =>
    intro w
    match n with
    | 0 => rfl
    | 1 => simp [RunBackupAndMove.retryLoop]
    | m + 2 =>
      unfold RunBackupAndMove.retryLoop
      dsimp only
      split
      · simp
      · rw [ih m (by omega)]; simp

@[simp]
theorem removeLoop_phaseMarks (job : Job) :
    ∀ (l : List String) (w : World),
      (RunBackupAndMove.removeLoop env job l w).trace.filter Event.isPhaseMark =
        w.trace.filter Event.isPhaseMark := by
  intro l
  induction l with
  | nil => intro w; rfl
  | cons f rest ih =>
    intro w
    unfold RunBackupAndMove.removeLoop
    simp [ih, Logf, Event.isPhaseMark]

@[simp]
theorem moveLoop_phaseMarks (job : Job) (x : ℚ) :
    ∀ (l : List String) (i : Nat) (b : Bool) (w : World),
      (RunBackupAndMove.moveLoop env job x l i b w).2.trace.filter Event.isPhaseMark =
        w.trace.filter Event.isPhaseMark := by
  intro l
  induction l with
  | nil => intro i b w; rfl
  | cons f rest ih =>
    intro i b w
    unfold RunBackupAndMove.moveLoop
    dsimp only
    repeat' split
    all_goals simp [ih, Logf, Event.isPhaseMark]

@[simp]
theorem relocate_phaseMarks (job : Job) (w : World) :
    (RunBackupAndMove.relocate env job w).2.trace.filter Event.isPhaseMark =
      w.trace.filter Event.isPhaseMark := by
  unfold RunBackupAndMove.relocate
  dsimp only
  split <;> simp

@[simp]
theorem RunBackupAndMove_phaseMarks (job : Job) (w : World) :
    (RunBackupAndMove env job w).2.trace.filter Event.isPhaseMark =
      w.trace.filter Event.isPhaseMark ++
        [Event.Log "BuildPatchServices: Running backup and stage relocation"] := by
  unfold RunBackupAndMove
  dsimp only
  split <;> simp [Logf, Event.isPhaseMark]

@[simp]
theorem RunInstallation_entry_phaseMarks (job : Job) (w : World) :
    (RunInstallation.entry env job w).trace.filter Event.isPhaseMark =
      w.trace.filter Event.isPhaseMark ++
        [Event.Log "BuildPatchServices: Starting Installation"] := by
  simp [RunInstallation.entry, Logf, ErrorReset, Event.isPhaseMark]

@[simp]
theorem RunInstallation_skip_phaseMarks (w : World) :
    (RunInstallation.skip env w).2.trace.filter Event.isPhaseMark =
      w.trace.filter Event.isPhaseMark ++
        [Event.Log "BuildPatchServices: Detected previous staging completed"] := by
  simp [RunInstallation.skip, Logf, Event.isPhaseMark]

@[simp]
theorem RunInstallation_recordStats_phaseMarks (job : Job) (d : List FBuildPatchDownloadRecord)
    (w : World) :
    (RunInstallation.recordStats env job d w).2.trace.filter Event.isPhaseMark =
      w.trace.filter Event.isPhaseMark := by
  unfold RunInstallation.recordStats
  cases job.bIsChunkData <;> simp [Logf, SetDownloadSpeed, Event.isPhaseMark]

@[simp]
theorem RunInstallation_construct_phaseMarks (job : Job) (CorruptFiles : List String) (w : World) :
    (RunInstallation.construct env job CorruptFiles w).2.trace.filter Event.isPhaseMark =
      w.trace.filter Event.isPhaseMark := by
  have hw1 := RunInstallation.waitLoop_filter env job Event.isPhaseMark
    Event.FileConstructorIsComplete rfl rfl
  have hw2 := RunInstallation.waitLoop_filter env job Event.isPhaseMark
    Event.DownloaderIsComplete rfl rfl
  unfold RunInstallation.construct
  dsimp only
  rw [RunInstallation_recordStats_phaseMarks]
  simp only [ext_trace, Logf, List.filter_append, hw1, hw2]
  generalize job.bIsChunkData = cd
  generalize job.bIsFileData = fd
  generalize job.bIsRepairing env = rp
  cases CorruptFiles with
  | nil =>
    cases cd <;> cases fd <;> cases rp <;>
      simp [Logf, Event.isPhaseMark]
  | cons c cs =>
    cases cd <;> cases fd <;> cases rp <;>
      simp [Logf, Event.isPhaseMark]

@[simp]
theorem RunInstallation_phaseMarks (job : Job) (CorruptFiles : List String) (w : World) :
    (RunInstallation env job CorruptFiles w).2.trace.filter Event.isPhaseMark =
      w.trace.filter Event.isPhaseMark ++
        [Event.Log "BuildPatchServices: Starting Installation"] ++
        (if (w.disk job.PreviousMoveMarker).isSome then
          [Event.Log "BuildPatchServices: Detected previous staging completed"] else []) := by
  rw [RunInstallation_eq]
  split <;> simp

/-- The end of a pass through the retry loop (source lines 250 to 254). -/
theorem Run.resetMarker_phaseMarks (job : Job) (c : Bool) (x : World) :
    (if c = true then
        (Delete env job.PreviousMoveMarker (Logf env "BuildPatchServices: Reset MM" x)).2
      else x).trace.filter Event.isPhaseMark =
      x.trace.filter Event.isPhaseMark ++
        (if c = true then [Event.Log "BuildPatchServices: Reset MM"] else []) := by
  cases c <;> simp [Logf, Event.isPhaseMark]

/-- The calls of `Event.isPhaseMark` in one pass through the retry loop are those of its
record. -/
theorem Run.attempt_phaseMarks (job : Job) (pre : Bool) (k : Int) (s : RunState)
    (rec : AttemptRecord) (h : (Run.attempt env job pre k s).Attempts = s.Attempts ++ [rec]) :
    (Run.attempt env job pre k s).world.trace.filter Event.isPhaseMark =
      s.world.trace.filter Event.isPhaseMark ++ rec.phaseMarks job := by
  have h' : s.Attempts ++ [rec] = s.Attempts ++ [_] := h.symm.trans rfl
  have hr := List.append_cancel_left h'
  simp only [List.cons.injEq, and_true] at hr
  subst hr
  clear h h'
  unfold AttemptRecord.phaseMarks
  dsimp only [Run.attempt]
  rw [Run.resetMarker_phaseMarks]
  simp only [← List.append_assoc]
  congr 1
  cases hi : (RunInstallation env job s.CorruptFiles s.world).1
  · simp
  · simp only [if_true]
    have hmt := RunBackupAndMove_phaseMarks env job
        (SetStateProgress EBuildPatchProgress.Installing 1
          (SetStateProgress EBuildPatchProgress.Downloading 1
            (SetStateProgress EBuildPatchProgress.PrerequisitesInstall
              (if pre = true then 0 else 1)
              (RunInstallation env job s.CorruptFiles s.world).2)))
    simp only [SetStateProgress_trace, RunInstallation_phaseMarks] at hmt
    generalize RunBackupAndMove env job
      (SetStateProgress EBuildPatchProgress.Installing 1
        (SetStateProgress EBuildPatchProgress.Downloading 1
          (SetStateProgress EBuildPatchProgress.PrerequisitesInstall (if pre = true then 0 else 1)
            (RunInstallation env job s.CorruptFiles s.world).2))) = m at hmt ⊢
    obtain ⟨mb, mw⟩ := m
    cases mb
    · simpa using hmt
    · simp only [RunFileAttributes_fst, if_true]
      simp only [Logf, ext_trace, SetStateProgress_trace, DeleteDirectory_trace,
        List.filter_append, RunVerification_phaseMarks, RunFileAttributes_phaseMarks, hmt]
      simp [Event.isPhaseMark]

/-- The calls of `Event.isPhaseMark` in the retry loop are those of the records it appends. -/
theorem Run.loop_phaseMarks (job : Job) (pre : Bool) :
    ∀ (n : Nat) (s : RunState) (recs : List AttemptRecord),
      (Run.loop env job pre n s).Attempts = s.Attempts ++ recs →
      (Run.loop env job pre n s).world.trace.filter Event.isPhaseMark =
        s.world.trace.filter Event.isPhaseMark ++ recs.flatMap (AttemptRecord.phaseMarks job) := by
  intro n
  induction n with
  | zero =>
    intro s recs h
    obtain ⟨rec, h1, _⟩ := Run.attempt_record env job pre (-1) s
    have hr : recs = [rec] := by
      have : s.Attempts ++ recs = s.Attempts ++ [rec] := by rw [← h, ← h1]; rfl
      exact List.append_cancel_left this
    subst hr
    have := Run.attempt_phaseMarks env job pre (-1) s rec h1
    simpa [Run.loop] using this
  | succ n ih =>
    intro s recs h
    obtain ⟨rec, h1, _⟩ := Run.attempt_record env job pre n s
    have ha := Run.attempt_phaseMarks env job pre n s rec h1
    unfold Run.loop at h ⊢
    dsimp only at h ⊢
    split at h
    · rename_i hcond
      rw [if_pos hcond]
      obtain ⟨recs', _, h'⟩ := Run.loop_appends env job pre n (Run.attempt env job pre n s)
      have hr : recs = rec :: recs' := by
        have : s.Attempts ++ recs = s.Attempts ++ (rec :: recs') := by
          rw [← h, h', h1]; simp
        exact List.append_cancel_left this
      subst hr
      rw [ih _ recs' h', ha]
      simp
    · rename_i hcond
      rw [if_neg hcond]
      have hr : recs = [rec] := by
        have : s.Attempts ++ recs = s.Attempts ++ [rec] := by rw [← h, h1]
        exact List.append_cancel_left this
      subst hr
      simpa using ha

@[simp]
theorem Run.prepare_phaseMarks (job : Job) (w : World) :
    (Run.prepare env job w).trace.filter Event.isPhaseMark = w.trace.filter Event.isPhaseMark := by
  unfold Run.prepare
  dsimp only
  split <;>
    simp [ErrorReset, SetRunning, SetInited, SetDownloadSpeed, UpdateDownloadProgressInfo,
      Event.isPhaseMark]

@[simp]
theorem RunPrereqInstaller_phaseMarks (job : Job) (w : World) :
    (RunPrereqInstaller env job w).2.trace.filter Event.isPhaseMark =
      w.trace.filter Event.isPhaseMark := by
  unfold RunPrereqInstaller
  dsimp only
  repeat' split
  all_goals simp_all [Logf, Event.isPhaseMark]

/-- The end of `Run` starts no phase of an attempt. -/
theorem Run.finish_phaseMarks (job : Job) (t : ℚ) (s : RunState) :
    (Run.finish env job t s).world.trace.filter Event.isPhaseMark =
      s.world.trace.filter Event.isPhaseMark := by
  unfold Run.finish
  dsimp only
  cases hc : (s.bProcessSuccess && Run.bInstallPrereqs job)
  · simp [Logf, SetRunning, Event.isPhaseMark]
  · simp [Logf, SetRunning, Event.isPhaseMark]

/-- The calls of `Event.isPhaseMark` in a run are, attempt by attempt, those of its records. -/
theorem Run_phaseMarks (job : Job) (w : World) :
    (Run env job w).world.trace.filter Event.isPhaseMark =
      w.trace.filter Event.isPhaseMark ++
        (Run env job w).Attempts.flatMap (AttemptRecord.phaseMarks job) := by
  rw [Run.eq_finish, Run.finish_phaseMarks, Run.finish_Attempts]
  rw [Run.loop_phaseMarks env job _ 5 _ _ (List.nil_append _).symm]
  simp

end PhaseMarks

/-! ## The attribute writes of an attempt -/

section AttributeWriteCalls

variable (env : Env)

@[simp]
theorem backupIfEdited_attributeWrites (job : Job) (f : String) (b : Bool) (w : World) :
    (BackupFileIfNecessary.backupIfEdited env job f b w).2.trace.filter Event.isAttributeWrite =
      w.trace.filter Event.isAttributeWrite := by
  unfold BackupFileIfNecessary.backupIfEdited
  dsimp only
  repeat' split
  all_goals simp [Logf, Event.isAttributeWrite]

@[simp]
theorem BackupFileIfNecessary_attributeWrites (job : Job) (f : String) (b : Bool) (w : World) :
    (BackupFileIfNecessary env job f b w).2.trace.filter Event.isAttributeWrite =
      w.trace.filter Event.isAttributeWrite := by
  unfold BackupFileIfNecessary
  dsimp only
  repeat' split
  all_goals simp [Logf, Event.isAttributeWrite]

/-- The attribute writes of one application of `SetupFileAttributes`. -/
theorem SetupFileAttributes_attributeWrites (p : String) (f : FFileManifestData) (w : World) :
    (SetupFileAttributes env p f w).trace.filter Event.isAttributeWrite =
      w.trace.filter Event.isAttributeWrite ++ AttributeWrites p f := by
  unfold SetupFileAttributes SetReadOnly SetFileCompressionFlag SetExecutableFlag Logf
    AttributeWrites
  dsimp only
  split <;> [split; skip] <;> split <;>
    simp_all [Event.isAttributeWrite, List.filter_cons]

/-- With a fatal error recorded, the loop over the target manifest does nothing. -/
theorem RunFileAttributes.applyLoop_of_error (job : Job) (bForce : Bool)
    (l : List FFileManifestData) (w : World) (h : HasFatalError w = true) :
    RunFileAttributes.applyLoop env job bForce l w = w := by
  cases l <;> simp [RunFileAttributes.applyLoop, h]

/-- The attribute writes of the loop over the target manifest: those of `SetupFileAttributes`
for the files with an attribute flag (for all files when forced), in order, up to the file at
which the loop breaks. -/
theorem applyLoop_attributeWrites (job : Job) (bForce : Bool) :
    ∀ (l : List FFileManifestData) (w : World), ∃ n,
      n ≤ ((l.filter (fun f =>
        f.bIsReadOnly || f.bIsCompressed || f.bIsUnixExecutable || bForce)).map
          (fun f => (pathCombine job.InstallDirectory f.Filename, f))).length ∧
      (RunFileAttributes.applyLoop env job bForce l w).trace.filter Event.isAttributeWrite =
        w.trace.filter Event.isAttributeWrite ++
          (((l.filter (fun f =>
            f.bIsReadOnly || f.bIsCompressed || f.bIsUnixExecutable || bForce)).map
              (fun f => (pathCombine job.InstallDirectory f.Filename, f))).take n).flatMap
            (fun t => AttributeWrites t.1 t.2) ∧
      (HasFatalError (RunFileAttributes.applyLoop env job bForce l w) = false →
        n = ((l.filter (fun f =>
          f.bIsReadOnly || f.bIsCompressed || f.bIsUnixExecutable || bForce)).map
            (fun f => (pathCombine job.InstallDirectory f.Filename, f))).length) ∧
      ((∀ x, env.Raise x = none) → HasFatalError w = false →
        HasFatalError (RunFileAttributes.applyLoop env job bForce l w) = false) := by
  intro l
  induction l with
  | nil => intro w; exact ⟨0, by simp, by simp [RunFileAttributes.applyLoop], fun _ => rfl,
      fun _ h => h⟩
  | cons f rest ih =>
    intro w
    by_cases hw : HasFatalError w = true
    · rw [RunFileAttributes.applyLoop_of_error env job bForce _ w hw]
      exact ⟨0, by simp, by simp, fun h => by rw [hw] at h; exact absurd h (by decide),
        fun _ h => h⟩
    · rw [RunFileAttributes.applyLoop, if_neg hw]
      dsimp only
      by_cases hc : (f.bIsReadOnly || f.bIsCompressed || f.bIsUnixExecutable || bForce) = true
      · obtain ⟨n, hn, ht, hfull, hq⟩ := ih
          (SetupFileAttributes env (pathCombine job.InstallDirectory f.Filename) f w)
        simp only [hc, if_true, List.filter_cons, List.map_cons, List.length_cons]
        refine ⟨n + 1, by omega, ?_, fun h => by rw [hfull h], ?_⟩
        · rw [ht, SetupFileAttributes_attributeWrites, List.take_succ_cons, List.flatMap_cons,
            List.append_assoc]
        · intro hquiet h0
          apply hq hquiet
          simp only [HasFatalError, bne_eq_false_iff_eq] at h0 ⊢
          rw [SetupFileAttributes_ErrorState_of_quiet env hquiet, h0]
      · obtain ⟨n, hn, ht, hfull, hq⟩ := ih w
        simp only [hc, Bool.false_eq_true, if_false, List.filter_cons]
        exact ⟨n, hn, ht, hfull, hq⟩

/-- The attribute writes of the loop over the current manifest: those of `SetupFileAttributes`
for the files whose read-only or compression flag the target manifest clears, in order, up to
the file at which the loop breaks. -/
theorem removedLoop_attributeWrites (job : Job) :
    ∀ (l : List FFileManifestData) (w : World), ∃ n,
      n ≤ (l.filterMap (fun old =>
        match job.NewBuildManifest.GetFileManifest old.Filename with
        | some nf =>
          if (old.bIsReadOnly && !nf.bIsReadOnly) || (old.bIsCompressed && !nf.bIsCompressed)
          then some (pathCombine job.InstallDirectory old.Filename, nf)
          else none
        | none => none)).length ∧
      (RunFileAttributes.removedLoop env job l w).trace.filter Event.isAttributeWrite =
        w.trace.filter Event.isAttributeWrite ++
          ((l.filterMap (fun old =>
            match job.NewBuildManifest.GetFileManifest old.Filename with
            | some nf =>
              if (old.bIsReadOnly && !nf.bIsReadOnly) ||
                  (old.bIsCompressed && !nf.bIsCompressed)
              then some (pathCombine job.InstallDirectory old.Filename, nf)
              else none
            | none => none)).take n).flatMap (fun t => AttributeWrites t.1 t.2) ∧
      ((∀ x, env.Raise x = none) → HasFatalError w = false →
        n = (l.filterMap (fun old =>
          match job.NewBuildManifest.GetFileManifest old.Filename with
          | some nf =>
            if (old.bIsReadOnly && !nf.bIsReadOnly) || (old.bIsCompressed && !nf.bIsCompressed)
            then some (pathCombine job.InstallDirectory old.Filename, nf)
            else none
          | none => none)).length) := by
  intro l
  induction l with
  | nil => intro w; exact ⟨0, by simp, by simp [RunFileAttributes.removedLoop], fun _ _ => rfl⟩
  | cons f rest ih =>
    intro w
    by_cases hw : HasFatalError w = true
    · rw [RunFileAttributes.removedLoop_of_error env job _ w hw]
      exact ⟨0, by simp, by simp, fun _ h => by rw [hw] at h; exact absurd h (by decide)⟩
    · rw [RunFileAttributes.removedLoop, if_neg hw]
      dsimp only
      cases hg : job.NewBuildManifest.GetFileManifest f.Filename with
      | none =>
        obtain ⟨n, hn, ht, hq⟩ := ih w
        simp only [List.filterMap_cons, hg]
        exact ⟨n, hn, ht, hq⟩
      | some nf =>
        by_cases hc : ((f.bIsReadOnly && !nf.bIsReadOnly) ||
            (f.bIsCompressed && !nf.bIsCompressed)) = true
        · obtain ⟨n, hn, ht, hq⟩ := ih
            (SetupFileAttributes env (pathCombine job.InstallDirectory f.Filename) nf w)
          simp only [List.filterMap_cons, hg, hc, if_true, List.length_cons]
          refine ⟨n + 1, by omega, ?_, ?_⟩
          · rw [ht, SetupFileAttributes_attributeWrites, List.take_succ_cons,
              List.flatMap_cons, List.append_assoc]
          · intro hquiet h0
            rw [hq hquiet]
            simp only [HasFatalError, bne_eq_false_iff_eq] at h0 ⊢
            rw [SetupFileAttributes_ErrorState_of_quiet env hquiet, h0]
        · obtain ⟨n, hn, ht, hq⟩ := ih w
          simp only [List.filterMap_cons, hg, hc, Bool.false_eq_true, if_false]
          exact ⟨n, hn, ht, hq⟩

/-- The attribute writes of `RunFileAttributes`: those of `SetupFileAttributes` for the files
of `Job.AttributeTargets`, in order, up to the file at which a loop breaks; for all of them
when no error is raised. -/
theorem RunFileAttributes_attributeWrites (job : Job) (bForce : Bool) (w : World) :
    ∃ n, n ≤ (job.AttributeTargets bForce).length ∧
      (RunFileAttributes env job bForce w).2.trace.filter Event.isAttributeWrite =
        w.trace.filter Event.isAttributeWrite ++
          ((job.AttributeTargets bForce).take n).flatMap (fun t => AttributeWrites t.1 t.2) ∧
      ((∀ x, env.Raise x = none) → HasFatalError w = false →
        n = (job.AttributeTargets bForce).length) := by
  obtain ⟨n1, hn1, ht1, hfull1, hq1⟩ := applyLoop_attributeWrites env job bForce
    job.NewBuildManifest.FileManifestList w
  unfold RunFileAttributes Job.AttributeTargets
  dsimp only
  cases hcur : (if (!bForce) = true then job.CurrentBuildManifest else none) with
  | none =>
    simp only [List.append_nil]
    exact ⟨n1, hn1, ht1, fun hquiet h0 => hfull1 (hq1 hquiet h0)⟩
  | some cur =>
    dsimp only
    by_cases he : HasFatalError (RunFileAttributes.applyLoop env job bForce
        job.NewBuildManifest.FileManifestList w) = true
    · rw [RunFileAttributes.removedLoop_of_error env job _ _ he]
      refine ⟨n1, by rw [List.length_append]; omega, ?_, ?_⟩
      · rw [ht1, List.take_append_of_le_length hn1]
      · intro hquiet h0
        have := hq1 hquiet h0
        rw [he] at this
        exact absurd this (by decide)
    · simp only [Bool.not_eq_true] at he
      obtain ⟨n2, hn2, ht2, hq2⟩ := removedLoop_attributeWrites env job cur.FileManifestList
        (RunFileAttributes.applyLoop env job bForce job.NewBuildManifest.FileManifestList w)
      have hlen := hfull1 he
      refine ⟨n1 + n2, by rw [List.length_append]; omega, ?_, ?_⟩
      · rw [ht2, ht1, hlen, List.take_append, List.flatMap_append, List.append_assoc]
        congr 2
        rw [List.take_of_length_le (le_refl _)]
      · intro hquiet h0
        rw [List.length_append, hlen, hq2 hquiet he]

@[simp]
theorem cleanLoop_attributeWrites (job : Job) :
    ∀ (l : List String) (w : World),
      (RunVerification.cleanLoop env job l w).trace.filter Event.isAttributeWrite =
        w.trace.filter Event.isAttributeWrite := by
  intro l
  induction l with
  | nil => intro w; rfl
  | cons f rest ih =>
    intro w
    unfold RunVerification.cleanLoop
    simp [ih, Event.isAttributeWrite]

@[simp]
theorem RunVerification_verify_attributeWrites (job : Job) (CorruptFiles : List String)
    (w : World) :
    (RunVerification.verify env job CorruptFiles w).2.2.trace.filter Event.isAttributeWrite =
      w.trace.filter Event.isAttributeWrite := by
  unfold RunVerification.verify
  dsimp only
  split <;> simp [Logf, Event.isAttributeWrite]

@[simp]
theorem RunVerification_attributeWrites (job : Job) (CorruptFiles : List String) (w : World) :
    (RunVerification env job CorruptFiles w).2.2.trace.filter Event.isAttributeWrite =
      w.trace.filter Event.isAttributeWrite := by
  unfold RunVerification
  dsimp only
  split <;> simp [Logf, Event.isAttributeWrite]

@[simp]
theorem retryBody_attributeWrites (f d s : String) (w : World) :
    (RunBackupAndMove.retryBody env f d s w).2.trace.filter Event.isAttributeWrite =
      w.trace.filter Event.isAttributeWrite := by
  unfold RunBackupAndMove.retryBody
  dsimp only
  split <;> simp [Logf, Event.isAttributeWrite]

@[simp]
theorem retryLoop_attributeWrites (f d s : String) :
    ∀ (n : Nat) (w : World),
      (RunBackupAndMove.retryLoop env f d s n w).2.trace.filter Event.isAttributeWrite =
        w.trace.filter Event.isAttributeWrite := by
  intro n
  induction n using Nat.strong_induction_on with
  | _ n ih =>
    intro w
    match n with
    | 0 => rfl
    | 1 => simp [RunBackupAndMove.retryLoop]
    | m + 2 =>
      unfold RunBackupAndMove.retryLoop
      dsimp only
      split
      · simp
      · rw [ih m (by omega)]; simp

@[simp]
theorem removeLoop_attributeWrites (job : Job) :
    ∀ (l : List String) (w : World),
      (RunBackupAndMove.removeLoop env job l w).trace.filter Event.isAttributeWrite =
        w.trace.filter Event.isAttributeWrite := by
  intro l
  induction l with
  | nil => intro w; rfl
  | cons f rest ih =>
    intro w
    unfold RunBackupAndMove.removeLoop
    simp [ih, Logf, Event.isAttributeWrite]

@[simp]
theorem moveLoop_attributeWrites (job : Job) (x : ℚ) :
    ∀ (l : List String) (i : Nat) (b : Bool) (w : World),
      (RunBackupAndMove.moveLoop env job x l i b w).2.trace.filter Event.isAttributeWrite =
        w.trace.filter Event.isAttributeWrite := by
  intro l
  induction l with
  | nil => intro i b w; rfl
  | cons f rest ih =>
    intro i b w
    unfold RunBackupAndMove.moveLoop
    dsimp only
    repeat' split
    all_goals simp [ih, Logf, Event.isAttributeWrite]

@[simp]
theorem relocate_attributeWrites (job : Job) (w : World) :
    (RunBackupAndMove.relocate env job w).2.trace.filter Event.isAttributeWrite =
      w.trace.filter Event.isAttributeWrite := by
  unfold RunBackupAndMove.relocate
  dsimp only
  split <;> simp

@[simp]
theorem RunBackupAndMove_attributeWrites (job : Job) (w : World) :
    (RunBackupAndMove env job w).2.trace.filter Event.isAttributeWrite =
      w.trace.filter Event.isAttributeWrite := by
  unfold RunBackupAndMove
  dsimp only
  split <;> simp [Logf, Event.isAttributeWrite]

@[simp]
theorem RunInstallation_entry_attributeWrites (job : Job) (w : World) :
    (RunInstallation.entry env job w).trace.filter Event.isAttributeWrite =
      w.trace.filter Event.isAttributeWrite := by
  simp [RunInstallation.entry, Logf, ErrorReset, Event.isAttributeWrite]

@[simp]
theorem RunInstallation_skip_attributeWrites (w : World) :
    (RunInstallation.skip env w).2.trace.filter Event.isAttributeWrite =
      w.trace.filter Event.isAttributeWrite := by
  simp [RunInstallation.skip, Logf, Event.isAttributeWrite]

@[simp]
theorem RunInstallation_recordStats_attributeWrites (job : Job) (d : List FBuildPatchDownloadRecord)
    (w : World) :
    (RunInstallation.recordStats env job d w).2.trace.filter Event.isAttributeWrite =
      w.trace.filter Event.isAttributeWrite := by
  unfold RunInstallation.recordStats
  cases job.bIsChunkData <;> simp [Logf, SetDownloadSpeed, Event.isAttributeWrite]

@[simp]
theorem RunInstallation_construct_attributeWrites (job : Job) (CorruptFiles : List String)
    (w : World) :
    (RunInstallation.construct env job CorruptFiles w).2.trace.filter Event.isAttributeWrite =
      w.trace.filter Event.isAttributeWrite := by
  have hw1 := RunInstallation.waitLoop_filter env job Event.isAttributeWrite
    Event.FileConstructorIsComplete rfl rfl
  have hw2 := RunInstallation.waitLoop_filter env job Event.isAttributeWrite
    Event.DownloaderIsComplete rfl rfl
  unfold RunInstallation.construct
  dsimp only
  rw [RunInstallation_recordStats_attributeWrites]
  simp only [ext_trace, Logf, List.filter_append, hw1, hw2]
  generalize job.bIsChunkData = cd
  generalize job.bIsFileData = fd
  generalize job.bIsRepairing env = rp
  cases CorruptFiles with
  | nil =>
    cases cd <;> cases fd <;> cases rp <;>
      simp [Logf, Event.isAttributeWrite]
  | cons c cs =>
    cases cd <;> cases fd <;> cases rp <;>
      simp [Logf, Event.isAttributeWrite]

@[simp]
theorem RunInstallation_attributeWrites (job : Job) (CorruptFiles : List String) (w : World) :
    (RunInstallation env job CorruptFiles w).2.trace.filter Event.isAttributeWrite =
      w.trace.filter Event.isAttributeWrite := by
  rw [RunInstallation_eq]
  split <;> simp

/-- The deletion of the marker at the end of a pass writes no attribute. -/
theorem Run.resetMarker_attributeWrites (job : Job) (c : Bool) (x : World) :
    (if c = true then
        (Delete env job.PreviousMoveMarker (Logf env "BuildPatchServices: Reset MM" x)).2
      else x).trace.filter Event.isAttributeWrite =
      x.trace.filter Event.isAttributeWrite := by
  cases c <;> simp [Logf, Event.isAttributeWrite]

/-- The attribute writes of one pass through the retry loop: when `RunBackupAndMove` returned
true, those of `RunFileAttributes` with `bForce = bIsRepairing`, and none otherwise. -/
theorem Run.attempt_attributeWrites (job : Job) (pre : Bool) (k : Int) (s : RunState)
    (rec : AttemptRecord) (h : (Run.attempt env job pre k s).Attempts = s.Attempts ++ [rec]) :
    ∃ n, n ≤ (job.AttributeTargets (job.bIsRepairing env)).length ∧
      (Run.attempt env job pre k s).world.trace.filter Event.isAttributeWrite =
        s.world.trace.filter Event.isAttributeWrite ++
          (if rec.bRunBackupAndMove = some true then
            ((job.AttributeTargets (job.bIsRepairing env)).take n).flatMap
              (fun t => AttributeWrites t.1 t.2)
          else []) ∧
      ((∀ x, env.Raise x = none) → n = (job.AttributeTargets (job.bIsRepairing env)).length) := by
  have h' : s.Attempts ++ [rec] = s.Attempts ++ [_] := h.symm.trans rfl
  have hr := List.append_cancel_left h'
  simp only [List.cons.injEq, and_true] at hr
  subst hr
  clear h h'
  dsimp only [Run.attempt]
  simp only [Run.resetMarker_attributeWrites]
  cases hi : (RunInstallation env job s.CorruptFiles s.world).1
  · exact ⟨(job.AttributeTargets (job.bIsRepairing env)).length, le_refl _, by simp,
      fun _ => rfl⟩
  · simp only [if_true]
    have hmt : (RunBackupAndMove env job
        (SetStateProgress EBuildPatchProgress.Installing 1
          (SetStateProgress EBuildPatchProgress.Downloading 1
            (SetStateProgress EBuildPatchProgress.PrerequisitesInstall
              (if pre = true then 0 else 1)
              (RunInstallation env job s.CorruptFiles s.world).2)))).2.trace.filter
          Event.isAttributeWrite = s.world.trace.filter Event.isAttributeWrite := by
      simp
    have hme := RunBackupAndMove_true env job
        (SetStateProgress EBuildPatchProgress.Installing 1
          (SetStateProgress EBuildPatchProgress.Downloading 1
            (SetStateProgress EBuildPatchProgress.PrerequisitesInstall
              (if pre = true then 0 else 1)
              (RunInstallation env job s.CorruptFiles s.world).2)))
    generalize RunBackupAndMove env job
      (SetStateProgress EBuildPatchProgress.Installing 1
        (SetStateProgress EBuildPatchProgress.Downloading 1
          (SetStateProgress EBuildPatchProgress.PrerequisitesInstall (if pre = true then 0 else 1)
            (RunInstallation env job s.CorruptFiles s.world).2))) = m at hmt hme ⊢
    obtain ⟨mb, mw⟩ := m
    cases mb
    · refine ⟨(job.AttributeTargets (job.bIsRepairing env)).length, le_refl _, ?_, fun _ => rfl⟩
      simpa using hmt
    · obtain ⟨n, hn, ht, hq⟩ := RunFileAttributes_attributeWrites env job
        (job.bIsRepairing env) mw
      refine ⟨n, hn, ?_, ?_⟩
      · simp only [RunFileAttributes_fst, if_true]
        simp only [Logf, ext_trace, SetStateProgress_trace, DeleteDirectory_trace,
          List.filter_append, RunVerification_attributeWrites, ht]
        dsimp only at hmt
        rw [hmt]
        simp [Event.isAttributeWrite]
      · intro hquiet
        apply hq hquiet
        obtain ⟨w1, hw1, hmw⟩ := hme rfl
        dsimp only at hmw
        rw [hmw]
        simp only [HasFatalError, bne_eq_false_iff_eq, Logf]
        rw [ext_ErrorState_of_quiet env hquiet, hw1]

end AttributeWriteCalls

/-! ## The end of an attempt and the marker file -/

theorem ext_getLast (env : Env) (e : Event) (w : World) :
    (ext env e w).trace.getLast? = some e := by
  rw [ext_trace, List.getLast?_concat]

/-- The call that ends `RunInstallation` is a log line. -/
theorem RunInstallation_getLast (env : Env) (job : Job) (CorruptFiles : List String)
    (w : World) :
    ∃ text, (RunInstallation env job CorruptFiles w).2.trace.getLast? =
      some (Event.Log text) := by
  rw [RunInstallation_eq]
  split
  · exact ⟨"BuildPatchServices: Detected previous staging completed",
      by simp [RunInstallation.skip, Logf]⟩
  · refine ⟨"BuildPatchServices: Staged install complete", ?_⟩
    unfold RunInstallation.construct
    dsimp only
    unfold RunInstallation.recordStats
    exact ext_getLast env _ _

/-- The call that ends `RunBackupAndMove` is a log line. -/
theorem RunBackupAndMove_getLast (env : Env) (job : Job) (w : World) :
    (RunBackupAndMove env job w).2.trace.getLast? =
      some (Event.Log "BuildPatchServices: Relocation complete") := by
  unfold RunBackupAndMove
  exact ext_getLast env _ _

/-- The end of a pass through the retry loop (source lines 246 to 255): when the pass succeeded
or a retry is allowed, the trace ends with the log line `Reset MM` and the call of `Delete` on
the marker file; otherwise the last call of the pass is no deletion: it is the deletion of the
staging directory or the log line that ends the last phase that ran. -/
theorem Run.attempt_getLast (env : Env) (job : Job) (pre : Bool) (k : Int) (s : RunState) :
    (((Run.attempt env job pre k s).bProcessSuccess || (Run.attempt env job pre k s).bCanRetry)
        = true →
      [Event.Log "BuildPatchServices: Reset MM", Event.Delete job.PreviousMoveMarker] <:+
        (Run.attempt env job pre k s).world.trace) ∧
    (((Run.attempt env job pre k s).bProcessSuccess || (Run.attempt env job pre k s).bCanRetry)
        = false →
      ∃ e, (Run.attempt env job pre k s).world.trace.getLast? = some e ∧
        e.isDelete = false) := by
  constructor
  · intro hc
    dsimp only [Run.attempt] at hc ⊢
    rw [if_pos hc]
    simp only [Delete_trace, Logf, ext_trace, List.append_assoc, List.singleton_append]
    exact List.suffix_append _ _
  · intro hc
    dsimp only [Run.attempt] at hc ⊢
    rw [if_neg (by rw [hc]; decide)]
    clear hc
    simp only [SetStateProgress_trace]
    cases hi : (RunInstallation env job s.CorruptFiles s.world).1
    · obtain ⟨text, ht⟩ := RunInstallation_getLast env job s.CorruptFiles s.world
      simp only [Bool.false_eq_true, if_false, SetStateProgress_trace]
      exact ⟨_, ht, rfl⟩
    · simp only [if_true]
      have hl := RunBackupAndMove_getLast env job
        (SetStateProgress EBuildPatchProgress.Installing 1
          (SetStateProgress EBuildPatchProgress.Downloading 1
            (SetStateProgress EBuildPatchProgress.PrerequisitesInstall
              (if pre = true then 0 else 1)
              (RunInstallation env job s.CorruptFiles s.world).2)))
      generalize RunBackupAndMove env job
        (SetStateProgress EBuildPatchProgress.Installing 1
          (SetStateProgress EBuildPatchProgress.Downloading 1
            (SetStateProgress EBuildPatchProgress.PrerequisitesInstall
              (if pre = true then 0 else 1)
              (RunInstallation env job s.CorruptFiles s.world).2))) = m at hl ⊢
      obtain ⟨mb, mw⟩ := m
      cases mb
      · simp only [Bool.false_eq_true, if_false, SetStateProgress_trace]
        exact ⟨_, hl, rfl⟩
      · simp only [RunFileAttributes_fst, if_true, DeleteDirectory_trace]
        exact ⟨_, List.getLast?_concat _, rfl⟩

/-- When the retry loop ends, the last pass has succeeded or allows no retry. -/
theorem Run.loop_exit (env : Env) (job : Job) (pre : Bool) :
    ∀ (n : Nat) (s : RunState),
      (Run.loop env job pre n s).bProcessSuccess = true ∨
        (Run.loop env job pre n s).bCanRetry = false := by
  intro n
  induction n with
  | zero =>
    intro s
    right
    show (Run.attempt env job pre (-1) s).bCanRetry = false
    simp [Run.attempt]
  | succ n ih =>
    intro s
    unfold Run.loop
    dsimp only
    split
    · exact ih _
    · rename_i hc
      cases hp : (Run.attempt env job pre n s).bProcessSuccess
      · right
        simpa [hp] using hc
      · exact Or.inl rfl

/-- After a retry loop that ended in failure, the last call of the loop is no deletion. -/
theorem Run.loop_getLast (env : Env) (job : Job) (pre : Bool) (n : Nat) (s : RunState)
    (hf : (Run.loop env job pre n s).bProcessSuccess = false) :
    ∃ e, (Run.loop env job pre n s).world.trace.getLast? = some e ∧ e.isDelete = false := by
  obtain ⟨last, _, hT⟩ := Run.loop_last env job pre
    (fun _ st => (st.bProcessSuccess || st.bCanRetry) = false →
      ∃ e, st.world.trace.getLast? = some e ∧ e.isDelete = false)
    (fun k s => ⟨_, rfl, (Run.attempt_getLast env job pre k s).2⟩) n s
  apply hT
  rcases Run.loop_exit env job pre n s with h | h
  · rw [hf] at h; exact absurd h (by decide)
  · rw [hf, h]; rfl

/-- C3, refuted as stated: in this run the download fails, `RunInstallation` returns false, and
the attempt ends without `RunVerification` having been called: the history records no
verification result and the trace holds neither its log line nor the call of
`VerifyAgainstDirectory`. -/
theorem C3_counterexample :
    (Run downloadErrorEnv sampleJob (sampleWorld stagedDisk)).Attempts.map
        (fun a => (a.bRunInstallation, a.bRunVerification)) = [(false, none)] ∧
    Event.Log "BuildPatchServices: Verifying install" ∉
      (Run downloadErrorEnv sampleJob (sampleWorld stagedDisk)).world.trace ∧
    Event.VerifyAgainstDirectory "I" ∉
      (Run downloadErrorEnv sampleJob (sampleWorld stagedDisk)).world.trace := by
  decide

/-- C3, amended: in every attempt of the retry loop of `Run`, `RunVerification` is executed if and
only if `RunInstallation` and `RunBackupAndMove` of that attempt returned true; when it is
executed, the corrupt-file list of the attempt is the one that verification produced, and when it
is not executed that list is empty; in both cases it is the list carried to the next attempt.
In the trace of the run, attempt by attempt: after the log line that opens `RunInstallation`,
the log line that opens `RunBackupAndMove` is there exactly when `RunInstallation` returned
true, and the log line that opens `RunVerification` and its call of `VerifyAgainstDirectory`
are there, once, exactly when `RunBackupAndMove` returned true. -/
theorem C3_verification_amended (env : Env) (job : Job) (w : World) :
    (∀ a ∈ (Run env job w).Attempts,
      (a.bRunVerification.isSome = true ↔
        a.bRunInstallation = true ∧ a.bRunBackupAndMove = some true) ∧
      (a.bRunVerification = none → a.CorruptFilesOut = []) ∧
      (a.bRunVerification.isSome = true → ∃ wv,
        a.bRunVerification = some (RunVerification env job [] wv).1 ∧
          a.CorruptFilesOut = (RunVerification env job [] wv).2.1)) ∧
    List.Chain' (fun a b => b.CorruptFilesIn = a.CorruptFilesOut) (Run env job w).Attempts ∧
    (Run env job w).world.trace.filter Event.isPhaseMark =
      w.trace.filter Event.isPhaseMark ++
        (Run env job w).Attempts.flatMap (fun a =>
          [Event.Log "BuildPatchServices: Starting Installation"] ++
            (if a.bMarkerAtStart then
              [Event.Log "BuildPatchServices: Detected previous staging completed"] else []) ++
            (if a.bRunInstallation then
              [Event.Log "BuildPatchServices: Running backup and stage relocation"] else []) ++
            (if a.bRunBackupAndMove = some true then
              [Event.Log "BuildPatchServices: Verifying install",
                Event.VerifyAgainstDirectory job.InstallDirectory]
              else []) ++
            (if a.bMarkerDeleted then [Event.Log "BuildPatchServices: Reset MM"] else [])) := by
  refine ⟨?_, ?_, Run_phaseMarks env job w⟩
  · rw [Run.eq_finish, Run.finish_Attempts]
    exact Run.loop_forall env job _ _ (Run.attempt_verification env job _) 5 _ (by simp)
  · rw [Run.eq_finish, Run.finish_Attempts]
    exact Run.loop_chain env job _ 5 _ (by simp) (by simp)

set_option maxRecDepth 100000 in
/-- C3 amended, at concrete inputs.  Verification finds `fileB` corrupt in every attempt: each
of the five attempts runs `RunBackupAndMove` and then verification, once, and the list it
produces is the list handed to the next `RunInstallation`.  When the download fails, the trace
of the only attempt holds the start of `RunInstallation` and no start of another phase. -/
theorem C3_witness :
    (Run (sampleEnv ["fileB"]) sampleJob (sampleWorld stagedDisk)).Attempts.map
        (fun a => (a.CorruptFilesIn, a.bRunBackupAndMove, a.bRunVerification,
          a.CorruptFilesOut)) =
      [([], some true, some false, ["fileB"]), (["fileB"], some true, some false, ["fileB"]),
        (["fileB"], some true, some false, ["fileB"]),
        (["fileB"], some true, some false, ["fileB"]),
        (["fileB"], some true, some false, ["fileB"])] ∧
    List.Chain' (fun a b => b.CorruptFilesIn = a.CorruptFilesOut)
      (Run (sampleEnv ["fileB"]) sampleJob (sampleWorld stagedDisk)).Attempts ∧
    ((Run (sampleEnv ["fileB"]) sampleJob (sampleWorld stagedDisk)).world.trace.filter
        Event.isPhaseMark).take 9 =
      [Event.Log "BuildPatchServices: Starting Installation",
        Event.Log "BuildPatchServices: Running backup and stage relocation",
        Event.Log "BuildPatchServices: Verifying install", Event.VerifyAgainstDirectory "I",
        Event.Log "BuildPatchServices: Reset MM",
        Event.Log "BuildPatchServices: Starting Installation",
        Event.Log "BuildPatchServices: Running backup and stage relocation",
        Event.Log "BuildPatchServices: Verifying install", Event.VerifyAgainstDirectory "I"] ∧
    (Run (sampleEnv ["fileB"]) sampleJob (sampleWorld stagedDisk)).world.trace.count
      (Event.VerifyAgainstDirectory "I") = 5 ∧
    (Run downloadErrorEnv sampleJob (sampleWorld stagedDisk)).world.trace.filter
        Event.isPhaseMark = [Event.Log "BuildPatchServices: Starting Installation"] :=
  ⟨by decide,
    (C3_verification_amended (sampleEnv ["fileB"]) sampleJob (sampleWorld stagedDisk)).2.1,
    by decide, by decide, by decide⟩

/-! ## The attribute pass that `Run` calls -/

set_option maxRecDepth 100000 in
/-- C10, refuted as stated: in this repair run the attribute pass is forced, but the user cancels
while the read-only flag of `fileA` is cleared; the loop over the files breaks at `fileB`, to
which `SetupFileAttributes` is not applied: no attribute call for `I/fileB` is in the trace. -/
theorem C10_counterexample :
    repairJob.bIsRepairing cancelDuringAttributesEnv = true ∧
    (Run cancelDuringAttributesEnv repairJob (sampleWorld installedDisk)).Attempts.map
        (fun a => a.bForceFileAttributes) = [some true] ∧
    sampleManifest.GetFileList = ["fileA", "fileB"] ∧
    (Run cancelDuringAttributesEnv repairJob (sampleWorld installedDisk)).world.ErrorState =
      EBuildPatchInstallError.UserCanceled ∧
    (Run cancelDuringAttributesEnv repairJob (sampleWorld installedDisk)).world.trace.filter
        Event.isAttributeWrite =
      [Event.SetReadOnly "I/fileA" false, Event.SetFileCompressionFlag "I/fileA" false,
        Event.SetReadOnly "I/fileA" false] := by
  decide

/-- C10, amended: `bIsRepairing` holds exactly for the jobs whose current manifest is valid and is
the same as the target manifest, and every call of `RunFileAttributes` made by `Run` has
`bForce = bIsRepairing`: forced for those jobs, not forced for every other job.  In the trace:
a pass through the retry loop writes attributes only when `RunBackupAndMove` returned true, and
then its attribute writes are those of `SetupFileAttributes` for the files of the pass, in
order, up to the first file at which a fatal error is present, and for all of them when no
error is raised.  The files of a forced pass are all files of the target manifest, whatever
their attribute flags, and none for removed attributes; each file of a pass that is not forced
is a file of the target manifest that has an attribute flag, or a file of the current manifest
whose read-only or compression flag the target manifest clears.  A forced call
of `RunFileAttributes` applies `SetupFileAttributes` to the files of the target manifest in
order, up to the first file at which a fatal error is present, and to every file when no error
is raised during the pass. -/
theorem C10_repair_forces_attributes (env : Env) (job : Job) (w : World) :
    (job.bIsRepairing env = true ↔
      ∃ cur, job.CurrentBuildManifest = some cur ∧ env.IsSameAs cur job.NewBuildManifest = true) ∧
    (∀ a ∈ (Run env job w).Attempts, ∀ b, a.bForceFileAttributes = some b →
      b = job.bIsRepairing env) ∧
    (∀ (pre : Bool) (k : Int) (s : RunState) (rec : AttemptRecord),
      (Run.attempt env job pre k s).Attempts = s.Attempts ++ [rec] →
      ∃ n, n ≤ (job.AttributeTargets (job.bIsRepairing env)).length ∧
        (Run.attempt env job pre k s).world.trace.filter Event.isAttributeWrite =
          s.world.trace.filter Event.isAttributeWrite ++
            (if rec.bRunBackupAndMove = some true then
              ((job.AttributeTargets (job.bIsRepairing env)).take n).flatMap
                (fun t => AttributeWrites t.1 t.2)
            else []) ∧
        ((∀ x, env.Raise x = none) →
          n = (job.AttributeTargets (job.bIsRepairing env)).length)) ∧
    job.AttributeTargets true =
      job.NewBuildManifest.FileManifestList.map
        (fun f => (pathCombine job.InstallDirectory f.Filename, f)) ∧
    (job.bIsRepairing env = false → ∀ t ∈ job.AttributeTargets (job.bIsRepairing env),
      (t.1 = pathCombine job.InstallDirectory t.2.Filename ∧
          t.2 ∈ job.NewBuildManifest.FileManifestList ∧
          (t.2.bIsReadOnly || t.2.bIsCompressed || t.2.bIsUnixExecutable) = true) ∨
        ∃ cur old, job.CurrentBuildManifest = some cur ∧ old ∈ cur.FileManifestList ∧
          t.1 = pathCombine job.InstallDirectory old.Filename ∧
          job.NewBuildManifest.GetFileManifest old.Filename = some t.2 ∧
          ((old.bIsReadOnly && !t.2.bIsReadOnly) || (old.bIsCompressed && !t.2.bIsCompressed))
            = true) ∧
    (∀ w', RunFileAttributes env job true w' =
      (true, ForcedAttributePass env job job.NewBuildManifest.FileManifestList w')) ∧
    (∀ w', (∀ x, env.Raise x = none) → w'.ErrorState = EBuildPatchInstallError.NoError →
      (RunFileAttributes env job true w').2 =
        job.NewBuildManifest.FileManifestList.foldl (fun w f =>
          SetupFileAttributes env (pathCombine job.InstallDirectory f.Filename) f w) w') := by
  refine ⟨?_, ?_, fun pre k s rec h => Run.attempt_attributeWrites env job pre k s rec h, ?_, ?_,
    RunFileAttributes_forced env job, ?_⟩
  rotate_left 4
  · intro w' hq hw
    rw [RunFileAttributes_forced]
    exact ForcedAttributePass_of_quiet env job hq _ w' hw
  · unfold Job.bIsRepairing
    cases job.CurrentBuildManifest <;> simp
  · rw [Run.eq_finish, Run.finish_Attempts]
    exact Run.loop_forall env job _ _ (Run.attempt_force env job _) 5 _ (by simp)
  · simp [Job.AttributeTargets]
  · intro hr t ht
    rw [hr] at ht
    unfold Job.AttributeTargets at ht
    simp only [Bool.or_false, Bool.not_false, if_true, List.mem_append, List.mem_map,
      List.mem_filter] at ht
    rcases ht with ⟨f, ⟨hf, hattr⟩, rfl⟩ | ht
    · exact Or.inl ⟨rfl, hf, hattr⟩
    · right
      cases hcur : job.CurrentBuildManifest with
      | none => simp [hcur] at ht
      | some cur =>
        simp only [hcur, List.mem_filterMap] at ht
        obtain ⟨old, hold, hsome⟩ := ht
        cases hg : job.NewBuildManifest.GetFileManifest old.Filename with
        | none => simp [hg] at hsome
        | some nf =>
          simp only [hg] at hsome
          split at hsome
          · rename_i hc
            cases hsome
            exact ⟨cur, old, rfl, hold, rfl, hg, hc⟩
          · cases hsome

set_option maxRecDepth 100000 in
/-- C10 amended, at concrete inputs: a repair run in which nothing is raised; the pass is forced
and the attribute writes of the only attempt are those of `SetupFileAttributes` for `fileA`,
which has no attribute flag, and for `fileB`.  In the first installation of the same manifest
the pass is not forced and `fileA` gets no attribute write. -/
theorem C10_witness :
    (Run (sampleEnv []) repairJob (sampleWorld installedDisk)).Attempts.map
        (fun a => a.bForceFileAttributes) = [some true] ∧
    (∃ n, n ≤ (repairJob.AttributeTargets (repairJob.bIsRepairing (sampleEnv []))).length ∧
      (Run.attempt (sampleEnv []) repairJob false 4
          (sampleState (sampleWorld installedDisk))).world.trace.filter Event.isAttributeWrite =
        (sampleState (sampleWorld installedDisk)).world.trace.filter Event.isAttributeWrite ++
          (if (some true : Option Bool) = some true then
            ((repairJob.AttributeTargets (repairJob.bIsRepairing (sampleEnv []))).take n).flatMap
              (fun t => AttributeWrites t.1 t.2)
          else []) ∧
      ((∀ x, (sampleEnv []).Raise x = none) →
        n = (repairJob.AttributeTargets (repairJob.bIsRepairing (sampleEnv []))).length)) ∧
    (Run (sampleEnv []) repairJob (sampleWorld installedDisk)).world.trace.filter
        Event.isAttributeWrite =
      [Event.SetReadOnly "I/fileA" false, Event.SetFileCompressionFlag "I/fileA" false,
        Event.SetReadOnly "I/fileA" false,
        Event.SetReadOnly "I/fileB" false, Event.SetFileCompressionFlag "I/fileB" false,
        Event.SetReadOnly "I/fileB" true] ∧
    (Run (sampleEnv []) sampleJob (sampleWorld stagedDisk)).world.trace.filter
        Event.isAttributeWrite =
      [Event.SetReadOnly "I/fileB" false, Event.SetFileCompressionFlag "I/fileB" false,
        Event.SetReadOnly "I/fileB" true] := by
  obtain ⟨rec, h, _⟩ := Run.attempt_record (sampleEnv []) repairJob false 4
    (sampleState (sampleWorld installedDisk))
  have hm : rec.bRunBackupAndMove = some true := by
    have h1 : (Run.attempt (sampleEnv []) repairJob false 4
        (sampleState (sampleWorld installedDisk))).Attempts.map
          (fun a => a.bRunBackupAndMove) = [some true] := by decide
    rw [h] at h1
    simpa [sampleState] using h1
  have := (C10_repair_forces_attributes (sampleEnv []) repairJob
    (sampleWorld installedDisk)).2.2.1 false 4 (sampleState (sampleWorld installedDisk)) rec h
  rw [hm] at this
  exact ⟨by decide, this, by decide, by decide⟩

/-! ## The lists that an attempt hands over -/

section HandOverCalls

variable (env : Env)

@[simp]
theorem backupIfEdited_handOvers (job : Job) (f : String) (b : Bool) (w : World) :
    (BackupFileIfNecessary.backupIfEdited env job f b w).2.trace.filter Event.isHandOver =
      w.trace.filter Event.isHandOver := by
  unfold BackupFileIfNecessary.backupIfEdited
  dsimp only
  repeat' split
  all_goals simp [Logf, Event.isHandOver]

@[simp]
theorem BackupFileIfNecessary_handOvers (job : Job) (f : String) (b : Bool) (w : World) :
    (BackupFileIfNecessary env job f b w).2.trace.filter Event.isHandOver =
      w.trace.filter Event.isHandOver := by
  unfold BackupFileIfNecessary
  dsimp only
  repeat' split
  all_goals simp [Logf, Event.isHandOver]

@[simp]
theorem SetupFileAttributes_handOvers (p : String) (f : FFileManifestData) (w : World) :
    (SetupFileAttributes env p f w).trace.filter Event.isHandOver =
      w.trace.filter Event.isHandOver := by
  unfold SetupFileAttributes
  dsimp only
  repeat' split
  all_goals simp [Logf, Event.isHandOver]

@[simp]
theorem applyLoop_handOvers (job : Job) (bForce : Bool) :
    ∀ (l : List FFileManifestData) (w : World),
      (RunFileAttributes.applyLoop env job bForce l w).trace.filter Event.isHandOver =
        w.trace.filter Event.isHandOver := by
  intro l
  induction l with
  | nil => intro w; rfl
  | cons f rest ih =>
    intro w
    unfold RunFileAttributes.applyLoop
    dsimp only
    repeat' split
    all_goals simp [ih]

@[simp]
theorem removedLoop_handOvers (job : Job) :
    ∀ (l : List FFileManifestData) (w : World),
      (RunFileAttributes.removedLoop env job l w).trace.filter Event.isHandOver =
        w.trace.filter Event.isHandOver := by
  intro l
  induction l with
  | nil => intro w; rfl
  | cons f rest ih =>
    intro w
    unfold RunFileAttributes.removedLoop
    dsimp only
    repeat' split
    all_goals simp [ih]

@[simp]
theorem RunFileAttributes_handOvers (job : Job) (bForce : Bool) (w : World) :
    (RunFileAttributes env job bForce w).2.trace.filter Event.isHandOver =
      w.trace.filter Event.isHandOver := by
  unfold RunFileAttributes
  dsimp only
  split <;> simp

@[simp]
theorem cleanLoop_handOvers (job : Job) :
    ∀ (l : List String) (w : World),
      (RunVerification.cleanLoop env job l w).trace.filter Event.isHandOver =
        w.trace.filter Event.isHandOver := by
  intro l
  induction l with
  | nil => intro w; rfl
  | cons f rest ih =>
    intro w
    unfold RunVerification.cleanLoop
    simp [ih, Event.isHandOver]

@[simp]
theorem RunVerification_verify_handOvers (job : Job) (CorruptFiles : List String) (w : World) :
    (RunVerification.verify env job CorruptFiles w).2.2.trace.filter Event.isHandOver =
      w.trace.filter Event.isHandOver := by
  unfold RunVerification.verify
  dsimp only
  split <;> simp [Logf, Event.isHandOver]

@[simp]
theorem RunVerification_handOvers (job : Job) (CorruptFiles : List String) (w : World) :
    (RunVerification env job CorruptFiles w).2.2.trace.filter Event.isHandOver =
      w.trace.filter Event.isHandOver := by
  unfold RunVerification
  dsimp only
  split <;> simp [Logf, Event.isHandOver]

@[simp]
theorem retryBody_handOvers (f d s : String) (w : World) :
    (RunBackupAndMove.retryBody env f d s w).2.trace.filter Event.isHandOver =
      w.trace.filter Event.isHandOver := by
  unfold RunBackupAndMove.retryBody
  dsimp only
  split <;> simp [Logf, Event.isHandOver]

@[simp]
theorem retryLoop_handOvers (f d s : String) :
    ∀ (n : Nat) (w : World),
      (RunBackupAndMove.retryLoop env f d s n w).2.trace.filter Event.isHandOver =
        w.trace.filter Event.isHandOver := by
  intro n
  induction n using Nat.strong_induction_on with
  | _ n ih =>
    intro w
    match n with
    | 0 => rfl
    | 1 => simp [RunBackupAndMove.retryLoop]
    | m + 2 =>
      unfold RunBackupAndMove.retryLoop
      dsimp only
      split
      · simp
      · rw [ih m (by omega)]; simp

@[simp]
theorem removeLoop_handOvers (job : Job) :
    ∀ (l : List String) (w : World),
      (RunBackupAndMove.removeLoop env job l w).trace.filter Event.isHandOver =
        w.trace.filter Event.isHandOver := by
  intro l
  induction l with
  | nil => intro w; rfl
  | cons f rest ih =>
    intro w
    unfold RunBackupAndMove.removeLoop
    simp [ih, Logf, Event.isHandOver]

@[simp]
theorem moveLoop_handOvers (job : Job) (x : ℚ) :
    ∀ (l : List String) (i : Nat) (b : Bool) (w : World),
      (RunBackupAndMove.moveLoop env job x l i b w).2.trace.filter Event.isHandOver =
        w.trace.filter Event.isHandOver := by
  intro l
  induction l with
  | nil => intro i b w; rfl
  | cons f rest ih =>
    intro i b w
    unfold RunBackupAndMove.moveLoop
    dsimp only
    repeat' split
    all_goals simp [ih, Logf, Event.isHandOver]

@[simp]
theorem relocate_handOvers (job : Job) (w : World) :
    (RunBackupAndMove.relocate env job w).2.trace.filter Event.isHandOver =
      w.trace.filter Event.isHandOver := by
  unfold RunBackupAndMove.relocate
  dsimp only
  split <;> simp

@[simp]
theorem RunBackupAndMove_handOvers (job : Job) (w : World) :
    (RunBackupAndMove env job w).2.trace.filter Event.isHandOver =
      w.trace.filter Event.isHandOver := by
  unfold RunBackupAndMove
  dsimp only
  split <;> simp [Logf, Event.isHandOver]

/-- The deletion of the marker at the end of a pass hands no list over. -/
theorem Run.resetMarker_handOvers (job : Job) (c : Bool) (x : World) :
    (if c = true then
        (Delete env job.PreviousMoveMarker (Logf env "BuildPatchServices: Reset MM" x)).2
      else x).trace.filter Event.isHandOver =
      x.trace.filter Event.isHandOver := by
  cases c <;> simp [Logf, Event.isHandOver]

/-- The lists that a pass through the retry loop hands over are those that its
`RunInstallation` hands over. -/
theorem Run.attempt_handOvers (job : Job) (pre : Bool) (k : Int) (s : RunState) :
    (Run.attempt env job pre k s).world.trace.filter Event.isHandOver =
      (RunInstallation env job s.CorruptFiles s.world).2.trace.filter Event.isHandOver := by
  dsimp only [Run.attempt]
  simp only [Run.resetMarker_handOvers]
  cases hi : (RunInstallation env job s.CorruptFiles s.world).1
  · simp
  · simp only [if_true]
    have hmt : (RunBackupAndMove env job
        (SetStateProgress EBuildPatchProgress.Installing 1
          (SetStateProgress EBuildPatchProgress.Downloading 1
            (SetStateProgress EBuildPatchProgress.PrerequisitesInstall
              (if pre = true then 0 else 1)
              (RunInstallation env job s.CorruptFiles s.world).2)))).2.trace.filter
          Event.isHandOver =
        (RunInstallation env job s.CorruptFiles s.world).2.trace.filter Event.isHandOver := by
      simp
    generalize RunBackupAndMove env job
      (SetStateProgress EBuildPatchProgress.Installing 1
        (SetStateProgress EBuildPatchProgress.Downloading 1
          (SetStateProgress EBuildPatchProgress.PrerequisitesInstall (if pre = true then 0 else 1)
            (RunInstallation env job s.CorruptFiles s.world).2))) = m at hmt ⊢
    obtain ⟨mb, mw⟩ := m
    cases mb
    · simpa using hmt
    · simp only [RunFileAttributes_fst, if_true]
      simp only [Logf, ext_trace, SetStateProgress_trace, DeleteDirectory_trace,
        List.filter_append, RunVerification_handOvers, RunFileAttributes_handOvers]
      dsimp only at hmt
      rw [hmt]
      simp [Event.isHandOver]

end HandOverCalls

/-! ## The corrupt files after verification -/

set_option maxRecDepth 100000 in
/-- C12, refuted as stated: `fileA` is staged, verification finds `fileB` corrupt in every
attempt, and the file system does not carry out the deletion of the marker file.  The first
attempt creates the marker, leaves the list `fileB` and is followed by a retry; the deletion of
the marker is issued, but the marker stays, so the second `RunInstallation` takes its
short-circuit: the run hands lists over in its first attempt only, and the list `fileB` reaches
neither the chunk cache nor the file constructor. -/
theorem C12_counterexample :
    ((Run stuckMarkerEnv sampleJob (sampleWorld stagedDisk)).Attempts.map
        (fun a => (a.CorruptFilesIn, a.bMarkerAtStart, a.bCanRetry, a.CorruptFilesOut))).take 2 =
      [([], false, true, ["fileB"]), (["fileB"], true, true, ["fileB"])] ∧
    Event.Delete "I/$movedMarker" ∈
      (Run stuckMarkerEnv sampleJob (sampleWorld stagedDisk)).world.trace ∧
    (Run stuckMarkerEnv sampleJob (sampleWorld stagedDisk)).world.trace.filter
        Event.isHandOver =
      [Event.GetOutdatedFiles, Event.ChunkCacheInit [], Event.FileConstructorCreate []] := by
  decide

/-- C12, amended: the clean-up at the end of `RunVerification`, for every result of the
verification.  If the error state after the verification is not 'user cancelled', then for every
path of the corrupt-file list, in order, `BackupFileIfNecessary(path, true)` is called and the
deletion of the file from the install directory and from the install-staging directory is
issued; when the file system carries out the deletions (and no backup path is a path of a
corrupt file) none of these files is left in either directory.  If the error state is 'user
cancelled', nothing is backed up or deleted: the disk is as before and the only calls are the
two log lines and the verification.  When no marker file is on disk at its start, the next pass
through the retry loop hands one list to the chunk cache and to the file constructor, and
nothing else: the list that the pass before it has left, when that list names a file, and the
outdated files, which it then computes, when that list is empty.  A list that a pass leaves and
that names a file is the list its verification produced, and the marker file is gone when the
pass allows a retry and the file system carries out the deletion of the marker. -/
theorem C12_verification_cleanup_amended (env : Env) (job : Job) (CorruptFiles : List String)
    (w : World) :
    ((RunVerification.verify env job CorruptFiles w).2.2.ErrorState ≠
        EBuildPatchInstallError.UserCanceled →
      (RunVerification env job CorruptFiles w).2.2 =
        Logf env "BuildPatchServices: Verify stage complete"
          (CorruptFilesCleanUp env job w.InstallStagingDir
            (RunVerification env job CorruptFiles w).2.1
            (RunVerification.verify env job CorruptFiles w).2.2) ∧
      ((∀ x p, env.DeleteOk x p = true) →
        (env.GetBackupDirectory.isEmpty = false →
          ∀ g ∈ (RunVerification env job CorruptFiles w).2.1,
          ∀ f ∈ (RunVerification env job CorruptFiles w).2.1,
            pathCombine env.GetBackupDirectory g ≠ pathCombine job.InstallDirectory f ∧
              pathCombine env.GetBackupDirectory g ≠ pathCombine w.InstallStagingDir f) →
        ∀ f ∈ (RunVerification env job CorruptFiles w).2.1,
          (RunVerification env job CorruptFiles w).2.2.disk
              (pathCombine job.InstallDirectory f) = none ∧
            (RunVerification env job CorruptFiles w).2.2.disk
              (pathCombine w.InstallStagingDir f) = none)) ∧
    ((RunVerification.verify env job CorruptFiles w).2.2.ErrorState =
        EBuildPatchInstallError.UserCanceled →
      (RunVerification env job CorruptFiles w).2.2.disk = w.disk ∧
      (RunVerification env job CorruptFiles w).2.2.trace =
        w.trace ++ [Event.Log "BuildPatchServices: Verifying install",
          Event.VerifyAgainstDirectory job.InstallDirectory,
          Event.Log "BuildPatchServices: Verify stage complete"]) ∧
    (∀ (pre : Bool) (k k' : Int) (s : RunState),
      (Run.attempt env job pre k s).world.disk job.PreviousMoveMarker = none →
      ∃ F : List String,
        (Run.attempt env job pre k' (Run.attempt env job pre k s)).world.trace.filter
            Event.isHandOver =
          (Run.attempt env job pre k s).world.trace.filter Event.isHandOver ++
            (if (Run.attempt env job pre k s).CorruptFiles = [] then [Event.GetOutdatedFiles]
              else []) ++
            (if job.bIsChunkData then [Event.ChunkCacheInit F] else []) ++
            [Event.FileConstructorCreate F] ∧
        ((Run.attempt env job pre k s).CorruptFiles ≠ [] →
          F = (Run.attempt env job pre k s).CorruptFiles) ∧
        ((Run.attempt env job pre k s).CorruptFiles = [] →
          F = env.GetOutdatedFiles
            (RunInstallation.entry env job (Run.attempt env job pre k s).world)
            job.CurrentBuildManifest job.NewBuildManifest job.InstallDirectory)) ∧
    (∀ (pre : Bool) (k : Int) (s : RunState),
      (Run.attempt env job pre k s).CorruptFiles ≠ [] →
      ∃ wv, (Run.attempt env job pre k s).CorruptFiles = (RunVerification env job [] wv).2.1) ∧
    (∀ (pre : Bool) (k : Int) (s : RunState),
      (∀ x, env.DeleteOk x job.PreviousMoveMarker = true) →
      (Run.attempt env job pre k s).bCanRetry = true →
      (Run.attempt env job pre k s).world.disk job.PreviousMoveMarker = none) := by
  refine ⟨?_, ?_, ?_, ?_, ?_⟩
  · intro hne
    have hc : IsInstallationCancelled (RunVerification.verify env job CorruptFiles w).2.2 =
        false := by
      simpa [IsInstallationCancelled] using hne
    have hw : (RunVerification env job CorruptFiles w).2.2 =
        Logf env "BuildPatchServices: Verify stage complete"
          (CorruptFilesCleanUp env job w.InstallStagingDir
            (RunVerification env job CorruptFiles w).2.1
            (RunVerification.verify env job CorruptFiles w).2.2) := by
      unfold RunVerification
      dsimp only
      rw [hc]
      simp only [Bool.not_false, if_true]
      rw [RunVerification.cleanLoop_eq, RunVerification_verify_InstallStagingDir]
    refine ⟨hw, ?_⟩
    intro hd hsep f hf
    rw [hw]
    simp only [Logf, ext_disk]
    exact CorruptFilesCleanUp_disk env job w.InstallStagingDir hd _ _ hsep f hf
  · intro he
    have hc : IsInstallationCancelled (RunVerification.verify env job CorruptFiles w).2.2 =
        true := by
      simp [IsInstallationCancelled, he]
    unfold RunVerification
    dsimp only
    rw [hc]
    simp [Logf, RunVerification_verify_trace]
  · intro pre k k' s hm
    refine ⟨if (Run.attempt env job pre k s).CorruptFiles = [] then
        env.GetOutdatedFiles (RunInstallation.entry env job (Run.attempt env job pre k s).world)
          job.CurrentBuildManifest job.NewBuildManifest job.InstallDirectory
        else (Run.attempt env job pre k s).CorruptFiles, ?_, fun hne => by simp [hne],
        fun he => by simp [he]⟩
    rw [Run.attempt_handOvers,
      RunInstallation_handOver env job _ _ (by rw [hm]; rfl)]
  · intro pre k s hne
    obtain ⟨rec, h, _, hout, _⟩ := Run.attempt_record env job pre k s
    obtain ⟨_, hnone, hsome⟩ := Run.attempt_verification env job pre k s rec h
    rw [← hout] at hne ⊢
    cases hv : rec.bRunVerification with
    | none => exact absurd (hnone hv) hne
    | some b =>
      obtain ⟨wv, _, hl⟩ := hsome (by rw [hv]; rfl)
      exact ⟨wv, hl⟩
  · intro pre k s hok hc
    obtain ⟨rec, h, _, _, _, hcr, _⟩ := Run.attempt_record env job pre k s
    have hdel : rec.bMarkerDeleted = true := by
      rw [(Run.attempt_outcome env job pre k s rec h).2.2.2.2, hcr, hc]
      simp
    exact Run.attempt_marker_gone env job pre k s rec h hdel hok

set_option maxRecDepth 100000 in
/-- C12 amended, at concrete inputs: an update in which verification finds `fileC` corrupt, with
backups into `B` and nothing raised.  `RunVerification` moves the installed `fileC` to the backup
directory and leaves it neither in the install directory nor in the install-staging directory;
the first attempt leaves the list `fileC` and no marker file, and the second attempt hands that
list to the chunk cache and to the file constructor. -/
theorem C12_witness :
    (∀ f ∈ (RunVerification corruptEnv updateJob [] (sampleWorld corruptDisk)).2.1,
      (RunVerification corruptEnv updateJob [] (sampleWorld corruptDisk)).2.2.disk
          (pathCombine updateJob.InstallDirectory f) = none ∧
        (RunVerification corruptEnv updateJob [] (sampleWorld corruptDisk)).2.2.disk
          (pathCombine (sampleWorld corruptDisk).InstallStagingDir f) = none) ∧
    (RunVerification corruptEnv updateJob [] (sampleWorld corruptDisk)).2.1 = ["fileC"] ∧
    (RunVerification corruptEnv updateJob [] (sampleWorld corruptDisk)).2.2.disk "B/fileC" =
      some ⟨3, 9⟩ ∧
    (∃ F : List String,
      (Run.attempt corruptEnv updateJob false 3
          (Run.attempt corruptEnv updateJob false 4
            (sampleState (sampleWorld corruptDisk)))).world.trace.filter Event.isHandOver =
        (Run.attempt corruptEnv updateJob false 4
            (sampleState (sampleWorld corruptDisk))).world.trace.filter Event.isHandOver ++
          (if (Run.attempt corruptEnv updateJob false 4
              (sampleState (sampleWorld corruptDisk))).CorruptFiles = [] then
            [Event.GetOutdatedFiles] else []) ++
          (if updateJob.bIsChunkData then [Event.ChunkCacheInit F] else []) ++
          [Event.FileConstructorCreate F] ∧
      ((Run.attempt corruptEnv updateJob false 4
          (sampleState (sampleWorld corruptDisk))).CorruptFiles ≠ [] →
        F = (Run.attempt corruptEnv updateJob false 4
          (sampleState (sampleWorld corruptDisk))).CorruptFiles) ∧
      ((Run.attempt corruptEnv updateJob false 4
          (sampleState (sampleWorld corruptDisk))).CorruptFiles = [] →
        F = corruptEnv.GetOutdatedFiles
          (RunInstallation.entry corruptEnv updateJob
            (Run.attempt corruptEnv updateJob false 4
              (sampleState (sampleWorld corruptDisk))).world)
          updateJob.CurrentBuildManifest updateJob.NewBuildManifest
          updateJob.InstallDirectory)) ∧
    (Run.attempt corruptEnv updateJob false 4
      (sampleState (sampleWorld corruptDisk))).CorruptFiles = ["fileC"] ∧
    (Run.attempt corruptEnv updateJob false 4
      (sampleState (sampleWorld corruptDisk))).world.disk updateJob.PreviousMoveMarker = none ∧
    ((Run corruptEnv updateJob (sampleWorld corruptDisk)).world.trace.filter
        Event.isHandOver).take 5 =
      [Event.GetOutdatedFiles, Event.ChunkCacheInit [], Event.FileConstructorCreate [],
        Event.ChunkCacheInit ["fileC"], Event.FileConstructorCreate ["fileC"]] :=
  ⟨((C12_verification_cleanup_amended corruptEnv updateJob [] (sampleWorld corruptDisk)).1
      (by decide)).2 (fun _ _ => rfl) (by decide), by decide, by decide,
    (C12_verification_cleanup_amended corruptEnv updateJob [] (sampleWorld corruptDisk)).2.2.1
      false 4 3 (sampleState (sampleWorld corruptDisk)) (by decide),
    by decide,
    (C12_verification_cleanup_amended corruptEnv updateJob [] (sampleWorld corruptDisk)).2.2.2.2
      false 4 (sampleState (sampleWorld corruptDisk)) (fun _ => rfl) (by decide),
    by decide⟩

/-! ## An attempt that starts with the marker file: what it calls -/

/-- The loop over the removable files issues the deletion of every one of them. -/
theorem RunBackupAndMove.removeLoop_deletes (env : Env) (job : Job) :
    ∀ (l : List String) (w : World), ∀ f ∈ l,
      Event.Delete (pathCombine job.InstallDirectory f) ∈
        (RunBackupAndMove.removeLoop env job l w).trace := by
  intro l
  induction l with
  | nil => intro w f hf; simp at hf
  | cons g rest ih =>
    intro w f hf
    rw [RunBackupAndMove.removeLoop]
    rcases List.mem_cons.mp hf with rfl | hr
    · apply (removeLoop_appends env job rest _).subset
      simp [Logf]
    · exact ih _ f hr

/-- The relocation issues the deletion of every removable file. -/
theorem RunBackupAndMove.relocate_deletes (env : Env) (job : Job) (w : World) :
    ∀ f ∈ job.FilesToRemove env,
      Event.Delete (pathCombine job.InstallDirectory f) ∈
        (RunBackupAndMove.relocate env job w).2.trace := by
  intro f hf
  unfold RunBackupAndMove.relocate
  dsimp only
  have hd := RunBackupAndMove.removeLoop_deletes env job (job.FilesToRemove env)
    { w with BuildStats :=
        { w.BuildStats with NumFilesToRemove := (job.FilesToRemove env).length } } f hf
  have hm := moveLoop_appends env job (job.NewBuildManifest.GetFileList.length : ℚ)
    job.NewBuildManifest.GetFileList 0 false
    (SetStateProgress EBuildPatchProgress.MovingToInstall 0
      (RunBackupAndMove.removeLoop env job (job.FilesToRemove env)
        { w with BuildStats :=
            { w.BuildStats with NumFilesToRemove := (job.FilesToRemove env).length } }))
  have hmem := hm.subset (by simpa using hd)
  split
  · exact hmem
  · exact hmem

/-- Entered with no fatal error, `RunBackupAndMove` issues the deletion of every removable
file. -/
theorem RunBackupAndMove_deletes (env : Env) (job : Job) (w : World)
    (h : HasFatalError (Logf env "BuildPatchServices: Running backup and stage relocation" w)
      = false) :
    ∀ f ∈ job.FilesToRemove env,
      Event.Delete (pathCombine job.InstallDirectory f) ∈ (RunBackupAndMove env job w).2.trace := by
  intro f hf
  unfold RunBackupAndMove
  dsimp only
  rw [h]
  simp only [beq_self_eq_true, if_true, Logf, ext_trace, List.mem_append, List.mem_singleton,
    reduceCtorEq, or_false]
  exact RunBackupAndMove.relocate_deletes env job _ f hf

/-- With the marker file on disk, `RunInstallation` hands no list over. -/
theorem RunInstallation_handOver_of_marker (env : Env) (job : Job) (CorruptFiles : List String)
    (w : World) (h : (w.disk job.PreviousMoveMarker).isSome = true) :
    (RunInstallation env job CorruptFiles w).2.trace.filter Event.isHandOver =
      w.trace.filter Event.isHandOver := by
  rw [RunInstallation_eq, h]
  simp [RunInstallation.skip, RunInstallation.entry, FileExists, Logf, ErrorReset,
    Event.isHandOver]

set_option maxRecDepth 100000 in
/-- C20, refuted as stated: the marker file exists when the only attempt of this update starts,
a file `old` of the previous build is removable and `fileA` is still staged.  `RunInstallation`
returns true by its short-circuit, and `RunBackupAndMove` then backs up and deletes `old`,
writes the marker and moves `fileA` into the install directory, all before
`VerifyAgainstDirectory` is called. -/
theorem C20_counterexample :
    (Run removableEnv updateJob (sampleWorld markerDisk)).Attempts.map
        (fun a => (a.bMarkerAtStart, a.bRunInstallation, a.bRunBackupAndMove,
          a.bRunVerification)) = [(true, true, some true, some true)] ∧
    (Run removableEnv updateJob (sampleWorld markerDisk)).world.trace.filter
        (fun e => e.isFileChange || e == Event.VerifyAgainstDirectory "I") =
      [Event.Move "B/old" "I/old", Event.Delete "I/old",
        Event.CreateFileWriter "I/$movedMarker", Event.Move "I/fileA" "S/Install/fileA",
        Event.VerifyAgainstDirectory "I", Event.Delete "I/$movedMarker"] ∧
    (Run removableEnv updateJob (sampleWorld markerDisk)).world.disk "I/fileA" =
      some ⟨1, 7⟩ ∧
    (Run removableEnv updateJob (sampleWorld markerDisk)).world.disk "I/old" = none ∧
    (Run removableEnv updateJob (sampleWorld markerDisk)).world.disk "B/old" =
      some ⟨4, 4⟩ := by
  decide

/-- C20, amended: for every job, when the marker file exists at the start of an attempt,
`RunInstallation` returns true by its short-circuit, hands no list to the chunk cache or the
file constructor, and `RunBackupAndMove` is called as in any other attempt, before verification,
which runs if and only if `RunBackupAndMove` returns true: in the trace of the attempt the log
line of the short-circuit is followed by the log line that opens `RunBackupAndMove`, and the
attempt hands no list over.  `RunBackupAndMove` has no test of the marker: entered with no fatal
error it issues the deletion of every removable file; when it returns true, the staged content
of every target file that was staged (and not yet in `FilesInstalled`) is in the install
directory, provided no install, backup or marker path coincides with a staging or install path
of a target file; and it changes no file if the job has no removable file and no file of the
target manifest is in the install-staging directory. -/
theorem C20_resume_marker_amended (env : Env) (job : Job) (w : World) :
    (∀ a ∈ (Run env job w).Attempts, a.bMarkerAtStart = true →
      a.bRunInstallation = true ∧ a.bRunBackupAndMove.isSome = true ∧
        (a.bRunVerification.isSome = true ↔ a.bRunBackupAndMove = some true)) ∧
    (Run env job w).world.trace.filter Event.isPhaseMark =
      w.trace.filter Event.isPhaseMark ++
        (Run env job w).Attempts.flatMap (AttemptRecord.phaseMarks job) ∧
    (∀ (pre : Bool) (k : Int) (s : RunState) (rec : AttemptRecord),
      (Run.attempt env job pre k s).Attempts = s.Attempts ++ [rec] →
      (s.world.disk job.PreviousMoveMarker).isSome = true →
      (Run.attempt env job pre k s).world.trace.filter Event.isHandOver =
          s.world.trace.filter Event.isHandOver ∧
        (Run.attempt env job pre k s).world.trace.filter Event.isPhaseMark =
          s.world.trace.filter Event.isPhaseMark ++
            [Event.Log "BuildPatchServices: Starting Installation",
              Event.Log "BuildPatchServices: Detected previous staging completed",
              Event.Log "BuildPatchServices: Running backup and stage relocation"] ++
            (if rec.bRunBackupAndMove = some true then
              [Event.Log "BuildPatchServices: Verifying install",
                Event.VerifyAgainstDirectory job.InstallDirectory]
              else []) ++
            (if rec.bMarkerDeleted then [Event.Log "BuildPatchServices: Reset MM"] else [])) ∧
    (∀ x : World,
      HasFatalError (Logf env "BuildPatchServices: Running backup and stage relocation" x)
        = false →
      ∀ f ∈ job.FilesToRemove env,
        Event.Delete (pathCombine job.InstallDirectory f) ∈
          (RunBackupAndMove env job x).2.trace) ∧
    (∀ x : World,
      (∀ y ∈ job.FilesToRemove env ++ job.NewBuildManifest.GetFileList,
        ∀ f ∈ job.NewBuildManifest.GetFileList,
          pathCombine job.InstallDirectory y ≠ pathCombine x.InstallStagingDir f) →
      (env.GetBackupDirectory.isEmpty = false →
        ∀ y ∈ job.FilesToRemove env ++ job.NewBuildManifest.GetFileList,
        ∀ f ∈ job.NewBuildManifest.GetFileList,
          pathCombine env.GetBackupDirectory y ≠ pathCombine x.InstallStagingDir f ∧
            pathCombine env.GetBackupDirectory y ≠ pathCombine job.InstallDirectory f) →
      (∀ f ∈ job.NewBuildManifest.GetFileList,
        job.PreviousMoveMarker ≠ pathCombine x.InstallStagingDir f ∧
          job.PreviousMoveMarker ≠ pathCombine job.InstallDirectory f) →
      (RunBackupAndMove env job x).1 = true →
      ∀ f ∈ job.NewBuildManifest.GetFileList,
        (x.disk (pathCombine x.InstallStagingDir f)).isSome = true → f ∉ x.FilesInstalled →
        (RunBackupAndMove env job x).2.disk (pathCombine job.InstallDirectory f) =
          x.disk (pathCombine x.InstallStagingDir f)) ∧
    (∀ x : World, job.FilesToRemove env = [] →
      (∀ f ∈ job.NewBuildManifest.GetFileList,
        x.disk (pathCombine x.InstallStagingDir f) = none) →
      (RunBackupAndMove env job x).2.disk = x.disk ∧
        (RunBackupAndMove env job x).2.FilesInstalled = x.FilesInstalled ∧
        (RunBackupAndMove env job x).2.trace.filter Event.isFileChange =
          x.trace.filter Event.isFileChange) := by
  refine ⟨?_, Run_phaseMarks env job w, ?_, fun x h => RunBackupAndMove_deletes env job x h, ?_,
    fun x hr hs => RunBackupAndMove_idle env job x hr hs⟩
  · rw [Run.eq_finish, Run.finish_Attempts]
    exact Run.loop_forall env job _ _ (Run.attempt_marker env job _) 5 _ (by simp)
  · intro pre k s rec h hm
    refine ⟨?_, ?_⟩
    · rw [Run.attempt_handOvers, RunInstallation_handOver_of_marker env job _ _ hm]
    · have hrec : rec.bMarkerAtStart = true := by
        have h' : s.Attempts ++ [rec] = s.Attempts ++ [_] := h.symm.trans rfl
        have hr := List.append_cancel_left h'
        simp only [List.cons.injEq, and_true] at hr
        subst hr
        exact hm
      obtain ⟨hi, _, _⟩ := Run.attempt_marker env job pre k s rec h hrec
      rw [Run.attempt_phaseMarks env job pre k s rec h]
      unfold AttemptRecord.phaseMarks
      simp [hrec, hi]
  · intro x h1 h2 h3 ht f hf hs hn
    obtain ⟨hinv, _, hall⟩ := RunBackupAndMove_installs env job x h1 h2 h3
    rcases hinv.installed f (hall ht f hf hs) with h0 | h0
    · exact absurd h0 hn
    · exact h0.2.2

set_option maxRecDepth 100000 in
/-- C20 amended, at concrete inputs: in the update that starts with the marker on disk, a
removable file and a staged `fileA`, the attempt takes the short-circuit, hands no list over and
calls `RunBackupAndMove`, which issues the deletion of the removable file `old` and leaves the
staged content of `fileA` in the install directory; in a first installation with the marker on
disk and nothing staged, `RunBackupAndMove` changes no file, and the only file-changing call of
the whole run is the deletion of the marker at its end. -/
theorem C20_witness :
    (∀ a ∈ (Run removableEnv updateJob (sampleWorld markerDisk)).Attempts,
      a.bMarkerAtStart = true →
      a.bRunInstallation = true ∧ a.bRunBackupAndMove.isSome = true ∧
        (a.bRunVerification.isSome = true ↔ a.bRunBackupAndMove = some true)) ∧
    (Run removableEnv updateJob (sampleWorld markerDisk)).Attempts.map
        (fun a => a.bMarkerAtStart) = [true] ∧
    (Run removableEnv updateJob (sampleWorld markerDisk)).world.trace.filter
        (fun e => e.isPhaseMark || e.isHandOver) =
      [Event.Log "BuildPatchServices: Starting Installation",
        Event.Log "BuildPatchServices: Detected previous staging completed",
        Event.Log "BuildPatchServices: Running backup and stage relocation",
        Event.Log "BuildPatchServices: Verifying install", Event.VerifyAgainstDirectory "I",
        Event.Log "BuildPatchServices: Reset MM"] ∧
    (Run.attempt removableEnv updateJob false 4
        (sampleState (sampleWorld markerDisk))).world.trace.filter Event.isHandOver =
      (sampleState (sampleWorld markerDisk)).world.trace.filter Event.isHandOver ∧
    (∀ f ∈ updateJob.FilesToRemove removableEnv,
      Event.Delete (pathCombine updateJob.InstallDirectory f) ∈
        (RunBackupAndMove removableEnv updateJob (sampleWorld markerDisk)).2.trace) ∧
    updateJob.FilesToRemove removableEnv = ["old"] ∧
    (RunBackupAndMove removableEnv updateJob (sampleWorld markerDisk)).2.disk
        (pathCombine updateJob.InstallDirectory "fileA") =
      (sampleWorld markerDisk).disk
        (pathCombine (sampleWorld markerDisk).InstallStagingDir "fileA") ∧
    ((RunBackupAndMove (sampleEnv []) sampleJob
          (sampleWorld (fun p => if p = "I/$movedMarker" then some ⟨0, 0⟩ else none))).2.disk =
        (sampleWorld (fun p => if p = "I/$movedMarker" then some ⟨0, 0⟩ else none)).disk ∧
      (RunBackupAndMove (sampleEnv []) sampleJob
          (sampleWorld
            (fun p => if p = "I/$movedMarker" then some ⟨0, 0⟩ else none))).2.FilesInstalled =
        (sampleWorld
          (fun p => if p = "I/$movedMarker" then some ⟨0, 0⟩ else none)).FilesInstalled ∧
      (RunBackupAndMove (sampleEnv []) sampleJob
          (sampleWorld
            (fun p => if p = "I/$movedMarker" then some ⟨0, 0⟩ else none))).2.trace.filter
          Event.isFileChange =
        (sampleWorld
          (fun p => if p = "I/$movedMarker" then some ⟨0, 0⟩ else none)).trace.filter
          Event.isFileChange) ∧
    (Run (sampleEnv []) sampleJob
        (sampleWorld
          (fun p => if p = "I/$movedMarker" then some ⟨0, 0⟩ else none))).world.trace.filter
        Event.isFileChange = [Event.Delete "I/$movedMarker"] := by
  obtain ⟨rec, h, _⟩ := Run.attempt_record removableEnv updateJob false 4
    (sampleState (sampleWorld markerDisk))
  exact ⟨(C20_resume_marker_amended removableEnv updateJob (sampleWorld markerDisk)).1,
    by decide, by decide,
    ((C20_resume_marker_amended removableEnv updateJob (sampleWorld markerDisk)).2.2.1
      false 4 (sampleState (sampleWorld markerDisk)) rec h (by decide)).1,
    (C20_resume_marker_amended removableEnv updateJob (sampleWorld markerDisk)).2.2.2.1
      (sampleWorld markerDisk) (by decide),
    by decide,
    (C20_resume_marker_amended removableEnv updateJob (sampleWorld markerDisk)).2.2.2.2.1
      (sampleWorld markerDisk) (by decide) (by decide) (by decide) (by decide) "fileA"
      (by decide) (by decide) (by decide),
    (C20_resume_marker_amended (sampleEnv []) sampleJob
      (sampleWorld (fun p => if p = "I/$movedMarker" then some ⟨0, 0⟩ else none))).2.2.2.2.2
      (sampleWorld (fun p => if p = "I/$movedMarker" then some ⟨0, 0⟩ else none))
      (by decide) (by decide),
    by decide⟩


end BuildPatch
